import Mathlib

/-!
# EVE co-processor driver: register access, command stream, flow control

A shallow embedding of `lib/EVE/EVE_commands.c` (and the DMA glue of
`lib/EVE/EVE_cpp_target.cpp`).  The driver's globals become the fields of `State`; every
bus primitive appends one `BusOp` to the chronological trace `State.bus`.  The chip is a
`Device`: the byte it returns on a receive, as a function of everything that happened on
the bus so far.  Machine integers are naturals, reduced modulo `2^w` where the C type
truncates.
-/

namespace EVE

/-! ## Data model -/

/-- One operation on the serial bus (or a delay, or a change of the power-down line), as
seen by the transport adapter. -/
inductive BusOp where
  | cs_set
  | cs_clear
  | transmit (data : Nat)
  | transmit_32 (data : Nat)
  | receive (data : Nat)
  | delay_ms (ms : Nat)
  | pdn_set
  | pdn_clear
  deriving DecidableEq, Repr

/-- The chip: the byte it puts on the bus as a function of the bus history. -/
abbrev Device := List BusOp → Nat

/-- A `const uint8_t *`: the bytes found at the offsets counted from the pointer. -/
abbrev Ptr := Nat → Nat

/-- Modelled from the spec: the return codes of the absent `EVE_commands.h`, the outcome
taxonomy of section 7.  `E_OK` is `0x00` (file history of `EVE_commands.c`), every other
code is a distinct nonzero value. -/
inductive RetCode where
  | E_OK
  | E_NOT_OK
  | EVE_FAIL_CHIPID_TIMEOUT
  | EVE_FAIL_RESET_TIMEOUT
  | EVE_FAIL_FLASH_STATUS_INIT
  | EVE_FAIL_FLASH_STATUS_DETACHED
  | EVE_FAIL_FLASHFAST_NOT_SUPPORTED
  | EVE_FAIL_FLASHFAST_NO_HEADER_DETECTED
  | EVE_FAIL_FLASHFAST_SECTOR0_FAILED
  | EVE_FAIL_FLASHFAST_BLOB_MISMATCH
  | EVE_FAIL_FLASHFAST_SPEED_TEST
  | EVE_IS_BUSY
  | EVE_FIFO_HALF_EMPTY
  | EVE_FAULT_RECOVERED
  deriving DecidableEq, Repr

/-- Compile-time configuration that lives in headers outside the translated sources:
the `EVE_DMA` switch, the chip generation, the pixel-clock settings and the register
addresses used by flow control. -/
structure Config where
  EVE_DMA : Bool
  EVE_GEN : Nat
  EVE_PCLK_FREQ : Option Nat
  EVE_PCLK : Nat
  REG_CMDB_SPACE : Nat
  REG_CPURESET : Nat
  REG_CMD_READ : Nat
  REG_CMD_WRITE : Nat
  REG_CMD_DL : Nat
  REG_COPRO_PATCH_PTR : Nat
  REG_PCLK : Nat
  REG_PCLK_FREQ : Nat
  deriving DecidableEq, Repr

/-- The driver's mutable globals together with the bus trace. -/
structure State where
  bus : List BusOp
  cmd_burst : Nat
  fault_recovered : RetCode
  EVE_dma_busy : Nat
  EVE_dma_buffer : List Nat
  EVE_dma_buffer_index : Nat
  deriving DecidableEq, Repr

/-- The write marker `MEM_WRITE`. -/
def MEM_WRITE : Nat := 0x80

/-! ## Transport adapter -/

/-- Modelled from the spec: `select()` of the transport adapter (`EVE_cs_set` of the
absent `EVE_target.h`): asserts chip select. -/
def EVE_cs_set (s : State) : State :=
  { s with bus := s.bus ++ [BusOp.cs_set] }

/-- Modelled from the spec: `deselect()` of the transport adapter (`EVE_cs_clear` of the
absent `EVE_target.h`): clears chip select. -/
def EVE_cs_clear (s : State) : State :=
  { s with bus := s.bus ++ [BusOp.cs_clear] }

/-- Modelled from the spec: `send_byte(u8)` of the transport adapter (`spi_transmit` of
the absent `EVE_target.h`); the parameter is a `uint8_t`. -/
def spi_transmit (data : Nat) (s : State) : State :=
  { s with bus := s.bus ++ [BusOp.transmit (data % 256)] }

/-- Modelled from the spec: `send_u32(u32)` of the transport adapter (`spi_transmit_32`
of the absent `EVE_target.h`); the parameter is a `uint32_t`. -/
def spi_transmit_32 (data : Nat) (s : State) : State :=
  { s with bus := s.bus ++ [BusOp.transmit_32 (data % 2 ^ 32)] }

/-- Modelled from the spec: `recv_byte() -> u8` of the transport adapter (`spi_receive`
of the absent `EVE_target.h`): clocks one byte in; the chip answers from the history. -/
def spi_receive (dev : Device) (_data : Nat) (s : State) : Nat × State :=
  (dev s.bus % 256, { s with bus := s.bus ++ [BusOp.receive (dev s.bus % 256)] })

/-- Modelled from the spec: `delay_ms(u32)` of the transport adapter (`DELAY_MS` of the
absent `EVE_target.h`). -/
def DELAY_MS (ms : Nat) (s : State) : State :=
  { s with bus := s.bus ++ [BusOp.delay_ms ms] }

/-- Modelled from the spec: `fetch_constant_byte(ptr) -> u8` of the transport adapter
(`fetch_flash_byte` of the absent `EVE_target.h`), applied to `&p_data[count]`. -/
def fetch_flash_byte (p_data : Ptr) (count : Nat) : Nat :=
  p_data count % 256

/-- Modelled from the spec: burst output (`spi_transmit_burst` of the absent
`EVE_target.h`): the word is appended to the DMA buffer when the build has `EVE_DMA`,
and streamed with `spi_transmit_32` otherwise.  A store at an index outside the buffer
is outside the model (the list is left as it is). -/
def spi_transmit_burst (cfg : Config) (data : Nat) (s : State) : State :=
  if cfg.EVE_DMA then
    { s with
      EVE_dma_buffer := s.EVE_dma_buffer.set s.EVE_dma_buffer_index (data % 2 ^ 32)
      EVE_dma_buffer_index := (s.EVE_dma_buffer_index + 1) % 65536 }
  else
    spi_transmit_32 data s

/-- Modelled from the spec: `spi_transmit_32` taken as a little-endian 4-byte send; the
bytes the host puts on the bus with `spi_transmit` and `spi_transmit_32`, in order. -/
def txBytes : List BusOp → List Nat
  | [] => []
  | BusOp.transmit b :: t => b :: txBytes t
  | BusOp.transmit_32 w :: t =>
      w % 256 :: (w / 256) % 256 :: (w / 65536) % 256 :: (w / 16777216) % 256 :: txBytes t
  | _ :: t => txBytes t

/-! ## Register access layer -/

/-- Register read, 8 bit (`EVE_memRead8`). -/
def EVE_memRead8 (dev : Device) (ft_address : Nat) (s : State) : Nat × State :=
  let s := EVE_cs_set s
  let s := spi_transmit_32
    (((ft_address >>> 16) &&& 0x0000007f) + (ft_address &&& 0x0000ff00)
      + ((ft_address &&& 0x000000ff) <<< 16)) s
  let (data, s) := spi_receive dev 0 s
  let s := EVE_cs_clear s
  (data, s)

/-- Register read, 16 bit (`EVE_memRead16`). -/
def EVE_memRead16 (dev : Device) (ft_address : Nat) (s : State) : Nat × State :=
  let s := EVE_cs_set s
  let s := spi_transmit_32
    (((ft_address >>> 16) &&& 0x0000007f) + (ft_address &&& 0x0000ff00)
      + ((ft_address &&& 0x000000ff) <<< 16)) s
  let (r0, s) := spi_receive dev 0 s
  let data := r0
  let (r1, s) := spi_receive dev 0 s
  let data := ((r1 <<< 8) ||| data) % 65536
  let s := EVE_cs_clear s
  (data, s)

/-- Register read, 32 bit (`EVE_memRead32`). -/
def EVE_memRead32 (dev : Device) (ft_address : Nat) (s : State) : Nat × State :=
  let s := EVE_cs_set s
  let s := spi_transmit_32
    (((ft_address >>> 16) &&& 0x0000007f) + (ft_address &&& 0x0000ff00)
      + ((ft_address &&& 0x000000ff) <<< 16)) s
  let (r0, s) := spi_receive dev 0 s
  let data := r0
  let (r1, s) := spi_receive dev 0 s
  let data := ((r1 <<< 8) ||| data) % 2 ^ 32
  let (r2, s) := spi_receive dev 0 s
  let data := ((r2 <<< 16) ||| data) % 2 ^ 32
  let (r3, s) := spi_receive dev 0 s
  let data := ((r3 <<< 24) ||| data) % 2 ^ 32
  let s := EVE_cs_clear s
  (data, s)

/-- Register write, 8 bit (`EVE_memWrite8`). -/
def EVE_memWrite8 (ft_address ft_data : Nat) (s : State) : State :=
  let s := EVE_cs_set s
  let s := spi_transmit (((ft_address >>> 16) % 256) ||| MEM_WRITE) s
  let s := spi_transmit ((ft_address >>> 8) % 256) s
  let s := spi_transmit ((ft_address &&& 0x000000ff) % 256) s
  let s := spi_transmit ft_data s
  EVE_cs_clear s

/-- Register write, 16 bit (`EVE_memWrite16`). -/
def EVE_memWrite16 (ft_address ft_data : Nat) (s : State) : State :=
  let s := EVE_cs_set s
  let s := spi_transmit (((ft_address >>> 16) % 256) ||| MEM_WRITE) s
  let s := spi_transmit ((ft_address >>> 8) % 256) s
  let s := spi_transmit ((ft_address &&& 0x000000ff) % 256) s
  let s := spi_transmit ((ft_data &&& 0x00ff) % 256) s
  let s := spi_transmit ((ft_data >>> 8) % 256) s
  EVE_cs_clear s

/-- Register write, 32 bit (`EVE_memWrite32`). -/
def EVE_memWrite32 (ft_address ft_data : Nat) (s : State) : State :=
  let s := EVE_cs_set s
  let s := spi_transmit (((ft_address >>> 16) % 256) ||| MEM_WRITE) s
  let s := spi_transmit ((ft_address >>> 8) % 256) s
  let s := spi_transmit ((ft_address &&& 0x000000ff) % 256) s
  let s := spi_transmit_32 ft_data s
  EVE_cs_clear s

/-- Command to the host interface (`EVE_cmdWrite`). -/
def EVE_cmdWrite (command parameter : Nat) (s : State) : State :=
  let s := EVE_cs_set s
  let s := spi_transmit command s
  let s := spi_transmit parameter s
  let s := spi_transmit 0 s
  EVE_cs_clear s

/-! ## Flow control and fault monitor -/

/-- Fault recovery sequence (`CoprocessorFaultRecover`); the `#if` branches are decided
by the configuration. -/
def CoprocessorFaultRecover (cfg : Config) (dev : Device) (s : State) : State :=
  let (copro_patch_pointer, s) :=
    if cfg.EVE_GEN > 2 then EVE_memRead16 dev cfg.REG_COPRO_PATCH_PTR s else (0, s)
  let s := EVE_memWrite8 cfg.REG_CPURESET 1 s
  let s := EVE_memWrite16 cfg.REG_CMD_READ 0 s
  let s := EVE_memWrite16 cfg.REG_CMD_WRITE 0 s
  let s := EVE_memWrite16 cfg.REG_CMD_DL 0 s
  let s :=
    if cfg.EVE_GEN > 2 then
      let s := EVE_memWrite16 cfg.REG_COPRO_PATCH_PTR copro_patch_pointer s
      match (if cfg.EVE_GEN > 3 then cfg.EVE_PCLK_FREQ else none) with
      | some freq =>
          let s := EVE_memWrite16 cfg.REG_PCLK_FREQ freq s
          EVE_memWrite8 cfg.REG_PCLK 1 s
      | none => EVE_memWrite8 cfg.REG_PCLK cfg.EVE_PCLK s
    else s
  let s := EVE_memWrite8 cfg.REG_CPURESET 0 s
  DELAY_MS 10 s

/-- Poll of the co-processor state (`EVE_busy`). -/
def EVE_busy (cfg : Config) (dev : Device) (s : State) : RetCode × State :=
  let ret := RetCode.EVE_IS_BUSY
  if !cfg.EVE_DMA || s.EVE_dma_busy = 0 then
    let (space, s) := EVE_memRead16 dev cfg.REG_CMDB_SPACE s
    if (space &&& 3) ≠ 0 then
      let ret := RetCode.EVE_FAULT_RECOVERED
      let s := { s with fault_recovered := RetCode.EVE_FAULT_RECOVERED }
      let s := CoprocessorFaultRecover cfg dev s
      (ret, s)
    else
      if 0xffc = space then
        (RetCode.E_OK, s)
      else if space > 0x800 then
        (RetCode.EVE_FIFO_HALF_EMPTY, s)
      else
        (RetCode.EVE_IS_BUSY, s)
  else
    (ret, s)

/-- Read and reset of the sticky fault flag (`EVE_get_and_reset_fault_state`); the flag
is true in C when it is not `E_OK` (zero). -/
def EVE_get_and_reset_fault_state (s : State) : RetCode × State :=
  let ret := RetCode.E_OK
  if s.fault_recovered ≠ RetCode.E_OK then
    (RetCode.EVE_FAULT_RECOVERED, { s with fault_recovered := RetCode.E_OK })
  else
    (ret, s)

/-- Wait for the co-processor (`EVE_execute_cmd`): the loop `while (EVE_busy() != E_OK)`;
each unit of fuel pays for one poll, `none` means the fuel ran out before the loop ended. -/
def EVE_execute_cmd (cfg : Config) (dev : Device) : Nat → State → Option State
  | 0, _ => none
  | fuel + 1, s =>
      let (ret, s) := EVE_busy cfg dev s
      if ret ≠ RetCode.E_OK then EVE_execute_cmd cfg dev fuel s else some s

/-! ## Command stream builder and block transfer -/

/-- Opening of a co-processor command (`eve_begin_cmd`). -/
def eve_begin_cmd (command : Nat) (s : State) : State :=
  let s := EVE_cs_set s
  let s := spi_transmit 0xB0 s
  let s := spi_transmit 0x25 s
  let s := spi_transmit 0x78 s
  spi_transmit_32 command s

/-- The loop `for (count = 0; count < len; count++) spi_transmit(fetch_flash_byte(..))`
of `private_block_write`, with `n` bytes still to send from offset `count`. -/
def private_block_write_data (p_data : Ptr) : Nat → Nat → State → State
  | _, 0, s => s
  | count, n + 1, s =>
      private_block_write_data p_data (count + 1) n
        (spi_transmit (fetch_flash_byte p_data count) s)

/-- The loop `while (padding > 0U) { spi_transmit(0U); padding--; }` of
`private_block_write`. -/
def private_block_write_padding : Nat → State → State
  | 0, s => s
  | padding + 1, s => private_block_write_padding padding (spi_transmit 0 s)

/-- Padded block write (`private_block_write`); `len` is a `uint16_t`. -/
def private_block_write (p_data : Ptr) (len : Nat) (s : State) : State :=
  let len := len % 65536
  let padding := (len &&& 3) % 256
  let padding := (4 - padding) % 256
  let padding := padding &&& 3
  let s := private_block_write_data p_data 0 len s
  private_block_write_padding padding s

/-- Chunked transfer into the command FIFO (`block_transfer`).  Each unit of fuel pays
for one iteration of the outer loop and bounds the polls of the wait inside it; `none`
means the fuel ran out. -/
def block_transfer (cfg : Config) (dev : Device) : Nat → Ptr → Nat → State → Option State
  | 0, _, bytes_left, s => if bytes_left > 0 then none else some s
  | fuel + 1, p_data, bytes_left, s =>
      if bytes_left > 0 then
        let block_len := if bytes_left > 3840 then 3840 else bytes_left
        let s := EVE_cs_set s
        let s := spi_transmit 0xB0 s
        let s := spi_transmit 0x25 s
        let s := spi_transmit 0x78 s
        let s := private_block_write p_data (block_len % 65536) s
        let s := EVE_cs_clear s
        let p_data : Ptr := fun i => p_data (block_len + i)
        let bytes_left := bytes_left - block_len
        match EVE_execute_cmd cfg dev (fuel + 1) s with
        | none => none
        | some s => block_transfer cfg dev fuel p_data bytes_left s
      else some s

/-- Display-list or argument-free command (`EVE_cmd_dl`). -/
def EVE_cmd_dl (cfg : Config) (command : Nat) (s : State) : State :=
  if 0 = s.cmd_burst then
    let s := eve_begin_cmd command s
    EVE_cs_clear s
  else
    spi_transmit_burst cfg command s

/-- Burst-only variant (`EVE_cmd_dl_burst`). -/
def EVE_cmd_dl_burst (cfg : Config) (command : Nat) (s : State) : State :=
  spi_transmit_burst cfg command s

/-! ## Block helpers of the register access layer -/

/-- Block write from host flash (`EVE_memWrite_flash_buffer`); `p_data` is `none` for a
null pointer.  Its byte loop is the loop of `private_block_write`. -/
def EVE_memWrite_flash_buffer (ft_address : Nat) (p_data : Option Ptr) (len : Nat)
    (s : State) : State :=
  match p_data with
  | some p_data =>
      let s := EVE_cs_set s
      let s := spi_transmit (((ft_address >>> 16) % 256) ||| MEM_WRITE) s
      let s := spi_transmit ((ft_address >>> 8) % 256) s
      let s := spi_transmit ((ft_address &&& 0x000000ff) % 256) s
      let s := private_block_write_data p_data 0 len s
      EVE_cs_clear s
  | none => s

/-- The loop `for (count = 0; count < len; count++) p_data[count] = spi_receive(0U)` of
`EVE_memRead_sram_buffer`, with `n` bytes still to read into offset `count`. -/
def EVE_memRead_sram_buffer_data (dev : Device) : Nat → Nat → Ptr → State → Ptr × State
  | _, 0, p_data, s => (p_data, s)
  | count, n + 1, p_data, s =>
      let (data, s) := spi_receive dev 0 s
      EVE_memRead_sram_buffer_data dev (count + 1) n (Function.update p_data count data) s

/-- Block read into host SRAM (`EVE_memRead_sram_buffer`); `p_data` is `none` for a null
pointer; the buffer as it is after the call is returned with the state. -/
def EVE_memRead_sram_buffer (dev : Device) (ft_address : Nat) (p_data : Option Ptr)
    (len : Nat) (s : State) : Option Ptr × State :=
  match p_data with
  | some p_data =>
      let s := EVE_cs_set s
      let s := spi_transmit_32
        (((ft_address >>> 16) &&& 0x0000007f) + (ft_address &&& 0x0000ff00)
          + ((ft_address &&& 0x000000ff) <<< 16)) s
      let (p_data, s) := EVE_memRead_sram_buffer_data dev 0 len p_data s
      let s := EVE_cs_clear s
      (some p_data, s)
  | none => (none, s)

/-- The fields of the transfer descriptor `spi_transaction_t` that the driver fills. -/
structure spi_transaction_t where
  tx_buffer : Option Ptr
  length : Nat
  addr : Nat
  flags : Nat

/-- Flag constants of the SPI master driver, which is outside the translated sources. -/
structure SpiFlags where
  SPI_TRANS_MODE_QIO : Nat
  SPI_TRANS_MODE_DIOQIO_ADDR : Nat
  deriving DecidableEq, Repr

/-- A call into the SPI master driver's transaction queue: `spi_device_get_trans_result`
(wait for the oldest submission to complete) or `spi_device_queue_trans` (submit the
descriptor in a slot). -/
inductive QueueOp where
  | get_trans_result
  | queue_trans (slot : Nat) (trans : spi_transaction_t)

/-- The function-static storage of `EVE_memWrite_sram_buffer` (the four descriptors,
`index`, `queued`) together with the driver calls made so far, in order. -/
structure SramQueue where
  EVE_spi_transaction : List spi_transaction_t
  index : Nat
  queued : Nat
  calls : List QueueOp

/-- Queued block write from host SRAM (`EVE_memWrite_sram_buffer`); `p_data` is `none`
for a null pointer. -/
def EVE_memWrite_sram_buffer (fl : SpiFlags) (ft_address : Nat) (p_data : Option Ptr)
    (len : Nat) (q : SramQueue) : SramQueue :=
  match p_data with
  | some p =>
      if len > 0 then
        let q :=
          if q.queued = 4 then
            { q with calls := q.calls ++ [QueueOp.get_trans_result], queued := q.queued - 1 }
          else q
        let trans : spi_transaction_t :=
          { tx_buffer := some p
            length := (len * 8) % 2 ^ 32
            addr := ft_address ||| (MEM_WRITE <<< 16)
            flags := fl.SPI_TRANS_MODE_QIO ||| fl.SPI_TRANS_MODE_DIOQIO_ADDR }
        let q := { q with EVE_spi_transaction := q.EVE_spi_transaction.set q.index trans }
        let q := { q with calls := q.calls ++ [QueueOp.queue_trans q.index trans] }
        let q := { q with index := (q.index + 1) &&& 3 }
        { q with queued := q.queued + 1 }
      else q
  | none => q

/-! ## Strings in the command stream -/

/-- The loop `while ((textindex < 249U) && (p_bytes[textindex] != 0U))` of
`private_string_write`; the result carries `textindex` as it is when the loop is left.
Each iteration advances `textindex`, so the `n = 249` iterations the caller pays for
reach the bound. -/
def private_string_write_text (p_bytes : Ptr) : Nat → Nat → State → Nat × State
  | textindex, 0, s => (textindex, s)
  | textindex, n + 1, s =>
      if textindex < 249 ∧ p_bytes textindex % 256 ≠ 0 then
        private_string_write_text p_bytes ((textindex + 1) % 256) n
          (spi_transmit (p_bytes textindex % 256) s)
      else (textindex, s)

/-- The loop `for(uint8_t textindex = 0U; textindex < 249U;)` of `private_string_write`
in burst mode: up to four bytes are read and packed per iteration into `calc` (here
`calc_`), a zero byte sends the word packed so far and leaves the loop.  Each iteration
advances `textindex`, so the `n = 249` iterations the caller pays for reach the bound. -/
def private_string_write_burst (cfg : Config) (p_bytes : Ptr) : Nat → Nat → State → State
  | _, 0, s => s
  | textindex, n + 1, s =>
      if textindex < 249 then
        let calc_ := 0
        let data := p_bytes textindex % 256
        let textindex := (textindex + 1) % 256
        if 0 = data then spi_transmit_burst cfg calc_ s
        else
          let calc_ := (calc_ + data) % 2 ^ 32
          let data := p_bytes textindex % 256
          let textindex := (textindex + 1) % 256
          if 0 = data then spi_transmit_burst cfg calc_ s
          else
            let calc_ := (calc_ + (data <<< 8)) % 2 ^ 32
            let data := p_bytes textindex % 256
            let textindex := (textindex + 1) % 256
            if 0 = data then spi_transmit_burst cfg calc_ s
            else
              let calc_ := (calc_ + (data <<< 16)) % 2 ^ 32
              let data := p_bytes textindex % 256
              let textindex := (textindex + 1) % 256
              if 0 = data then spi_transmit_burst cfg calc_ s
              else
                let calc_ := (calc_ + (data <<< 24)) % 2 ^ 32
                let s := spi_transmit_burst cfg calc_ s
                private_string_write_burst cfg p_bytes textindex n s
      else s

/-- String argument of a command (`private_string_write`); the padding loop of the
immediate branch is the loop of `private_block_write`. -/
def private_string_write (cfg : Config) (p_text : Ptr) (s : State) : State :=
  let p_bytes := p_text
  if 0 = s.cmd_burst then
    let (textindex, s) := private_string_write_text p_bytes 0 249 s
    let padding := (textindex &&& 3) % 256
    let padding := (4 - padding) % 256
    private_block_write_padding padding s
  else
    private_string_write_burst cfg p_bytes 0 249 s

/-! ## Patching and initialisation -/

/-- Compile-time constants and switches of the headers `EVE.h` and `EVE_config.h`, which
are outside the translated sources, as far as patching and initialisation use them: the
`#if defined` switches (optional values are `none` when the macro is not defined), the
host commands, the co-processor commands, the flash status codes, the memory map and the
display parameters. -/
structure InitConfig where
  EVE_GD3X : Bool
  EVE_HAS_CRYSTAL : Bool
  EVE_HAS_GT911 : Bool
  EVE_ADAM101 : Bool
  EVE_SET_REG_PCLK_2X : Bool
  EVE_BACKLIGHT_PWM : Option Nat
  EVE_TOUCH_RZTHRESH : Option Nat
  EVE_ROTATE : Option Nat
  EVE_HPOL : Nat
  EVE_VPOL : Nat
  EVE_RST_PULSE : Nat
  EVE_CLKEXT : Nat
  EVE_CLKINT : Nat
  EVE_CLKSEL : Nat
  EVE_ACTIVE : Nat
  CMD_FLASHATTACH : Nat
  CMD_FLASHFAST : Nat
  EVE_FLASH_STATUS_INIT : Nat
  EVE_FLASH_STATUS_DETACHED : Nat
  EVE_FLASH_STATUS_BASIC : Nat
  EVE_FLASH_STATUS_FULL : Nat
  EVE_RAM_CMD : Nat
  EVE_RAM_DL : Nat
  REG_ID : Nat
  REG_FLASH_STATUS : Nat
  REG_FREQUENCY : Nat
  REG_TOUCH_CONFIG : Nat
  REG_TOUCH_OVERSAMPLE : Nat
  REG_GPIOX_DIR : Nat
  REG_GPIOX : Nat
  REG_GPIO : Nat
  REG_PWM_DUTY : Nat
  REG_HSIZE : Nat
  REG_HCYCLE : Nat
  REG_HOFFSET : Nat
  REG_HSYNC0 : Nat
  REG_HSYNC1 : Nat
  REG_VSIZE : Nat
  REG_VCYCLE : Nat
  REG_VOFFSET : Nat
  REG_VSYNC0 : Nat
  REG_VSYNC1 : Nat
  REG_SWIZZLE : Nat
  REG_PCLK_POL : Nat
  REG_CSPREAD : Nat
  REG_TOUCH_MODE : Nat
  REG_TOUCH_RZTHRESH : Nat
  REG_ROTATE : Nat
  REG_VOL_PB : Nat
  REG_VOL_SOUND : Nat
  REG_SOUND : Nat
  REG_DLSWAP : Nat
  REG_OUTBITS : Nat
  REG_PCLK_2X : Nat
  EVE_HSIZE : Nat
  EVE_HCYCLE : Nat
  EVE_HOFFSET : Nat
  EVE_HSYNC0 : Nat
  EVE_HSYNC1 : Nat
  EVE_VSIZE : Nat
  EVE_VCYCLE : Nat
  EVE_VOFFSET : Nat
  EVE_VSYNC0 : Nat
  EVE_VSYNC1 : Nat
  EVE_SWIZZLE : Nat
  EVE_PCLKPOL : Nat
  EVE_CSPREAD : Nat
  EVE_TMODE_CONTINUOUS : Nat
  EVE_MUTE : Nat
  DL_CLEAR_COLOR_RGB : Nat
  DL_CLEAR : Nat
  CLR_COL : Nat
  CLR_STN : Nat
  CLR_TAG : Nat
  DL_DISPLAY : Nat
  EVE_DLSWAP_FRAME : Nat

/-- Modelled from the spec: the `PowerDown` state of the initialisation sequence
(`EVE_pdn_set` of the absent `EVE_target.h`): drives the power-down line active. -/
def EVE_pdn_set (s : State) : State :=
  { s with bus := s.bus ++ [BusOp.pdn_set] }

/-- Modelled from the spec: the `PowerUp` state of the initialisation sequence
(`EVE_pdn_clear` of the absent `EVE_target.h`): releases the power-down line. -/
def EVE_pdn_clear (s : State) : State :=
  { s with bus := s.bus ++ [BusOp.pdn_clear] }

/-- Flash speed-up command with its result (`EVE_cmd_flashfast`); `none` when the wait
inside it ran out of fuel.  `cmdoffset` is a `uint16_t`. -/
def EVE_cmd_flashfast (cfg : Config) (ic : InitConfig) (dev : Device) (fuel : Nat)
    (s : State) : Option (Nat × State) :=
  let s := eve_begin_cmd ic.CMD_FLASHFAST s
  let s := spi_transmit_32 0 s
  let s := EVE_cs_clear s
  match EVE_execute_cmd cfg dev fuel s with
  | none => none
  | some s =>
      let (cmdoffset, s) := EVE_memRead16 dev cfg.REG_CMD_WRITE s
      let cmdoffset := (cmdoffset + 65536 - 4) % 65536
      let cmdoffset := cmdoffset &&& 0x0fff
      some (EVE_memRead32 dev ((ic.EVE_RAM_CMD + cmdoffset) % 2 ^ 32) s)

/-- The loop `while (EVE_FLASH_STATUS_INIT == status)` of `EVE_init_flash`, entered with
the current `timeout`, `status` and `ret_val`; returns `status` and `ret_val` as they are
when the loop is left.  `timeout` stays below 102, so the `uint8_t` never wraps. -/
def EVE_init_flash_wait (ic : InitConfig) (dev : Device) (timeout status : Nat)
    (ret_val : RetCode) (s : State) : Nat × RetCode × State :=
  if ic.EVE_FLASH_STATUS_INIT = status then
    let r := EVE_memRead8 dev ic.REG_FLASH_STATUS s
    let status := r.1
    let s := DELAY_MS 1 r.2
    let timeout := timeout + 1
    if timeout > 100 then
      (status, RetCode.EVE_FAIL_FLASH_STATUS_INIT, s)
    else
      EVE_init_flash_wait ic dev timeout status ret_val s
  else (status, ret_val, s)
termination_by 101 - timeout
decreasing_by omega

/-- Flash bring-up (`EVE_init_flash`, compiled for generations above 2); `none` when a
wait inside it ran out of fuel.  The `switch` on the result of the speed-up command is a
chain of comparisons. -/
def EVE_init_flash (cfg : Config) (ic : InitConfig) (dev : Device) (fuel : Nat)
    (s : State) : Option (RetCode × State) :=
  let timeout := 0
  let ret_val := RetCode.E_NOT_OK
  let (status, s) := EVE_memRead8 dev ic.REG_FLASH_STATUS s
  let (status, ret_val, s) := EVE_init_flash_wait ic dev timeout status ret_val s
  let detached : Option (Nat × RetCode × State) :=
    if ic.EVE_FLASH_STATUS_DETACHED = status then
      let s := EVE_cmd_dl cfg ic.CMD_FLASHATTACH s
      match EVE_execute_cmd cfg dev fuel s with
      | none => none
      | some s =>
          let (status, s) := EVE_memRead8 dev ic.REG_FLASH_STATUS s
          if status ≠ 2 then some (status, RetCode.EVE_FAIL_FLASH_STATUS_DETACHED, s)
          else some (status, ret_val, s)
    else some (status, ret_val, s)
  match detached with
  | none => none
  | some (status, ret_val, s) =>
      let basic : Option (RetCode × State) :=
        if ic.EVE_FLASH_STATUS_BASIC = status then
          match EVE_cmd_flashfast cfg ic dev fuel s with
          | none => none
          | some (result, s) =>
              if result = 0x0000 then some (RetCode.E_OK, s)
              else if result = 0xE001 then some (RetCode.EVE_FAIL_FLASHFAST_NOT_SUPPORTED, s)
              else if result = 0xE002 then
                some (RetCode.EVE_FAIL_FLASHFAST_NO_HEADER_DETECTED, s)
              else if result = 0xE003 then some (RetCode.EVE_FAIL_FLASHFAST_SECTOR0_FAILED, s)
              else if result = 0xE004 then some (RetCode.EVE_FAIL_FLASHFAST_BLOB_MISMATCH, s)
              else if result = 0xE005 then some (RetCode.EVE_FAIL_FLASHFAST_SPEED_TEST, s)
              else some (RetCode.E_NOT_OK, s)
        else some (ret_val, s)
      match basic with
      | none => none
      | some (ret_val, s) =>
          if ic.EVE_FLASH_STATUS_FULL = status then some (RetCode.E_OK, s)
          else some (ret_val, s)

/-- The binary blob `eve_gt911_data[1184]` of `use_gt911` (touch-engine patch for
generations up to 2). -/
def eve_gt911_data : List Nat := [
  26, 255, 255, 255, 32, 32, 48, 0, 4, 0, 0, 0, 2, 0, 0, 0,
  34, 255, 255, 255, 0, 176, 48, 0, 120, 218, 237, 84, 221, 111, 84, 69,
  20, 63, 51, 179, 93, 160, 148, 101, 111, 76, 5, 44, 141, 123, 111, 161,
  11, 219, 154, 16, 9, 16, 17, 229, 156, 75, 26, 11, 13, 21, 227, 3,
  16, 252, 184, 179, 45, 219, 143, 45, 41, 125, 144, 72, 67, 100, 150, 71,
  189, 113, 18, 36, 17, 165, 100, 165, 198, 16, 32, 17, 149, 196, 240, 128,
  161, 16, 164, 38, 54, 240, 0, 209, 72, 130, 15, 38, 125, 48, 66, 82,
  30, 76, 19, 31, 172, 103, 46, 139, 24, 255, 4, 227, 157, 204, 156, 51,
  115, 102, 206, 231, 239, 220, 5, 170, 94, 129, 137, 75, 194, 216, 98, 94,
  103, 117, 115, 121, 76, 131, 177, 125, 89, 125, 82, 123, 60, 243, 58, 142,
  242, 204, 185, 243, 188, 118, 156, 227, 155, 203, 238, 238, 195, 251, 205, 229,
  71, 92, 28, 169, 190, 184, 84, 143, 113, 137, 53, 244, 103, 181, 237, 87,
  253, 113, 137, 233, 48, 12, 198, 165, 181, 104, 139, 25, 84, 253, 155, 114,
  74, 191, 0, 54, 138, 163, 12, 62, 131, 207, 129, 23, 217, 34, 91, 31,
  128, 65, 246, 163, 175, 213, 8, 147, 213, 107, 35, 203, 94, 108, 3, 111,
  40, 171, 83, 24, 15, 165, 177, 222, 116, 97, 23, 188, 140, 206, 150, 42,
  102, 181, 87, 78, 86, 182, 170, 134, 215, 241, 121, 26, 243, 252, 2, 76,
  115, 217, 139, 222, 206, 173, 136, 132, 81, 61, 35, 185, 39, 113, 23, 46,
  199, 76, 178, 54, 151, 183, 224, 0, 40, 189, 28, 149, 182, 58, 131, 79,
  152, 30, 76, 34, 98, 234, 162, 216, 133, 141, 102, 39, 170, 40, 192, 101,
  53, 201, 146, 191, 37, 77, 44, 177, 209, 74, 211, 5, 206, 187, 5, 6,
  216, 47, 53, 96, 123, 22, 50, 103, 251, 192, 84, 17, 74, 227, 185, 56,
  106, 51, 91, 161, 96, 182, 163, 48, 171, 141, 139, 65, 152, 66, 66, 11,
  102, 43, 158, 75, 36, 80, 147, 184, 147, 139, 112, 17, 235, 216, 103, 111,
  239, 245, 92, 10, 175, 194, 40, 44, 58, 125, 5, 59, 112, 50, 103, 245,
  4, 78, 192, 5, 156, 194, 51, 60, 191, 134, 75, 110, 173, 237, 46, 192,
  121, 156, 192, 115, 184, 218, 120, 67, 63, 115, 46, 11, 102, 10, 97, 232,
  50, 235, 114, 182, 148, 118, 178, 41, 188, 12, 135, 77, 202, 124, 12, 96,
  238, 35, 161, 234, 189, 129, 23, 249, 212, 139, 230, 25, 53, 48, 205, 52,
  93, 163, 117, 53, 154, 170, 81, 85, 163, 178, 70, 69, 66, 167, 241, 14,
  46, 241, 1, 226, 136, 152, 179, 197, 59, 184, 148, 254, 49, 132, 48, 15,
  176, 137, 192, 76, 131, 196, 105, 104, 162, 86, 81, 160, 165, 255, 26, 173,
  162, 137, 86, 145, 210, 183, 192, 55, 175, 194, 211, 60, 91, 120, 230, 184,
  174, 27, 41, 131, 155, 40, 224, 29, 87, 179, 232, 16, 55, 55, 7, 165,
  147, 81, 23, 165, 49, 101, 54, 224, 75, 180, 81, 108, 18, 29, 226, 69,
  225, 110, 175, 224, 42, 212, 25, 47, 130, 193, 110, 234, 192, 215, 252, 56,
  74, 162, 24, 46, 251, 174, 54, 106, 68, 245, 14, 9, 155, 160, 22, 120,
  207, 104, 240, 29, 90, 178, 140, 28, 24, 220, 47, 166, 112, 61, 251, 208,
  192, 111, 56, 239, 238, 93, 255, 251, 62, 99, 32, 193, 75, 61, 190, 235,
  123, 229, 110, 218, 194, 85, 79, 225, 59, 98, 20, 238, 227, 235, 220, 11,
  221, 149, 25, 180, 116, 194, 159, 111, 96, 192, 24, 213, 59, 139, 179, 156,
  215, 69, 230, 19, 24, 35, 135, 117, 206, 171, 206, 162, 67, 129, 234, 61,
  235, 11, 104, 103, 84, 64, 223, 167, 254, 40, 163, 101, 92, 84, 43, 150,
  46, 249, 219, 205, 7, 116, 11, 91, 104, 61, 57, 75, 223, 8, 48, 25,
  28, 119, 252, 222, 113, 49, 86, 249, 74, 180, 211, 156, 181, 61, 215, 168,
  157, 7, 251, 199, 150, 242, 250, 91, 58, 132, 94, 121, 7, 53, 151, 139,
  98, 6, 165, 153, 69, 214, 32, 110, 211, 100, 101, 31, 89, 45, 81, 98,
  23, 205, 205, 197, 209, 109, 186, 198, 35, 141, 191, 249, 25, 60, 132, 223,
  153, 251, 98, 20, 239, 146, 139, 20, 217, 250, 41, 250, 137, 58, 177, 90,
  57, 79, 51, 108, 233, 20, 253, 194, 187, 49, 222, 205, 114, 141, 96, 48,
  175, 219, 107, 54, 111, 138, 22, 154, 103, 108, 79, 58, 252, 179, 178, 79,
  164, 195, 2, 153, 36, 39, 170, 199, 201, 167, 197, 85, 106, 8, 59, 177,
  81, 46, 56, 2, 230, 75, 114, 17, 55, 112, 188, 65, 208, 137, 77, 114,
  10, 115, 55, 58, 208, 197, 173, 122, 87, 6, 140, 110, 42, 208, 124, 163,
  70, 108, 241, 104, 18, 245, 98, 214, 187, 134, 53, 42, 221, 22, 182, 133,
  211, 116, 148, 177, 194, 209, 192, 85, 90, 199, 58, 55, 203, 2, 229, 19,
  137, 187, 161, 228, 154, 112, 203, 145, 125, 244, 188, 220, 118, 228, 41, 201,
  181, 41, 195, 144, 215, 183, 51, 80, 250, 21, 217, 16, 217, 200, 235, 109,
  227, 188, 122, 218, 142, 60, 170, 224, 112, 240, 184, 130, 229, 224, 113, 5,
  223, 148, 163, 80, 165, 183, 130, 187, 132, 116, 64, 238, 161, 85, 220, 115,
  139, 205, 98, 227, 244, 29, 102, 125, 7, 37, 243, 123, 223, 11, 26, 92,
  63, 243, 116, 61, 191, 138, 123, 244, 160, 84, 186, 74, 31, 5, 174, 247,
  119, 135, 199, 248, 253, 135, 242, 97, 102, 145, 190, 144, 14, 85, 238, 221,
  231, 193, 158, 48, 205, 25, 120, 248, 15, 220, 29, 158, 9, 70, 185, 30,
  103, 229, 33, 254, 23, 237, 160, 172, 62, 193, 90, 222, 224, 232, 14, 200,
  56, 90, 104, 142, 227, 120, 110, 6, 21, 211, 203, 65, 150, 99, 151, 220,
  247, 87, 164, 50, 159, 49, 239, 234, 58, 142, 0, 109, 108, 123, 18, 79,
  227, 36, 100, 248, 222, 205, 96, 127, 120, 26, 171, 228, 69, 63, 36, 17,
  252, 200, 17, 116, 242, 187, 227, 88, 143, 247, 2, 75, 191, 6, 130, 59,
  188, 11, 55, 240, 31, 243, 122, 152, 226, 183, 207, 154, 73, 188, 39, 219,
  43, 105, 222, 87, 41, 143, 141, 140, 175, 73, 112, 184, 252, 61, 184, 16,
  90, 250, 35, 168, 82, 119, 176, 57, 116, 94, 200, 150, 22, 190, 179, 44,
  104, 12, 235, 84, 149, 102, 252, 89, 154, 193, 99, 228, 106, 242, 125, 248,
  64, 194, 255, 223, 127, 242, 83, 11, 255, 2, 70, 214, 226, 128, 0, 0]

/-- The array `eve_gt911_data` as the pointer handed to `private_block_write`: the byte
at each offset (0 past the end of the array). -/
def eve_gt911_data_ptr : Ptr := fun i => eve_gt911_data.getD i 0

/-- Touch controller set-up (`use_gt911`, compiled when `EVE_HAS_GT911` is defined);
`none` when the wait inside it ran out of fuel. -/
def use_gt911 (cfg : Config) (ic : InitConfig) (dev : Device) (fuel : Nat) (s : State) :
    Option State :=
  if cfg.EVE_GEN > 2 then
    some (EVE_memWrite16 ic.REG_TOUCH_CONFIG 0x05d0 s)
  else
    let s := EVE_cs_set s
    let s := spi_transmit 0xB0 s
    let s := spi_transmit 0x25 s
    let s := spi_transmit 0x78 s
    let s := private_block_write eve_gt911_data_ptr 1184 s
    let s := EVE_cs_clear s
    match EVE_execute_cmd cfg dev fuel s with
    | none => none
    | some s =>
        let s := EVE_memWrite8 ic.REG_TOUCH_OVERSAMPLE 0x0f s
        let s := EVE_memWrite16 ic.REG_TOUCH_CONFIG 0x05D0 s
        let s := EVE_memWrite16 ic.REG_GPIOX_DIR 0x8008 s
        let s := DELAY_MS 1 s
        let s := EVE_memWrite8 cfg.REG_CPURESET 0 s
        let s := DELAY_MS 110 s
        some (EVE_memWrite16 ic.REG_GPIOX_DIR 0x8000 s)

/-- The loop `for ( ; ; )` of `wait_chipid`, entered with the current `timeout` and
`ret`.  `timeout` stays below 402, so the `uint16_t` never wraps. -/
def wait_chipid_loop (ic : InitConfig) (dev : Device) (timeout : Nat) (ret : RetCode)
    (s : State) : RetCode × State :=
  let s := DELAY_MS 1 s
  let r := EVE_memRead8 dev ic.REG_ID s
  let chipid := r.1
  let s := r.2
  if 0x7c = chipid then
    (RetCode.E_OK, s)
  else
    let timeout := timeout + 1
    if timeout > 400 then (ret, s)
    else wait_chipid_loop ic dev timeout ret s
termination_by 401 - timeout
decreasing_by omega

/-- Wait for the chip id (`wait_chipid`). -/
def wait_chipid (ic : InitConfig) (dev : Device) (s : State) : RetCode × State :=
  let ret := RetCode.EVE_FAIL_CHIPID_TIMEOUT
  let timeout := 0
  wait_chipid_loop ic dev timeout ret s

/-- The loop `for ( ; ; )` of `wait_reset`, entered with the current `timeout` and `ret`.
`timeout` stays below 52, so the `uint16_t` never wraps. -/
def wait_reset_loop (cfg : Config) (dev : Device) (timeout : Nat) (ret : RetCode)
    (s : State) : RetCode × State :=
  let s := DELAY_MS 1 s
  let r := EVE_memRead8 dev cfg.REG_CPURESET s
  let reset := r.1 &&& 7
  let s := r.2
  if 0 = reset then
    (RetCode.E_OK, s)
  else
    let timeout := timeout + 1
    if timeout > 50 then (ret, s)
    else wait_reset_loop cfg dev timeout ret s
termination_by 51 - timeout
decreasing_by omega

/-- Wait for the end of the reset (`wait_reset`). -/
def wait_reset (cfg : Config) (dev : Device) (s : State) : RetCode × State :=
  let ret := RetCode.EVE_FAIL_RESET_TIMEOUT
  let timeout := 0
  wait_reset_loop cfg dev timeout ret s

/-- The macro `EVE_POL_GPIO_MASK`. -/
def EVE_POL_GPIO_MASK (ic : InitConfig) : Nat :=
  if ic.EVE_HPOL ≠ 0 ∧ ic.EVE_VPOL ≠ 0 then 0x0C
  else if ic.EVE_HPOL ≠ 0 then 0x04
  else if ic.EVE_VPOL ≠ 0 then 0x08
  else 0x00

/-- Display parameters (`EVE_write_display_parameters`). -/
def EVE_write_display_parameters (ic : InitConfig) (dev : Device) (s : State) : State :=
  let s := EVE_memWrite16 ic.REG_HSIZE ic.EVE_HSIZE s
  let s := EVE_memWrite16 ic.REG_HCYCLE ic.EVE_HCYCLE s
  let s := EVE_memWrite16 ic.REG_HOFFSET ic.EVE_HOFFSET s
  let s := EVE_memWrite16 ic.REG_HSYNC0 ic.EVE_HSYNC0 s
  let s := EVE_memWrite16 ic.REG_HSYNC1 ic.EVE_HSYNC1 s
  let s := EVE_memWrite16 ic.REG_VSIZE ic.EVE_VSIZE s
  let s := EVE_memWrite16 ic.REG_VCYCLE ic.EVE_VCYCLE s
  let s := EVE_memWrite16 ic.REG_VOFFSET ic.EVE_VOFFSET s
  let s := EVE_memWrite16 ic.REG_VSYNC0 ic.EVE_VSYNC0 s
  let s := EVE_memWrite16 ic.REG_VSYNC1 ic.EVE_VSYNC1 s
  let s := EVE_memWrite8 ic.REG_SWIZZLE ic.EVE_SWIZZLE s
  let s := EVE_memWrite8 ic.REG_PCLK_POL ic.EVE_PCLKPOL s
  let s := EVE_memWrite8 ic.REG_CSPREAD ic.EVE_CSPREAD s
  let r := EVE_memRead16 dev ic.REG_GPIOX_DIR s
  let s := EVE_memWrite16 ic.REG_GPIOX_DIR (r.1 ||| EVE_POL_GPIO_MASK ic) r.2
  let r := EVE_memRead16 dev ic.REG_GPIOX s
  let s := EVE_memWrite16 ic.REG_GPIOX (r.1 ||| EVE_POL_GPIO_MASK ic) r.2
  let s := EVE_memWrite8 ic.REG_TOUCH_MODE ic.EVE_TMODE_CONTINUOUS s
  let s :=
    match ic.EVE_TOUCH_RZTHRESH with
    | some thresh => EVE_memWrite16 ic.REG_TOUCH_RZTHRESH thresh s
    | none => EVE_memWrite16 ic.REG_TOUCH_RZTHRESH 1200 s
  match ic.EVE_ROTATE with
  | some rotate => EVE_memWrite8 ic.REG_ROTATE (rotate &&& 7) s
  | none => s

/-- Pixel clock (`enable_pixel_clock`). -/
def enable_pixel_clock (cfg : Config) (ic : InitConfig) (s : State) : State :=
  let s := EVE_memWrite8 ic.REG_GPIO (0x80 ||| 0x10) s
  match (if cfg.EVE_GEN > 3 then cfg.EVE_PCLK_FREQ else none) with
  | some freq =>
      let s := EVE_memWrite16 cfg.REG_PCLK_FREQ freq s
      let s := if ic.EVE_SET_REG_PCLK_2X then EVE_memWrite8 ic.REG_PCLK_2X 1 s else s
      EVE_memWrite8 cfg.REG_PCLK 1 s
  | none => EVE_memWrite8 cfg.REG_PCLK cfg.EVE_PCLK s

/-- DMA preparation (`EVE_init_dma` of `EVE_cpp_target.cpp`): an empty function. -/
def EVE_init_dma (s : State) : State := s

/-- The block of `EVE_init` that runs once both waits have succeeded, from the frequency
notification to `EVE_init_dma`; `none` when a wait inside it ran out of fuel. -/
def EVE_init_setup (cfg : Config) (ic : InitConfig) (dev : Device) (fuel : Nat)
    (s : State) : Option State :=
  let s := if cfg.EVE_GEN > 2 then EVE_memWrite32 ic.REG_FREQUENCY 72000000 s else s
  match (if ic.EVE_HAS_GT911 then use_gt911 cfg ic dev fuel s else some s) with
  | none => none
  | some s =>
      let s := if ic.EVE_ADAM101 then EVE_memWrite8 ic.REG_PWM_DUTY 0x80 s
        else EVE_memWrite8 ic.REG_PWM_DUTY 0 s
      let s := EVE_write_display_parameters ic dev s
      let s := EVE_memWrite8 ic.REG_VOL_PB 0 s
      let s := EVE_memWrite8 ic.REG_VOL_SOUND 0 s
      let s := EVE_memWrite16 ic.REG_SOUND ic.EVE_MUTE s
      let s := EVE_memWrite32 ic.EVE_RAM_DL ic.DL_CLEAR_COLOR_RGB s
      let s := EVE_memWrite32 (ic.EVE_RAM_DL + 4)
        (ic.DL_CLEAR ||| ic.CLR_COL ||| ic.CLR_STN ||| ic.CLR_TAG) s
      let s := EVE_memWrite32 (ic.EVE_RAM_DL + 8) ic.DL_DISPLAY s
      let s := EVE_memWrite32 ic.REG_DLSWAP ic.EVE_DLSWAP_FRAME s
      let s := if ic.EVE_GD3X then EVE_memWrite16 ic.REG_OUTBITS 0x01B6 s else s
      let s := enable_pixel_clock cfg ic s
      let s :=
        match ic.EVE_BACKLIGHT_PWM with
        | some pwm => EVE_memWrite8 ic.REG_PWM_DUTY pwm s
        | none =>
            if ic.EVE_ADAM101 then EVE_memWrite8 ic.REG_PWM_DUTY 0x60 s
            else EVE_memWrite8 ic.REG_PWM_DUTY 0x20 s
      let s := DELAY_MS 1 s
      match EVE_execute_cmd cfg dev fuel s with
      | none => none
      | some s => some (if cfg.EVE_DMA then EVE_init_dma s else s)

/-- Chip initialisation (`EVE_init`); `none` when a wait inside it ran out of fuel. -/
def EVE_init (cfg : Config) (ic : InitConfig) (dev : Device) (fuel : Nat) (s : State) :
    Option (RetCode × State) :=
  let s := EVE_pdn_set s
  let s := DELAY_MS 6 s
  let s := EVE_pdn_clear s
  let s := DELAY_MS 21 s
  let s := if ic.EVE_GD3X then EVE_cmdWrite ic.EVE_RST_PULSE 0 s else s
  let s := if ic.EVE_HAS_CRYSTAL then EVE_cmdWrite ic.EVE_CLKEXT 0 s
    else EVE_cmdWrite ic.EVE_CLKINT 0 s
  let s := if cfg.EVE_GEN > 2 then EVE_cmdWrite ic.EVE_CLKSEL 0x46 s else s
  let s := EVE_cmdWrite ic.EVE_ACTIVE 0 s
  let s := DELAY_MS 40 s
  let r := wait_chipid ic dev s
  let ret := r.1
  let s := r.2
  if RetCode.E_OK = ret then
    let r := wait_reset cfg dev s
    let ret := r.1
    let s := r.2
    if RetCode.E_OK = ret then
      match EVE_init_setup cfg ic dev fuel s with
      | none => none
      | some s => some (ret, s)
    else some (ret, s)
  else some (ret, s)

/-! ## Readback of command results -/

/-- Compile-time constants of the absent `EVE.h` used by the readback commands and by
the touch calibration: command codes, display-list words, the two display-list macros
and the touch registers. -/
structure CmdConfig where
  CMD_GETIMAGE : Nat
  CMD_GETMATRIX : Nat
  CMD_DLSTART : Nat
  CMD_SWAP : Nat
  CMD_TEXT : Nat
  DL_COLOR_RGB : Nat
  DL_BEGIN : Nat
  DL_END : Nat
  EVE_POINTS : Nat
  EVE_OPT_CENTER : Nat
  POINT_SIZE : Nat → Nat
  VERTEX2F : Nat → Nat → Nat
  REG_TOUCH_DIRECT_XY : Nat
  REG_TOUCH_TRANSFORM_A : Nat
  REG_TOUCH_TRANSFORM_B : Nat
  REG_TOUCH_TRANSFORM_C : Nat
  REG_TOUCH_TRANSFORM_D : Nat
  REG_TOUCH_TRANSFORM_E : Nat
  REG_TOUCH_TRANSFORM_F : Nat

/-- The conversion to `int32_t`: the value that has the same 32-bit two's-complement
pattern. -/
def to_int32 (x : Int) : Int :=
  if x % 2 ^ 32 < 2 ^ 31 then x % 2 ^ 32 else x % 2 ^ 32 - 2 ^ 32

/-- The expression `(cmdoffset - kU) & 0xfffU` of the readback commands: `cmdoffset` is a
`uint16_t`, promoted for the subtraction, which is made in 32-bit unsigned arithmetic. -/
def result_offset (cmdoffset k : Nat) : Nat :=
  ((cmdoffset + 2 ^ 32 - k) % 2 ^ 32) &&& 0xfff

/-- The statement `if (p != NULL) { *p = EVE_memRead32(address); }` of the readback
commands: `p` says whether the pointer is non-null, the result is what is stored through
it (nothing for a null pointer). -/
def read_result (dev : Device) (p : Bool) (address : Nat) (s : State) : Option Nat × State :=
  if p then
    let (v, s) := EVE_memRead32 dev address s
    (some v, s)
  else (none, s)

/-- Image properties readback (`EVE_cmd_getimage`); each pointer argument is given as
whether it is non-null, the result lists what is stored through `p_source`, `p_fmt`,
`p_width`, `p_height` and `p_palette`; `none` when the wait ran out of fuel. -/
def EVE_cmd_getimage (cfg : Config) (ic : InitConfig) (cc : CmdConfig) (dev : Device)
    (fuel : Nat) (p_source p_fmt p_width p_height p_palette : Bool) (s : State) :
    Option (List (Option Nat) × State) :=
  let s := eve_begin_cmd cc.CMD_GETIMAGE s
  let s := spi_transmit_32 0 s
  let s := spi_transmit_32 0 s
  let s := spi_transmit_32 0 s
  let s := spi_transmit_32 0 s
  let s := spi_transmit_32 0 s
  let s := EVE_cs_clear s
  match EVE_execute_cmd cfg dev fuel s with
  | none => none
  | some s =>
      let (cmdoffset, s) := EVE_memRead16 dev cfg.REG_CMD_WRITE s
      let (palette, s) :=
        read_result dev p_palette ((ic.EVE_RAM_CMD + result_offset cmdoffset 4) % 2 ^ 32) s
      let (height, s) :=
        read_result dev p_height ((ic.EVE_RAM_CMD + result_offset cmdoffset 8) % 2 ^ 32) s
      let (width, s) :=
        read_result dev p_width ((ic.EVE_RAM_CMD + result_offset cmdoffset 12) % 2 ^ 32) s
      let (fmt, s) :=
        read_result dev p_fmt ((ic.EVE_RAM_CMD + result_offset cmdoffset 16) % 2 ^ 32) s
      let (source, s) :=
        read_result dev p_source ((ic.EVE_RAM_CMD + result_offset cmdoffset 20) % 2 ^ 32) s
      some ([source, fmt, width, height, palette], s)

/-- Transform matrix readback (`EVE_cmd_getmatrix`); each pointer argument is given as
whether it is non-null, the result lists the 32-bit words stored through `p_a` .. `p_f`
(the caller reads them as `int32_t`); nothing is done in burst mode; `none` when the wait
ran out of fuel. -/
def EVE_cmd_getmatrix (cfg : Config) (ic : InitConfig) (cc : CmdConfig) (dev : Device)
    (fuel : Nat) (p_a p_b p_c p_d p_e p_f : Bool) (s : State) :
    Option (List (Option Int) × State) :=
  if 0 = s.cmd_burst then
    let s := eve_begin_cmd cc.CMD_GETMATRIX s
    let s := spi_transmit_32 0 s
    let s := spi_transmit_32 0 s
    let s := spi_transmit_32 0 s
    let s := spi_transmit_32 0 s
    let s := spi_transmit_32 0 s
    let s := spi_transmit_32 0 s
    let s := EVE_cs_clear s
    match EVE_execute_cmd cfg dev fuel s with
    | none => none
    | some s =>
        let (cmdoffset, s) := EVE_memRead16 dev cfg.REG_CMD_WRITE s
        let address := (ic.EVE_RAM_CMD + result_offset cmdoffset 4) % 2 ^ 32
        let (f, s) := read_result dev p_f address s
        let address := (ic.EVE_RAM_CMD + result_offset cmdoffset 8) % 2 ^ 32
        let (e, s) := read_result dev p_e address s
        let address := (ic.EVE_RAM_CMD + result_offset cmdoffset 12) % 2 ^ 32
        let (d, s) := read_result dev p_d address s
        let address := (ic.EVE_RAM_CMD + result_offset cmdoffset 16) % 2 ^ 32
        let (c, s) := read_result dev p_c address s
        let address := (ic.EVE_RAM_CMD + result_offset cmdoffset 20) % 2 ^ 32
        let (b, s) := read_result dev p_b address s
        let address := (ic.EVE_RAM_CMD + result_offset cmdoffset 24) % 2 ^ 32
        let (a, s) := read_result dev p_a address s
        some ([a, b, c, d, e, f].map (Option.map (fun (v : Nat) => to_int32 (v : Int))), s)
  else
    some ([none, none, none, none, none, none], s)

/-! ## Burst entry and the transfer-complete callback -/

/-- Transfer-complete callback of the SPI driver (`eve_spi_post_transfer_callback` of
`EVE_cpp_target.cpp`), run in interrupt context when a queued transaction ends: the
chip-select line is raised and, in a build with `EVE_DMA`, the in-flight flag is
cleared. -/
def eve_spi_post_transfer_callback (cfg : Config) (s : State) : State :=
  let s := { s with bus := s.bus ++ [BusOp.cs_clear] }
  if cfg.EVE_DMA then { s with EVE_dma_busy := 0 } else s

/-- The loop of `EVE_execute_cmd` with a transfer in flight whose completion interrupts
it: the transfer-complete callback runs just before the poll numbered `irq` (counted from
0), the polls before it see the flag as it was.  Each unit of fuel pays for one poll,
`none` means the fuel ran out before the loop ended. -/
def EVE_execute_cmd_irq (cfg : Config) (dev : Device) : Nat → Nat → State → Option State
  | 0, fuel, s => EVE_execute_cmd cfg dev fuel (eve_spi_post_transfer_callback cfg s)
  | _ + 1, 0, _ => none
  | irq + 1, fuel + 1, s =>
      let (ret, s) := EVE_busy cfg dev s
      if ret ≠ RetCode.E_OK then EVE_execute_cmd_irq cfg dev irq fuel s else some s

/-- Entry into burst mode (`EVE_start_cmd_burst`); `irq` places the completion of a
transfer in flight among the polls of the wait (see `EVE_execute_cmd_irq`), `none` when
the wait ran out of fuel.  The store `EVE_dma_buffer[0U] = 0x7825B000UL` is made on the
list that models the buffer. -/
def EVE_start_cmd_burst (cfg : Config) (dev : Device) (irq fuel : Nat) (s : State) :
    Option State :=
  match (if cfg.EVE_DMA && decide (s.EVE_dma_busy ≠ 0)
      then EVE_execute_cmd_irq cfg dev irq fuel s else some s) with
  | none => none
  | some s =>
      let s := { s with cmd_burst := 42 }
      if cfg.EVE_DMA then
        some { s with
          EVE_dma_buffer := s.EVE_dma_buffer.set 0 0x7825B000
          EVE_dma_buffer_index := 1 }
      else
        let s := EVE_cs_set s
        let s := spi_transmit 0xB0 s
        let s := spi_transmit 0x25 s
        some (spi_transmit 0x78 s)

/-! ## Touch calibration -/

/-- What makes an arithmetic expression of the calibration undefined in C. -/
inductive ArithError where
  | signed_overflow
  | division_by_zero
  deriving DecidableEq, Repr

/-- The value of an `int32_t` operation whose exact result is `x`: undefined (signed
overflow) when `x` is not an `int32_t`. -/
def int32_result (x : Int) : Except ArithError Int :=
  if -2 ^ 31 ≤ x ∧ x < 2 ^ 31 then Except.ok x else Except.error ArithError.signed_overflow

/-- The value of an `int64_t` operation whose exact result is `x`. -/
def int64_result (x : Int) : Except ArithError Int :=
  if -2 ^ 63 ≤ x ∧ x < 2 ^ 63 then Except.ok x else Except.error ArithError.signed_overflow

/-- Subtraction of `int32_t` operands (`a - b`). -/
def sub32 : Except ArithError Int → Except ArithError Int → Except ArithError Int
  | Except.ok a, Except.ok b => int32_result (a - b)
  | Except.error e, _ => Except.error e
  | Except.ok _, Except.error e => Except.error e

/-- Addition of `int32_t` operands (`a + b`). -/
def add32 : Except ArithError Int → Except ArithError Int → Except ArithError Int
  | Except.ok a, Except.ok b => int32_result (a + b)
  | Except.error e, _ => Except.error e
  | Except.ok _, Except.error e => Except.error e

/-- Multiplication of `int32_t` operands (`a * b`). -/
def mul32 : Except ArithError Int → Except ArithError Int → Except ArithError Int
  | Except.ok a, Except.ok b => int32_result (a * b)
  | Except.error e, _ => Except.error e
  | Except.ok _, Except.error e => Except.error e

/-- The element `a[i]` of an array of `int32_t`. -/
def elem (a : List Int) (i : Nat) : Except ArithError Int :=
  Except.ok (a.getD i 0)

/-- The expression `(int32_t) (((int64_t) tmp * 65536) / div)`: the product and the
quotient are `int64_t` operations, the quotient truncates toward zero and is undefined
for a zero divisor, and the conversion of the quotient to `int32_t` keeps its low 32
bits. -/
def calibrate_coefficient (tmp div : Int) : Except ArithError Int :=
  match int64_result (tmp * 65536) with
  | Except.error e => Except.error e
  | Except.ok p =>
      if div = 0 then Except.error ArithError.division_by_zero
      else
        match int64_result (Int.tdiv p div) with
        | Except.error e => Except.error e
        | Except.ok q => Except.ok (to_int32 q)

/-- The expression assigned to `div`, the determinant of the touch samples. -/
def calibrate_div (touch_x touch_y : List Int) : Except ArithError Int :=
  sub32
    (mul32 (sub32 (elem touch_x 0) (elem touch_x 2)) (sub32 (elem touch_y 1) (elem touch_y 2)))
    (mul32 (sub32 (elem touch_x 1) (elem touch_x 2)) (sub32 (elem touch_y 0) (elem touch_y 2)))

/-- The expression assigned to `tmp` for `trans_matrix[0U]` (with `display_x`) and for
`trans_matrix[3U]` (with `display_y` in its place). -/
def calibrate_tmp0 (display touch_y : List Int) : Except ArithError Int :=
  sub32
    (mul32 (sub32 (elem display 0) (elem display 2)) (sub32 (elem touch_y 1) (elem touch_y 2)))
    (mul32 (sub32 (elem display 1) (elem display 2)) (sub32 (elem touch_y 0) (elem touch_y 2)))

/-- The expression assigned to `tmp` for `trans_matrix[1U]` (with `display_x`) and for
`trans_matrix[4U]` (with `display_y` in its place). -/
def calibrate_tmp1 (display touch_x : List Int) : Except ArithError Int :=
  sub32
    (mul32 (sub32 (elem touch_x 0) (elem touch_x 2)) (sub32 (elem display 1) (elem display 2)))
    (mul32 (sub32 (elem display 0) (elem display 2)) (sub32 (elem touch_x 1) (elem touch_x 2)))

/-- The expression assigned to `tmp` for `trans_matrix[2U]` (with `display_x`) and for
`trans_matrix[5U]` (with `display_y` in its place). -/
def calibrate_tmp2 (display touch_x touch_y : List Int) : Except ArithError Int :=
  add32
    (add32
      (mul32 (elem touch_y 0)
        (sub32 (mul32 (elem touch_x 2) (elem display 1))
          (mul32 (elem touch_x 1) (elem display 2))))
      (mul32 (elem touch_y 1)
        (sub32 (mul32 (elem touch_x 0) (elem display 2))
          (mul32 (elem touch_x 2) (elem display 0)))))
    (mul32 (elem touch_y 2)
      (sub32 (mul32 (elem touch_x 1) (elem display 0))
        (mul32 (elem touch_x 0) (elem display 1))))

/-- The solve of `EVE_calibrate_manual`: the statements from `div = ...` to
`trans_matrix[5U] = ...`, on the arrays filled before; the result is `trans_matrix`. -/
def calibrate_solve (display_x display_y touch_x touch_y : List Int) :
    Except ArithError (List Int) :=
  match calibrate_div touch_x touch_y with
  | Except.error e => Except.error e
  | Except.ok div =>
  match calibrate_tmp0 display_x touch_y with
  | Except.error e => Except.error e
  | Except.ok tmp =>
  match calibrate_coefficient tmp div with
  | Except.error e => Except.error e
  | Except.ok m0 =>
  match calibrate_tmp1 display_x touch_x with
  | Except.error e => Except.error e
  | Except.ok tmp =>
  match calibrate_coefficient tmp div with
  | Except.error e => Except.error e
  | Except.ok m1 =>
  match calibrate_tmp2 display_x touch_x touch_y with
  | Except.error e => Except.error e
  | Except.ok tmp =>
  match calibrate_coefficient tmp div with
  | Except.error e => Except.error e
  | Except.ok m2 =>
  match calibrate_tmp0 display_y touch_y with
  | Except.error e => Except.error e
  | Except.ok tmp =>
  match calibrate_coefficient tmp div with
  | Except.error e => Except.error e
  | Except.ok m3 =>
  match calibrate_tmp1 display_y touch_x with
  | Except.error e => Except.error e
  | Except.ok tmp =>
  match calibrate_coefficient tmp div with
  | Except.error e => Except.error e
  | Except.ok m4 =>
  match calibrate_tmp2 display_y touch_x touch_y with
  | Except.error e => Except.error e
  | Except.ok tmp =>
  match calibrate_coefficient tmp div with
  | Except.error e => Except.error e
  | Except.ok m5 => Except.ok [m0, m1, m2, m3, m4, m5]

/-- The display targets `display_x`, `display_y` of `EVE_calibrate_manual`, computed from
the `uint16_t` arguments `width` and `height`. -/
def calibrate_targets (width height : Nat) : List Int × List Int :=
  ([((width / 6 : Nat) : Int), ((width - width / 8 : Nat) : Int), ((width / 2 : Nat) : Int)],
    [((height / 6 : Nat) : Int), ((height / 2 : Nat) : Int),
      ((height - height / 8 : Nat) : Int)])

/-- The conversion to `uint32_t`: the 32-bit two's-complement pattern of the value. -/
def to_uint32 (x : Int) : Nat :=
  (x % 2 ^ 32).toNat

/-- The conversion to `uint16_t`: the 16-bit two's-complement pattern of the value. -/
def to_uint16 (x : Int) : Nat :=
  (x % 2 ^ 16).toNat

/-- The conversion to `int16_t`: the value that has the same 16-bit two's-complement
pattern. -/
def to_int16 (x : Int) : Int :=
  if x % 2 ^ 16 < 2 ^ 15 then x % 2 ^ 16 else x % 2 ^ 16 - 2 ^ 16

/-- Text command (`EVE_cmd_text`); `xc0`, `yc0` and `font` are `int16_t`, `options` is a
`uint16_t`. -/
def EVE_cmd_text (cfg : Config) (cc : CmdConfig) (xc0 yc0 font : Int) (options : Nat)
    (p_text : Ptr) (s : State) : State :=
  if 0 = s.cmd_burst then
    let s := eve_begin_cmd cc.CMD_TEXT s
    let s := spi_transmit (to_uint16 xc0) s
    let s := spi_transmit (to_uint16 xc0 >>> 8) s
    let s := spi_transmit (to_uint16 yc0) s
    let s := spi_transmit (to_uint16 yc0 >>> 8) s
    let s := spi_transmit (to_uint16 font) s
    let s := spi_transmit (to_uint16 font >>> 8) s
    let s := spi_transmit (options % 65536) s
    let s := spi_transmit ((options % 65536) >>> 8) s
    let s := private_string_write cfg p_text s
    EVE_cs_clear s
  else
    let s := spi_transmit_burst cfg cc.CMD_TEXT s
    let s := spi_transmit_burst cfg (to_uint16 xc0 + (to_uint16 yc0 <<< 16)) s
    let s := spi_transmit_burst cfg (to_uint16 font + ((options % 65536) <<< 16)) s
    private_string_write cfg p_text s

/-- The string literal `"tap on the dot"` of `EVE_calibrate_manual`, with its
terminator. -/
def tap_on_the_dot : Ptr := fun i =>
  [0x74, 0x61, 0x70, 0x20, 0x6f, 0x6e, 0x20, 0x74, 0x68, 0x65, 0x20, 0x64, 0x6f, 0x74, 0].getD i 0

/-- The drawing statements of the loop `while (count < 3U)` of `EVE_calibrate_manual`:
the display list that shows the dot number `count` and the prompt, up to `CMD_SWAP`. -/
def calibrate_prompt (cfg : Config) (ic : InitConfig) (cc : CmdConfig) (width : Nat)
    (display_x display_y : List Int) (count : Nat) (s : State) : State :=
  let s := EVE_cmd_dl cfg cc.CMD_DLSTART s
  let s := EVE_cmd_dl cfg ic.DL_CLEAR_COLOR_RGB s
  let s := EVE_cmd_dl cfg (ic.DL_CLEAR ||| ic.CLR_COL ||| ic.CLR_STN ||| ic.CLR_TAG) s
  let s := EVE_cmd_dl cfg (cc.DL_COLOR_RGB ||| 0x0000ff) s
  let s := EVE_cmd_dl cfg (cc.POINT_SIZE (15 * 16)) s
  let s := EVE_cmd_dl cfg (cc.DL_BEGIN ||| cc.EVE_POINTS) s
  let s := EVE_cmd_dl cfg
    (cc.VERTEX2F ((to_uint32 (display_x.getD count 0) * 16) % 2 ^ 32)
      ((to_uint32 (display_y.getD count 0) * 16) % 2 ^ 32)) s
  let s := EVE_cmd_dl cfg cc.DL_END s
  let s := EVE_cmd_dl cfg (cc.DL_COLOR_RGB ||| 0xffffff) s
  let s := EVE_cmd_text cfg cc (to_int16 ((width / 2 : Nat) : Int)) 20 26 cc.EVE_OPT_CENTER
    tap_on_the_dot s
  let num : Ptr := fun i => [(count + 0x31) % 256, 0].getD i 0
  let s := EVE_cmd_text cfg cc (to_int16 (display_x.getD count 0))
    (to_int16 (display_y.getD count 0)) 27 cc.EVE_OPT_CENTER num s
  let s := EVE_cmd_dl cfg ic.DL_DISPLAY s
  EVE_cmd_dl cfg cc.CMD_SWAP s

/-- The loop `for ( ; ; )` of `EVE_calibrate_manual` that waits for a touch, entered with
the current `touch_lock`; the result carries the sample `touch_x[count]`,
`touch_y[count]` and `touch_lock` as the loop leaves it.  Each unit of fuel pays for one
read of the raw touch register, `none` means the fuel ran out. -/
def calibrate_touch (cc : CmdConfig) (dev : Device) :
    Nat → Nat → State → Option (Int × Int × Nat × State)
  | 0, _, _ => none
  | fuel + 1, touch_lock, s =>
      let (touch_value, s) := EVE_memRead32 dev cc.REG_TOUCH_DIRECT_XY s
      if touch_lock ≠ 0 then
        if (touch_value &&& 0x80000000) ≠ 0 then calibrate_touch cc dev fuel 0 s
        else calibrate_touch cc dev fuel touch_lock s
      else
        if 0 = (touch_value &&& 0x80000000) then
          some ((((touch_value >>> 16) &&& 0x03FF : Nat) : Int),
            ((touch_value &&& 0x03FF : Nat) : Int), 1, s)
        else calibrate_touch cc dev fuel touch_lock s

/-- The loop `while (count < 3U)` of `EVE_calibrate_manual`, entered with the current
`count`, `touch_lock`, `touch_x` and `touch_y`; the result carries the two arrays.  Each
iteration advances `count`, so the `n = 3` iterations the caller pays for reach the
bound; `fuel` bounds each wait inside, `none` means that one of them ran out. -/
def calibrate_sample (cfg : Config) (ic : InitConfig) (cc : CmdConfig) (dev : Device)
    (fuel width : Nat) (display_x display_y : List Int) :
    Nat → Nat → Nat → List Int → List Int → State → Option (List Int × List Int × State)
  | 0, count, _, touch_x, touch_y, s =>
      if count < 3 then none else some (touch_x, touch_y, s)
  | n + 1, count, touch_lock, touch_x, touch_y, s =>
      if count < 3 then
        let s := calibrate_prompt cfg ic cc width display_x display_y count s
        match EVE_execute_cmd cfg dev fuel s with
        | none => none
        | some s =>
            match calibrate_touch cc dev fuel touch_lock s with
            | none => none
            | some (x, y, touch_lock, s) =>
                calibrate_sample cfg ic cc dev fuel width display_x display_y n
                  ((count + 1) % 256) touch_lock (touch_x.set count x) (touch_y.set count y) s
      else some (touch_x, touch_y, s)

/-- The field of `spi_bus_config_t` that `EVE_init_spi` sets to a number. -/
structure spi_bus_config_t where
  max_transfer_sz : Nat
  deriving DecidableEq, Repr

/-- The fields of `spi_device_interface_config_t` that `EVE_init_spi` sets to numbers. -/
structure spi_device_interface_config_t where
  mode : Nat
  queue_size : Nat
  address_bits : Nat
  command_bits : Nat
  deriving DecidableEq, Repr

/-- SPI set-up (`EVE_init_spi` of `EVE_cpp_target.cpp`): the bus configuration passed to
`spi_bus_initialize`, the device configuration with which `EVE_spi_device` is added, and
the one with which `EVE_spi_device_simple` is added.  Pins, flags, clock and callbacks
are outside the model. -/
def EVE_init_spi :
    spi_bus_config_t × spi_device_interface_config_t × spi_device_interface_config_t :=
  let buscfg : spi_bus_config_t := { max_transfer_sz := 640 * 8 }
  let devcfg : spi_device_interface_config_t :=
    { mode := 0, queue_size := 4, address_bits := 24, command_bits := 0 }
  let devcfg_simple : spi_device_interface_config_t := { devcfg with address_bits := 0 }
  (buscfg, devcfg, devcfg_simple)

/-- Start of the DMA transfer of the burst buffer (`EVE_start_dma_transfer` of
`EVE_cpp_target.cpp`): chip select is asserted, the descriptor is filled and queued, the
in-flight flag is set; the result carries the descriptor queued.  `tx_buffer` is
`&EVE_dma_buffer[1]` as a byte pointer on the little-endian target; the subtraction in
`(EVE_dma_buffer_index-1) * 4U * 8U` is made in 32 bits. -/
def EVE_start_dma_transfer (s : State) : spi_transaction_t × State :=
  let s := { s with bus := s.bus ++ [BusOp.cs_set] }
  let EVE_spi_transaction : spi_transaction_t :=
    { tx_buffer := some (fun i => (s.EVE_dma_buffer.getD (1 + i / 4) 0 >>> (8 * (i % 4))) % 256)
      length := ((s.EVE_dma_buffer_index + 2 ^ 32 - 1) * 4 * 8) % 2 ^ 32
      addr := 0x00b02578
      flags := 0 }
  (EVE_spi_transaction, { s with EVE_dma_busy := 42 })

/-- End of burst mode (`EVE_end_cmd_burst`): with `EVE_DMA` the buffer is handed to the
DMA transfer, whose descriptor the result carries; otherwise chip select is cleared. -/
def EVE_end_cmd_burst (cfg : Config) (s : State) : Option spi_transaction_t × State :=
  let s := { s with cmd_burst := 0 }
  if cfg.EVE_DMA then
    let (t, s) := EVE_start_dma_transfer s
    (some t, s)
  else
    (none, EVE_cs_clear s)

/-! ## Widget and colour commands -/

/-- Command codes of the widget and colour commands, from headers outside the translated
sources. -/
structure WidgetConfig where
  CMD_BGCOLOR : Nat
  CMD_CLOCK : Nat
  CMD_DIAL : Nat
  CMD_FGCOLOR : Nat
  CMD_GAUGE : Nat
  CMD_GRADCOLOR : Nat
  CMD_PROGRESS : Nat
  CMD_SCROLLBAR : Nat
  CMD_SETBITMAP : Nat
  deriving DecidableEq, Repr

/-- Clock widget (`EVE_cmd_clock`); `xc0`, `yc0` and `rad` are `int16_t`, the other
arguments `uint16_t`. -/
def EVE_cmd_clock (cfg : Config) (wc : WidgetConfig) (xc0 yc0 rad : Int)
    (options hours mins secs msecs : Nat) (s : State) : State :=
  if 0 = s.cmd_burst then
    let s := eve_begin_cmd wc.CMD_CLOCK s
    let s := spi_transmit (to_uint16 xc0) s
    let s := spi_transmit (to_uint16 xc0 >>> 8) s
    let s := spi_transmit (to_uint16 yc0) s
    let s := spi_transmit (to_uint16 yc0 >>> 8) s
    let s := spi_transmit (to_uint16 rad) s
    let s := spi_transmit (to_uint16 rad >>> 8) s
    let s := spi_transmit (options % 65536) s
    let s := spi_transmit ((options % 65536) >>> 8) s
    let s := spi_transmit (hours % 65536) s
    let s := spi_transmit ((hours % 65536) >>> 8) s
    let s := spi_transmit (mins % 65536) s
    let s := spi_transmit ((mins % 65536) >>> 8) s
    let s := spi_transmit (secs % 65536) s
    let s := spi_transmit ((secs % 65536) >>> 8) s
    let s := spi_transmit (msecs % 65536) s
    let s := spi_transmit ((msecs % 65536) >>> 8) s
    EVE_cs_clear s
  else
    let s := spi_transmit_burst cfg wc.CMD_CLOCK s
    let s := spi_transmit_burst cfg (to_uint16 xc0 + (to_uint16 yc0 <<< 16)) s
    let s := spi_transmit_burst cfg (to_uint16 rad + ((options % 65536) <<< 16)) s
    let s := spi_transmit_burst cfg ((hours % 65536) + ((mins % 65536) <<< 16)) s
    spi_transmit_burst cfg ((secs % 65536) + ((msecs % 65536) <<< 16)) s

/-- Dial widget (`EVE_cmd_dial`); `xc0`, `yc0` and `rad` are `int16_t`, `options` and `val`
`uint16_t`. -/
def EVE_cmd_dial (cfg : Config) (wc : WidgetConfig) (xc0 yc0 rad : Int) (options val : Nat)
    (s : State) : State :=
  if 0 = s.cmd_burst then
    let s := eve_begin_cmd wc.CMD_DIAL s
    let s := spi_transmit (to_uint16 xc0) s
    let s := spi_transmit (to_uint16 xc0 >>> 8) s
    let s := spi_transmit (to_uint16 yc0) s
    let s := spi_transmit (to_uint16 yc0 >>> 8) s
    let s := spi_transmit (to_uint16 rad) s
    let s := spi_transmit (to_uint16 rad >>> 8) s
    let s := spi_transmit (options % 65536) s
    let s := spi_transmit ((options % 65536) >>> 8) s
    let s := spi_transmit (val % 65536) s
    let s := spi_transmit ((val % 65536) >>> 8) s
    let s := spi_transmit 0 s
    let s := spi_transmit 0 s
    EVE_cs_clear s
  else
    let s := spi_transmit_burst cfg wc.CMD_DIAL s
    let s := spi_transmit_burst cfg (to_uint16 xc0 + (to_uint16 yc0 <<< 16)) s
    let s := spi_transmit_burst cfg (to_uint16 rad + ((options % 65536) <<< 16)) s
    spi_transmit_burst cfg (val % 65536) s

/-- Gauge widget (`EVE_cmd_gauge`); `xc0`, `yc0` and `rad` are `int16_t`, the other
arguments `uint16_t`. -/
def EVE_cmd_gauge (cfg : Config) (wc : WidgetConfig) (xc0 yc0 rad : Int)
    (options major minor val range : Nat) (s : State) : State :=
  if 0 = s.cmd_burst then
    let s := eve_begin_cmd wc.CMD_GAUGE s
    let s := spi_transmit (to_uint16 xc0) s
    let s := spi_transmit (to_uint16 xc0 >>> 8) s
    let s := spi_transmit (to_uint16 yc0) s
    let s := spi_transmit (to_uint16 yc0 >>> 8) s
    let s := spi_transmit (to_uint16 rad) s
    let s := spi_transmit (to_uint16 rad >>> 8) s
    let s := spi_transmit (options % 65536) s
    let s := spi_transmit ((options % 65536) >>> 8) s
    let s := spi_transmit (major % 65536) s
    let s := spi_transmit ((major % 65536) >>> 8) s
    let s := spi_transmit (minor % 65536) s
    let s := spi_transmit ((minor % 65536) >>> 8) s
    let s := spi_transmit (val % 65536) s
    let s := spi_transmit ((val % 65536) >>> 8) s
    let s := spi_transmit (range % 65536) s
    let s := spi_transmit ((range % 65536) >>> 8) s
    EVE_cs_clear s
  else
    let s := spi_transmit_burst cfg wc.CMD_GAUGE s
    let s := spi_transmit_burst cfg (to_uint16 xc0 + (to_uint16 yc0 <<< 16)) s
    let s := spi_transmit_burst cfg (to_uint16 rad + ((options % 65536) <<< 16)) s
    let s := spi_transmit_burst cfg ((major % 65536) + ((minor % 65536) <<< 16)) s
    spi_transmit_burst cfg ((val % 65536) + ((range % 65536) <<< 16)) s

/-- Progress bar (`EVE_cmd_progress`); `xc0`, `yc0`, `wid` and `hgt` are `int16_t`, the
other arguments `uint16_t`. -/
def EVE_cmd_progress (cfg : Config) (wc : WidgetConfig) (xc0 yc0 wid hgt : Int)
    (options val range : Nat) (s : State) : State :=
  if 0 = s.cmd_burst then
    let s := eve_begin_cmd wc.CMD_PROGRESS s
    let s := spi_transmit (to_uint16 xc0) s
    let s := spi_transmit (to_uint16 xc0 >>> 8) s
    let s := spi_transmit (to_uint16 yc0) s
    let s := spi_transmit (to_uint16 yc0 >>> 8) s
    let s := spi_transmit (to_uint16 wid) s
    let s := spi_transmit (to_uint16 wid >>> 8) s
    let s := spi_transmit (to_uint16 hgt) s
    let s := spi_transmit (to_uint16 hgt >>> 8) s
    let s := spi_transmit (options % 65536) s
    let s := spi_transmit ((options % 65536) >>> 8) s
    let s := spi_transmit (val % 65536) s
    let s := spi_transmit ((val % 65536) >>> 8) s
    let s := spi_transmit (range % 65536) s
    let s := spi_transmit ((range % 65536) >>> 8) s
    let s := spi_transmit 0 s
    let s := spi_transmit 0 s
    EVE_cs_clear s
  else
    let s := spi_transmit_burst cfg wc.CMD_PROGRESS s
    let s := spi_transmit_burst cfg (to_uint16 xc0 + (to_uint16 yc0 <<< 16)) s
    let s := spi_transmit_burst cfg (to_uint16 wid + (to_uint16 hgt <<< 16)) s
    let s := spi_transmit_burst cfg ((options % 65536) + ((val % 65536) <<< 16)) s
    spi_transmit_burst cfg (range % 65536) s

/-- Scroll bar (`EVE_cmd_scrollbar`); `xc0`, `yc0`, `wid` and `hgt` are `int16_t`, the
other arguments `uint16_t`. -/
def EVE_cmd_scrollbar (cfg : Config) (wc : WidgetConfig) (xc0 yc0 wid hgt : Int)
    (options val size range : Nat) (s : State) : State :=
  if 0 = s.cmd_burst then
    let s := eve_begin_cmd wc.CMD_SCROLLBAR s
    let s := spi_transmit (to_uint16 xc0) s
    let s := spi_transmit (to_uint16 xc0 >>> 8) s
    let s := spi_transmit (to_uint16 yc0) s
    let s := spi_transmit (to_uint16 yc0 >>> 8) s
    let s := spi_transmit (to_uint16 wid) s
    let s := spi_transmit (to_uint16 wid >>> 8) s
    let s := spi_transmit (to_uint16 hgt) s
    let s := spi_transmit (to_uint16 hgt >>> 8) s
    let s := spi_transmit (options % 65536) s
    let s := spi_transmit ((options % 65536) >>> 8) s
    let s := spi_transmit (val % 65536) s
    let s := spi_transmit ((val % 65536) >>> 8) s
    let s := spi_transmit (size % 65536) s
    let s := spi_transmit ((size % 65536) >>> 8) s
    let s := spi_transmit (range % 65536) s
    let s := spi_transmit ((range % 65536) >>> 8) s
    EVE_cs_clear s
  else
    let s := spi_transmit_burst cfg wc.CMD_SCROLLBAR s
    let s := spi_transmit_burst cfg (to_uint16 xc0 + (to_uint16 yc0 <<< 16)) s
    let s := spi_transmit_burst cfg (to_uint16 wid + (to_uint16 hgt <<< 16)) s
    let s := spi_transmit_burst cfg ((options % 65536) + ((val % 65536) <<< 16)) s
    spi_transmit_burst cfg ((size % 65536) + ((range % 65536) <<< 16)) s

/-- Bitmap set-up (`EVE_cmd_setbitmap`); `addr` is a `uint32_t`, `fmt`, `width` and
`height` are `uint16_t`. -/
def EVE_cmd_setbitmap (cfg : Config) (wc : WidgetConfig) (addr fmt width height : Nat)
    (s : State) : State :=
  if 0 = s.cmd_burst then
    let s := eve_begin_cmd wc.CMD_SETBITMAP s
    let s := spi_transmit_32 addr s
    let s := spi_transmit (fmt % 65536) s
    let s := spi_transmit ((fmt % 65536) >>> 8) s
    let s := spi_transmit (width % 65536) s
    let s := spi_transmit ((width % 65536) >>> 8) s
    let s := spi_transmit (height % 65536) s
    let s := spi_transmit ((height % 65536) >>> 8) s
    let s := spi_transmit 0 s
    let s := spi_transmit 0 s
    EVE_cs_clear s
  else
    let s := spi_transmit_burst cfg wc.CMD_SETBITMAP s
    let s := spi_transmit_burst cfg addr s
    let s := spi_transmit_burst cfg ((fmt % 65536) + ((width % 65536) <<< 16)) s
    spi_transmit_burst cfg (height % 65536) s

/-- Background colour (`EVE_cmd_bgcolor`); `color` is a `uint32_t`. -/
def EVE_cmd_bgcolor (cfg : Config) (wc : WidgetConfig) (color : Nat) (s : State) : State :=
  if 0 = s.cmd_burst then
    let s := eve_begin_cmd wc.CMD_BGCOLOR s
    let s := spi_transmit (color % 2 ^ 32) s
    let s := spi_transmit ((color % 2 ^ 32) >>> 8) s
    let s := spi_transmit ((color % 2 ^ 32) >>> 16) s
    let s := spi_transmit 0 s
    EVE_cs_clear s
  else
    let s := spi_transmit_burst cfg wc.CMD_BGCOLOR s
    spi_transmit_burst cfg (color % 2 ^ 32) s

/-- Foreground colour (`EVE_cmd_fgcolor`); `color` is a `uint32_t`. -/
def EVE_cmd_fgcolor (cfg : Config) (wc : WidgetConfig) (color : Nat) (s : State) : State :=
  if 0 = s.cmd_burst then
    let s := eve_begin_cmd wc.CMD_FGCOLOR s
    let s := spi_transmit (color % 2 ^ 32) s
    let s := spi_transmit ((color % 2 ^ 32) >>> 8) s
    let s := spi_transmit ((color % 2 ^ 32) >>> 16) s
    let s := spi_transmit 0 s
    EVE_cs_clear s
  else
    let s := spi_transmit_burst cfg wc.CMD_FGCOLOR s
    spi_transmit_burst cfg (color % 2 ^ 32) s

/-- Gradient colour (`EVE_cmd_gradcolor`); `color` is a `uint32_t`. -/
def EVE_cmd_gradcolor (cfg : Config) (wc : WidgetConfig) (color : Nat) (s : State) : State :=
  if 0 = s.cmd_burst then
    let s := eve_begin_cmd wc.CMD_GRADCOLOR s
    let s := spi_transmit (color % 2 ^ 32) s
    let s := spi_transmit ((color % 2 ^ 32) >>> 8) s
    let s := spi_transmit ((color % 2 ^ 32) >>> 16) s
    let s := spi_transmit 0 s
    EVE_cs_clear s
  else
    let s := spi_transmit_burst cfg wc.CMD_GRADCOLOR s
    spi_transmit_burst cfg (color % 2 ^ 32) s

/-! ## Fill of chip memory -/

/-- The loop `for (count = 0U; count < length; count++) spi_transmit_32(data)` of
`EVE_memWrite_sram_fill`, with `n` iterations still to run. -/
def EVE_memWrite_sram_fill_data (data : Nat) : Nat → State → State
  | 0, s => s
  | n + 1, s => EVE_memWrite_sram_fill_data data n (spi_transmit_32 data s)

/-- Fill of chip memory with a 32-bit pattern (`EVE_memWrite_sram_fill`); `len` is a
`uint32_t`, and so is the sum `len + 3U`. -/
def EVE_memWrite_sram_fill (ft_address data len : Nat) (s : State) : State :=
  let len := len % 2 ^ 32
  if len > 0 then
    let s := EVE_cs_set s
    let s := spi_transmit (((ft_address >>> 16) % 256) ||| MEM_WRITE) s
    let s := spi_transmit ((ft_address >>> 8) % 256) s
    let s := spi_transmit ((ft_address &&& 0x000000ff) % 256) s
    let length := ((len + 3) % 2 ^ 32) / 4
    let s := EVE_memWrite_sram_fill_data data length s
    EVE_cs_clear s
  else s

/-! ## The frame blit of the application -/

/-- The macro `SCREEN_WIDTH` of `arduino.cpp`. -/
def SCREEN_WIDTH : Int := 640

/-- The macro `SCREEN_HEIGHT` of `arduino.cpp`. -/
def SCREEN_HEIGHT : Int := 480

/-- Byte offset of a pixel in the frame buffer (`pixel_offset` of `arduino.cpp`): the
`int` expression `(y * SCREEN_WIDTH + x) * 1`, returned as a `uint32_t`. -/
def pixel_offset (x y : Int) : Nat :=
  to_uint32 ((y * SCREEN_WIDTH + x) * 1)

/-- The loop `for (int y=0; y<SCREEN_HEIGHT; y+=ROWS)` of `vga_display`, entered with the
current `y`; `ROWS` is 32.  Each iteration advances `y`, so the `n = 15` iterations the
caller pays for reach the bound.  The cache write-back is outside the model, and
`framebuffer` is taken as not null. -/
def vga_display_rows (fl : SpiFlags) (framebuffer : Ptr) : Nat → Int → SramQueue → SramQueue
  | 0, _, q => q
  | n + 1, y, q =>
      if y < SCREEN_HEIGHT then
        let q := EVE_memWrite_sram_buffer fl ((0x1000 + pixel_offset 0 y) % 2 ^ 32)
          (some (fun i => framebuffer (pixel_offset 0 y + i))) (pixel_offset 0 32) q
        vga_display_rows fl framebuffer n (y + 32) q
      else q

/-- Blit of a frame to the chip (`vga_display` of `arduino.cpp`): the palette, then the
frame buffer in blocks of `ROWS = 32` rows.  The timing printout is outside the model. -/
def vga_display (fl : SpiFlags) (framebuffer : Ptr) (palette : Option Ptr) (q : SramQueue) :
    SramQueue :=
  let q := EVE_memWrite_sram_buffer fl 0x0 palette (2 * 256) q
  vga_display_rows fl framebuffer 15 0 q

/-! ## Burst entry, statement by statement -/

/-- The loop of `EVE_execute_cmd` statement by statement: the result lists the state
after each call of `EVE_busy`, in the order of the calls; `none` means the fuel ran out
before the loop ended. -/
def EVE_execute_cmd_steps (cfg : Config) (dev : Device) : Nat → State → Option (List State)
  | 0, _ => none
  | fuel + 1, s =>
      let (ret, s) := EVE_busy cfg dev s
      if ret ≠ RetCode.E_OK then
        (EVE_execute_cmd_steps cfg dev fuel s).map (fun rest => s :: rest)
      else some [s]

/-- The loop of `EVE_execute_cmd` with a transfer in flight (see `EVE_execute_cmd_irq`),
statement by statement: the result lists the state after each step, in order, a step
being a call of `EVE_busy` or the run of the transfer-complete callback. -/
def EVE_execute_cmd_irq_steps (cfg : Config) (dev : Device) :
    Nat → Nat → State → Option (List State)
  | 0, fuel, s =>
      let s := eve_spi_post_transfer_callback cfg s
      (EVE_execute_cmd_steps cfg dev fuel s).map (fun rest => s :: rest)
  | _ + 1, 0, _ => none
  | irq + 1, fuel + 1, s =>
      let (ret, s) := EVE_busy cfg dev s
      if ret ≠ RetCode.E_OK then
        (EVE_execute_cmd_irq_steps cfg dev irq fuel s).map (fun rest => s :: rest)
      else some [s]

/-- Entry into burst mode (`EVE_start_cmd_burst`) statement by statement: the result
lists the state after each statement executed, in program order: the steps of the wait
`EVE_execute_cmd()` when the `if (EVE_dma_busy)` is taken, then `cmd_burst = 42U`, then
with `EVE_DMA` the stores `EVE_dma_buffer[0U] = 0x7825B000UL` and
`EVE_dma_buffer_index = 1U`, and without it `EVE_cs_set()` and the three
`spi_transmit`. -/
def EVE_start_cmd_burst_steps (cfg : Config) (dev : Device) (irq fuel : Nat) (s : State) :
    Option (List State) :=
  match (if cfg.EVE_DMA && decide (s.EVE_dma_busy ≠ 0)
      then EVE_execute_cmd_irq_steps cfg dev irq fuel s else some []) with
  | none => none
  | some wait =>
      let s := wait.getLastD s
      let s1 := { s with cmd_burst := 42 }
      if cfg.EVE_DMA then
        let s2 := { s1 with EVE_dma_buffer := s1.EVE_dma_buffer.set 0 0x7825B000 }
        let s3 := { s2 with EVE_dma_buffer_index := 1 }
        some (wait ++ [s1, s2, s3])
      else
        let s2 := EVE_cs_set s1
        let s3 := spi_transmit 0xB0 s2
        let s4 := spi_transmit 0x25 s3
        let s5 := spi_transmit 0x78 s4
        some (wait ++ [s1, s2, s3, s4, s5])

/-! ## Specification-side vocabulary -/

/-- The register-write header in the spec's words:
`[ (addr>>16)&0x7F | 0x80, (addr>>8)&0xFF, addr&0xFF ]`. -/
def writeHeader (addr : Nat) : List Nat :=
  [((addr >>> 16) &&& 0x7F) ||| 0x80, (addr >>> 8) &&& 0xFF, addr &&& 0xFF]

/-- The register-read word in the spec's words:
`((addr>>16)&0x7F) + (addr&0xFF00) + ((addr&0xFF)<<16)`. -/
def readWord (addr : Nat) : Nat :=
  ((addr >>> 16) &&& 0x7F) + (addr &&& 0xFF00) + ((addr &&& 0xFF) <<< 16)

/-- The `n` low bytes of `v`, least significant first. -/
def leBytes (n v : Nat) : List Nat :=
  (List.range n).map (fun i => (v >>> (8 * i)) % 256)

/-- The bytes the chip delivers on `n` consecutive receives that start after history `h`. -/
def rxBytes (dev : Device) : Nat → List BusOp → List Nat
  | 0, _ => []
  | n + 1, h => dev h % 256 :: rxBytes dev n (h ++ [BusOp.receive (dev h % 256)])

/-- The number whose bytes, least significant first, are `bs`: the sum of
`b_i << (8*i)`. -/
def leValue : List Nat → Nat
  | [] => 0
  | b :: t => b + 256 * leValue t

/-- The bus operations of a register read of `n` bytes at `addr` in the spec's words:
select, the packed read word, `n` receives, deselect; `h` is the history before it. -/
def readOps (dev : Device) (addr n : Nat) (h : List BusOp) : List BusOp :=
  [BusOp.cs_set, BusOp.transmit_32 (readWord addr)] ++
    (rxBytes dev n (h ++ [BusOp.cs_set, BusOp.transmit_32 (readWord addr)])).map BusOp.receive
    ++ [BusOp.cs_clear]

/-- The value a register read of `n` bytes at `addr` returns in the spec's words: the
received bytes, least significant first. -/
def readValue (dev : Device) (addr n : Nat) (h : List BusOp) : Nat :=
  leValue (rxBytes dev n (h ++ [BusOp.cs_set, BusOp.transmit_32 (readWord addr)]))

/-- The bus operations of a register write in the spec's words: select, the write
header, the payload bytes, deselect. -/
def writeOps (addr : Nat) (payload : List Nat) : List BusOp :=
  BusOp.cs_set :: ((writeHeader addr ++ payload).map BusOp.transmit ++ [BusOp.cs_clear])

/-- The bus operations of `recover_fault()` in the spec's words: (generations that
support it: read the patch pointer,) halt the co-processor, zero the FIFO read pointer,
the FIFO write pointer and the display-list pointer, (generations that support it:
restore the patch pointer and re-apply the pixel-clock configuration,) release the
co-processor from reset and wait the settle delay; `h` is the history before it. -/
def recoverOps (cfg : Config) (dev : Device) (h : List BusOp) : List BusOp :=
  (if cfg.EVE_GEN > 2 then readOps dev cfg.REG_COPRO_PATCH_PTR 2 h else []) ++
  writeOps cfg.REG_CPURESET (leBytes 1 1) ++
  writeOps cfg.REG_CMD_READ (leBytes 2 0) ++
  writeOps cfg.REG_CMD_WRITE (leBytes 2 0) ++
  writeOps cfg.REG_CMD_DL (leBytes 2 0) ++
  (if cfg.EVE_GEN > 2 then
    writeOps cfg.REG_COPRO_PATCH_PTR (leBytes 2 (readValue dev cfg.REG_COPRO_PATCH_PTR 2 h)) ++
    (match (if cfg.EVE_GEN > 3 then cfg.EVE_PCLK_FREQ else none) with
      | some freq => writeOps cfg.REG_PCLK_FREQ (leBytes 2 freq) ++
          writeOps cfg.REG_PCLK (leBytes 1 1)
      | none => writeOps cfg.REG_PCLK (leBytes 1 cfg.EVE_PCLK))
   else []) ++
  writeOps cfg.REG_CPURESET (leBytes 1 0) ++
  [BusOp.delay_ms 10]

/-- The classification of `poll_state` in the spec's listing order: `0xFFC` first, then
the fault signature, then the half-empty threshold, else busy. -/
def poll_state_spec (value : Nat) : RetCode :=
  if value = 0xFFC then RetCode.E_OK
  else if value &&& 3 ≠ 0 then RetCode.EVE_FAULT_RECOVERED
  else if value > 0x800 then RetCode.EVE_FIFO_HALF_EMPTY
  else RetCode.EVE_IS_BUSY

/-- The number of delays in a bus trace. -/
def countDelays : List BusOp → Nat
  | [] => 0
  | BusOp.delay_ms _ :: t => countDelays t + 1
  | _ :: t => countDelays t

/-- A sample configuration: a generation-4 chip driven with DMA, with the register
addresses of the BT81x data sheet. -/
def sampleConfig : Config :=
  { EVE_DMA := true, EVE_GEN := 4, EVE_PCLK_FREQ := none, EVE_PCLK := 2,
    REG_CMDB_SPACE := 0x302574, REG_CPURESET := 0x302020, REG_CMD_READ := 0x3020f8,
    REG_CMD_WRITE := 0x3020fc, REG_CMD_DL := 0x302100, REG_COPRO_PATCH_PTR := 0x309162,
    REG_PCLK := 0x302070, REG_PCLK_FREQ := 0x302614 }

/-- The driver's globals at start-up, with an empty bus history and a DMA buffer of
1025 words. -/
def initialState : State :=
  { bus := [], cmd_burst := 0, fault_recovered := RetCode.E_OK, EVE_dma_busy := 0,
    EVE_dma_buffer := List.replicate 1025 0, EVE_dma_buffer_index := 0 }

/-- A chip that answers every 16-bit read with `value`: low byte on the first receive
of a read, high byte on the receive that follows another receive. -/
def constDevice (value : Nat) : Device := fun h =>
  match h.getLast? with
  | some (BusOp.receive _) => value / 256
  | _ => value % 256

/-! ## Call sequences -/

/-- One step of driver activity: a call of flow control, of the register access layer or
of a translated command wrapper, a transport primitive, or an assignment to one of the
globals other than the fault flag (as made by burst bracketing and the DMA callbacks).
Every function of the driver other than the two that write the fault flag runs as a
sequence of such steps. -/
inductive Call where
  | cs_set
  | cs_clear
  | transmit (data : Nat)
  | transmit_32 (data : Nat)
  | transmit_burst (data : Nat)
  | receive
  | delay (ms : Nat)
  | assign_cmd_burst (value : Nat)
  | assign_dma_busy (value : Nat)
  | assign_dma_buffer (index value : Nat)
  | assign_dma_buffer_index (value : Nat)
  | busy
  | execute_cmd (fuel : Nat)
  | get_and_reset_fault_state
  | cmdWrite (command parameter : Nat)
  | memRead8 (ft_address : Nat)
  | memRead16 (ft_address : Nat)
  | memRead32 (ft_address : Nat)
  | memWrite8 (ft_address ft_data : Nat)
  | memWrite16 (ft_address ft_data : Nat)
  | memWrite32 (ft_address ft_data : Nat)
  | cmd_dl (command : Nat)
  | cmd_dl_burst (command : Nat)
  | private_block_write (p_data : Ptr) (len : Nat)
  | block_transfer (fuel : Nat) (p_data : Ptr) (len : Nat)

/-- Whether the call is the read-and-reset of the sticky fault flag. -/
def Call.isReset : Call → Bool
  | Call.get_and_reset_fault_state => true
  | _ => false

/-- Whether the call polls the co-processor with `EVE_busy`, directly or in a wait. -/
def Call.polls : Call → Bool
  | Call.busy => true
  | Call.execute_cmd _ => true
  | Call.block_transfer _ _ _ => true
  | _ => false

/-- The state after one call; `none` when a wait inside it ran out of fuel. -/
def Call.run (cfg : Config) (dev : Device) : Call → State → Option State
  | Call.cs_set, s => some (EVE_cs_set s)
  | Call.cs_clear, s => some (EVE_cs_clear s)
  | Call.transmit data, s => some (spi_transmit data s)
  | Call.transmit_32 data, s => some (spi_transmit_32 data s)
  | Call.transmit_burst data, s => some (spi_transmit_burst cfg data s)
  | Call.receive, s => some (spi_receive dev 0 s).2
  | Call.delay ms, s => some (DELAY_MS ms s)
  | Call.assign_cmd_burst value, s => some { s with cmd_burst := value % 256 }
  | Call.assign_dma_busy value, s => some { s with EVE_dma_busy := value % 256 }
  | Call.assign_dma_buffer index value, s =>
      some { s with EVE_dma_buffer := s.EVE_dma_buffer.set index (value % 2 ^ 32) }
  | Call.assign_dma_buffer_index value, s =>
      some { s with EVE_dma_buffer_index := value % 65536 }
  | Call.busy, s => some (EVE_busy cfg dev s).2
  | Call.execute_cmd fuel, s => EVE_execute_cmd cfg dev fuel s
  | Call.get_and_reset_fault_state, s => some (EVE_get_and_reset_fault_state s).2
  | Call.cmdWrite command parameter, s => some (EVE_cmdWrite command parameter s)
  | Call.memRead8 ft_address, s => some (EVE_memRead8 dev ft_address s).2
  | Call.memRead16 ft_address, s => some (EVE_memRead16 dev ft_address s).2
  | Call.memRead32 ft_address, s => some (EVE_memRead32 dev ft_address s).2
  | Call.memWrite8 ft_address ft_data, s => some (EVE_memWrite8 ft_address ft_data s)
  | Call.memWrite16 ft_address ft_data, s => some (EVE_memWrite16 ft_address ft_data s)
  | Call.memWrite32 ft_address ft_data, s => some (EVE_memWrite32 ft_address ft_data s)
  | Call.cmd_dl command, s => some (EVE_cmd_dl cfg command s)
  | Call.cmd_dl_burst command, s => some (EVE_cmd_dl_burst cfg command s)
  | Call.private_block_write p_data len, s => some (EVE.private_block_write p_data len s)
  | Call.block_transfer fuel p_data len, s => EVE.block_transfer cfg dev fuel p_data len s

/-- The state after a sequence of calls, first call first. -/
def runCalls (cfg : Config) (dev : Device) : List Call → State → Option State
  | [], s => some s
  | c :: cs, s =>
      match c.run cfg dev s with
      | none => none
      | some s1 => runCalls cfg dev cs s1

/-- The bus operations that open a read of the free-space register: select and the
packed read word of `REG_CMDB_SPACE`. -/
def spaceReadOpen (cfg : Config) : List BusOp :=
  [BusOp.cs_set, BusOp.transmit_32 (readWord cfg.REG_CMDB_SPACE)]

/-- A read of the free-space register that starts in the part of history `after` that
follows `before` and whose low byte has the fault signature (low two bits nonzero). -/
def FaultRead (cfg : Config) (dev : Device) (before after : List BusOp) : Prop :=
  ∃ h t, before.length ≤ h.length ∧ after = h ++ spaceReadOpen cfg ++ t ∧
    dev (h ++ spaceReadOpen cfg) % 4 ≠ 0

/-- What every call other than the read-and-reset guarantees about the sticky flag:
history only grows, a set flag stays set, and a changed flag was set to FaultRecovered
by a free-space read with the fault signature. -/
def Tracks (cfg : Config) (dev : Device) (s s1 : State) : Prop :=
  (∃ t, s1.bus = s.bus ++ t) ∧
  (s.fault_recovered ≠ RetCode.E_OK → s1.fault_recovered ≠ RetCode.E_OK) ∧
  (s1.fault_recovered ≠ s.fault_recovered →
    s1.fault_recovered = RetCode.EVE_FAULT_RECOVERED ∧ FaultRead cfg dev s.bus s1.bus)

/-- What every call guarantees about a flag found set: history only grows, and a flag
that is set afterwards was set before or a free-space read had the fault signature. -/
def Clean (cfg : Config) (dev : Device) (s s1 : State) : Prop :=
  (∃ t, s1.bus = s.bus ++ t) ∧
  (s1.fault_recovered ≠ RetCode.E_OK →
    s.fault_recovered ≠ RetCode.E_OK ∨ FaultRead cfg dev s.bus s1.bus)

/-! ## Reading the trace: chip-select windows and FIFO writes -/

/-- The chip-select windows of a trace, scanning with `cur` the window under way (if
any): the operations between each `cs_set` and the `cs_clear` that follows it. -/
def csWindowsFrom : Option (List BusOp) → List BusOp → List (List BusOp)
  | _, [] => []
  | cur, op :: t =>
      match cur, op with
      | none, BusOp.cs_set => csWindowsFrom (some []) t
      | none, _ => csWindowsFrom none t
      | some w, BusOp.cs_clear => w :: csWindowsFrom none t
      | some w, op => csWindowsFrom (some (w ++ [op])) t

/-- The chip-select windows of a trace that starts with chip select clear. -/
def csWindows (trace : List BusOp) : List (List BusOp) :=
  csWindowsFrom none trace

/-- The bytes written to the command FIFO by a chip-select window, if the window opens
with the fixed selector `[0xB0, 0x25, 0x78]`. -/
def fifoPayload : List BusOp → Option (List Nat)
  | BusOp.transmit a :: BusOp.transmit b :: BusOp.transmit c :: rest =>
      if a = 0xB0 ∧ b = 0x25 ∧ c = 0x78 then some (txBytes rest) else none
  | _ => none

/-- The command-FIFO writes of a trace, in order: one list of bytes per chip-select
window that opens with the selector. -/
def fifoWrites (trace : List BusOp) : List (List Nat) :=
  (csWindows trace).filterMap fifoPayload

/-- A stretch of trace that holds no command-FIFO write, whatever follows it. -/
def Silent (trace : List BusOp) : Prop :=
  ∀ rest, fifoWrites (trace ++ rest) = fifoWrites rest

/-- The bus operations of one chunk of a block transfer in the spec's words: bus
selection re-opened, the selector, the chunk's bytes, deselect. -/
def chunkOps (bytes : List Nat) : List BusOp :=
  BusOp.cs_set :: BusOp.transmit 0xB0 :: BusOp.transmit 0x25 :: BusOp.transmit 0x78 ::
    (bytes.map BusOp.transmit ++ [BusOp.cs_clear])

/-- The number of chunks of a block transfer of `L` bytes in the spec's words:
`ceil(L/3840)`. -/
def chunkCount (L : Nat) : Nat :=
  (L + 3839) / 3840

/-- The payload length of chunk `k` of a block transfer of `L` bytes. -/
def chunkLen (L k : Nat) : Nat :=
  min 3840 (L - 3840 * k)

/-- The payload of chunk `k` of a block transfer of the `L` bytes at `p_data`. -/
def chunkPayload (p_data : Ptr) (L k : Nat) : List Nat :=
  (List.range (chunkLen L k)).map (fun i => p_data (3840 * k + i) % 256)

/-- The zero bytes that pad chunk `k` to a 4-byte boundary. -/
def chunkPadding (L k : Nat) : List Nat :=
  List.replicate ((4 - chunkLen L k % 4) % 4) 0

/-- The environment assumption of section 5 ("protocol guarantees eventual drain"):
on this chip every wait started with no DMA transfer in flight comes to an end. -/
def Drains (cfg : Config) (dev : Device) : Prop :=
  ∀ s : State, (cfg.EVE_DMA = true → s.EVE_dma_busy = 0) →
    ∃ fuel s1, EVE_execute_cmd cfg dev fuel s = some s1

/-- The registers written by fault recovery are not the command-FIFO port: none of them
has the write header `[0xB0, 0x25, 0x78]`. -/
def Config.recoveryAvoidsFifo (cfg : Config) : Prop :=
  ∀ a ∈ [cfg.REG_CPURESET, cfg.REG_CMD_READ, cfg.REG_CMD_WRITE, cfg.REG_CMD_DL,
      cfg.REG_COPRO_PATCH_PTR, cfg.REG_PCLK, cfg.REG_PCLK_FREQ],
    writeHeader a ≠ [0xB0, 0x25, 0x78]

/-- The command-FIFO writes of a block transfer of the `L` bytes at `p_data` in the
spec's words: `ceil(L/3840)` chunks, each its payload followed by its zero padding. -/
def chunkWrites (p_data : Ptr) (L : Nat) : List (List Nat) :=
  (List.range (chunkCount L)).map (fun k => chunkPayload p_data L k ++ chunkPadding L k)

/-! ## The transaction queue of the SRAM block write -/

/-- The function-static storage of `EVE_memWrite_sram_buffer` at start-up: four
zero-initialised descriptors, `index = 0`, `queued = 0`, no driver call made yet. -/
def initialQueue : SramQueue :=
  { EVE_spi_transaction :=
      List.replicate 4 { tx_buffer := none, length := 0, addr := 0, flags := 0 }
    index := 0, queued := 0, calls := [] }

/-- A sequence of `EVE_memWrite_sram_buffer` calls, first call first, each given by its
arguments `(ft_address, p_data, len)`. -/
def runSram (fl : SpiFlags) : List (Nat × Option Ptr × Nat) → SramQueue → SramQueue
  | [], q => q
  | (ft_address, p_data, len) :: rest, q =>
      runSram fl rest (EVE_memWrite_sram_buffer fl ft_address p_data len q)

/-- The number of submissions not yet reclaimed after the driver calls `calls`, starting
from `cur` outstanding ones: a submission adds one, an awaited completion removes one. -/
def outstandingFrom : Nat → List QueueOp → Nat
  | cur, [] => cur
  | cur, QueueOp.queue_trans _ _ :: t => outstandingFrom (cur + 1) t
  | cur, QueueOp.get_trans_result :: t => outstandingFrom (cur - 1) t

/-- Whether at no moment during the driver calls `calls`, started with `cur` outstanding
submissions, more than `limit` submissions are outstanding. -/
def withinLimit (limit : Nat) : Nat → List QueueOp → Bool
  | _, [] => true
  | cur, QueueOp.queue_trans _ _ :: t => decide (cur + 1 ≤ limit) && withinLimit limit (cur + 1) t
  | cur, QueueOp.get_trans_result :: t => withinLimit limit (cur - 1) t

/-- Whether a driver call is a submission. -/
def QueueOp.isQueue : QueueOp → Bool
  | QueueOp.queue_trans _ _ => true
  | QueueOp.get_trans_result => false

/-! ## Strings in the command stream: the two encodings -/

/-- The `m` bytes of the text at `p_text` from offset `start`. -/
def textBytes (p_text : Ptr) (start m : Nat) : List Nat :=
  (List.range m).map (fun i => p_text (start + i) % 256)

/-- The content of a string argument of `n` text bytes in the spec's words: the text
bytes one by one, then zero bytes up to the next 4-byte boundary, at least one. -/
def stringContent (p_text : Ptr) (n : Nat) : List Nat :=
  textBytes p_text 0 n ++ List.replicate (4 - n % 4) 0

/-- Packing of bytes into 32-bit words, four bytes per word, least-significant byte
first; an incomplete last group is left out. -/
def packWords : List Nat → List Nat
  | b0 :: b1 :: b2 :: b3 :: t =>
      (b0 + (b1 <<< 8) + (b2 <<< 16) + (b3 <<< 24)) :: packWords t
  | _ => []

/-- The bytes of a sequence of 32-bit words, each serialised least-significant byte
first. -/
def wordBytes (words : List Nat) : List Nat :=
  (words.map (leBytes 4)).flatten

/-- The state after the words are handed to `spi_transmit_burst` one after the other. -/
def burstAll (cfg : Config) (words : List Nat) (s : State) : State :=
  words.foldl (fun st w => spi_transmit_burst cfg w st) s

/-- The sample configuration without DMA: burst words go straight to the bus. -/
def sampleConfigNoDma : Config :=
  { sampleConfig with EVE_DMA := false }

/-- The driver's globals inside a burst (`cmd_burst = 42`), with an empty bus history. -/
def burstState : State :=
  { initialState with cmd_burst := 42 }

/-! ## Bounded waits and flash bring-up: vocabulary -/

/-- The number of reads of the register at `addr` that a trace opens: the occurrences of
its packed read word. -/
def countReads (addr : Nat) (trace : List BusOp) : Nat :=
  trace.count (BusOp.transmit_32 (readWord addr))

/-- One poll of a bounded wait of chip initialisation: 1 ms of delay, then an 8-bit read
of the register; `h` is the history before it. -/
def pollOps (dev : Device) (addr : Nat) (h : List BusOp) : List BusOp :=
  BusOp.delay_ms 1 :: readOps dev addr 1 (h ++ [BusOp.delay_ms 1])

/-- The value that the poll started after history `h` reads. -/
def pollValue (dev : Device) (addr : Nat) (h : List BusOp) : Nat :=
  readValue dev addr 1 (h ++ [BusOp.delay_ms 1])

/-- A bounded wait in the spec's words: poll the register up to `n` times and stop at the
first poll that reads a good value; the result says whether a poll was good, with the
trace of the polls made. -/
def pollUntil (dev : Device) (addr : Nat) (good : Nat → Bool) :
    Nat → List BusOp → Bool × List BusOp
  | 0, _ => (false, [])
  | n + 1, h =>
      if good (pollValue dev addr h) then (true, pollOps dev addr h)
      else
        ((pollUntil dev addr good n (h ++ pollOps dev addr h)).1,
          pollOps dev addr h ++ (pollUntil dev addr good n (h ++ pollOps dev addr h)).2)

/-- The chip id that ends the wait for the chip: `0x7C`. -/
def chipidGood (chipid : Nat) : Bool := decide (0x7c = chipid)

/-- The reset status that ends the wait for the reset: the three low bits clear. -/
def resetGood (reset : Nat) : Bool := decide (0 = reset &&& 7)

/-- A trace that holds nothing but polls of the register at `addr`: delays of 1 ms and the
operations of 8-bit reads of that register (no write header, no other read word). -/
def OnlyPolls (addr : Nat) (trace : List BusOp) : Prop :=
  ∀ op ∈ trace, op = BusOp.delay_ms 1 ∨ op = BusOp.cs_set ∨ op = BusOp.cs_clear ∨
    op = BusOp.transmit_32 (readWord addr) ∨ ∃ b, op = BusOp.receive b

/-- One poll of the wait of flash bring-up: an 8-bit read of the status register, then
1 ms of delay; `h` is the history before it. -/
def statusPollOps (dev : Device) (addr : Nat) (h : List BusOp) : List BusOp :=
  readOps dev addr 1 h ++ [BusOp.delay_ms 1]

/-- The wait of flash bring-up in the spec's words: while the status is `init`, poll the
status register, up to `n` times; the result is the last status with the trace of the
polls made. -/
def statusPollsWhile (dev : Device) (addr init : Nat) :
    Nat → Nat → List BusOp → Nat × List BusOp
  | 0, status, _ => (status, [])
  | n + 1, status, h =>
      if init = status then
        ((statusPollsWhile dev addr init n (readValue dev addr 1 h)
            (h ++ statusPollOps dev addr h)).1,
          statusPollOps dev addr h ++
            (statusPollsWhile dev addr init n (readValue dev addr 1 h)
              (h ++ statusPollOps dev addr h)).2)
      else (status, [])

/-- The trace of `n` polls of the status register in a row. -/
def statusPolls (dev : Device) (addr : Nat) : Nat → List BusOp → List BusOp
  | 0, _ => []
  | n + 1, h => statusPollOps dev addr h ++ statusPolls dev addr n (h ++ statusPollOps dev addr h)

/-- The outcome of the flash speed-up command in the spec's words: `0 → Ok`,
`0xE001 → FlashfastNotSupported`, `0xE002 → NoHeaderDetected`, `0xE003 → Sector0Failed`,
`0xE004 → BlobMismatch`, `0xE005 → SpeedTestFailed`, any other value → generic failure. -/
def flashfast_outcome (result : Nat) : RetCode :=
  match result with
  | 0 => RetCode.E_OK
  | 0xE001 => RetCode.EVE_FAIL_FLASHFAST_NOT_SUPPORTED
  | 0xE002 => RetCode.EVE_FAIL_FLASHFAST_NO_HEADER_DETECTED
  | 0xE003 => RetCode.EVE_FAIL_FLASHFAST_SECTOR0_FAILED
  | 0xE004 => RetCode.EVE_FAIL_FLASHFAST_BLOB_MISMATCH
  | 0xE005 => RetCode.EVE_FAIL_FLASHFAST_SPEED_TEST
  | _ => RetCode.E_NOT_OK

/-- The flash status codes are what the driver's comments take them to be: `Basic` is 2
(the literal the driver compares the re-polled status with), and the four codes differ
from each other. -/
def InitConfig.flashCodes (ic : InitConfig) : Prop :=
  ic.EVE_FLASH_STATUS_BASIC = 2 ∧
  [ic.EVE_FLASH_STATUS_INIT, ic.EVE_FLASH_STATUS_DETACHED, ic.EVE_FLASH_STATUS_BASIC,
    ic.EVE_FLASH_STATUS_FULL].Nodup

/-- The bus operations of a host command in the spec's words: select, the command byte,
the parameter byte, a zero byte, deselect. -/
def hostCommandOps (command parameter : Nat) : List BusOp :=
  [BusOp.cs_set, BusOp.transmit (command % 256), BusOp.transmit (parameter % 256),
    BusOp.transmit 0, BusOp.cs_clear]

/-- The bus operations of chip initialisation up to the wait for the chip id, in the
spec's words: `PowerDown`, `PowerUp`, (reset pulse,) `ClockSourceSelect`,
`ClockSpeedSelect` (generation-dependent), `Activate`, and the power-up delay. -/
def bootOps (cfg : Config) (ic : InitConfig) : List BusOp :=
  [BusOp.pdn_set, BusOp.delay_ms 6, BusOp.pdn_clear, BusOp.delay_ms 21] ++
  (if ic.EVE_GD3X then hostCommandOps ic.EVE_RST_PULSE 0 else []) ++
  (if ic.EVE_HAS_CRYSTAL then hostCommandOps ic.EVE_CLKEXT 0
    else hostCommandOps ic.EVE_CLKINT 0) ++
  (if cfg.EVE_GEN > 2 then hostCommandOps ic.EVE_CLKSEL 0x46 else []) ++
  hostCommandOps ic.EVE_ACTIVE 0 ++
  [BusOp.delay_ms 40]

/-- The bus operations of one co-processor command with its argument words, written to
the command FIFO in immediate mode: select, the selector, the words, deselect. -/
def commandOps (words : List Nat) : List BusOp :=
  BusOp.cs_set :: BusOp.transmit 0xB0 :: BusOp.transmit 0x25 :: BusOp.transmit 0x78 ::
    (words.map (fun w => BusOp.transmit_32 (w % 2 ^ 32)) ++ [BusOp.cs_clear])

/-- A sample board: a BT81x module with crystal and capacitive touch, 800x480 panel,
with the addresses and codes of the BT81x data sheet. -/
def sampleInit : InitConfig :=
  { EVE_GD3X := false, EVE_HAS_CRYSTAL := true, EVE_HAS_GT911 := false,
    EVE_ADAM101 := false, EVE_SET_REG_PCLK_2X := false, EVE_BACKLIGHT_PWM := none,
    EVE_TOUCH_RZTHRESH := none, EVE_ROTATE := none, EVE_HPOL := 0, EVE_VPOL := 0,
    EVE_RST_PULSE := 0x68, EVE_CLKEXT := 0x44, EVE_CLKINT := 0x48, EVE_CLKSEL := 0x61,
    EVE_ACTIVE := 0x00, CMD_FLASHATTACH := 0xFFFFFF49, CMD_FLASHFAST := 0xFFFFFF4A,
    EVE_FLASH_STATUS_INIT := 0, EVE_FLASH_STATUS_DETACHED := 1,
    EVE_FLASH_STATUS_BASIC := 2, EVE_FLASH_STATUS_FULL := 3,
    EVE_RAM_CMD := 0x308000, EVE_RAM_DL := 0x300000, REG_ID := 0x302000,
    REG_FLASH_STATUS := 0x3025f0, REG_FREQUENCY := 0x30200c, REG_TOUCH_CONFIG := 0x302168,
    REG_TOUCH_OVERSAMPLE := 0x302114, REG_GPIOX_DIR := 0x302098, REG_GPIOX := 0x30209c,
    REG_GPIO := 0x302094, REG_PWM_DUTY := 0x3020d4, REG_HSIZE := 0x302034,
    REG_HCYCLE := 0x30202c, REG_HOFFSET := 0x302030, REG_HSYNC0 := 0x302038,
    REG_HSYNC1 := 0x30203c, REG_VSIZE := 0x302048, REG_VCYCLE := 0x302040,
    REG_VOFFSET := 0x302044, REG_VSYNC0 := 0x30204c, REG_VSYNC1 := 0x302050,
    REG_SWIZZLE := 0x302064, REG_PCLK_POL := 0x30206c, REG_CSPREAD := 0x302068,
    REG_TOUCH_MODE := 0x302104, REG_TOUCH_RZTHRESH := 0x302118, REG_ROTATE := 0x302058,
    REG_VOL_PB := 0x302080, REG_VOL_SOUND := 0x302084, REG_SOUND := 0x302088,
    REG_DLSWAP := 0x302054, REG_OUTBITS := 0x30205c, REG_PCLK_2X := 0x302618,
    EVE_HSIZE := 800, EVE_HCYCLE := 928, EVE_HOFFSET := 88, EVE_HSYNC0 := 0,
    EVE_HSYNC1 := 48, EVE_VSIZE := 480, EVE_VCYCLE := 525, EVE_VOFFSET := 32,
    EVE_VSYNC0 := 0, EVE_VSYNC1 := 3, EVE_SWIZZLE := 0, EVE_PCLKPOL := 1,
    EVE_CSPREAD := 0, EVE_TMODE_CONTINUOUS := 3, EVE_MUTE := 0x60,
    DL_CLEAR_COLOR_RGB := 0x02000000, DL_CLEAR := 0x26000000, CLR_COL := 4, CLR_STN := 2,
    CLR_TAG := 1, DL_DISPLAY := 0, EVE_DLSWAP_FRAME := 2 }

/-- Whether a bus operation is a receive. -/
def BusOp.isReceive : BusOp → Bool
  | BusOp.receive _ => true
  | _ => false

/-- The read word of the read under way at the end of a history, if any: the last
operation that is not a receive, when it is a 32-bit transmit. -/
def lastReadWord (h : List BusOp) : Option Nat :=
  match (h.reverse.dropWhile BusOp.isReceive).head? with
  | some (BusOp.transmit_32 w) => some w
  | _ => none

/-- A scripted chip: the k-th read of the register at `statusAddr` answers the k-th
entry of `script` (0 beyond its end), a read at `resultAddr` answers the bytes of
`result`, least significant first, and every other read answers the bytes of `0x0FFC`,
the free space of an empty command FIFO. -/
def scriptDevice (statusAddr resultAddr : Nat) (script : List Nat) (result : Nat) : Device :=
  fun h =>
    match lastReadWord h with
    | some w =>
        if w = readWord statusAddr then script.getD (countReads statusAddr h - 1) 0
        else if w = readWord resultAddr then
          (result >>> (8 * (h.reverse.takeWhile BusOp.isReceive).length)) % 256
        else (0x0FFC >>> (8 * (h.reverse.takeWhile BusOp.isReceive).length)) % 256
    | none => 0

/-- A chip that comes up late: the reads of the register at `addr` answer `early` until
the k-th one, which answers `late`, as does every later one. -/
def lateDevice (addr k early late : Nat) : Device := fun h =>
  if k ≤ countReads addr h then late else early

/-- A chip whose id first reads `0x7C` on the 401st read of the chip-id register. -/
def lateChip : Device := lateDevice sampleInit.REG_ID 401 0 0x7C

/-- A chip whose reset bits first read clear on the 51st read of the reset register. -/
def lateReset : Device := lateDevice sampleConfig.REG_CPURESET 51 7 0

/-- A healthy chip: it shows the chip id `0x7C`, its reset bits read clear and its
command FIFO reads empty. -/
def healthyChip : Device := scriptDevice sampleConfig.REG_CPURESET sampleInit.REG_ID [] 0x7C

/-- What every step of initialisation does to the state as far as the waits care: the
bus history only grows and the DMA-in-flight flag is left alone. -/
def Grows (s s1 : State) : Prop :=
  (∃ t, s1.bus = s.bus ++ t) ∧ s1.EVE_dma_busy = s.EVE_dma_busy

/-! ## Readback of command results: vocabulary -/

/-- The Command-RAM offset of a result word in the spec's words: `(w - k) mod 4096`,
the position `k` bytes behind the write pointer `w` in the circular 4096-byte region. -/
def ringOffset (w k : Nat) : Nat :=
  (((w : Int) - (k : Int)) % 4096).toNat

/-- The bus operations of 32-bit reads at the given addresses, made one after the other;
`h` is the history before them. -/
def wordReads (dev : Device) : List Nat → List BusOp → List BusOp
  | [], _ => []
  | a :: t, h => readOps dev a 4 h ++ wordReads dev t (h ++ readOps dev a 4 h)

/-- The values that the reads of `wordReads` return, in the order of the reads. -/
def wordValues (dev : Device) : List Nat → List BusOp → List Nat
  | [], _ => []
  | a :: t, h => readValue dev a 4 h :: wordValues dev t (h ++ readOps dev a 4 h)

/-- The addresses of the result words that lie `k` bytes behind the write pointer `w`,
for the distances `ks`, in the Command RAM at `base`. -/
def resultAddrs (base w : Nat) (ks : List Nat) : List Nat :=
  ks.map (fun k => (base + ringOffset w k) % 2 ^ 32)

/-- Sample constants of the readback commands and the calibration, with the codes and
addresses of the BT81x data sheet. -/
def sampleCmd : CmdConfig :=
  { CMD_GETIMAGE := 0xFFFFFF64, CMD_GETMATRIX := 0xFFFFFF33, CMD_DLSTART := 0xFFFFFF00,
    CMD_SWAP := 0xFFFFFF01, CMD_TEXT := 0xFFFFFF0C, DL_COLOR_RGB := 0x04000000,
    DL_BEGIN := 0x1F000000, DL_END := 0x21000000, EVE_POINTS := 2, EVE_OPT_CENTER := 1536,
    POINT_SIZE := fun size => 0x0D000000 ||| (size &&& 8191),
    VERTEX2F := fun x y => 0x40000000 ||| ((x &&& 32767) <<< 15) ||| (y &&& 32767),
    REG_TOUCH_DIRECT_XY := 0x30218c, REG_TOUCH_TRANSFORM_A := 0x302150,
    REG_TOUCH_TRANSFORM_B := 0x302154, REG_TOUCH_TRANSFORM_C := 0x302158,
    REG_TOUCH_TRANSFORM_D := 0x30215c, REG_TOUCH_TRANSFORM_E := 0x302160,
    REG_TOUCH_TRANSFORM_F := 0x302164 }

/-! ## Burst entry: vocabulary -/

/-- The states the driver is in after each poll of a wait of at most `n` polls that
starts in `s` with no interruption. -/
def pollStates (cfg : Config) (dev : Device) : Nat → State → List State
  | 0, _ => []
  | n + 1, s =>
      (EVE_busy cfg dev s).2 ::
        (if (EVE_busy cfg dev s).1 ≠ RetCode.E_OK then pollStates cfg dev n (EVE_busy cfg dev s).2
          else [])

/-- The states the driver is in after each step (a poll, or the transfer-complete
callback) of a wait of at most `n` polls that starts in `s` and that the callback
interrupts before the poll numbered `irq`. -/
def waitStates (cfg : Config) (dev : Device) : Nat → Nat → State → List State
  | 0, n, s =>
      eve_spi_post_transfer_callback cfg s ::
        pollStates cfg dev n (eve_spi_post_transfer_callback cfg s)
  | _ + 1, 0, _ => []
  | irq + 1, n + 1, s =>
      (EVE_busy cfg dev s).2 ::
        (if (EVE_busy cfg dev s).1 ≠ RetCode.E_OK then waitStates cfg dev irq n (EVE_busy cfg dev s).2
          else [])

/-- What burst entry must leave alone while it drains: the stream mode, the DMA buffer
and the buffer index of `x` are those of `s`. -/
def BurstUntouched (s x : State) : Prop :=
  x.cmd_burst = s.cmd_burst ∧ x.EVE_dma_buffer = s.EVE_dma_buffer ∧
    x.EVE_dma_buffer_index = s.EVE_dma_buffer_index

/-! ## The wait loop against a sequence of free-space values -/

/-- The chip shows the free-space values `seq` to the polls that follow history `h0`:
whatever else happens on the bus, the poll that follows `i` earlier polls reads `seq i`. -/
def ShowsSpace (cfg : Config) (dev : Device) (h0 : List BusOp) (seq : Nat → Nat) : Prop :=
  ∀ h, readValue dev cfg.REG_CMDB_SPACE 2 (h0 ++ h) = seq (countReads cfg.REG_CMDB_SPACE h)

/-- The bus operations of `n` polls of the free-space register that read the values
`seq 0`, `seq 1`, ..: each poll is one 16-bit read, followed by the fault-recovery
sequence exactly when the value read has a nonzero low two bits; `h` is the history
before them. -/
def spaceWaitOps (cfg : Config) (dev : Device) : (Nat → Nat) → Nat → List BusOp → List BusOp
  | _, 0, _ => []
  | seq, n + 1, h =>
      (readOps dev cfg.REG_CMDB_SPACE 2 h ++
        (if seq 0 &&& 3 ≠ 0 then recoverOps cfg dev (h ++ readOps dev cfg.REG_CMDB_SPACE 2 h)
          else [])) ++
      spaceWaitOps cfg dev (fun j => seq (j + 1)) n
        (h ++ (readOps dev cfg.REG_CMDB_SPACE 2 h ++
          (if seq 0 &&& 3 ≠ 0 then recoverOps cfg dev (h ++ readOps dev cfg.REG_CMDB_SPACE 2 h)
            else [])))

/-- The number of values among `seq 0 .. seq (n-1)` with a nonzero low two bits (the
fault signature). -/
def faultCount (seq : Nat → Nat) (n : Nat) : Nat :=
  ((List.range n).filter (fun i => decide (seq i &&& 3 ≠ 0))).length

/-- The patch-pointer register, read by fault recovery on generations 3 and 4, is not the
free-space register: a recovery is not taken for a poll. -/
def Config.patchApart (cfg : Config) : Prop :=
  cfg.EVE_GEN > 2 → readWord cfg.REG_COPRO_PATCH_PTR ≠ readWord cfg.REG_CMDB_SPACE

/-- A chip whose register at `addr` reads the values of `seq` one after the other: the
read that follows `i` earlier reads of it answers the 16 bits of `seq i`, low byte first;
every other read answers 0. -/
def seqDevice (addr : Nat) (seq : Nat → Nat) : Device := fun h =>
  match lastReadWord h with
  | some w =>
      if w = readWord addr then
        (seq (countReads addr h - 1) >>>
          (8 * (h.reverse.takeWhile BusOp.isReceive).length)) % 256
      else 0
  | none => 0

/-- A sample run of the free space: half full, then a fault signature, then empty for
good. -/
def sampleSpace (i : Nat) : Nat := [0x800, 0xFFD, 0xFFC].getD i 0xFFC

/-! ## The reset wait against a sequence of status values -/

/-- The chip shows the values `seq` to the polls of the register at `addr` that follow
history `h0`: the poll that follows `i` earlier polls reads `seq i`. -/
def ShowsPolls (dev : Device) (addr : Nat) (h0 : List BusOp) (seq : Nat → Nat) : Prop :=
  ∀ h, pollValue dev addr (h0 ++ h) = seq (countReads addr h)

/-- A chip coming out of reset: the reset register reads all three units in reset, then
the audio unit alone with the upper bits set, then all three running with the upper bits
still set, then zero. -/
def resettingChip : Device :=
  scriptDevice sampleConfig.REG_CPURESET sampleInit.REG_ID [0x07, 0xF9, 0xF8] 0x7C

/-! ## Reading the trace: register writes -/

/-- The bytes of the register write made by a chip-select window: a window that opens
with a byte transmit, the first byte of a write header, gives the bytes it sends, header
first; a window that opens otherwise (a read) gives none. -/
def writeWindow : List BusOp → Option (List Nat)
  | BusOp.transmit a :: rest => some (a :: txBytes rest)
  | _ => none

/-- The register writes of a trace, in order: the bytes of each chip-select window that
opens with a write header (those of the command-FIFO port included). -/
def registerWrites (trace : List BusOp) : List (List Nat) :=
  (csWindows trace).filterMap writeWindow

/-- A stretch of trace made of whole chip-select windows: its windows are read off
without regard to what follows. -/
def Whole (t : List BusOp) : Prop :=
  ∀ rest, csWindows (t ++ rest) = csWindows t ++ csWindows rest

/-! ## Touch calibration: the exact solve -/

/-- A value that an `int32_t` can hold. -/
def InInt32 (x : Int) : Prop := -2 ^ 31 ≤ x ∧ x < 2 ^ 31

/-- A value that an `int64_t` can hold. -/
def InInt64 (x : Int) : Prop := -2 ^ 63 ≤ x ∧ x < 2 ^ 63

/-- The determinant of three touch samples over the integers. -/
def detExact (x0 y0 x1 y1 x2 y2 : Int) : Int :=
  (x0 - x2) * (y1 - y2) - (x1 - x2) * (y0 - y2)

/-- The numerator of the coefficients A and D over the integers, for the display
coordinates `d0 d1 d2`. -/
def num0Exact (d0 d1 d2 y0 y1 y2 : Int) : Int :=
  (d0 - d2) * (y1 - y2) - (d1 - d2) * (y0 - y2)

/-- The numerator of the coefficients B and E over the integers. -/
def num1Exact (d0 d1 d2 x0 x1 x2 : Int) : Int :=
  (x0 - x2) * (d1 - d2) - (d0 - d2) * (x1 - x2)

/-- The numerator of the coefficients C and F over the integers. -/
def num2Exact (d0 d1 d2 x0 y0 x1 y1 x2 y2 : Int) : Int :=
  y0 * (x2 * d1 - x1 * d2) + y1 * (x0 * d2 - x2 * d0) + y2 * (x1 * d0 - x0 * d1)

/-- A raw touch coordinate, as the sampling masks it: `0 .. 1023`. -/
def RawCoord (x : Int) : Prop := 0 ≤ x ∧ x ≤ 1023

/-- Three points of the plane on one line: some line `a*x + b*y = c`, with `a` and `b`
not both zero, passes through all three (as it does when two or three of them
coincide). -/
def Collinear3 (x0 y0 x1 y1 x2 y2 : Int) : Prop :=
  ∃ a b c : Int, (a ≠ 0 ∨ b ≠ 0) ∧ a * x0 + b * y0 = c ∧ a * x1 + b * y1 = c ∧
    a * x2 + b * y2 = c

/-- An expression of the solve computes `v` whenever it is defined. -/
def Agrees (x : Except ArithError Int) (v : Int) : Prop :=
  ∀ c, x = Except.ok c → c = v ∧ InInt32 c

/-- An expression of the solve that, when undefined, is so by signed overflow. -/
def OverflowOnly {α : Type} (x : Except ArithError α) : Prop :=
  ∀ e, x = Except.error e → e = ArithError.signed_overflow

/-- The coefficient of the spec for the numerator `num` and the determinant `d`:
`num * 65536 / d` truncated toward zero. -/
def coefficientExact (num d : Int) : Int :=
  Int.tdiv (num * 65536) d

/-! ## Touch calibration: the trace -/

/-- A chip for the calibration: the read of the raw touch register at `addr` that
follows `i` earlier reads of it answers the 32 bits of the i-th entry of `script`
(`0x80000000`, no touch, beyond its end), low byte first; every other read answers the
bytes of `0x0FFC`, the free space of an empty command FIFO. -/
def touchDevice (addr : Nat) (script : List Nat) : Device := fun h =>
  match lastReadWord h with
  | some w =>
      if w = readWord addr then
        (script.getD (countReads addr h - 1) 0x80000000 >>>
          (8 * (h.reverse.takeWhile BusOp.isReceive).length)) % 256
      else (0x0FFC >>> (8 * (h.reverse.takeWhile BusOp.isReceive).length)) % 256
  | none => 0

/-- The scan for the zero terminator from offset `i` over at most `k` bytes: the offset
of the first zero byte, or `i + k` when none of the `k` bytes is zero. -/
def terminatorScan (p_text : Ptr) : Nat → Nat → Nat
  | 0, i => i
  | k + 1, i => if p_text i % 256 = 0 then i else terminatorScan p_text k (i + 1)

/-- The emitted length of a text in the spec's words: the length before the zero
terminator, or 249 when the first 249 bytes hold no terminator. -/
def emittedLength (p_text : Ptr) : Nat := terminatorScan p_text 249 0

/-- A text of 248 bytes `0x41` followed by its terminator. -/
def alignedText : Ptr := fun i => if i < 248 then 0x41 else 0

/-! ## Touch calibration: the exact affine map -/

/-- The exact affine map with the coefficients `a / d`, `b / d`, `c / d`, applied to the
point `(x, y)`, over the rationals. -/
def affineExact (a b c d x y : Int) : ℚ :=
  (a : ℚ) / (d : ℚ) * (x : ℚ) + (b : ℚ) / (d : ℚ) * (y : ℚ) + (c : ℚ) / (d : ℚ)

/-! ## Touch calibration: the stream of touch reads -/

/-- The bus history after `i` consecutive 32-bit reads of the register at `addr` that
start after the history `h`. -/
def readsFrom (dev : Device) (addr : Nat) : Nat → List BusOp → List BusOp
  | 0, h => h
  | i + 1, h => readsFrom dev addr i (h ++ readOps dev addr 4 h)

/-- The stream of values that consecutive 32-bit reads of the register at `addr` return
after the history `h`: entry `i` is the value of the read that follows `i` earlier
ones. -/
def touchStream (dev : Device) (addr : Nat) (h : List BusOp) (i : Nat) : Nat :=
  readValue dev addr 4 (readsFrom dev addr i h)

/-- Entry `k` of the stream `v` is the first read with bit 31 clear (touch present) that
follows at least one read with bit 31 set (no touch). -/
def FirstTouchAfterRelease (v : Nat → Nat) (k : Nat) : Prop :=
  (v k &&& 0x80000000 = 0 ∧ ∃ j, j < k ∧ v j &&& 0x80000000 ≠ 0) ∧
  ∀ n, n < k → ¬ (v n &&& 0x80000000 = 0 ∧ ∃ j, j < n ∧ v j &&& 0x80000000 ≠ 0)

/-- What a wait for a touch that starts in state `s` leaves when it samples entry `k` of
the stream: `touch_x = (v >> 16) & 0x3FF` and `touch_y = v & 0x3FF` of that read `v`,
`touch_lock` set again, and the bus history of the `k + 1` reads made. -/
def sampleResult (dev : Device) (addr : Nat) (s : State) (k : Nat) : Int × Int × Nat × State :=
  ((((touchStream dev addr s.bus k >>> 16) &&& 0x03FF : Nat) : Int),
    ((touchStream dev addr s.bus k &&& 0x03FF : Nat) : Int), 1,
    { s with bus := readsFrom dev addr (k + 1) s.bus })

/-- A user who holds a touch at (16,16) when the calibration starts, lifts, taps the first
dot at (100,100) and keeps the finger down across the second prompt, lifts, taps the
second dot at (900,500), lifts, and taps the third at (500,900). -/
def heldTaps : List Nat :=
  [0x00100010, 0x80000000, 0x00640064, 0x00640064, 0x00640064, 0x80000000, 0x038401F4,
    0x80000000, 0x01F40384]

/-- The state in which the wait for the sample number `count` begins: the prompt for the
dot has been drawn and the command FIFO has drained; `none` when the drain runs out of
fuel. -/
def waitStart (cfg : Config) (ic : InitConfig) (cc : CmdConfig) (dev : Device)
    (fuel width : Nat) (display_x display_y : List Int) (count : Nat) (s : State) :
    Option State :=
  EVE_execute_cmd cfg dev fuel (calibrate_prompt cfg ic cc width display_x display_y count s)

/-! ## The address phase of a queued transaction -/

/-- The bytes of the address phase of a transaction of the SPI master driver, in the
spec's words: the low `bits` bits of `addr`, most significant byte first. -/
def addressPhase (bits addr : Nat) : List Nat :=
  (List.range (bits / 8)).map (fun i => (addr >>> (8 * (bits / 8 - 1 - i))) % 256)

/-! ## Commands with 16-bit arguments: the two encodings -/

/-- The bytes of a list of 16-bit arguments, each serialised low byte first. -/
def halfBytes (args : List Nat) : List Nat :=
  (args.map (leBytes 2)).flatten

/-- The 32-bit words that the spec packs from 16-bit arguments: pairs as
`low + (high << 16)`, a trailing single argument as a word of its own. -/
def pairWords : List Nat → List Nat
  | a :: b :: t => (a + (b <<< 16)) :: pairWords t
  | [a] => [a]
  | [] => []

/-- The two zero bytes that follow a trailing single 16-bit argument. -/
def halfPadding (args : List Nat) : List Nat :=
  if args.length % 2 = 1 then [0, 0] else []

/-- The bus operations of a command in immediate mode, in the spec's words: select, the
selector of the command FIFO, the opcode and the leading 32-bit arguments `pre` as 32-bit
transmits, the 16-bit arguments `args` byte by byte with their padding, deselect. -/
def immediateOps (cmd : Nat) (pre args : List Nat) : List BusOp :=
  BusOp.cs_set :: ([0xB0, 0x25, 0x78].map BusOp.transmit ++
    (cmd :: pre).map (fun w => BusOp.transmit_32 (w % 2 ^ 32)) ++
    (halfBytes args ++ halfPadding args).map BusOp.transmit ++ [BusOp.cs_clear])

/-- Sample command codes of the widget and colour commands. -/
def sampleWidget : WidgetConfig :=
  { CMD_BGCOLOR := 0xFFFFFF09, CMD_CLOCK := 0xFFFFFF14, CMD_DIAL := 0xFFFFFF2D,
    CMD_FGCOLOR := 0xFFFFFF0A, CMD_GAUGE := 0xFFFFFF13, CMD_GRADCOLOR := 0xFFFFFF34,
    CMD_PROGRESS := 0xFFFFFF0F, CMD_SCROLLBAR := 0xFFFFFF11, CMD_SETBITMAP := 0xFFFFFF43 }

/-! ## The colour commands: the two encodings -/

/-- The bus operations of a command with a byte payload in immediate mode: select, the
selector of the command FIFO, the opcode as a 32-bit transmit, the payload bytes,
deselect. -/
def payloadOps (cmd : Nat) (payload : List Nat) : List BusOp :=
  BusOp.cs_set :: ([0xB0, 0x25, 0x78].map BusOp.transmit ++
    [BusOp.transmit_32 (cmd % 2 ^ 32)] ++ payload.map BusOp.transmit ++ [BusOp.cs_clear])

/-! ## The transaction queue of the SRAM block write: order of reuse -/

/-- The number of calls in a sequence of `EVE_memWrite_sram_buffer` calls that have a
buffer and a length above zero. -/
def validCalls (calls : List (Nat × Option Ptr × Nat)) : Nat :=
  (calls.filter (fun c => c.2.1.isSome && decide (0 < c.2.2))).length

/-- The driver's queue after the driver calls `ops`, started with `st.1` submissions made
and the submissions `st.2` outstanding, oldest first: a submission is numbered and joins
the end with its slot, an awaited completion removes the oldest. -/
def replayQueue : Nat × List (Nat × Nat) → List QueueOp → Nat × List (Nat × Nat)
  | st, [] => st
  | (m, fifo), QueueOp.queue_trans slot _ :: t => replayQueue (m + 1, fifo ++ [(m + 1, slot)]) t
  | (m, fifo), QueueOp.get_trans_result :: t => replayQueue (m, fifo.tail) t

/-- The last four of the submissions `1 .. n`, oldest first, submission `m` paired with
the slot `(m - 1) % 4`. -/
def lastFour (n : Nat) : List (Nat × Nat) :=
  ((List.range n).map (fun i => (i + 1, i % 4))).drop (n - 4)

/-! ## Fill of chip memory: the trace -/

/-- The bus operations of a fill in the spec's words: select, the write header, `n`
copies of the 32-bit word, deselect. -/
def fillOps (addr data n : Nat) : List BusOp :=
  BusOp.cs_set :: ((writeHeader addr).map BusOp.transmit ++
    List.replicate n (BusOp.transmit_32 (data % 2 ^ 32)) ++ [BusOp.cs_clear])

/-! ## The frame blit: sizes of the blocks -/

/-- The sizes in bytes of the blocks submitted by the driver calls `ops`, in order; the
descriptor carries the size in bits. -/
def submittedBytes : List QueueOp → List Nat
  | [] => []
  | QueueOp.queue_trans _ t :: rest => t.length / 8 :: submittedBytes rest
  | QueueOp.get_trans_result :: rest => submittedBytes rest

/-! ## Arithmetic of masks and shifts -/

theorem and_0xFF (x : Nat) : x &&& 0xFF = x % 256 :=
  Nat.and_pow_two_sub_one_eq_mod x 8

theorem and_0x7F (x : Nat) : x &&& 0x7F = x % 128 :=
  Nat.and_pow_two_sub_one_eq_mod x 7

theorem and_3 (x : Nat) : x &&& 3 = x % 4 :=
  Nat.and_pow_two_sub_one_eq_mod x 2

theorem and_0xFF00 (x : Nat) : x &&& 0xFF00 = ((x / 256) % 256) * 256 := by
  have h : (0xFF00 : Nat) = (2 ^ 8 - 1) <<< 8 := by decide
  have e : ((x / 256) % 256) * 256 = ((x >>> 8) % 2 ^ 8) <<< 8 := by
    rw [Nat.shiftLeft_eq, Nat.shiftRight_eq_div_pow]
    rfl
  rw [h, e]
  apply Nat.eq_of_testBit_eq
  intro i
  simp only [Nat.testBit_and, Nat.testBit_shiftLeft, Nat.testBit_two_pow_sub_one,
    Nat.testBit_mod_two_pow, Nat.testBit_shiftRight]
  by_cases h8 : 8 ≤ i
  · have : 8 + (i - 8) = i := by omega
    simp [h8, this, Bool.and_comm]
  · simp [h8]

theorem or_0x80 (x : Nat) : (x % 256) ||| 0x80 = (x % 128) + 128 := by
  have h : (x % 128) + 128 = (x % 2 ^ 7) ||| 2 ^ 7 := by
    have := @Nat.mul_add_lt_is_or 7 (x % 2 ^ 7) (Nat.mod_lt _ (by decide)) 1
    rw [Nat.lor_comm, Nat.mul_one] at this
    rw [← this]
    exact Nat.add_comm _ _
  have e1 : (x % 256) ||| 0x80 = (x % 2 ^ 8) ||| 2 ^ 7 := rfl
  rw [h, e1]
  apply Nat.eq_of_testBit_eq
  intro i
  simp only [Nat.testBit_or, Nat.testBit_mod_two_pow, Nat.testBit_two_pow]
  by_cases a : i < 7
  · have : i < 8 := by omega
    simp [a, this]
  · by_cases b : i = 7
    · subst b; simp
    · have : ¬ i < 8 := by omega
      simp [a, this]

theorem readWord_eq (a : Nat) :
    readWord a = (a / 65536) % 128 + ((a / 256) % 256) * 256 + (a % 256) * 65536 := by
  unfold readWord
  rw [and_0x7F, and_0xFF00, and_0xFF, Nat.shiftRight_eq_div_pow, Nat.shiftLeft_eq]

theorem readWord_lt (a : Nat) : readWord a < 2 ^ 24 := by
  rw [readWord_eq]
  have h1 := Nat.mod_lt (a / 65536) (show 0 < 128 by decide)
  have h2 := Nat.mod_lt (a / 256) (show 0 < 256 by decide)
  have h3 := Nat.mod_lt a (show 0 < 256 by decide)
  omega

theorem or_0x80_of_and (x : Nat) : (x &&& 0x7F) ||| 0x80 = (x % 128) + 128 := by
  have h := or_0x80 (x % 128)
  rw [Nat.mod_eq_of_lt (by omega : x % 128 < 256), Nat.mod_mod] at h
  rw [and_0x7F]
  exact h

theorem hdr_high (x : Nat) : (x % 256) ||| 0x80 = (x &&& 0x7F) ||| 0x80 := by
  rw [or_0x80, or_0x80_of_and]

theorem hdr_high_lt (x : Nat) : (x &&& 0x7F) ||| 0x80 < 256 := by
  rw [or_0x80_of_and]; omega

theorem leBytes_one (v : Nat) : leBytes 1 v = [v % 256] := by
  simp [leBytes, List.range, List.range.loop]

theorem leBytes_two (v : Nat) : leBytes 2 v = [v % 256, (v / 256) % 256] := by
  simp [leBytes, List.range, List.range.loop, Nat.shiftRight_eq_div_pow]

theorem leBytes_four (v : Nat) :
    leBytes 4 v = [v % 256, (v / 256) % 256, (v / 65536) % 256, (v / 16777216) % 256] := by
  simp [leBytes, List.range, List.range.loop, Nat.shiftRight_eq_div_pow]

theorem txBytes_append (xs ys : List BusOp) : txBytes (xs ++ ys) = txBytes xs ++ txBytes ys := by
  induction xs with
  | nil => rfl
  | cons x t ih => cases x <;> simp [txBytes, ih]

theorem txBytes_map_transmit (bs : List Nat) : txBytes (bs.map BusOp.transmit) = bs := by
  induction bs with
  | nil => rfl
  | cons b t ih => simp [txBytes, ih]

theorem shr8 (x : Nat) : x >>> 8 = x / 256 := Nat.shiftRight_eq_div_pow x 8

theorem shr16 (x : Nat) : x >>> 16 = x / 65536 := Nat.shiftRight_eq_div_pow x 16

theorem txBytes_readWord (a : Nat) :
    txBytes [BusOp.transmit_32 (readWord a)]
      = [(a >>> 16) &&& 0x7F, (a >>> 8) &&& 0xFF, a &&& 0xFF, 0x00] := by
  rw [readWord_eq, and_0x7F, and_0xFF, and_0xFF, shr8, shr16]
  have h1 := Nat.mod_lt (a / 65536) (show 0 < 128 by decide)
  have h2 := Nat.mod_lt (a / 256) (show 0 < 256 by decide)
  have h3 := Nat.mod_lt a (show 0 < 256 by decide)
  generalize a / 65536 % 128 = x at *
  generalize a / 256 % 256 = y at *
  generalize a % 256 = z at *
  simp only [txBytes, List.cons.injEq, and_true]
  refine ⟨?_, ?_, ?_, ?_⟩ <;> omega

theorem rxBytes_length (dev : Device) (n : Nat) (h : List BusOp) :
    (rxBytes dev n h).length = n := by
  induction n generalizing h with
  | zero => rfl
  | succ n ih => simp [rxBytes, ih]

theorem shl_or (k x b : Nat) (h : b < 2 ^ k) : (x <<< k) ||| b = x * 2 ^ k + b := by
  rw [Nat.shiftLeft_eq, Nat.mul_comm, ← Nat.mul_add_lt_is_or h x]

theorem memRead16_value (r0 r1 : Nat) (h0 : r0 < 256) (h1 : r1 < 256) :
    ((r1 <<< 8) ||| r0) % 65536 = r0 + 256 * r1 := by
  rw [shl_or 8 r1 r0 (by omega)]
  omega

theorem memRead32_value (r0 r1 r2 r3 : Nat) (h0 : r0 < 256) (h1 : r1 < 256) (h2 : r2 < 256)
    (h3 : r3 < 256) :
    ((r3 <<< 24) ||| (((r2 <<< 16) ||| (((r1 <<< 8) ||| r0) % 2 ^ 32)) % 2 ^ 32)) % 2 ^ 32
      = r0 + 256 * (r1 + 256 * (r2 + 256 * r3)) := by
  rw [shl_or 8 r1 r0 (by omega)]
  have e1 : (r1 * 2 ^ 8 + r0) % 2 ^ 32 = r1 * 256 + r0 := by omega
  rw [e1, shl_or 16 r2 _ (by omega)]
  have e2 : (r2 * 2 ^ 16 + (r1 * 256 + r0)) % 2 ^ 32 = r2 * 65536 + r1 * 256 + r0 := by omega
  rw [e2, shl_or 24 r3 _ (by omega)]
  omega

/-! ## Effect of the register access layer on the trace -/

theorem EVE_memWrite8_eq (a v : Nat) (s : State) :
    EVE_memWrite8 a v s = { s with bus := s.bus ++ writeOps a (leBytes 1 v) } := by
  have h0 : ((a >>> 16) % 256 ||| 0x80) % 256 = ((a >>> 16) &&& 0x7F) ||| 0x80 := by
    rw [hdr_high]; exact Nat.mod_eq_of_lt (hdr_high_lt _)
  have h1 : (a >>> 8) % 256 % 256 = (a >>> 8) &&& 0xFF := by rw [and_0xFF, Nat.mod_mod]
  have h2 : (a &&& 0xFF) % 256 % 256 = a &&& 0xFF := by rw [and_0xFF, Nat.mod_mod, Nat.mod_mod]
  simp only [EVE_memWrite8, EVE_cs_set, EVE_cs_clear, spi_transmit, MEM_WRITE, writeHeader,
    writeOps, leBytes_one, h0, h1, h2]
  simp

theorem EVE_memWrite16_eq (a v : Nat) (s : State) :
    EVE_memWrite16 a v s = { s with bus := s.bus ++ writeOps a (leBytes 2 v) } := by
  have h0 : ((a >>> 16) % 256 ||| 0x80) % 256 = ((a >>> 16) &&& 0x7F) ||| 0x80 := by
    rw [hdr_high]; exact Nat.mod_eq_of_lt (hdr_high_lt _)
  have h1 : (a >>> 8) % 256 % 256 = (a >>> 8) &&& 0xFF := by rw [and_0xFF, Nat.mod_mod]
  have h2 : (a &&& 0xFF) % 256 % 256 = a &&& 0xFF := by rw [and_0xFF, Nat.mod_mod, Nat.mod_mod]
  have h3 : (v &&& 0xFF) % 256 % 256 = v % 256 := by rw [and_0xFF, Nat.mod_mod, Nat.mod_mod]
  have h4 : (v >>> 8) % 256 % 256 = (v / 256) % 256 := by
    rw [Nat.mod_mod, Nat.shiftRight_eq_div_pow]
  simp only [EVE_memWrite16, EVE_cs_set, EVE_cs_clear, spi_transmit, MEM_WRITE, writeHeader,
    writeOps, leBytes_two, h0, h1, h2, h3, h4]
  simp

theorem EVE_memWrite32_eq (a v : Nat) (s : State) :
    EVE_memWrite32 a v s = { s with bus := s.bus ++ BusOp.cs_set ::
      ((writeHeader a).map BusOp.transmit ++
        [BusOp.transmit_32 (v % 2 ^ 32), BusOp.cs_clear]) } := by
  have h0 : ((a >>> 16) % 256 ||| 0x80) % 256 = ((a >>> 16) &&& 0x7F) ||| 0x80 := by
    rw [hdr_high]; exact Nat.mod_eq_of_lt (hdr_high_lt _)
  have h1 : (a >>> 8) % 256 % 256 = (a >>> 8) &&& 0xFF := by rw [and_0xFF, Nat.mod_mod]
  have h2 : (a &&& 0xFF) % 256 % 256 = a &&& 0xFF := by rw [and_0xFF, Nat.mod_mod, Nat.mod_mod]
  simp only [EVE_memWrite32, EVE_cs_set, EVE_cs_clear, spi_transmit, spi_transmit_32,
    MEM_WRITE, writeHeader, h0, h1, h2]
  simp

theorem readWord_mod (a : Nat) :
    (((a >>> 16) &&& 0x7f) + (a &&& 0xff00) + ((a &&& 0xff) <<< 16)) % 2 ^ 32 = readWord a :=
  Nat.mod_eq_of_lt (Nat.lt_of_lt_of_le (readWord_lt a) (by decide))

theorem EVE_memRead8_eq (dev : Device) (a : Nat) (s : State) :
    EVE_memRead8 dev a s =
      (readValue dev a 1 s.bus, { s with bus := s.bus ++ readOps dev a 1 s.bus }) := by
  simp only [EVE_memRead8, EVE_cs_set, EVE_cs_clear, spi_transmit_32, spi_receive,
    readWord_mod, readValue, readOps, rxBytes, leValue]
  simp

theorem EVE_memRead16_eq (dev : Device) (a : Nat) (s : State) :
    EVE_memRead16 dev a s =
      (readValue dev a 2 s.bus, { s with bus := s.bus ++ readOps dev a 2 s.bus }) := by
  simp only [EVE_memRead16, EVE_cs_set, EVE_cs_clear, spi_transmit_32, spi_receive,
    readWord_mod, readValue, readOps, rxBytes, leValue]
  rw [memRead16_value _ _ (Nat.mod_lt _ (by decide)) (Nat.mod_lt _ (by decide))]
  simp

theorem EVE_memRead16_fst (dev : Device) (a : Nat) (s : State) :
    (EVE_memRead16 dev a s).1 = readValue dev a 2 s.bus := by
  rw [EVE_memRead16_eq]

theorem EVE_memRead32_eq (dev : Device) (a : Nat) (s : State) :
    EVE_memRead32 dev a s =
      (readValue dev a 4 s.bus, { s with bus := s.bus ++ readOps dev a 4 s.bus }) := by
  simp only [EVE_memRead32, EVE_cs_set, EVE_cs_clear, spi_transmit_32, spi_receive,
    readWord_mod, readValue, readOps, rxBytes, leValue]
  rw [memRead32_value _ _ _ _ (Nat.mod_lt _ (by decide)) (Nat.mod_lt _ (by decide))
    (Nat.mod_lt _ (by decide)) (Nat.mod_lt _ (by decide))]
  simp

/-! ## Effect of flow control on the trace -/

theorem CoprocessorFaultRecover_eq (cfg : Config) (dev : Device) (s : State) :
    CoprocessorFaultRecover cfg dev s = { s with bus := s.bus ++ recoverOps cfg dev s.bus } := by
  unfold CoprocessorFaultRecover recoverOps
  by_cases hg : cfg.EVE_GEN > 2
  · cases hf : (if cfg.EVE_GEN > 3 then cfg.EVE_PCLK_FREQ else none) with
    | none =>
        simp only [hg, hf, if_true, EVE_memRead16_eq, EVE_memWrite8_eq, EVE_memWrite16_eq,
          DELAY_MS, List.append_assoc]
    | some freq =>
        simp only [hg, hf, if_true, EVE_memRead16_eq, EVE_memWrite8_eq, EVE_memWrite16_eq,
          DELAY_MS, List.append_assoc]
  · simp only [hg, if_false, EVE_memWrite8_eq, EVE_memWrite16_eq, DELAY_MS,
      List.append_assoc, List.nil_append]

theorem readValue_two (dev : Device) (addr : Nat) (h : List BusOp) :
    readValue dev addr 2 h =
      dev (h ++ [BusOp.cs_set, BusOp.transmit_32 (readWord addr)]) % 256 + 256 *
        (dev (h ++ [BusOp.cs_set, BusOp.transmit_32 (readWord addr)] ++
          [BusOp.receive (dev (h ++ [BusOp.cs_set, BusOp.transmit_32 (readWord addr)]) % 256)])
          % 256) := by
  simp [readValue, rxBytes, leValue]

theorem readValue_two_lt (dev : Device) (addr : Nat) (h : List BusOp) :
    readValue dev addr 2 h < 65536 := by
  rw [readValue_two]
  have h1 := Nat.mod_lt (dev (h ++ [BusOp.cs_set, BusOp.transmit_32 (readWord addr)]))
    (show 0 < 256 by decide)
  have h2 := Nat.mod_lt (dev (h ++ [BusOp.cs_set, BusOp.transmit_32 (readWord addr)] ++
    [BusOp.receive (dev (h ++ [BusOp.cs_set, BusOp.transmit_32 (readWord addr)]) % 256)]))
    (show 0 < 256 by decide)
  omega

/-- The poll with no DMA transfer in flight, in closed form. -/
theorem EVE_busy_idle (cfg : Config) (dev : Device) (s : State)
    (h : cfg.EVE_DMA = true → s.EVE_dma_busy = 0) :
    EVE_busy cfg dev s =
      if readValue dev cfg.REG_CMDB_SPACE 2 s.bus % 4 ≠ 0 then
        (RetCode.EVE_FAULT_RECOVERED,
          { s with
            bus := s.bus ++ readOps dev cfg.REG_CMDB_SPACE 2 s.bus ++
              recoverOps cfg dev (s.bus ++ readOps dev cfg.REG_CMDB_SPACE 2 s.bus)
            fault_recovered := RetCode.EVE_FAULT_RECOVERED })
      else
        (if readValue dev cfg.REG_CMDB_SPACE 2 s.bus = 0xffc then RetCode.E_OK
          else if readValue dev cfg.REG_CMDB_SPACE 2 s.bus > 0x800 then
            RetCode.EVE_FIFO_HALF_EMPTY
          else RetCode.EVE_IS_BUSY,
          { s with bus := s.bus ++ readOps dev cfg.REG_CMDB_SPACE 2 s.bus }) := by
  have hc : (!cfg.EVE_DMA || decide (s.EVE_dma_busy = 0)) = true := by
    cases hd : cfg.EVE_DMA
    · simp
    · simp [h hd]
  unfold EVE_busy
  simp only [hc, if_true, EVE_memRead16_eq, and_3, CoprocessorFaultRecover_eq]
  by_cases hf : readValue dev cfg.REG_CMDB_SPACE 2 s.bus % 4 ≠ 0
  · simp only [hf, ne_eq, not_false_eq_true, if_true, List.append_assoc]
  · simp only [hf, if_false]
    by_cases h1 : readValue dev cfg.REG_CMDB_SPACE 2 s.bus = 0xffc
    · simp [h1]
    · have h1' : ¬ (0xffc = readValue dev cfg.REG_CMDB_SPACE 2 s.bus) := fun e => h1 e.symm
      by_cases h2 : readValue dev cfg.REG_CMDB_SPACE 2 s.bus > 0x800
      · simp [h1, h1', h2]
      · simp [h1, h1', h2]

/-- The poll while a DMA transfer is in flight. -/
theorem EVE_busy_dma (cfg : Config) (dev : Device) (s : State)
    (hd : cfg.EVE_DMA = true) (hb : s.EVE_dma_busy ≠ 0) :
    EVE_busy cfg dev s = (RetCode.EVE_IS_BUSY, s) := by
  unfold EVE_busy
  simp [hd, hb]

/-! ## Effect of the command stream builder on the trace -/

theorem private_block_write_data_eq (p_data : Ptr) (n count : Nat) (s : State) :
    private_block_write_data p_data count n s =
      { s with bus := s.bus ++
        ((List.range n).map (fun i => p_data (count + i) % 256)).map BusOp.transmit } := by
  induction n generalizing count s with
  | zero => simp [private_block_write_data]
  | succ n ih =>
      rw [private_block_write_data, ih, List.range_succ_eq_map]
      simp only [spi_transmit, fetch_flash_byte, Nat.mod_mod, List.map_cons, List.map_map,
        List.append_assoc, List.singleton_append, Nat.add_zero]
      congr 3
      apply List.map_congr_left
      intro i _
      simp only [Function.comp, Nat.succ_eq_add_one]
      congr 3
      omega

theorem private_block_write_padding_eq (padding : Nat) (s : State) :
    private_block_write_padding padding s =
      { s with bus := s.bus ++ (List.replicate padding 0).map BusOp.transmit } := by
  induction padding generalizing s with
  | zero => simp [private_block_write_padding]
  | succ n ih =>
      rw [private_block_write_padding, ih]
      simp [spi_transmit, List.replicate_succ]

theorem padding_eq (len : Nat) : ((4 - (len &&& 3) % 256) % 256) &&& 3 = (4 - len % 4) % 4 := by
  rw [and_3, and_3]
  have := Nat.mod_lt len (show 0 < 4 by decide)
  omega

theorem private_block_write_eq (p_data : Ptr) (len : Nat) (s : State) (h : len < 65536) :
    private_block_write p_data len s =
      { s with bus := s.bus ++
        ((List.range len).map (fun i => p_data i % 256) ++
          List.replicate ((4 - len % 4) % 4) 0).map BusOp.transmit } := by
  unfold private_block_write
  simp only [Nat.mod_eq_of_lt h, padding_eq, private_block_write_data_eq,
    private_block_write_padding_eq, Nat.zero_add, List.append_assoc, List.map_append]

/-! ## Delays in the traces of flow control -/

theorem countDelays_append (xs ys : List BusOp) :
    countDelays (xs ++ ys) = countDelays xs + countDelays ys := by
  induction xs with
  | nil => simp [countDelays]
  | cons x t ih =>
      cases x <;> rw [List.cons_append] <;> simp only [countDelays, ih]
      omega

theorem countDelays_map_transmit (bs : List Nat) : countDelays (bs.map BusOp.transmit) = 0 := by
  induction bs with
  | nil => rfl
  | cons b t ih => simp [countDelays, ih]

theorem countDelays_map_receive (bs : List Nat) : countDelays (bs.map BusOp.receive) = 0 := by
  induction bs with
  | nil => rfl
  | cons b t ih => simp [countDelays, ih]

theorem countDelays_writeOps (addr : Nat) (payload : List Nat) :
    countDelays (writeOps addr payload) = 0 := by
  simp [writeOps, countDelays, countDelays_append, countDelays_map_transmit]

theorem countDelays_readOps (dev : Device) (addr n : Nat) (h : List BusOp) :
    countDelays (readOps dev addr n h) = 0 := by
  simp [readOps, countDelays, countDelays_append, countDelays_map_receive]

theorem countDelays_recoverOps (cfg : Config) (dev : Device) (h : List BusOp) :
    countDelays (recoverOps cfg dev h) = 1 := by
  unfold recoverOps
  by_cases hg : cfg.EVE_GEN > 2
  · cases hf : (if cfg.EVE_GEN > 3 then cfg.EVE_PCLK_FREQ else none)
    · simp [hg, hf, countDelays_append, countDelays_writeOps, countDelays_readOps, countDelays]
    · simp [hg, hf, countDelays_append, countDelays_writeOps, countDelays_readOps, countDelays]
  · simp [hg, countDelays_append, countDelays_writeOps, countDelays]

theorem getLast?_append_two (h : List BusOp) (x y : BusOp) :
    (h ++ [x, y]).getLast? = some y := by
  have e : h ++ [x, y] = (h ++ [x]) ++ [y] := by simp
  rw [e, List.getLast?_concat]

theorem readValue_constDevice (value addr : Nat) (h : List BusOp) (hv : value < 65536) :
    readValue (constDevice value) addr 2 h = value := by
  rw [readValue_two]
  simp only [constDevice, getLast?_append_two, List.getLast?_concat]
  omega

theorem txBytes_map_receive (bs : List Nat) : txBytes (bs.map BusOp.receive) = [] := by
  induction bs with
  | nil => rfl
  | cons b t ih => simp [txBytes, ih]

theorem txBytes_readOps (dev : Device) (addr n : Nat) (h : List BusOp) :
    txBytes (readOps dev addr n h) =
      [(addr >>> 16) &&& 0x7F, (addr >>> 8) &&& 0xFF, addr &&& 0xFF, 0x00] := by
  have e : readOps dev addr n h = [BusOp.cs_set] ++ ([BusOp.transmit_32 (readWord addr)] ++
      ((rxBytes dev n (h ++ [BusOp.cs_set, BusOp.transmit_32 (readWord addr)])).map
        BusOp.receive ++ [BusOp.cs_clear])) := by
    simp [readOps]
  rw [e, txBytes_append, txBytes_append, txBytes_append, txBytes_readWord, txBytes_map_receive]
  simp [txBytes]

/-! ## The sticky fault flag along call sequences -/

theorem tracks_refl (cfg : Config) (dev : Device) (s : State) : Tracks cfg dev s s :=
  ⟨⟨[], by simp⟩, fun h => h, fun h => absurd rfl h⟩

theorem faultRead_extend {cfg : Config} {dev : Device} {b0 b1 b2 : List BusOp} (t : List BusOp)
    (h : FaultRead cfg dev b1 b2) (e : b1 = b0 ++ t) : FaultRead cfg dev b0 b2 := by
  obtain ⟨h0, t0, hl, he, hd⟩ := h
  refine ⟨h0, t0, ?_, he, hd⟩
  rw [e, List.length_append] at hl
  omega

theorem faultRead_grow {cfg : Config} {dev : Device} {b0 b1 : List BusOp} (t : List BusOp)
    (h : FaultRead cfg dev b0 b1) : FaultRead cfg dev b0 (b1 ++ t) := by
  obtain ⟨h0, t0, hl, he, hd⟩ := h
  exact ⟨h0, t0 ++ t, hl, by rw [he, List.append_assoc], hd⟩

theorem tracks_trans {cfg : Config} {dev : Device} {s s1 s2 : State}
    (h1 : Tracks cfg dev s s1) (h2 : Tracks cfg dev s1 s2) : Tracks cfg dev s s2 := by
  obtain ⟨⟨t1, e1⟩, k1, o1⟩ := h1
  obtain ⟨⟨t2, e2⟩, k2, o2⟩ := h2
  refine ⟨⟨t1 ++ t2, by rw [e2, e1, List.append_assoc]⟩, fun h => k2 (k1 h), ?_⟩
  intro hne
  by_cases c2 : s2.fault_recovered = s1.fault_recovered
  · have c1 : s1.fault_recovered ≠ s.fault_recovered := fun e => hne (c2.trans e)
    obtain ⟨f1, r1⟩ := o1 c1
    refine ⟨c2.trans f1, ?_⟩
    rw [e2]
    exact faultRead_grow t2 r1
  · obtain ⟨f2, r2⟩ := o2 c2
    exact ⟨f2, faultRead_extend t1 r2 e1⟩

theorem tracks_of_eq {cfg : Config} {dev : Device} {s s1 : State} (t : List BusOp)
    (hb : s1.bus = s.bus ++ t) (hf : s1.fault_recovered = s.fault_recovered) :
    Tracks cfg dev s s1 :=
  ⟨⟨t, hb⟩, fun h => by rw [hf]; exact h, fun h => absurd hf h⟩

theorem readOps_open (cfg : Config) (dev : Device) (n : Nat) (h : List BusOp) :
    readOps dev cfg.REG_CMDB_SPACE n h = spaceReadOpen cfg ++
      ((rxBytes dev n (h ++ spaceReadOpen cfg)).map BusOp.receive ++ [BusOp.cs_clear]) := by
  simp [readOps, spaceReadOpen]

theorem readValue_two_mod4 (cfg : Config) (dev : Device) (h : List BusOp) :
    readValue dev cfg.REG_CMDB_SPACE 2 h % 4 = dev (h ++ spaceReadOpen cfg) % 4 := by
  rw [readValue_two]
  unfold spaceReadOpen
  omega

theorem tracks_busy (cfg : Config) (dev : Device) (s : State) :
    Tracks cfg dev s (EVE_busy cfg dev s).2 := by
  by_cases hd : cfg.EVE_DMA = true → s.EVE_dma_busy = 0
  · rw [EVE_busy_idle cfg dev s hd]
    by_cases hf : readValue dev cfg.REG_CMDB_SPACE 2 s.bus % 4 ≠ 0
    · rw [if_pos hf]
      refine ⟨⟨_, by simp only [List.append_assoc]; rfl⟩, fun _ => by simp, fun _ => ⟨rfl, ?_⟩⟩
      refine ⟨s.bus, ((rxBytes dev 2 (s.bus ++ spaceReadOpen cfg)).map BusOp.receive ++
        [BusOp.cs_clear]) ++ recoverOps cfg dev (s.bus ++ readOps dev cfg.REG_CMDB_SPACE 2 s.bus),
        Nat.le_refl _, ?_, ?_⟩
      · show s.bus ++ readOps dev cfg.REG_CMDB_SPACE 2 s.bus ++ _ = _
        rw [readOps_open]
        simp only [List.append_assoc]
      · rw [← readValue_two_mod4]; exact hf
    · rw [if_neg hf]
      exact tracks_of_eq _ rfl rfl
  · have h1 : cfg.EVE_DMA = true := by
      by_contra hc; exact hd (fun h => absurd h hc)
    have h2 : s.EVE_dma_busy ≠ 0 := fun e => hd (fun _ => e)
    rw [EVE_busy_dma cfg dev s h1 h2]
    exact tracks_refl cfg dev s

theorem tracks_execute_cmd (cfg : Config) (dev : Device) (fuel : Nat) (s s1 : State)
    (h : EVE_execute_cmd cfg dev fuel s = some s1) : Tracks cfg dev s s1 := by
  induction fuel generalizing s with
  | zero => simp [EVE_execute_cmd] at h
  | succ n ih =>
      rw [EVE_execute_cmd] at h
      by_cases hr : (EVE_busy cfg dev s).1 ≠ RetCode.E_OK
      · simp only [hr, ne_eq, not_false_eq_true, if_true] at h
        exact tracks_trans (tracks_busy cfg dev s) (ih _ h)
      · simp only [hr, if_false, Option.some.injEq] at h
        rw [← h]
        exact tracks_busy cfg dev s

theorem block_transfer_chunk_eq (p_data : Ptr) (block_len : Nat) (s : State)
    (h : block_len < 65536) :
    EVE_cs_clear (private_block_write p_data (block_len % 65536)
      (spi_transmit 0x78 (spi_transmit 0x25 (spi_transmit 0xB0 (EVE_cs_set s))))) =
    { s with bus := (s.bus ++ chunkOps
        ((List.range block_len).map (fun i => p_data i % 256) ++
          List.replicate ((4 - block_len % 4) % 4) 0)) } := by
  rw [Nat.mod_eq_of_lt h, private_block_write_eq _ _ _ h]
  simp [EVE_cs_set, EVE_cs_clear, spi_transmit, chunkOps]

theorem tracks_chunk (cfg : Config) (dev : Device) (p_data : Ptr) (block_len : Nat) (s : State)
    (h : block_len < 65536) :
    Tracks cfg dev s (EVE_cs_clear (private_block_write p_data (block_len % 65536)
      (spi_transmit 0x78 (spi_transmit 0x25 (spi_transmit 0xB0 (EVE_cs_set s)))))) := by
  rw [block_transfer_chunk_eq _ _ _ h]
  exact tracks_of_eq _ rfl rfl

theorem tracks_block_transfer (cfg : Config) (dev : Device) (fuel : Nat) (p_data : Ptr)
    (len : Nat) (s s1 : State)
    (h : block_transfer cfg dev fuel p_data len s = some s1) : Tracks cfg dev s s1 := by
  induction fuel generalizing p_data len s with
  | zero =>
      unfold block_transfer at h
      by_cases hl : len > 0
      · simp [hl] at h
      · simp only [hl, if_false, Option.some.injEq] at h
        rw [← h]; exact tracks_refl cfg dev s
  | succ n ih =>
      unfold block_transfer at h
      by_cases hl : len > 0
      · simp only [hl, if_true] at h
        have hb : (if len > 3840 then 3840 else len) < 65536 := by split <;> omega
        split at h
        · simp at h
        · rename_i s2 he
          exact tracks_trans (tracks_trans (tracks_chunk cfg dev p_data _ s hb)
            (tracks_execute_cmd cfg dev _ _ _ he)) (ih _ _ _ h)
      · simp only [hl, if_false, Option.some.injEq] at h
        rw [← h]; exact tracks_refl cfg dev s

theorem tracks_private_block_write (cfg : Config) (dev : Device) (p_data : Ptr) (len : Nat)
    (s : State) : Tracks cfg dev s (private_block_write p_data len s) := by
  unfold private_block_write
  simp only [private_block_write_data_eq, private_block_write_padding_eq, List.append_assoc]
  exact tracks_of_eq _ rfl rfl

theorem tracks_cmd_dl_burst (cfg : Config) (dev : Device) (command : Nat) (s : State) :
    Tracks cfg dev s (spi_transmit_burst cfg command s) := by
  unfold spi_transmit_burst
  by_cases hd : cfg.EVE_DMA = true
  · rw [if_pos hd]
    exact tracks_of_eq [] (by simp) rfl
  · rw [if_neg hd]
    exact tracks_of_eq _ rfl rfl

theorem tracks_cmd_dl (cfg : Config) (dev : Device) (command : Nat) (s : State) :
    Tracks cfg dev s (EVE_cmd_dl cfg command s) := by
  unfold EVE_cmd_dl
  by_cases hb : 0 = s.cmd_burst
  · rw [if_pos hb]
    simp only [eve_begin_cmd, EVE_cs_set, EVE_cs_clear, spi_transmit, spi_transmit_32,
      List.append_assoc]
    exact tracks_of_eq _ rfl rfl
  · rw [if_neg hb]
    exact tracks_cmd_dl_burst cfg dev command s

theorem tracks_call (cfg : Config) (dev : Device) (c : Call) (s s1 : State)
    (hc : c.isReset = false) (h : c.run cfg dev s = some s1) : Tracks cfg dev s s1 := by
  cases c with
  | cs_set =>
      simp only [Call.run, Option.some.injEq] at h; rw [← h]; exact tracks_of_eq _ rfl rfl
  | cs_clear =>
      simp only [Call.run, Option.some.injEq] at h; rw [← h]; exact tracks_of_eq _ rfl rfl
  | transmit data =>
      simp only [Call.run, Option.some.injEq] at h; rw [← h]; exact tracks_of_eq _ rfl rfl
  | transmit_32 data =>
      simp only [Call.run, Option.some.injEq] at h; rw [← h]; exact tracks_of_eq _ rfl rfl
  | transmit_burst data =>
      simp only [Call.run, Option.some.injEq] at h; rw [← h]
      exact tracks_cmd_dl_burst cfg dev data s
  | receive =>
      simp only [Call.run, Option.some.injEq] at h; rw [← h]; exact tracks_of_eq _ rfl rfl
  | delay ms =>
      simp only [Call.run, Option.some.injEq] at h; rw [← h]; exact tracks_of_eq _ rfl rfl
  | assign_cmd_burst value =>
      simp only [Call.run, Option.some.injEq] at h; rw [← h]
      exact tracks_of_eq [] (by simp) rfl
  | assign_dma_busy value =>
      simp only [Call.run, Option.some.injEq] at h; rw [← h]
      exact tracks_of_eq [] (by simp) rfl
  | assign_dma_buffer index value =>
      simp only [Call.run, Option.some.injEq] at h; rw [← h]
      exact tracks_of_eq [] (by simp) rfl
  | assign_dma_buffer_index value =>
      simp only [Call.run, Option.some.injEq] at h; rw [← h]
      exact tracks_of_eq [] (by simp) rfl
  | busy => simp only [Call.run, Option.some.injEq] at h; rw [← h]; exact tracks_busy cfg dev s
  | execute_cmd fuel => exact tracks_execute_cmd cfg dev fuel s s1 h
  | get_and_reset_fault_state => simp [Call.isReset] at hc
  | cmdWrite command parameter =>
      simp only [Call.run, Option.some.injEq] at h; rw [← h]
      simp only [EVE_cmdWrite, EVE_cs_set, EVE_cs_clear, spi_transmit, List.append_assoc]
      exact tracks_of_eq _ rfl rfl
  | memRead8 a =>
      simp only [Call.run, Option.some.injEq, EVE_memRead8_eq] at h; rw [← h]
      exact tracks_of_eq _ rfl rfl
  | memRead16 a =>
      simp only [Call.run, Option.some.injEq, EVE_memRead16_eq] at h; rw [← h]
      exact tracks_of_eq _ rfl rfl
  | memRead32 a =>
      simp only [Call.run, Option.some.injEq, EVE_memRead32_eq] at h; rw [← h]
      exact tracks_of_eq _ rfl rfl
  | memWrite8 a v =>
      simp only [Call.run, Option.some.injEq, EVE_memWrite8_eq] at h; rw [← h]
      exact tracks_of_eq _ rfl rfl
  | memWrite16 a v =>
      simp only [Call.run, Option.some.injEq, EVE_memWrite16_eq] at h; rw [← h]
      exact tracks_of_eq _ rfl rfl
  | memWrite32 a v =>
      simp only [Call.run, Option.some.injEq, EVE_memWrite32_eq] at h; rw [← h]
      exact tracks_of_eq _ rfl rfl
  | cmd_dl command =>
      simp only [Call.run, Option.some.injEq] at h; rw [← h]
      exact tracks_cmd_dl cfg dev command s
  | cmd_dl_burst command =>
      simp only [Call.run, Option.some.injEq, EVE_cmd_dl_burst] at h; rw [← h]
      exact tracks_cmd_dl_burst cfg dev command s
  | private_block_write p_data len =>
      simp only [Call.run, Option.some.injEq] at h; rw [← h]
      exact tracks_private_block_write cfg dev p_data len s
  | block_transfer fuel p_data len => exact tracks_block_transfer cfg dev fuel p_data len s s1 h

theorem flag_kept_call (cfg : Config) (dev : Device) (c : Call) (s s1 : State)
    (hc : c.isReset = false) (hp : c.polls = false) (h : c.run cfg dev s = some s1) :
    s1.fault_recovered = s.fault_recovered := by
  cases c with
  | cs_set => simp only [Call.run, Option.some.injEq] at h; rw [← h]; rfl
  | cs_clear => simp only [Call.run, Option.some.injEq] at h; rw [← h]; rfl
  | transmit data => simp only [Call.run, Option.some.injEq] at h; rw [← h]; rfl
  | transmit_32 data => simp only [Call.run, Option.some.injEq] at h; rw [← h]; rfl
  | transmit_burst data =>
      simp only [Call.run, Option.some.injEq] at h; rw [← h]
      unfold spi_transmit_burst
      split <;> rfl
  | receive => simp only [Call.run, Option.some.injEq] at h; rw [← h]; rfl
  | delay ms => simp only [Call.run, Option.some.injEq] at h; rw [← h]; rfl
  | assign_cmd_burst value => simp only [Call.run, Option.some.injEq] at h; rw [← h]
  | assign_dma_busy value => simp only [Call.run, Option.some.injEq] at h; rw [← h]
  | assign_dma_buffer index value => simp only [Call.run, Option.some.injEq] at h; rw [← h]
  | assign_dma_buffer_index value => simp only [Call.run, Option.some.injEq] at h; rw [← h]
  | busy => simp [Call.polls] at hp
  | execute_cmd fuel => simp [Call.polls] at hp
  | get_and_reset_fault_state => simp [Call.isReset] at hc
  | cmdWrite command parameter =>
      simp only [Call.run, Option.some.injEq] at h; rw [← h]; rfl
  | memRead8 a => simp only [Call.run, Option.some.injEq, EVE_memRead8_eq] at h; rw [← h]
  | memRead16 a => simp only [Call.run, Option.some.injEq, EVE_memRead16_eq] at h; rw [← h]
  | memRead32 a => simp only [Call.run, Option.some.injEq, EVE_memRead32_eq] at h; rw [← h]
  | memWrite8 a v => simp only [Call.run, Option.some.injEq, EVE_memWrite8_eq] at h; rw [← h]
  | memWrite16 a v => simp only [Call.run, Option.some.injEq, EVE_memWrite16_eq] at h; rw [← h]
  | memWrite32 a v => simp only [Call.run, Option.some.injEq, EVE_memWrite32_eq] at h; rw [← h]
  | cmd_dl command =>
      simp only [Call.run, Option.some.injEq] at h; rw [← h]
      unfold EVE_cmd_dl spi_transmit_burst
      split
      · rfl
      · split <;> rfl
  | cmd_dl_burst command =>
      simp only [Call.run, Option.some.injEq, EVE_cmd_dl_burst] at h; rw [← h]
      unfold spi_transmit_burst
      split <;> rfl
  | private_block_write p_data len =>
      simp only [Call.run, Option.some.injEq] at h; rw [← h]
      unfold private_block_write
      simp only [private_block_write_data_eq, private_block_write_padding_eq]
  | block_transfer fuel p_data len => simp [Call.polls] at hp

theorem clean_of_tracks {cfg : Config} {dev : Device} {s s1 : State}
    (h : Tracks cfg dev s s1) : Clean cfg dev s s1 := by
  obtain ⟨hb, _, ho⟩ := h
  refine ⟨hb, fun h1 => ?_⟩
  by_cases e : s1.fault_recovered = s.fault_recovered
  · left; rw [← e]; exact h1
  · right; exact (ho e).2

theorem clean_trans {cfg : Config} {dev : Device} {s s1 s2 : State}
    (h1 : Clean cfg dev s s1) (h2 : Clean cfg dev s1 s2) : Clean cfg dev s s2 := by
  obtain ⟨⟨t1, e1⟩, o1⟩ := h1
  obtain ⟨⟨t2, e2⟩, o2⟩ := h2
  refine ⟨⟨t1 ++ t2, by rw [e2, e1, List.append_assoc]⟩, fun hf => ?_⟩
  rcases o2 hf with a | a
  · rcases o1 a with b | b
    · left; exact b
    · right; rw [e2]; exact faultRead_grow t2 b
  · right; exact faultRead_extend t1 a e1

theorem clean_call (cfg : Config) (dev : Device) (c : Call) (s s1 : State)
    (h : c.run cfg dev s = some s1) : Clean cfg dev s s1 := by
  by_cases hc : c.isReset = false
  · exact clean_of_tracks (tracks_call cfg dev c s s1 hc h)
  · cases c <;> simp [Call.isReset] at hc
    simp only [Call.run, Option.some.injEq] at h
    rw [← h]
    refine ⟨⟨[], ?_⟩, fun hf => ?_⟩
    · unfold EVE_get_and_reset_fault_state; split <;> simp
    · exfalso; apply hf
      unfold EVE_get_and_reset_fault_state
      by_cases e : s.fault_recovered = RetCode.E_OK
      · simp [e]
      · simp [e]

theorem clean_runCalls (cfg : Config) (dev : Device) (calls : List Call) (s s1 : State)
    (h : runCalls cfg dev calls s = some s1) : Clean cfg dev s s1 := by
  induction calls generalizing s with
  | nil =>
      simp only [runCalls, Option.some.injEq] at h
      rw [← h]; exact clean_of_tracks (tracks_refl cfg dev s)
  | cons c cs ih =>
      rw [runCalls] at h
      split at h
      · simp at h
      · rename_i s2 he
        exact clean_trans (clean_call cfg dev c s s2 he) (ih s2 h)

theorem tracks_runCalls (cfg : Config) (dev : Device) (calls : List Call) (s s1 : State)
    (hc : ∀ c ∈ calls, c.isReset = false)
    (h : runCalls cfg dev calls s = some s1) : Tracks cfg dev s s1 := by
  induction calls generalizing s with
  | nil =>
      simp only [runCalls, Option.some.injEq] at h
      rw [← h]; exact tracks_refl cfg dev s
  | cons c cs ih =>
      rw [runCalls] at h
      split at h
      · simp at h
      · rename_i s2 he
        exact tracks_trans (tracks_call cfg dev c s s2 (hc c (List.mem_cons_self c cs)) he)
          (ih s2 (fun c1 h1 => hc c1 (List.mem_cons_of_mem c h1)) h)

/-! ## Chip-select windows of the driver's traces -/

theorem csWindowsFrom_body (body : List BusOp) (w rest : List BusOp)
    (hb : ∀ op ∈ body, op ≠ BusOp.cs_clear) :
    csWindowsFrom (some w) (body ++ BusOp.cs_clear :: rest)
      = (w ++ body) :: csWindowsFrom none rest := by
  induction body generalizing w with
  | nil => simp [csWindowsFrom]
  | cons op b ih =>
      have hop : op ≠ BusOp.cs_clear := hb op (List.mem_cons_self op b)
      have hb' : ∀ o ∈ b, o ≠ BusOp.cs_clear := fun o ho => hb o (List.mem_cons_of_mem op ho)
      have step : csWindowsFrom (some w) (op :: (b ++ BusOp.cs_clear :: rest))
          = csWindowsFrom (some (w ++ [op])) (b ++ BusOp.cs_clear :: rest) := by
        cases op <;> simp [csWindowsFrom] at hop ⊢
      rw [List.cons_append, step, ih (w ++ [op]) hb']
      simp

theorem csWindows_window (body rest : List BusOp) (hb : ∀ op ∈ body, op ≠ BusOp.cs_clear) :
    csWindows (BusOp.cs_set :: (body ++ BusOp.cs_clear :: rest)) = body :: csWindows rest := by
  unfold csWindows
  rw [csWindowsFrom, csWindowsFrom_body body [] rest hb]
  simp

theorem csWindows_delay (ms : Nat) (rest : List BusOp) :
    csWindows (BusOp.delay_ms ms :: rest) = csWindows rest := by
  unfold csWindows
  rw [csWindowsFrom]
  intro h
  cases h

theorem fifoWrites_window (body rest : List BusOp) (hb : ∀ op ∈ body, op ≠ BusOp.cs_clear) :
    fifoWrites (BusOp.cs_set :: (body ++ BusOp.cs_clear :: rest)) =
      match fifoPayload body with
      | some bytes => bytes :: fifoWrites rest
      | none => fifoWrites rest := by
  unfold fifoWrites
  rw [csWindows_window body rest hb, List.filterMap_cons]
  cases fifoPayload body <;> rfl

theorem silent_nil : Silent [] := fun _ => rfl

theorem silent_append {a b : List BusOp} (ha : Silent a) (hb : Silent b) : Silent (a ++ b) := by
  intro rest
  rw [List.append_assoc, ha, hb]

theorem silent_delay (ms : Nat) : Silent [BusOp.delay_ms ms] := by
  intro rest
  unfold fifoWrites
  rw [List.singleton_append, csWindows_delay]

theorem no_clear_map_transmit (bs : List Nat) :
    ∀ op ∈ bs.map BusOp.transmit, op ≠ BusOp.cs_clear := by
  intro op hop
  simp only [List.mem_map] at hop
  obtain ⟨b, _, rfl⟩ := hop
  simp

theorem no_clear_map_receive (bs : List Nat) :
    ∀ op ∈ bs.map BusOp.receive, op ≠ BusOp.cs_clear := by
  intro op hop
  simp only [List.mem_map] at hop
  obtain ⟨b, _, rfl⟩ := hop
  simp

theorem silent_readOps (dev : Device) (addr n : Nat) (h : List BusOp) :
    Silent (readOps dev addr n h) := by
  intro rest
  have e : readOps dev addr n h ++ rest = BusOp.cs_set ::
      ((BusOp.transmit_32 (readWord addr) ::
        (rxBytes dev n (h ++ [BusOp.cs_set, BusOp.transmit_32 (readWord addr)])).map
          BusOp.receive) ++ BusOp.cs_clear :: rest) := by
    simp [readOps]
  rw [e, fifoWrites_window]
  · rfl
  · intro op hop
    rcases List.mem_cons.mp hop with h1 | h1
    · rw [h1]; simp
    · exact no_clear_map_receive _ op h1

theorem writeHeader_shape (addr : Nat) :
    ∃ x y z, writeHeader addr = [x, y, z] := ⟨_, _, _, rfl⟩

theorem silent_writeOps (addr : Nat) (payload : List Nat)
    (ha : writeHeader addr ≠ [0xB0, 0x25, 0x78]) : Silent (writeOps addr payload) := by
  intro rest
  have e : writeOps addr payload ++ rest = BusOp.cs_set ::
      ((writeHeader addr ++ payload).map BusOp.transmit ++ BusOp.cs_clear :: rest) := by
    simp [writeOps]
  rw [e, fifoWrites_window _ _ (no_clear_map_transmit _)]
  obtain ⟨x, y, z, hxyz⟩ := writeHeader_shape addr
  rw [hxyz] at ha ⊢
  have hc : ¬ (x = 0xB0 ∧ y = 0x25 ∧ z = 0x78) := by
    rintro ⟨rfl, rfl, rfl⟩
    exact ha rfl
  simp only [List.cons_append, List.nil_append, List.map_cons, fifoPayload, hc, if_false]

theorem silent_recoverOps (cfg : Config) (dev : Device) (h : List BusOp)
    (hc : cfg.recoveryAvoidsFifo) : Silent (recoverOps cfg dev h) := by
  have h1 : writeHeader cfg.REG_CPURESET ≠ [0xB0, 0x25, 0x78] := hc _ (by simp)
  have h2 : writeHeader cfg.REG_CMD_READ ≠ [0xB0, 0x25, 0x78] := hc _ (by simp)
  have h3 : writeHeader cfg.REG_CMD_WRITE ≠ [0xB0, 0x25, 0x78] := hc _ (by simp)
  have h4 : writeHeader cfg.REG_CMD_DL ≠ [0xB0, 0x25, 0x78] := hc _ (by simp)
  have h5 : writeHeader cfg.REG_COPRO_PATCH_PTR ≠ [0xB0, 0x25, 0x78] := hc _ (by simp)
  have h6 : writeHeader cfg.REG_PCLK ≠ [0xB0, 0x25, 0x78] := hc _ (by simp)
  have h7 : writeHeader cfg.REG_PCLK_FREQ ≠ [0xB0, 0x25, 0x78] := hc _ (by simp)
  unfold recoverOps
  refine silent_append (silent_append (silent_append (silent_append (silent_append
    (silent_append (silent_append ?_ (silent_writeOps _ _ h1)) (silent_writeOps _ _ h2))
    (silent_writeOps _ _ h3)) (silent_writeOps _ _ h4)) ?_) (silent_writeOps _ _ h1))
    (silent_delay 10)
  · split
    · exact silent_readOps _ _ _ _
    · exact silent_nil
  · split
    · refine silent_append (silent_writeOps _ _ h5) ?_
      split
      · exact silent_append (silent_writeOps _ _ h7) (silent_writeOps _ _ h6)
      · exact silent_writeOps _ _ h6
    · exact silent_nil

/-! ## Waiting and chunking -/

theorem busy_silent (cfg : Config) (dev : Device) (s : State) (hc : cfg.recoveryAvoidsFifo) :
    ∃ t, (EVE_busy cfg dev s).2.bus = s.bus ++ t ∧ Silent t ∧
      (EVE_busy cfg dev s).2.EVE_dma_busy = s.EVE_dma_busy := by
  by_cases hd : cfg.EVE_DMA = true → s.EVE_dma_busy = 0
  · rw [EVE_busy_idle cfg dev s hd]
    split
    · exact ⟨_, by simp only [List.append_assoc]; rfl,
        silent_append (silent_readOps _ _ _ _) (silent_recoverOps cfg dev _ hc), rfl⟩
    · exact ⟨_, rfl, silent_readOps _ _ _ _, rfl⟩
  · have h1 : cfg.EVE_DMA = true := by
      by_contra hn; exact hd (fun h => absurd h hn)
    have h2 : s.EVE_dma_busy ≠ 0 := fun e => hd (fun _ => e)
    rw [EVE_busy_dma cfg dev s h1 h2]
    exact ⟨[], by simp, silent_nil, rfl⟩

theorem execute_silent (cfg : Config) (dev : Device) (fuel : Nat) (s s1 : State)
    (hc : cfg.recoveryAvoidsFifo) (h : EVE_execute_cmd cfg dev fuel s = some s1) :
    ∃ t, s1.bus = s.bus ++ t ∧ Silent t ∧ s1.EVE_dma_busy = s.EVE_dma_busy := by
  induction fuel generalizing s with
  | zero => simp [EVE_execute_cmd] at h
  | succ n ih =>
      rw [EVE_execute_cmd] at h
      obtain ⟨t0, e0, q0, d0⟩ := busy_silent cfg dev s hc
      by_cases hr : (EVE_busy cfg dev s).1 ≠ RetCode.E_OK
      · simp only [hr, ne_eq, not_false_eq_true, if_true] at h
        obtain ⟨t1, e1, q1, d1⟩ := ih _ h
        exact ⟨t0 ++ t1, by rw [e1, e0, List.append_assoc], silent_append q0 q1, d1.trans d0⟩
      · simp only [hr, if_false, Option.some.injEq] at h
        rw [← h]
        exact ⟨t0, e0, q0, d0⟩

theorem execute_mono (cfg : Config) (dev : Device) (fuel fuel1 : Nat) (s s1 : State)
    (h : EVE_execute_cmd cfg dev fuel s = some s1) (hle : fuel ≤ fuel1) :
    EVE_execute_cmd cfg dev fuel1 s = some s1 := by
  induction fuel generalizing fuel1 s with
  | zero => simp [EVE_execute_cmd] at h
  | succ n ih =>
      obtain ⟨m, rfl⟩ : ∃ m, fuel1 = m + 1 := ⟨fuel1 - 1, by omega⟩
      rw [EVE_execute_cmd] at h ⊢
      by_cases hr : (EVE_busy cfg dev s).1 ≠ RetCode.E_OK
      · simp only [hr, ne_eq, not_false_eq_true, if_true] at h ⊢
        exact ih m _ h (by omega)
      · simp only [hr, if_false] at h ⊢
        exact h

theorem block_transfer_mono (cfg : Config) (dev : Device) (fuel fuel1 : Nat) (p_data : Ptr)
    (len : Nat) (s s1 : State)
    (h : block_transfer cfg dev fuel p_data len s = some s1) (hle : fuel ≤ fuel1) :
    block_transfer cfg dev fuel1 p_data len s = some s1 := by
  induction fuel generalizing fuel1 p_data len s with
  | zero =>
      unfold block_transfer at h
      by_cases hl : len > 0
      · simp [hl] at h
      · simp only [hl, if_false] at h
        cases fuel1 <;> unfold block_transfer <;> simp only [hl, if_false] <;> exact h
  | succ n ih =>
      obtain ⟨m, rfl⟩ : ∃ m, fuel1 = m + 1 := ⟨fuel1 - 1, by omega⟩
      unfold block_transfer at h ⊢
      by_cases hl : len > 0
      · simp only [hl, if_true] at h ⊢
        split at h
        · simp at h
        · rename_i s2 he
          rw [execute_mono cfg dev (n + 1) (m + 1) _ s2 he (by omega)]
          exact ih m _ _ _ h (by omega)
      · simp only [hl, if_false] at h ⊢
        exact h

theorem fifoWrites_chunk (bytes : List Nat) (rest : List BusOp) :
    fifoWrites (chunkOps bytes ++ rest) = bytes :: fifoWrites rest := by
  have e : chunkOps bytes ++ rest =
      BusOp.cs_set :: (((0xB0 :: 0x25 :: 0x78 :: bytes).map BusOp.transmit) ++
        BusOp.cs_clear :: rest) := by
    simp [chunkOps]
  rw [e, fifoWrites_window _ _ (no_clear_map_transmit _)]
  simp [fifoPayload, txBytes_map_transmit]

theorem chunkWrites_zero (p_data : Ptr) : chunkWrites p_data 0 = [] := by
  simp [chunkWrites, chunkCount]

theorem chunkWrites_pos (p_data : Ptr) (L : Nat) (hL : 0 < L) :
    chunkWrites p_data L =
      ((List.range (if L > 3840 then 3840 else L)).map (fun i => p_data i % 256) ++
        List.replicate ((4 - (if L > 3840 then 3840 else L) % 4) % 4) 0) ::
      chunkWrites (fun i => p_data ((if L > 3840 then 3840 else L) + i))
        (L - (if L > 3840 then 3840 else L)) := by
  by_cases hbig : L > 3840
  · simp only [hbig, if_true]
    have hc : chunkCount L = chunkCount (L - 3840) + 1 := by
      unfold chunkCount; omega
    unfold chunkWrites
    rw [hc, List.range_succ_eq_map, List.map_cons, List.map_map]
    refine congr (congrArg List.cons ?_) ?_
    · have h0 : chunkLen L 0 = 3840 := by unfold chunkLen; omega
      simp only [chunkPayload, chunkPadding, h0, Nat.mul_zero, Nat.zero_add]
    · apply List.map_congr_left
      intro k _
      have hk : chunkLen L (k + 1) = chunkLen (L - 3840) k := by unfold chunkLen; omega
      simp only [Function.comp, Nat.succ_eq_add_one, chunkPayload, chunkPadding, hk]
      refine congrArg (fun l => l ++ _) ?_
      apply List.map_congr_left
      intro i _
      have e : 3840 * (k + 1) + i = 3840 + (3840 * k + i) := by omega
      rw [e]
  · simp only [hbig, if_false, Nat.sub_self, chunkWrites_zero]
    have hc : chunkCount L = 1 := by unfold chunkCount; omega
    have h0 : chunkLen L 0 = L := by unfold chunkLen; omega
    unfold chunkWrites
    rw [hc, show List.range 1 = [0] from rfl]
    simp only [List.map_cons, List.map_nil, chunkPayload, chunkPadding, h0, Nat.mul_zero,
      Nat.zero_add]

theorem block_transfer_effect (cfg : Config) (dev : Device) (hc : cfg.recoveryAvoidsFifo)
    (hdr : Drains cfg dev) :
    ∀ (L : Nat) (p_data : Ptr) (s : State), (cfg.EVE_DMA = true → s.EVE_dma_busy = 0) →
      ∃ fuel s1 t, block_transfer cfg dev fuel p_data L s = some s1 ∧ s1.bus = s.bus ++ t ∧
        (∀ rest, fifoWrites (t ++ rest) = chunkWrites p_data L ++ fifoWrites rest) := by
  intro L
  induction L using Nat.strong_induction_on with
  | _ L ih =>
    intro p_data s hd
    by_cases hL : L > 0
    · have hb : (if L > 3840 then 3840 else L) < 65536 := by split <;> omega
      have hlt : L - (if L > 3840 then 3840 else L) < L := by split <;> omega
      have hchunk := block_transfer_chunk_eq p_data (if L > 3840 then 3840 else L) s hb
      generalize hsc : EVE_cs_clear (private_block_write p_data
        ((if L > 3840 then 3840 else L) % 65536)
        (spi_transmit 0x78 (spi_transmit 0x25 (spi_transmit 0xB0 (EVE_cs_set s))))) = sc
        at hchunk
      have hdc : cfg.EVE_DMA = true → sc.EVE_dma_busy = 0 := by
        intro h; rw [hchunk]; exact hd h
      obtain ⟨f0, s2, he0⟩ := hdr sc hdc
      obtain ⟨t1, e1, q1, d1⟩ := execute_silent cfg dev f0 sc s2 hc he0
      have hd2 : cfg.EVE_DMA = true → s2.EVE_dma_busy = 0 := by
        intro h; rw [d1]; exact hdc h
      obtain ⟨f1, s3, t2, hb3, e3, q3⟩ :=
        ih _ hlt (fun i => p_data ((if L > 3840 then 3840 else L) + i)) s2 hd2
      refine ⟨max f0 f1 + 1, s3,
        chunkOps ((List.range (if L > 3840 then 3840 else L)).map (fun i => p_data i % 256) ++
          List.replicate ((4 - (if L > 3840 then 3840 else L) % 4) % 4) 0) ++ t1 ++ t2,
        ?_, ?_, ?_⟩
      · unfold block_transfer
        simp only [hL, if_true, hsc]
        rw [execute_mono cfg dev f0 (max f0 f1 + 1) sc s2 he0 (by omega)]
        exact block_transfer_mono cfg dev f1 (max f0 f1) _ _ s2 s3 hb3 (by omega)
      · rw [e3, e1, hchunk]
        simp only [List.append_assoc]
      · intro rest
        rw [chunkWrites_pos p_data L hL, List.append_assoc, List.append_assoc,
          fifoWrites_chunk, q1, q3, List.cons_append]
    · have h0 : L = 0 := by omega
      subst h0
      refine ⟨0, s, [], ?_, by simp, ?_⟩
      · unfold block_transfer; simp
      · intro rest
        rw [chunkWrites_zero]; rfl

theorem chunkLen_bounds (L k : Nat) (hk : k < chunkCount L) :
    1 ≤ chunkLen L k ∧ chunkLen L k ≤ 3840 := by
  unfold chunkCount at hk
  unfold chunkLen
  omega

theorem chunkPayload_length (p_data : Ptr) (L k : Nat) :
    (chunkPayload p_data L k).length = chunkLen L k := by
  simp [chunkPayload]

theorem chunkPayload_flatten (L : Nat) :
    ∀ p_data : Ptr, ((List.range (chunkCount L)).map (chunkPayload p_data L)).flatten
      = (List.range L).map (fun i => p_data i % 256) := by
  induction L using Nat.strong_induction_on with
  | _ L ih =>
    intro p_data
    by_cases hbig : L > 3840
    · have hc : chunkCount L = chunkCount (L - 3840) + 1 := by
        unfold chunkCount; omega
      have h0 : chunkLen L 0 = 3840 := by unfold chunkLen; omega
      have hr : List.range L = List.range (3840 + (L - 3840)) := by
        rw [show 3840 + (L - 3840) = L from by omega]
      rw [hc, List.range_succ_eq_map, List.map_cons, List.map_map, List.flatten_cons, hr,
        List.range_add, List.map_append, List.map_map]
      have e1 : chunkPayload p_data L 0 = (List.range 3840).map (fun i => p_data i % 256) := by
        simp only [chunkPayload, h0, Nat.mul_zero, Nat.zero_add]
      have e2 : (List.range (chunkCount (L - 3840))).map (chunkPayload p_data L ∘ Nat.succ)
          = (List.range (chunkCount (L - 3840))).map
              (chunkPayload (fun i => p_data (3840 + i)) (L - 3840)) := by
        apply List.map_congr_left
        intro k _
        have hk : chunkLen L (k + 1) = chunkLen (L - 3840) k := by unfold chunkLen; omega
        simp only [Function.comp, Nat.succ_eq_add_one, chunkPayload, hk]
        apply List.map_congr_left
        intro i _
        have e : 3840 * (k + 1) + i = 3840 + (3840 * k + i) := by omega
        rw [e]
      rw [e1, e2, ih (L - 3840) (by omega)]
      rfl
    · by_cases hL : L = 0
      · subst hL; simp [chunkCount]
      · have hc : chunkCount L = 1 := by unfold chunkCount; omega
        have h0 : chunkLen L 0 = L := by unfold chunkLen; omega
        rw [hc, show List.range 1 = [0] from rfl]
        simp only [List.map_cons, List.map_nil, List.flatten_cons, List.flatten_nil,
          List.append_nil, chunkPayload, h0, Nat.mul_zero, Nat.zero_add]

theorem drains_constDevice (cfg : Config) : Drains cfg (constDevice 0xFFC) := by
  intro s hd
  refine ⟨1, (EVE_busy cfg (constDevice 0xFFC) s).2, ?_⟩
  have hr : (EVE_busy cfg (constDevice 0xFFC) s).1 = RetCode.E_OK := by
    rw [EVE_busy_idle cfg _ s hd, readValue_constDevice 0xFFC _ _ (by decide)]
    rfl
  rw [EVE_execute_cmd]
  simp [hr]

theorem block_transfer_unique (cfg : Config) (dev : Device) (fuel fuel1 : Nat) (p_data : Ptr)
    (len : Nat) (s s1 s2 : State)
    (h1 : block_transfer cfg dev fuel p_data len s = some s1)
    (h2 : block_transfer cfg dev fuel1 p_data len s = some s2) : s2 = s1 := by
  have a := block_transfer_mono cfg dev fuel (max fuel fuel1) p_data len s s1 h1 (by omega)
  have b := block_transfer_mono cfg dev fuel1 (max fuel fuel1) p_data len s s2 h2 (by omega)
  rw [a] at b
  exact (Option.some.inj b).symm

theorem block_transfer_writes (cfg : Config) (dev : Device) (hc : cfg.recoveryAvoidsFifo)
    (fuel : Nat) (p_data : Ptr) (L : Nat) (s s1 : State)
    (h : block_transfer cfg dev fuel p_data L s = some s1) :
    ∃ t, s1.bus = s.bus ++ t ∧
      (∀ rest, fifoWrites (t ++ rest) = chunkWrites p_data L ++ fifoWrites rest) := by
  induction fuel generalizing p_data L s with
  | zero =>
      unfold block_transfer at h
      by_cases hL : L > 0
      · simp [hL] at h
      · simp only [hL, if_false, Option.some.injEq] at h
        have h0 : L = 0 := by omega
        subst h0
        rw [← h]
        exact ⟨[], by simp, fun rest => by rw [chunkWrites_zero]; rfl⟩
  | succ n ih =>
      unfold block_transfer at h
      by_cases hL : L > 0
      · simp only [hL, if_true] at h
        have hb : (if L > 3840 then 3840 else L) < 65536 := by split <;> omega
        have hchunk := block_transfer_chunk_eq p_data (if L > 3840 then 3840 else L) s hb
        generalize hsc : EVE_cs_clear (private_block_write p_data
          ((if L > 3840 then 3840 else L) % 65536)
          (spi_transmit 0x78 (spi_transmit 0x25 (spi_transmit 0xB0 (EVE_cs_set s))))) = sc
          at hchunk h
        split at h
        · simp at h
        · rename_i s2 he
          obtain ⟨t1, e1, q1, _⟩ := execute_silent cfg dev _ sc s2 hc he
          obtain ⟨t2, e2, q2⟩ := ih _ _ _ h
          refine ⟨chunkOps ((List.range (if L > 3840 then 3840 else L)).map
            (fun i => p_data i % 256) ++
            List.replicate ((4 - (if L > 3840 then 3840 else L) % 4) % 4) 0) ++ t1 ++ t2,
            ?_, ?_⟩
          · rw [e2, e1, hchunk]
            simp only [List.append_assoc]
          · intro rest
            rw [chunkWrites_pos p_data L hL, List.append_assoc, List.append_assoc,
              fifoWrites_chunk, q1, q2, List.cons_append]
      · simp only [hL, if_false, Option.some.injEq] at h
        have h0 : L = 0 := by omega
        subst h0
        rw [← h]
        exact ⟨[], by simp, fun rest => by rw [chunkWrites_zero]; rfl⟩

/-! ## The transaction queue of the SRAM block write: invariants -/

theorem outstandingFrom_append (cur : Nat) (a b : List QueueOp) :
    outstandingFrom cur (a ++ b) = outstandingFrom (outstandingFrom cur a) b := by
  induction a generalizing cur with
  | nil => rfl
  | cons x t ih => cases x <;> simp [outstandingFrom, ih]

theorem withinLimit_append (limit cur : Nat) (a b : List QueueOp) :
    withinLimit limit cur (a ++ b) =
      (withinLimit limit cur a && withinLimit limit (outstandingFrom cur a) b) := by
  induction a generalizing cur with
  | nil => simp [withinLimit, outstandingFrom]
  | cons x t ih => cases x <;> simp [withinLimit, outstandingFrom, ih, Bool.and_assoc]

theorem and_3_lt (x : Nat) : x &&& 3 < 4 := by
  rw [and_3]; omega

/-- One valid call of the SRAM block write, in closed form. -/
theorem EVE_memWrite_sram_buffer_valid (fl : SpiFlags) (a : Nat) (p : Ptr) (len : Nat)
    (q : SramQueue) (hl : 0 < len) :
    EVE_memWrite_sram_buffer fl a (some p) len q =
      { EVE_spi_transaction := q.EVE_spi_transaction.set q.index
          { tx_buffer := some p, length := (len * 8) % 2 ^ 32, addr := a ||| (MEM_WRITE <<< 16),
            flags := fl.SPI_TRANS_MODE_QIO ||| fl.SPI_TRANS_MODE_DIOQIO_ADDR }
        index := (q.index + 1) &&& 3
        queued := (if q.queued = 4 then q.queued - 1 else q.queued) + 1
        calls := q.calls ++ (if q.queued = 4 then [QueueOp.get_trans_result] else []) ++
          [QueueOp.queue_trans q.index
            { tx_buffer := some p, length := (len * 8) % 2 ^ 32, addr := a ||| (MEM_WRITE <<< 16),
              flags := fl.SPI_TRANS_MODE_QIO ||| fl.SPI_TRANS_MODE_DIOQIO_ADDR }] } := by
  unfold EVE_memWrite_sram_buffer
  by_cases h4 : q.queued = 4
  · simp [hl, h4]
  · simp [hl, h4]

theorem EVE_memWrite_sram_buffer_skip (fl : SpiFlags) (a : Nat) (p_data : Option Ptr)
    (len : Nat) (q : SramQueue) (h : p_data = none ∨ len = 0) :
    EVE_memWrite_sram_buffer fl a p_data len q = q := by
  unfold EVE_memWrite_sram_buffer
  rcases h with h | h
  · rw [h]
  · cases p_data with
    | none => rfl
    | some p => simp [h]

/-- The invariant of the transaction queue. -/
theorem sram_invariant_step (fl : SpiFlags) (a : Nat) (p_data : Option Ptr) (len : Nat)
    (q : SramQueue)
    (h : q.queued ≤ 4 ∧ q.index < 4 ∧ outstandingFrom 0 q.calls = q.queued ∧
      withinLimit 4 0 q.calls = true) :
    (EVE_memWrite_sram_buffer fl a p_data len q).queued ≤ 4 ∧
    (EVE_memWrite_sram_buffer fl a p_data len q).index < 4 ∧
    outstandingFrom 0 (EVE_memWrite_sram_buffer fl a p_data len q).calls =
      (EVE_memWrite_sram_buffer fl a p_data len q).queued ∧
    withinLimit 4 0 (EVE_memWrite_sram_buffer fl a p_data len q).calls = true := by
  obtain ⟨h1, h2, h3, h4⟩ := h
  cases p_data with
  | none => rw [EVE_memWrite_sram_buffer_skip fl a none len q (Or.inl rfl)]; exact ⟨h1, h2, h3, h4⟩
  | some p =>
      by_cases hl : len = 0
      · rw [EVE_memWrite_sram_buffer_skip fl a (some p) len q (Or.inr hl)]; exact ⟨h1, h2, h3, h4⟩
      · rw [EVE_memWrite_sram_buffer_valid fl a p len q (by omega)]
        by_cases hq : q.queued = 4
        · simp only [hq, if_true]
          refine ⟨by omega, and_3_lt _, ?_, ?_⟩
          · rw [List.append_assoc, outstandingFrom_append, h3, hq]; rfl
          · rw [List.append_assoc, withinLimit_append, h4, h3, hq]; rfl
        · simp only [hq, if_false, List.append_nil]
          refine ⟨by omega, and_3_lt _, ?_, ?_⟩
          · rw [outstandingFrom_append, h3]; rfl
          · rw [withinLimit_append, h4, h3]
            simp only [withinLimit, Bool.and_true, Bool.true_and, decide_eq_true_eq]
            omega

theorem sram_invariant_run (fl : SpiFlags) (calls : List (Nat × Option Ptr × Nat))
    (q : SramQueue)
    (h : q.queued ≤ 4 ∧ q.index < 4 ∧ outstandingFrom 0 q.calls = q.queued ∧
      withinLimit 4 0 q.calls = true) :
    (runSram fl calls q).queued ≤ 4 ∧ (runSram fl calls q).index < 4 ∧
    outstandingFrom 0 (runSram fl calls q).calls = (runSram fl calls q).queued ∧
    withinLimit 4 0 (runSram fl calls q).calls = true := by
  induction calls generalizing q with
  | nil => exact h
  | cons c rest ih =>
      obtain ⟨a, p, len⟩ := c
      exact ih _ (sram_invariant_step fl a p len q h)

/-! ## The two encodings of a string -/

theorem textBytes_succ (p : Ptr) (ti m : Nat) :
    textBytes p ti (m + 1) = p ti % 256 :: textBytes p (ti + 1) m := by
  simp only [textBytes, List.range_succ_eq_map, List.map_cons, List.map_map, Nat.add_zero]
  refine congrArg _ (List.map_congr_left ?_)
  intro i _
  simp only [Function.comp, Nat.succ_eq_add_one]
  rw [Nat.add_assoc, Nat.add_comm 1 i]

theorem textBytes_add (p : Ptr) (ti a b : Nat) :
    textBytes p ti (a + b) = textBytes p ti a ++ textBytes p (ti + a) b := by
  simp only [textBytes, List.range_add, List.map_append, List.map_map]
  refine congrArg _ (List.map_congr_left ?_)
  intro i _
  simp only [Function.comp, Nat.add_assoc]

theorem textBytes_lt (p : Ptr) (ti m : Nat) : ∀ b ∈ textBytes p ti m, b < 256 := by
  intro b hb
  simp only [textBytes, List.mem_map] at hb
  obtain ⟨i, _, rfl⟩ := hb
  exact Nat.mod_lt _ (by decide)

theorem textBytes_length (p : Ptr) (ti m : Nat) : (textBytes p ti m).length = m := by
  simp [textBytes]

theorem private_string_write_text_eq (p : Ptr) :
    ∀ (m ti fuel : Nat) (s : State), m ≤ fuel → ti + m ≤ 249 →
      (∀ i < m, p (ti + i) % 256 ≠ 0) → (p (ti + m) % 256 = 0 ∨ ti + m = 249) →
      private_string_write_text p ti fuel s
        = (ti + m, { s with bus := s.bus ++ (textBytes p ti m).map BusOp.transmit })
  | 0, ti, fuel, s, _, _, _, hz => by
      cases fuel with
      | zero => simp [private_string_write_text, textBytes]
      | succ n =>
          have hc : ¬ (ti < 249 ∧ p ti % 256 ≠ 0) := by
            rintro ⟨h1, h2⟩
            rcases hz with h | h
            · exact h2 h
            · omega
          rw [private_string_write_text, if_neg hc]
          simp [textBytes]
  | m + 1, ti, fuel, s, hf, hb, ht, hz => by
      cases fuel with
      | zero => omega
      | succ n =>
          have h0 : p ti % 256 ≠ 0 := ht 0 (by omega)
          have hlt : ti < 249 := by omega
          have hmod : (ti + 1) % 256 = ti + 1 := Nat.mod_eq_of_lt (by omega)
          have hz1 : p (ti + 1 + m) % 256 = 0 ∨ ti + 1 + m = 249 := by
            rw [Nat.add_assoc, Nat.add_comm 1 m]; exact hz
          have ht1 : ∀ i < m, p (ti + 1 + i) % 256 ≠ 0 := by
            intro i hi
            rw [Nat.add_assoc, Nat.add_comm 1 i]; exact ht (i + 1) (by omega)
          rw [private_string_write_text, if_pos ⟨hlt, h0⟩, hmod,
            private_string_write_text_eq p m (ti + 1) n _ (by omega) (by omega) ht1 hz1,
            textBytes_succ]
          simp only [spi_transmit, Nat.mod_mod, List.map_cons, List.append_assoc,
            List.singleton_append]
          rw [Nat.add_assoc, Nat.add_comm 1 m]

theorem pack4_eq (b0 b1 b2 b3 : Nat) (h0 : b0 < 256) (h1 : b1 < 256) (h2 : b2 < 256)
    (h3 : b3 < 256) :
    ((((0 + b0) % 2 ^ 32 + (b1 <<< 8)) % 2 ^ 32 + (b2 <<< 16)) % 2 ^ 32 + (b3 <<< 24)) % 2 ^ 32
      = b0 + (b1 <<< 8) + (b2 <<< 16) + (b3 <<< 24) := by
  simp only [Nat.shiftLeft_eq]
  norm_num
  omega

theorem pack4_lt (b0 b1 b2 b3 : Nat) (h0 : b0 < 256) (h1 : b1 < 256) (h2 : b2 < 256)
    (h3 : b3 < 256) : b0 + (b1 <<< 8) + (b2 <<< 16) + (b3 <<< 24) < 2 ^ 32 := by
  simp only [Nat.shiftLeft_eq]
  norm_num
  omega

theorem pack1_eq (b0 : Nat) (h0 : b0 < 256) :
    (0 + b0) % 2 ^ 32 = b0 + (0 <<< 8) + (0 <<< 16) + (0 <<< 24) := by
  simp only [Nat.shiftLeft_eq]
  norm_num
  omega

theorem pack2_eq (b0 b1 : Nat) (h0 : b0 < 256) (h1 : b1 < 256) :
    ((0 + b0) % 2 ^ 32 + (b1 <<< 8)) % 2 ^ 32 = b0 + (b1 <<< 8) + (0 <<< 16) + (0 <<< 24) := by
  simp only [Nat.shiftLeft_eq]
  norm_num
  omega

theorem pack3_eq (b0 b1 b2 : Nat) (h0 : b0 < 256) (h1 : b1 < 256) (h2 : b2 < 256) :
    (((0 + b0) % 2 ^ 32 + (b1 <<< 8)) % 2 ^ 32 + (b2 <<< 16)) % 2 ^ 32
      = b0 + (b1 <<< 8) + (b2 <<< 16) + (0 <<< 24) := by
  simp only [Nat.shiftLeft_eq]
  norm_num
  omega

theorem burstAll_cons (cfg : Config) (w : Nat) (ws : List Nat) (s : State) :
    burstAll cfg (w :: ws) s = burstAll cfg ws (spi_transmit_burst cfg w s) := rfl

theorem burstAll_append (cfg : Config) (ws vs : List Nat) (s : State) :
    burstAll cfg (ws ++ vs) s = burstAll cfg vs (burstAll cfg ws s) := by
  simp [burstAll, List.foldl_append]

theorem packWords_cons4 (b0 b1 b2 b3 : Nat) (t : List Nat) :
    packWords (b0 :: b1 :: b2 :: b3 :: t)
      = (b0 + (b1 <<< 8) + (b2 <<< 16) + (b3 <<< 24)) :: packWords t := by
  rw [packWords]

theorem burst_word_step (cfg : Config) (p : Ptr) (ti n : Nat) (s : State) (hlt : ti < 249)
    (h0 : p ti % 256 ≠ 0) (h1 : p (ti + 1) % 256 ≠ 0) (h2 : p (ti + 2) % 256 ≠ 0)
    (h3 : p (ti + 3) % 256 ≠ 0) :
    private_string_write_burst cfg p ti (n + 1) s
      = private_string_write_burst cfg p (ti + 4) n
          (spi_transmit_burst cfg
            (p ti % 256 + ((p (ti + 1) % 256) <<< 8) + ((p (ti + 2) % 256) <<< 16)
              + ((p (ti + 3) % 256) <<< 24)) s) := by
  have m1 : (ti + 1) % 256 = ti + 1 := Nat.mod_eq_of_lt (by omega)
  have m2 : (ti + 1 + 1) % 256 = ti + 2 := Nat.mod_eq_of_lt (by omega)
  have m3 : (ti + 2 + 1) % 256 = ti + 3 := Nat.mod_eq_of_lt (by omega)
  have m4 : (ti + 3 + 1) % 256 = ti + 4 := Nat.mod_eq_of_lt (by omega)
  rw [private_string_write_burst]
  simp only [if_pos hlt, m1, m2, m3, m4, if_neg (Ne.symm h0), if_neg (Ne.symm h1),
    if_neg (Ne.symm h2), if_neg (Ne.symm h3)]
  rw [pack4_eq _ _ _ _ (Nat.mod_lt _ (by decide)) (Nat.mod_lt _ (by decide))
    (Nat.mod_lt _ (by decide)) (Nat.mod_lt _ (by decide))]

theorem burst_full_words (cfg : Config) (p : Ptr) :
    ∀ (k ti fuel : Nat) (s : State), ti + 4 * k ≤ 252 →
      (∀ i < 4 * k, p (ti + i) % 256 ≠ 0) → k ≤ fuel →
      private_string_write_burst cfg p ti fuel s
        = private_string_write_burst cfg p (ti + 4 * k) (fuel - k)
            (burstAll cfg (packWords (textBytes p ti (4 * k))) s)
  | 0, ti, fuel, s, _, _, _ => by
      simp [textBytes, packWords, burstAll]
  | k + 1, ti, fuel, s, hb, ht, hf => by
      cases fuel with
      | zero => omega
      | succ n =>
          have e : 4 * (k + 1) = 4 * k + 1 + 1 + 1 + 1 := by omega
          have h0 : p ti % 256 ≠ 0 := ht 0 (by omega)
          have h1 : p (ti + 1) % 256 ≠ 0 := ht 1 (by omega)
          have h2 : p (ti + 2) % 256 ≠ 0 := ht 2 (by omega)
          have h3 : p (ti + 3) % 256 ≠ 0 := ht 3 (by omega)
          have ht4 : ∀ i < 4 * k, p (ti + 4 + i) % 256 ≠ 0 := by
            intro i hi
            rw [Nat.add_assoc]; exact ht (4 + i) (by omega)
          rw [burst_word_step cfg p ti n s (by omega) h0 h1 h2 h3,
            burst_full_words cfg p k (ti + 4) n _ (by omega) ht4 (by omega)]
          have e2 : textBytes p ti (4 * (k + 1))
              = p ti % 256 :: p (ti + 1) % 256 :: p (ti + 2) % 256 :: p (ti + 3) % 256
                  :: textBytes p (ti + 4) (4 * k) := by
            rw [e, textBytes_succ, textBytes_succ, textBytes_succ, textBytes_succ]
          rw [e2, packWords_cons4, burstAll_cons]
          have e3 : ti + 4 + 4 * k = ti + 4 * (k + 1) := by omega
          have e4 : n + 1 - (k + 1) = n - k := by omega
          rw [e3, e4]

theorem burst_tail (cfg : Config) (p : Ptr) (ti r n : Nat) (s : State) (hlt : ti < 249)
    (hr : r < 4) (ht : ∀ i < r, p (ti + i) % 256 ≠ 0) (hz : p (ti + r) % 256 = 0) :
    private_string_write_burst cfg p ti (n + 1) s
      = burstAll cfg (packWords (textBytes p ti r ++ List.replicate (4 - r) 0)) s := by
  have m1 : (ti + 1) % 256 = ti + 1 := Nat.mod_eq_of_lt (by omega)
  have m2 : (ti + 1 + 1) % 256 = ti + 2 := Nat.mod_eq_of_lt (by omega)
  have m3 : (ti + 2 + 1) % 256 = ti + 3 := Nat.mod_eq_of_lt (by omega)
  have b0 : p ti % 256 < 256 := Nat.mod_lt _ (by decide)
  have b1 : p (ti + 1) % 256 < 256 := Nat.mod_lt _ (by decide)
  have b2 : p (ti + 2) % 256 < 256 := Nat.mod_lt _ (by decide)
  have z : (0 : Nat) < 256 := by decide
  rw [private_string_write_burst]
  simp only [if_pos hlt, m1, m2, m3]
  interval_cases r
  · have hz0 : p ti % 256 = 0 := hz
    simp only [hz0, if_true, textBytes, List.range_zero, List.map_nil, List.nil_append]
    rfl
  · have h0 : p ti % 256 ≠ 0 := ht 0 (by omega)
    simp only [if_neg (Ne.symm h0), hz, if_true]
    rw [textBytes_succ]
    simp only [textBytes, List.range_zero, List.map_nil, List.cons_append, List.nil_append]
    show _ = burstAll cfg (packWords [p ti % 256, 0, 0, 0]) s
    rw [packWords_cons4, burstAll_cons, pack1_eq _ b0]
    rfl
  · have h0 : p ti % 256 ≠ 0 := ht 0 (by omega)
    have h1 : p (ti + 1) % 256 ≠ 0 := ht 1 (by omega)
    simp only [if_neg (Ne.symm h0), if_neg (Ne.symm h1), hz, if_true]
    rw [textBytes_succ, textBytes_succ]
    simp only [textBytes, List.range_zero, List.map_nil, List.cons_append, List.nil_append]
    show _ = burstAll cfg (packWords [p ti % 256, p (ti + 1) % 256, 0, 0]) s
    rw [packWords_cons4, burstAll_cons, pack2_eq _ _ b0 b1]
    rfl
  · have h0 : p ti % 256 ≠ 0 := ht 0 (by omega)
    have h1 : p (ti + 1) % 256 ≠ 0 := ht 1 (by omega)
    have h2 : p (ti + 2) % 256 ≠ 0 := ht 2 (by omega)
    simp only [if_neg (Ne.symm h0), if_neg (Ne.symm h1), if_neg (Ne.symm h2), hz, if_true]
    rw [textBytes_succ, textBytes_succ, textBytes_succ]
    simp only [textBytes, List.range_zero, List.map_nil, List.cons_append, List.nil_append]
    show _ = burstAll cfg (packWords [p ti % 256, p (ti + 1) % 256, p (ti + 2) % 256, 0]) s
    rw [packWords_cons4, burstAll_cons, pack3_eq _ _ _ b0 b1 b2]
    rfl

theorem packWords_append : ∀ (n : Nat) (a b : List Nat), a.length = 4 * n →
    packWords (a ++ b) = packWords a ++ packWords b
  | 0, a, b, h => by
      have : a = [] := List.length_eq_zero.mp (by omega)
      subst this
      simp [packWords]
  | n + 1, a, b, h => by
      match a, h with
      | b0 :: b1 :: b2 :: b3 :: t, h =>
          have ht : t.length = 4 * n := by simp only [List.length_cons] at h; omega
          simp only [List.cons_append, packWords_cons4, packWords_append n t b ht]
      | [], h => simp at h
      | [_], h => simp at h; omega
      | [_, _], h => simp at h; omega
      | [_, _, _], h => simp at h; omega

theorem wordBytes_packWords : ∀ (n : Nat) (bs : List Nat), bs.length = 4 * n →
    (∀ b ∈ bs, b < 256) → wordBytes (packWords bs) = bs
  | 0, bs, h, _ => by
      have : bs = [] := List.length_eq_zero.mp (by omega)
      subst this
      simp [packWords, wordBytes]
  | n + 1, bs, h, hb => by
      match bs, h, hb with
      | b0 :: b1 :: b2 :: b3 :: t, h, hb =>
          have ht : t.length = 4 * n := by simp only [List.length_cons] at h; omega
          have h0 : b0 < 256 := hb b0 (by simp)
          have h1 : b1 < 256 := hb b1 (by simp)
          have h2 : b2 < 256 := hb b2 (by simp)
          have h3 : b3 < 256 := hb b3 (by simp)
          have hbt : ∀ b ∈ t, b < 256 := fun b hm => hb b (by simp [hm])
          have ih := wordBytes_packWords n t ht hbt
          simp only [wordBytes] at ih ⊢
          rw [packWords_cons4, List.map_cons, List.flatten_cons, ih, leBytes_four]
          simp only [Nat.shiftLeft_eq, List.cons_append, List.nil_append, List.cons.injEq,
            and_true]
          norm_num
          refine ⟨?_, ?_, ?_, ?_⟩ <;> omega
      | [], h, _ => simp at h
      | [_], h, _ => simp at h; omega
      | [_, _], h, _ => simp at h; omega
      | [_, _, _], h, _ => simp at h; omega

theorem packWords_mem : ∀ (n : Nat) (bs : List Nat), bs.length = 4 * n →
    (∀ b ∈ bs, b < 256) → ∀ w ∈ packWords bs, ∃ b0 b1 b2 b3, b0 < 256 ∧ b1 < 256 ∧
      b2 < 256 ∧ b3 < 256 ∧ w = b0 + (b1 <<< 8) + (b2 <<< 16) + (b3 <<< 24)
  | 0, bs, h, _ => by
      have : bs = [] := List.length_eq_zero.mp (by omega)
      subst this
      simp [packWords]
  | n + 1, bs, h, hb => by
      match bs, h, hb with
      | b0 :: b1 :: b2 :: b3 :: t, h, hb =>
          have ht : t.length = 4 * n := by simp only [List.length_cons] at h; omega
          have hbt : ∀ b ∈ t, b < 256 := fun b hm => hb b (by simp [hm])
          intro w hw
          rw [packWords_cons4, List.mem_cons] at hw
          rcases hw with hw | hw
          · exact ⟨b0, b1, b2, b3, hb b0 (by simp), hb b1 (by simp), hb b2 (by simp),
              hb b3 (by simp), hw⟩
          · exact packWords_mem n t ht hbt w hw
      | [], h, _ => simp at h
      | [_], h, _ => simp at h; omega
      | [_, _], h, _ => simp at h; omega
      | [_, _, _], h, _ => simp at h; omega

theorem packWords_lt (n : Nat) (bs : List Nat) (h : bs.length = 4 * n)
    (hb : ∀ b ∈ bs, b < 256) (w : Nat) (hw : w ∈ packWords bs) : w < 2 ^ 32 := by
  obtain ⟨b0, b1, b2, b3, h0, h1, h2, h3, e⟩ := packWords_mem n bs h hb w hw
  rw [e]
  exact pack4_lt b0 b1 b2 b3 h0 h1 h2 h3

theorem stringContent_length (p : Ptr) (n : Nat) :
    (stringContent p n).length = 4 * (n / 4 + 1) := by
  simp only [stringContent, List.length_append, textBytes_length, List.length_replicate]
  omega

theorem stringContent_lt (p : Ptr) (n : Nat) : ∀ b ∈ stringContent p n, b < 256 := by
  intro b hb
  simp only [stringContent, List.mem_append, List.mem_replicate] at hb
  rcases hb with hb | ⟨_, rfl⟩
  · exact textBytes_lt p 0 n b hb
  · decide

theorem stringContent_split (p : Ptr) (n : Nat) :
    stringContent p n = textBytes p 0 (4 * (n / 4))
      ++ (textBytes p (4 * (n / 4)) (n % 4) ++ List.replicate (4 - n % 4) 0) := by
  have e : n = 4 * (n / 4) + n % 4 := (Nat.div_add_mod n 4).symm
  rw [stringContent, ← List.append_assoc]
  conv_lhs => rw [e, textBytes_add]
  simp only [Nat.zero_add, Nat.mul_add_mod]
  rw [Nat.mod_mod]

theorem private_string_write_burst_eq (cfg : Config) (p : Ptr) (n : Nat) (s : State)
    (hn : n ≤ 249) (ht : ∀ i < n, p i % 256 ≠ 0) (hz : p n % 256 = 0) :
    private_string_write_burst cfg p 0 249 s
      = burstAll cfg (packWords (stringContent p n)) s := by
  have e : n = 4 * (n / 4) + n % 4 := (Nat.div_add_mod n 4).symm
  have hr : n % 4 < 4 := Nat.mod_lt _ (by decide)
  have ht0 : ∀ i < 4 * (n / 4), p (0 + i) % 256 ≠ 0 := by
    intro i hi
    rw [Nat.zero_add]; exact ht i (by omega)
  rw [burst_full_words cfg p (n / 4) 0 249 s (by omega) ht0 (by omega), Nat.zero_add]
  have hf : 249 - n / 4 = (248 - n / 4) + 1 := by omega
  have ht1 : ∀ i < n % 4, p (4 * (n / 4) + i) % 256 ≠ 0 := by
    intro i hi
    exact ht _ (by omega)
  have hz1 : p (4 * (n / 4) + n % 4) % 256 = 0 := by rw [← e]; exact hz
  rw [hf, burst_tail cfg p (4 * (n / 4)) (n % 4) _ _ (by omega) hr ht1 hz1,
    stringContent_split, packWords_append (n / 4) _ _ (textBytes_length _ _ _),
    burstAll_append]

theorem burstAll_noDma (cfg : Config) (h : cfg.EVE_DMA = false) :
    ∀ (ws : List Nat) (s : State),
      burstAll cfg ws s
        = { s with bus := s.bus ++ ws.map (fun w => BusOp.transmit_32 (w % 2 ^ 32)) }
  | [], s => by simp [burstAll]
  | w :: ws, s => by
      rw [burstAll_cons, burstAll_noDma cfg h ws]
      simp [spi_transmit_burst, h, spi_transmit_32]

theorem txBytes_words : ∀ (ws : List Nat), (∀ w ∈ ws, w < 2 ^ 32) →
    txBytes (ws.map (fun w => BusOp.transmit_32 (w % 2 ^ 32))) = wordBytes ws
  | [], _ => rfl
  | w :: ws, h => by
      have hw : w % 2 ^ 32 = w := Nat.mod_eq_of_lt (h w (by simp))
      have ih := txBytes_words ws (fun v hv => h v (by simp [hv]))
      simp only [wordBytes] at ih ⊢
      simp only [List.map_cons, txBytes, hw, ih, List.flatten_cons, leBytes_four,
        List.cons_append, List.nil_append]

/-! ## Bounded waits of initialisation and flash bring-up -/

theorem countReads_append (addr : Nat) (a b : List BusOp) :
    countReads addr (a ++ b) = countReads addr a + countReads addr b := by
  simp [countReads, List.count_append]

theorem countReads_delay (addr ms : Nat) : countReads addr [BusOp.delay_ms ms] = 0 := by
  simp [countReads]

theorem countReads_readOps (dev : Device) (addr n : Nat) (h : List BusOp) :
    countReads addr (readOps dev addr n h) = 1 := by
  have hz : List.count (BusOp.transmit_32 (readWord addr))
      (List.map BusOp.receive (rxBytes dev n (h ++ [BusOp.cs_set,
        BusOp.transmit_32 (readWord addr)]))) = 0 := by
    rw [List.count_eq_zero]
    intro hm
    simp at hm
  simp [countReads, readOps, List.count_append, List.count_cons, hz]

theorem countDelays_pollOps (dev : Device) (addr : Nat) (h : List BusOp) :
    countDelays (pollOps dev addr h) = 1 := by
  have e : pollOps dev addr h
      = [BusOp.delay_ms 1] ++ readOps dev addr 1 (h ++ [BusOp.delay_ms 1]) := rfl
  rw [e, countDelays_append, countDelays_readOps]
  rfl

theorem countReads_pollOps (dev : Device) (addr : Nat) (h : List BusOp) :
    countReads addr (pollOps dev addr h) = 1 := by
  have e : pollOps dev addr h
      = [BusOp.delay_ms 1] ++ readOps dev addr 1 (h ++ [BusOp.delay_ms 1]) := rfl
  rw [e, countReads_append, countReads_readOps, countReads_delay]

theorem pollUntil_good (dev : Device) (addr : Nat) (good : Nat → Bool) (n : Nat)
    (h : List BusOp) (hg : good (pollValue dev addr h) = true) :
    pollUntil dev addr good (n + 1) h = (true, pollOps dev addr h) := by
  rw [pollUntil]
  simp only [hg, if_true]

theorem pollUntil_bad (dev : Device) (addr : Nat) (good : Nat → Bool) (n : Nat)
    (h : List BusOp) (hg : good (pollValue dev addr h) = false) :
    pollUntil dev addr good (n + 1) h
      = ((pollUntil dev addr good n (h ++ pollOps dev addr h)).1,
          pollOps dev addr h ++ (pollUntil dev addr good n (h ++ pollOps dev addr h)).2) := by
  rw [pollUntil]
  simp only [hg, Bool.false_eq_true, if_false]

theorem pollUntil_counts (dev : Device) (addr : Nat) (good : Nat → Bool) :
    ∀ (n : Nat) (h : List BusOp),
      countReads addr (pollUntil dev addr good n h).2 ≤ n ∧
      countDelays (pollUntil dev addr good n h).2
        = countReads addr (pollUntil dev addr good n h).2 ∧
      ((pollUntil dev addr good n h).1 = false →
        countReads addr (pollUntil dev addr good n h).2 = n) ∧
      (0 < n → 1 ≤ countReads addr (pollUntil dev addr good n h).2)
  | 0, h => by simp [pollUntil, countReads, countDelays]
  | n + 1, h => by
      obtain ⟨i1, i2, i3, _⟩ := pollUntil_counts dev addr good n (h ++ pollOps dev addr h)
      cases hg : good (pollValue dev addr h) with
      | true =>
          rw [pollUntil_good dev addr good n h hg]
          simp only [countReads_pollOps, countDelays_pollOps]
          exact ⟨by omega, trivial, fun hc => Bool.noConfusion hc, fun _ => Nat.le_refl 1⟩
      | false =>
          rw [pollUntil_bad dev addr good n h hg]
          simp only [countReads_append, countDelays_append, countReads_pollOps,
            countDelays_pollOps]
          exact ⟨by omega, by omega, fun hc => by have := i3 hc; omega, fun _ => by omega⟩

theorem onlyPolls_pollOps (dev : Device) (addr : Nat) (h : List BusOp) :
    OnlyPolls addr (pollOps dev addr h) := by
  intro op hm
  simp only [pollOps, readOps, List.mem_cons, List.mem_append, List.mem_map,
    List.mem_singleton, List.not_mem_nil, or_false, List.cons_append, List.nil_append] at hm
  rcases hm with h1 | h1 | h1 | ⟨b, _, h1⟩ | h1
  · exact Or.inl h1
  · exact Or.inr (Or.inl h1)
  · exact Or.inr (Or.inr (Or.inr (Or.inl h1)))
  · exact Or.inr (Or.inr (Or.inr (Or.inr ⟨b, h1.symm⟩)))
  · exact Or.inr (Or.inr (Or.inl h1))

theorem onlyPolls_pollUntil (dev : Device) (addr : Nat) (good : Nat → Bool) :
    ∀ (n : Nat) (h : List BusOp), OnlyPolls addr (pollUntil dev addr good n h).2
  | 0, h => by
      intro op hm
      simp [pollUntil] at hm
  | n + 1, h => by
      have ih := onlyPolls_pollUntil dev addr good n (h ++ pollOps dev addr h)
      cases hg : good (pollValue dev addr h) with
      | true =>
          rw [pollUntil_good dev addr good n h hg]
          exact onlyPolls_pollOps dev addr h
      | false =>
          rw [pollUntil_bad dev addr good n h hg]
          intro op hm
          rcases List.mem_append.mp hm with h1 | h1
          · exact onlyPolls_pollOps dev addr h op h1
          · exact ih op h1

theorem poll_step (dev : Device) (addr : Nat) (s : State) :
    EVE_memRead8 dev addr (DELAY_MS 1 s)
      = (pollValue dev addr s.bus, { s with bus := s.bus ++ pollOps dev addr s.bus }) := by
  rw [EVE_memRead8_eq]
  simp only [DELAY_MS, pollValue, pollOps, List.append_assoc, List.singleton_append]

theorem wait_chipid_loop_eq (ic : InitConfig) (dev : Device) (ret : RetCode) :
    ∀ (n timeout : Nat) (s : State), timeout + n = 400 →
      wait_chipid_loop ic dev timeout ret s
        = (if (pollUntil dev ic.REG_ID chipidGood (n + 1) s.bus).1 = true then RetCode.E_OK
            else ret,
          { s with bus := s.bus ++ (pollUntil dev ic.REG_ID chipidGood (n + 1) s.bus).2 })
  | 0, timeout, s, ht => by
      rw [wait_chipid_loop, pollUntil]
      simp only [poll_step]
      by_cases hg : 0x7c = pollValue dev ic.REG_ID s.bus
      · simp [hg, chipidGood]
      · have ht2 : timeout + 1 > 400 := by omega
        simp [hg, chipidGood, ht2, pollUntil]
  | n + 1, timeout, s, ht => by
      rw [wait_chipid_loop, pollUntil]
      simp only [poll_step]
      by_cases hg : 0x7c = pollValue dev ic.REG_ID s.bus
      · simp [hg, chipidGood]
      · have ht2 : ¬ (timeout + 1 > 400) := by omega
        simp only [hg, if_false, ht2, chipidGood, decide_False, Bool.false_eq_true]
        rw [wait_chipid_loop_eq ic dev ret n (timeout + 1) _ (by omega)]
        simp only [chipidGood, List.append_assoc]

theorem wait_chipid_eq (ic : InitConfig) (dev : Device) (s : State) :
    wait_chipid ic dev s
      = (if (pollUntil dev ic.REG_ID chipidGood 401 s.bus).1 = true then RetCode.E_OK
          else RetCode.EVE_FAIL_CHIPID_TIMEOUT,
        { s with bus := s.bus ++ (pollUntil dev ic.REG_ID chipidGood 401 s.bus).2 }) := by
  unfold wait_chipid
  exact wait_chipid_loop_eq ic dev _ 400 0 s rfl

theorem wait_reset_loop_eq (cfg : Config) (dev : Device) (ret : RetCode) :
    ∀ (n timeout : Nat) (s : State), timeout + n = 50 →
      wait_reset_loop cfg dev timeout ret s
        = (if (pollUntil dev cfg.REG_CPURESET resetGood (n + 1) s.bus).1 = true
            then RetCode.E_OK else ret,
          { s with bus := s.bus ++ (pollUntil dev cfg.REG_CPURESET resetGood (n + 1) s.bus).2 })
  | 0, timeout, s, ht => by
      rw [wait_reset_loop, pollUntil]
      simp only [poll_step]
      by_cases hg : 0 = pollValue dev cfg.REG_CPURESET s.bus &&& 7
      · simp [hg, resetGood]
      · have ht2 : timeout + 1 > 50 := by omega
        simp [hg, resetGood, ht2, pollUntil]
  | n + 1, timeout, s, ht => by
      rw [wait_reset_loop, pollUntil]
      simp only [poll_step]
      by_cases hg : 0 = pollValue dev cfg.REG_CPURESET s.bus &&& 7
      · simp [hg, resetGood]
      · have ht2 : ¬ (timeout + 1 > 50) := by omega
        simp only [hg, if_false, ht2, resetGood, decide_False, Bool.false_eq_true]
        rw [wait_reset_loop_eq cfg dev ret n (timeout + 1) _ (by omega)]
        simp only [resetGood, List.append_assoc]

theorem wait_reset_eq (cfg : Config) (dev : Device) (s : State) :
    wait_reset cfg dev s
      = (if (pollUntil dev cfg.REG_CPURESET resetGood 51 s.bus).1 = true then RetCode.E_OK
          else RetCode.EVE_FAIL_RESET_TIMEOUT,
        { s with bus := s.bus ++ (pollUntil dev cfg.REG_CPURESET resetGood 51 s.bus).2 }) := by
  unfold wait_reset
  exact wait_reset_loop_eq cfg dev _ 50 0 s rfl

theorem countDelays_statusPollOps (dev : Device) (addr : Nat) (h : List BusOp) :
    countDelays (statusPollOps dev addr h) = 1 := by
  rw [statusPollOps, countDelays_append, countDelays_readOps]
  rfl

theorem countReads_statusPollOps (dev : Device) (addr : Nat) (h : List BusOp) :
    countReads addr (statusPollOps dev addr h) = 1 := by
  rw [statusPollOps, countReads_append, countReads_readOps, countReads_delay]

theorem silent_statusPollOps (dev : Device) (addr : Nat) (h : List BusOp) :
    Silent (statusPollOps dev addr h) :=
  silent_append (silent_readOps dev addr 1 h) (silent_delay 1)

theorem statusPollsWhile_counts (dev : Device) (addr init : Nat) :
    ∀ (n status : Nat) (h : List BusOp),
      countDelays (statusPollsWhile dev addr init n status h).2 ≤ n ∧
      countReads addr (statusPollsWhile dev addr init n status h).2
        = countDelays (statusPollsWhile dev addr init n status h).2 ∧
      Silent (statusPollsWhile dev addr init n status h).2 ∧
      (countDelays (statusPollsWhile dev addr init n status h).2 < n →
        (statusPollsWhile dev addr init n status h).1 ≠ init)
  | 0, status, h => by
      simp only [statusPollsWhile, countDelays, countReads, List.count_nil]
      exact ⟨Nat.le_refl 0, trivial, silent_nil, fun hc => absurd hc (Nat.lt_irrefl 0)⟩
  | n + 1, status, h => by
      obtain ⟨i1, i2, i3, i4⟩ := statusPollsWhile_counts dev addr init n
        (readValue dev addr 1 h) (h ++ statusPollOps dev addr h)
      rw [statusPollsWhile]
      by_cases hI : init = status
      · simp only [hI, if_true, countDelays_append, countReads_append,
          countDelays_statusPollOps, countReads_statusPollOps] at i1 i2 i3 i4 ⊢
        refine ⟨by omega, by omega, silent_append (silent_statusPollOps dev addr h) i3, ?_⟩
        intro hc
        exact i4 (by omega)
      · simp only [hI, if_false, countDelays, countReads, List.count_nil]
        exact ⟨Nat.zero_le _, trivial, silent_nil, fun _ e => hI e.symm⟩

theorem statusPolls_counts (dev : Device) (addr : Nat) :
    ∀ (n : Nat) (h : List BusOp),
      countDelays (statusPolls dev addr n h) = n ∧
      countReads addr (statusPolls dev addr n h) = n ∧ Silent (statusPolls dev addr n h)
  | 0, h => ⟨rfl, rfl, silent_nil⟩
  | n + 1, h => by
      obtain ⟨i1, i2, i3⟩ := statusPolls_counts dev addr n (h ++ statusPollOps dev addr h)
      rw [statusPolls, countDelays_append, countReads_append, countDelays_statusPollOps,
        countReads_statusPollOps, i1, i2]
      exact ⟨by omega, by omega, silent_append (silent_statusPollOps dev addr h) i3⟩

theorem statusPollsWhile_stuck (dev : Device) (addr init : Nat)
    (hI : ∀ h, readValue dev addr 1 h = init) :
    ∀ (n : Nat) (h : List BusOp),
      statusPollsWhile dev addr init n init h = (init, statusPolls dev addr n h)
  | 0, h => rfl
  | n + 1, h => by
      rw [statusPollsWhile, statusPolls]
      simp only [if_true, hI, statusPollsWhile_stuck dev addr init hI n]

theorem status_poll_step (dev : Device) (addr : Nat) (s : State) :
    DELAY_MS 1 (EVE_memRead8 dev addr s).2
      = { s with bus := s.bus ++ statusPollOps dev addr s.bus } := by
  rw [EVE_memRead8_eq]
  simp only [DELAY_MS, statusPollOps, List.append_assoc]

theorem EVE_init_flash_wait_eq (ic : InitConfig) (dev : Device) (ret : RetCode) :
    ∀ (n timeout status : Nat) (s : State), timeout + n = 100 →
      EVE_init_flash_wait ic dev timeout status ret s
        = ((statusPollsWhile dev ic.REG_FLASH_STATUS ic.EVE_FLASH_STATUS_INIT (n + 1)
              status s.bus).1,
            if countDelays (statusPollsWhile dev ic.REG_FLASH_STATUS
                ic.EVE_FLASH_STATUS_INIT (n + 1) status s.bus).2 = n + 1
              then RetCode.EVE_FAIL_FLASH_STATUS_INIT else ret,
            { s with bus := s.bus ++ (statusPollsWhile dev ic.REG_FLASH_STATUS
                ic.EVE_FLASH_STATUS_INIT (n + 1) status s.bus).2 })
  | 0, timeout, status, s, ht => by
      rw [EVE_init_flash_wait, statusPollsWhile]
      by_cases hI : ic.EVE_FLASH_STATUS_INIT = status
      · have ht2 : timeout + 1 > 100 := by omega
        rw [if_pos hI, if_pos hI]
        simp only [ht2, if_true, status_poll_step, statusPollsWhile, List.append_nil,
          countDelays_statusPollOps]
        rw [EVE_memRead8_eq]
      · rw [if_neg hI, if_neg hI]
        simp only [List.append_nil, countDelays]
        rfl
  | n + 1, timeout, status, s, ht => by
      rw [EVE_init_flash_wait, statusPollsWhile]
      by_cases hI : ic.EVE_FLASH_STATUS_INIT = status
      · have ht2 : ¬ (timeout + 1 > 100) := by omega
        rw [if_pos hI, if_pos hI]
        simp only [ht2, if_false, status_poll_step]
        rw [EVE_init_flash_wait_eq ic dev ret n (timeout + 1) _ _ (by omega)]
        have e : ∀ x : Nat, (1 + x = n + 1 + 1) = (x = n + 1) := by
          intro x; apply propext; constructor <;> intro h <;> omega
        simp only [EVE_memRead8_eq, countDelays_append, countDelays_statusPollOps,
          List.append_assoc, e]
      · rw [if_neg hI, if_neg hI]
        simp only [List.append_nil, countDelays]
        rfl

theorem EVE_init_flash_wait_skip (ic : InitConfig) (dev : Device) (timeout status : Nat)
    (ret : RetCode) (s : State) (h : ic.EVE_FLASH_STATUS_INIT ≠ status) :
    EVE_init_flash_wait ic dev timeout status ret s = (status, ret, s) := by
  rw [EVE_init_flash_wait, if_neg h]

theorem flashfast_outcome_other (r : Nat)
    (h : r ∉ [0, 0xE001, 0xE002, 0xE003, 0xE004, 0xE005]) :
    flashfast_outcome r = RetCode.E_NOT_OK := by
  simp only [List.mem_cons, List.mem_singleton, List.not_mem_nil, or_false, not_or] at h
  unfold flashfast_outcome
  split
  all_goals first | rfl | (exfalso; omega)

theorem flashfast_switch (r : Nat) (s : State) :
    (if r = 0x0000 then some (RetCode.E_OK, s)
      else if r = 0xE001 then some (RetCode.EVE_FAIL_FLASHFAST_NOT_SUPPORTED, s)
      else if r = 0xE002 then some (RetCode.EVE_FAIL_FLASHFAST_NO_HEADER_DETECTED, s)
      else if r = 0xE003 then some (RetCode.EVE_FAIL_FLASHFAST_SECTOR0_FAILED, s)
      else if r = 0xE004 then some (RetCode.EVE_FAIL_FLASHFAST_BLOB_MISMATCH, s)
      else if r = 0xE005 then some (RetCode.EVE_FAIL_FLASHFAST_SPEED_TEST, s)
      else some (RetCode.E_NOT_OK, s)) = some (flashfast_outcome r, s) := by
  by_cases h0 : r = 0x0000
  · subst h0; rfl
  by_cases h1 : r = 0xE001
  · subst h1; rfl
  by_cases h2 : r = 0xE002
  · subst h2; rfl
  by_cases h3 : r = 0xE003
  · subst h3; rfl
  by_cases h4 : r = 0xE004
  · subst h4; rfl
  by_cases h5 : r = 0xE005
  · subst h5; rfl
  rw [if_neg h0, if_neg h1, if_neg h2, if_neg h3, if_neg h4, if_neg h5,
    flashfast_outcome_other r (by simp [h0, h1, h2, h3, h4, h5])]

/-! ## Flash bring-up after the wait -/

theorem EVE_cmd_dl_eq (cfg : Config) (command : Nat) (s : State) (h : s.cmd_burst = 0) :
    EVE_cmd_dl cfg command s = { s with bus := s.bus ++ commandOps [command] } := by
  simp only [EVE_cmd_dl, if_pos h.symm, eve_begin_cmd, EVE_cs_set, EVE_cs_clear, spi_transmit,
    spi_transmit_32, commandOps, List.map_cons, List.map_nil, List.append_assoc,
    List.cons_append, List.nil_append]

theorem fifoWrites_commandOps (words : List Nat) (rest : List BusOp) :
    fifoWrites (commandOps words ++ rest)
      = txBytes (words.map (fun w => BusOp.transmit_32 (w % 2 ^ 32))) :: fifoWrites rest := by
  have e : commandOps words ++ rest =
      BusOp.cs_set :: ((BusOp.transmit 0xB0 :: BusOp.transmit 0x25 :: BusOp.transmit 0x78 ::
        words.map (fun w => BusOp.transmit_32 (w % 2 ^ 32))) ++ BusOp.cs_clear :: rest) := by
    simp [commandOps]
  have hb : ∀ op ∈ (BusOp.transmit 0xB0 :: BusOp.transmit 0x25 :: BusOp.transmit 0x78 ::
      words.map (fun w => BusOp.transmit_32 (w % 2 ^ 32))), op ≠ BusOp.cs_clear := by
    intro op hm
    simp only [List.mem_cons, List.mem_map] at hm
    rcases hm with rfl | rfl | rfl | ⟨w, _, rfl⟩ <;> simp
  rw [e, fifoWrites_window _ _ hb]
  simp [fifoPayload]

theorem txBytes_command (a b : Nat) :
    txBytes ([a, b].map (fun w => BusOp.transmit_32 (w % 2 ^ 32)))
      = wordBytes [a % 2 ^ 32, b % 2 ^ 32] := by
  simp [txBytes, wordBytes, leBytes_four]

theorem txBytes_command_one (a : Nat) :
    txBytes ([a].map (fun w => BusOp.transmit_32 (w % 2 ^ 32))) = wordBytes [a % 2 ^ 32] := by
  simp [txBytes, wordBytes, leBytes_four]

theorem flashfast_open (ic : InitConfig) (s : State) :
    EVE_cs_clear (spi_transmit_32 0 (eve_begin_cmd ic.CMD_FLASHFAST s))
      = { s with bus := s.bus ++ commandOps [ic.CMD_FLASHFAST, 0] } := by
  simp only [eve_begin_cmd, EVE_cs_set, EVE_cs_clear, spi_transmit, spi_transmit_32,
    commandOps, List.map_cons, List.map_nil, List.append_assoc, List.cons_append,
    List.nil_append]

theorem ext_silent_trans {a b c : List BusOp} (h1 : ∃ t, b = a ++ t ∧ Silent t)
    (t2 : List BusOp) (h2 : c = b ++ t2) (q : Silent t2) : ∃ t, c = a ++ t ∧ Silent t := by
  obtain ⟨t, e, q1⟩ := h1
  exact ⟨t ++ t2, by rw [h2, e, List.append_assoc], silent_append q1 q⟩

theorem EVE_cmd_flashfast_some (cfg : Config) (ic : InitConfig) (dev : Device) (fuel : Nat)
    (s s2 : State) (r : Nat) (hc : cfg.recoveryAvoidsFifo)
    (h : EVE_cmd_flashfast cfg ic dev fuel s = some (r, s2)) :
    (∃ t, s2.bus = s.bus ++ commandOps [ic.CMD_FLASHFAST, 0] ++ t ∧ Silent t) ∧
      s2.EVE_dma_busy = s.EVE_dma_busy := by
  unfold EVE_cmd_flashfast at h
  simp only [flashfast_open] at h
  cases he : EVE_execute_cmd cfg dev fuel
      { s with bus := s.bus ++ commandOps [ic.CMD_FLASHFAST, 0] } with
  | none => simp [he] at h
  | some s1 =>
      obtain ⟨t, e1, q1, d1⟩ := execute_silent cfg dev fuel _ s1 hc he
      simp only [he, EVE_memRead16_eq, EVE_memRead32_eq, Option.some.injEq,
        Prod.mk.injEq] at h
      obtain ⟨_, h2⟩ := h
      rw [← h2]
      exact ⟨ext_silent_trans (ext_silent_trans ⟨t, e1, q1⟩ _ rfl (silent_readOps _ _ _ _))
        _ rfl (silent_readOps _ _ _ _), d1⟩

theorem EVE_cmd_flashfast_mono (cfg : Config) (ic : InitConfig) (dev : Device)
    (fuel fuel1 : Nat) (s : State) (x : Nat × State)
    (h : EVE_cmd_flashfast cfg ic dev fuel s = some x) (hle : fuel ≤ fuel1) :
    EVE_cmd_flashfast cfg ic dev fuel1 s = some x := by
  simp only [EVE_cmd_flashfast] at h ⊢
  cases he : EVE_execute_cmd cfg dev fuel
      (EVE_cs_clear (spi_transmit_32 0 (eve_begin_cmd ic.CMD_FLASHFAST s))) with
  | none => simp [he] at h
  | some s1 =>
      rw [execute_mono cfg dev fuel fuel1 _ s1 he hle]
      rw [he] at h
      exact h

theorem EVE_cmd_flashfast_terminates (cfg : Config) (ic : InitConfig) (dev : Device)
    (s : State) (hd : Drains cfg dev) (hi : cfg.EVE_DMA = true → s.EVE_dma_busy = 0) :
    ∃ fuel x, EVE_cmd_flashfast cfg ic dev fuel s = some x := by
  obtain ⟨fuel, s1, he⟩ := hd (EVE_cs_clear (spi_transmit_32 0
    (eve_begin_cmd ic.CMD_FLASHFAST s))) hi
  refine ⟨fuel, ?_⟩
  simp only [EVE_cmd_flashfast, he]
  exact ⟨_, rfl⟩

theorem EVE_init_flash_basic (cfg : Config) (ic : InitConfig) (dev : Device) (fuel : Nat)
    (s s1 : State) (ret : RetCode)
    (hw : EVE_init_flash_wait ic dev 0 (readValue dev ic.REG_FLASH_STATUS 1 s.bus)
      RetCode.E_NOT_OK { s with bus := s.bus ++ readOps dev ic.REG_FLASH_STATUS 1 s.bus }
        = (ic.EVE_FLASH_STATUS_BASIC, ret, s1))
    (h1 : ic.EVE_FLASH_STATUS_DETACHED ≠ ic.EVE_FLASH_STATUS_BASIC)
    (h2 : ic.EVE_FLASH_STATUS_FULL ≠ ic.EVE_FLASH_STATUS_BASIC) :
    EVE_init_flash cfg ic dev fuel s
      = (EVE_cmd_flashfast cfg ic dev fuel s1).map
          (fun x => (flashfast_outcome x.1, x.2)) := by
  simp only [EVE_init_flash, EVE_memRead8_eq, hw, if_neg h1, if_true]
  cases EVE_cmd_flashfast cfg ic dev fuel s1 with
  | none => rfl
  | some x =>
      obtain ⟨r, s2⟩ := x
      simp only [flashfast_switch, if_neg h2, Option.map_some']

theorem EVE_init_flash_full (cfg : Config) (ic : InitConfig) (dev : Device) (fuel : Nat)
    (s s1 : State) (ret : RetCode)
    (hw : EVE_init_flash_wait ic dev 0 (readValue dev ic.REG_FLASH_STATUS 1 s.bus)
      RetCode.E_NOT_OK { s with bus := s.bus ++ readOps dev ic.REG_FLASH_STATUS 1 s.bus }
        = (ic.EVE_FLASH_STATUS_FULL, ret, s1))
    (h1 : ic.EVE_FLASH_STATUS_DETACHED ≠ ic.EVE_FLASH_STATUS_FULL)
    (h2 : ic.EVE_FLASH_STATUS_BASIC ≠ ic.EVE_FLASH_STATUS_FULL) :
    EVE_init_flash cfg ic dev fuel s = some (RetCode.E_OK, s1) := by
  simp only [EVE_init_flash, EVE_memRead8_eq, hw, if_neg h1, if_neg h2, if_true]

theorem EVE_init_flash_other (cfg : Config) (ic : InitConfig) (dev : Device) (fuel : Nat)
    (s s1 : State) (ret : RetCode) (status : Nat)
    (hw : EVE_init_flash_wait ic dev 0 (readValue dev ic.REG_FLASH_STATUS 1 s.bus)
      RetCode.E_NOT_OK { s with bus := s.bus ++ readOps dev ic.REG_FLASH_STATUS 1 s.bus }
        = (status, ret, s1))
    (h1 : ic.EVE_FLASH_STATUS_DETACHED ≠ status) (h2 : ic.EVE_FLASH_STATUS_BASIC ≠ status)
    (h3 : ic.EVE_FLASH_STATUS_FULL ≠ status) :
    EVE_init_flash cfg ic dev fuel s = some (ret, s1) := by
  simp only [EVE_init_flash, EVE_memRead8_eq, hw, if_neg h1, if_neg h2, if_neg h3]

theorem EVE_init_flash_detached (cfg : Config) (ic : InitConfig) (dev : Device) (fuel : Nat)
    (s s1 : State) (ret : RetCode)
    (hw : EVE_init_flash_wait ic dev 0 (readValue dev ic.REG_FLASH_STATUS 1 s.bus)
      RetCode.E_NOT_OK { s with bus := s.bus ++ readOps dev ic.REG_FLASH_STATUS 1 s.bus }
        = (ic.EVE_FLASH_STATUS_DETACHED, ret, s1))
    (hb : ic.EVE_FLASH_STATUS_BASIC = 2)
    (hfb : ic.EVE_FLASH_STATUS_FULL ≠ ic.EVE_FLASH_STATUS_BASIC) :
    EVE_init_flash cfg ic dev fuel s
      = match EVE_execute_cmd cfg dev fuel (EVE_cmd_dl cfg ic.CMD_FLASHATTACH s1) with
        | none => none
        | some s2 =>
            if readValue dev ic.REG_FLASH_STATUS 1 s2.bus = ic.EVE_FLASH_STATUS_BASIC then
              (EVE_cmd_flashfast cfg ic dev fuel
                { s2 with bus := s2.bus ++ readOps dev ic.REG_FLASH_STATUS 1 s2.bus }).map
                (fun x => (flashfast_outcome x.1, x.2))
            else if readValue dev ic.REG_FLASH_STATUS 1 s2.bus = ic.EVE_FLASH_STATUS_FULL then
              some (RetCode.E_OK,
                { s2 with bus := s2.bus ++ readOps dev ic.REG_FLASH_STATUS 1 s2.bus })
            else
              some (RetCode.EVE_FAIL_FLASH_STATUS_DETACHED,
                { s2 with bus := s2.bus ++ readOps dev ic.REG_FLASH_STATUS 1 s2.bus }) := by
  simp only [EVE_init_flash, EVE_memRead8_eq, hw, if_true]
  cases EVE_execute_cmd cfg dev fuel (EVE_cmd_dl cfg ic.CMD_FLASHATTACH s1) with
  | none => rfl
  | some s2 =>
      by_cases hv : readValue dev ic.REG_FLASH_STATUS 1 s2.bus = ic.EVE_FLASH_STATUS_BASIC
      · have hv2 : ¬ (readValue dev ic.REG_FLASH_STATUS 1 s2.bus ≠ 2) := by
          rw [hv, hb]; exact fun h => h rfl
        have hfv : ¬ (ic.EVE_FLASH_STATUS_FULL = readValue dev ic.REG_FLASH_STATUS 1 s2.bus) := by
          rw [hv]; exact hfb
        simp only [hv2, if_false, hv.symm, if_true]
        cases EVE_cmd_flashfast cfg ic dev fuel
            { s2 with bus := s2.bus ++ readOps dev ic.REG_FLASH_STATUS 1 s2.bus } with
        | none => simp
        | some x =>
            obtain ⟨r, s3⟩ := x
            simp only [flashfast_switch, hv, if_neg hfb, Option.map_some', if_true]
      · have hv2 : readValue dev ic.REG_FLASH_STATUS 1 s2.bus ≠ 2 := by
          rw [← hb]; exact hv
        have hbv : ¬ (ic.EVE_FLASH_STATUS_BASIC = readValue dev ic.REG_FLASH_STATUS 1 s2.bus) :=
          fun h => hv h.symm
        simp only [hv2, ne_eq, not_false_eq_true, if_true, if_neg hbv, if_neg hv]
        by_cases hf : readValue dev ic.REG_FLASH_STATUS 1 s2.bus = ic.EVE_FLASH_STATUS_FULL
        · simp only [hf, if_true]
        · have hfv : ¬ (ic.EVE_FLASH_STATUS_FULL = readValue dev ic.REG_FLASH_STATUS 1 s2.bus) :=
            fun h => hf h.symm
          simp only [if_neg hfv, if_neg hf]

theorem flashCodes_ne (ic : InitConfig) (h : ic.flashCodes) :
    ic.EVE_FLASH_STATUS_BASIC = 2 ∧
    ic.EVE_FLASH_STATUS_INIT ≠ ic.EVE_FLASH_STATUS_DETACHED ∧
    ic.EVE_FLASH_STATUS_INIT ≠ ic.EVE_FLASH_STATUS_BASIC ∧
    ic.EVE_FLASH_STATUS_INIT ≠ ic.EVE_FLASH_STATUS_FULL ∧
    ic.EVE_FLASH_STATUS_DETACHED ≠ ic.EVE_FLASH_STATUS_BASIC ∧
    ic.EVE_FLASH_STATUS_DETACHED ≠ ic.EVE_FLASH_STATUS_FULL ∧
    ic.EVE_FLASH_STATUS_BASIC ≠ ic.EVE_FLASH_STATUS_FULL := by
  obtain ⟨hb, hn⟩ := h
  simp only [List.nodup_cons, List.mem_cons, List.mem_singleton, List.not_mem_nil,
    not_or, or_false, List.nodup_nil, and_true, not_false_eq_true] at hn
  obtain ⟨⟨h1, h2, h3⟩, ⟨h4, h5⟩, h6⟩ := hn
  exact ⟨hb, h1, h2, h3, h4, h5, h6⟩

theorem fifoWrites_silent (t : List BusOp) (h : Silent t) : fifoWrites t = [] := by
  have := h []
  rw [List.append_nil] at this
  rw [this]
  rfl

theorem fifoWrites_command_silent (words : List Nat) (t : List BusOp) (h : Silent t) :
    fifoWrites (commandOps words ++ t)
      = [txBytes (words.map (fun w => BusOp.transmit_32 (w % 2 ^ 32)))] := by
  rw [fifoWrites_commandOps, fifoWrites_silent t h]

theorem readValue_one_constDevice (value addr : Nat) (h : List BusOp) :
    readValue (constDevice value) addr 1 h = value % 256 := by
  simp only [readValue, rxBytes, leValue, constDevice, getLast?_append_two]
  omega

/-! ## Chip initialisation -/

theorem EVE_cmdWrite_eq (command parameter : Nat) (s : State) :
    EVE_cmdWrite command parameter s
      = { s with bus := s.bus ++ hostCommandOps command parameter } := by
  simp only [EVE_cmdWrite, EVE_cs_set, EVE_cs_clear, spi_transmit, hostCommandOps,
    List.append_assoc, List.cons_append, List.nil_append, Nat.zero_mod]

theorem EVE_init_eq (cfg : Config) (ic : InitConfig) (dev : Device) (fuel : Nat)
    (s s0 : State) (h0 : s0 = { s with bus := s.bus ++ bootOps cfg ic }) :
    EVE_init cfg ic dev fuel s
      = if RetCode.E_OK = (wait_chipid ic dev s0).1 then
          if RetCode.E_OK = (wait_reset cfg dev (wait_chipid ic dev s0).2).1 then
            match EVE_init_setup cfg ic dev fuel
                (wait_reset cfg dev (wait_chipid ic dev s0).2).2 with
            | none => none
            | some s1 => some ((wait_reset cfg dev (wait_chipid ic dev s0).2).1, s1)
          else some (wait_reset cfg dev (wait_chipid ic dev s0).2)
        else some (wait_chipid ic dev s0) := by
  have hboot : DELAY_MS 40 (EVE_cmdWrite ic.EVE_ACTIVE 0
      (if cfg.EVE_GEN > 2 then EVE_cmdWrite ic.EVE_CLKSEL 0x46
          (if ic.EVE_HAS_CRYSTAL = true then EVE_cmdWrite ic.EVE_CLKEXT 0
              (if ic.EVE_GD3X = true then EVE_cmdWrite ic.EVE_RST_PULSE 0
                (DELAY_MS 21 (EVE_pdn_clear (DELAY_MS 6 (EVE_pdn_set s))))
              else DELAY_MS 21 (EVE_pdn_clear (DELAY_MS 6 (EVE_pdn_set s))))
            else EVE_cmdWrite ic.EVE_CLKINT 0
              (if ic.EVE_GD3X = true then EVE_cmdWrite ic.EVE_RST_PULSE 0
                (DELAY_MS 21 (EVE_pdn_clear (DELAY_MS 6 (EVE_pdn_set s))))
              else DELAY_MS 21 (EVE_pdn_clear (DELAY_MS 6 (EVE_pdn_set s)))))
        else
          (if ic.EVE_HAS_CRYSTAL = true then EVE_cmdWrite ic.EVE_CLKEXT 0
              (if ic.EVE_GD3X = true then EVE_cmdWrite ic.EVE_RST_PULSE 0
                (DELAY_MS 21 (EVE_pdn_clear (DELAY_MS 6 (EVE_pdn_set s))))
              else DELAY_MS 21 (EVE_pdn_clear (DELAY_MS 6 (EVE_pdn_set s))))
            else EVE_cmdWrite ic.EVE_CLKINT 0
              (if ic.EVE_GD3X = true then EVE_cmdWrite ic.EVE_RST_PULSE 0
                (DELAY_MS 21 (EVE_pdn_clear (DELAY_MS 6 (EVE_pdn_set s))))
              else DELAY_MS 21 (EVE_pdn_clear (DELAY_MS 6 (EVE_pdn_set s)))))))
      = s0 := by
    rw [h0]
    unfold bootOps
    cases ic.EVE_GD3X <;> cases ic.EVE_HAS_CRYSTAL <;> by_cases hg : cfg.EVE_GEN > 2 <;>
      simp only [hg, if_true, if_false, Bool.false_eq_true, EVE_cmdWrite_eq, EVE_pdn_set,
        EVE_pdn_clear, DELAY_MS, List.append_assoc, List.nil_append, List.cons_append,
        List.append_nil]
  simp only [EVE_init, hboot]

theorem pollUntil_never (dev : Device) (addr : Nat) (good : Nat → Bool)
    (hbad : ∀ h, good (pollValue dev addr h) = false) :
    ∀ (n : Nat) (h : List BusOp), (pollUntil dev addr good n h).1 = false
  | 0, _ => rfl
  | n + 1, h => by
      rw [pollUntil_bad dev addr good n h (hbad h)]
      exact pollUntil_never dev addr good hbad n _

theorem pollUntil_split (dev : Device) (addr : Nat) (good : Nat → Bool) (b : Nat) :
    ∀ (a : Nat) (h : List BusOp), (pollUntil dev addr good a h).1 = false →
      pollUntil dev addr good (a + b) h
        = ((pollUntil dev addr good b (h ++ (pollUntil dev addr good a h).2)).1,
            (pollUntil dev addr good a h).2 ++
              (pollUntil dev addr good b (h ++ (pollUntil dev addr good a h).2)).2)
  | 0, h, _ => by simp [pollUntil]
  | a + 1, h, hf => by
      cases hg : good (pollValue dev addr h) with
      | true =>
          rw [pollUntil_good dev addr good a h hg] at hf
          cases hf
      | false =>
          rw [pollUntil_bad dev addr good a h hg] at hf
          have e : a + 1 + b = (a + b) + 1 := by omega
          rw [e, pollUntil_bad dev addr good (a + b) h hg,
            pollUntil_bad dev addr good a h hg,
            pollUntil_split dev addr good b a _ hf]
          simp only [List.append_assoc]

theorem pollUntil_accept_last (dev : Device) (addr : Nat) (good : Nat → Bool) (n : Nat)
    (h : List BusOp) (hf : (pollUntil dev addr good n h).1 = false)
    (hg : good (pollValue dev addr (h ++ (pollUntil dev addr good n h).2)) = true) :
    (pollUntil dev addr good (n + 1) h).1 = true ∧
    countReads addr (pollUntil dev addr good (n + 1) h).2 = n + 1 := by
  rw [pollUntil_split dev addr good 1 n h hf, pollUntil_good dev addr good 0 _ hg]
  refine ⟨rfl, ?_⟩
  rw [countReads_append, (pollUntil_counts dev addr good n h).2.2.1 hf, countReads_pollOps]

theorem pollValue_constDevice (value addr : Nat) (h : List BusOp) :
    pollValue (constDevice value) addr h = value % 256 :=
  readValue_one_constDevice value addr _

theorem pollValue_lateDevice (addr k early late : Nat) (h : List BusOp) :
    pollValue (lateDevice addr k early late) addr h
      = if k ≤ countReads addr h + 1 then late % 256 else early % 256 := by
  have hc : countReads addr (h ++ [BusOp.delay_ms 1] ++ [BusOp.cs_set,
      BusOp.transmit_32 (readWord addr)]) = countReads addr h + 1 := by
    simp [countReads, List.count_append, List.count_cons]
  simp only [pollValue, readValue, rxBytes, leValue, lateDevice, hc]
  split <;> simp

theorem pollUntil_lateDevice (addr k early late : Nat) (good : Nat → Bool)
    (h0 : good (early % 256) = false) :
    ∀ (n : Nat) (h : List BusOp), countReads addr h + n < k →
      (pollUntil (lateDevice addr k early late) addr good n h).1 = false ∧
      countReads addr (h ++ (pollUntil (lateDevice addr k early late) addr good n h).2)
        = countReads addr h + n
  | 0, h, _ => by simp [pollUntil]
  | n + 1, h, hk => by
      have hv : pollValue (lateDevice addr k early late) addr h = early % 256 := by
        rw [pollValue_lateDevice, if_neg (by omega)]
      have hg : good (pollValue (lateDevice addr k early late) addr h) = false := by
        rw [hv]; exact h0
      have hc : countReads addr (h ++ pollOps (lateDevice addr k early late) addr h)
          = countReads addr h + 1 := by
        rw [countReads_append, countReads_pollOps]
      obtain ⟨i1, i2⟩ := pollUntil_lateDevice addr k early late good h0 n
        (h ++ pollOps (lateDevice addr k early late) addr h) (by omega)
      rw [pollUntil_bad _ addr good n h hg]
      refine ⟨i1, ?_⟩
      rw [← List.append_assoc, i2, hc]
      omega

theorem pollUntil_late_accept (addr k early late : Nat) (good : Nat → Bool)
    (h0 : good (early % 256) = false) (h1 : good (late % 256) = true) (n : Nat)
    (h : List BusOp) (hc : countReads addr h = 0) (hk : 1 ≤ k) (hn : k ≤ n) :
    (pollUntil (lateDevice addr k early late) addr good n h).1 = true ∧
    countReads addr (pollUntil (lateDevice addr k early late) addr good n h).2 = k := by
  obtain ⟨i1, i2⟩ := pollUntil_lateDevice addr k early late good h0 (k - 1) h (by omega)
  have hg : good (pollValue (lateDevice addr k early late) addr
      (h ++ (pollUntil (lateDevice addr k early late) addr good (k - 1) h).2)) = true := by
    rw [pollValue_lateDevice, i2, if_pos (by omega)]
    exact h1
  have e : n = (k - 1) + ((n - k) + 1) := by omega
  rw [e, pollUntil_split _ addr good _ (k - 1) h i1, pollUntil_good _ addr good (n - k) _ hg]
  refine ⟨rfl, ?_⟩
  rw [countReads_append, countReads_pollOps]
  rw [countReads_append, hc, Nat.zero_add] at i2
  omega

theorem pollUntil_never_counts (dev : Device) (addr : Nat) (good : Nat → Bool)
    (hbad : ∀ h, good (pollValue dev addr h) = false) (n : Nat) (h : List BusOp) :
    (pollUntil dev addr good n h).1 = false ∧
    countReads addr (pollUntil dev addr good n h).2 = n :=
  ⟨pollUntil_never dev addr good hbad n h,
    (pollUntil_counts dev addr good n h).2.2.1 (pollUntil_never dev addr good hbad n h)⟩

theorem EVE_init_flash_stuck (cfg : Config) (ic : InitConfig) (dev : Device) (s : State)
    (fuel : Nat) (hcodes : ic.flashCodes)
    (hinit : ∀ h, readValue dev ic.REG_FLASH_STATUS 1 h = ic.EVE_FLASH_STATUS_INIT) :
    EVE_init_flash cfg ic dev fuel s
      = some (RetCode.EVE_FAIL_FLASH_STATUS_INIT,
          { s with bus := (s.bus ++ readOps dev ic.REG_FLASH_STATUS 1 s.bus ++
              statusPolls dev ic.REG_FLASH_STATUS 101
                (s.bus ++ readOps dev ic.REG_FLASH_STATUS 1 s.bus)) }) := by
  obtain ⟨_, h01, h02, h03, _, _, _⟩ := flashCodes_ne ic hcodes
  obtain ⟨c1, _, _⟩ := statusPolls_counts dev ic.REG_FLASH_STATUS 101
    (s.bus ++ readOps dev ic.REG_FLASH_STATUS 1 s.bus)
  have hw : EVE_init_flash_wait ic dev 0 (readValue dev ic.REG_FLASH_STATUS 1 s.bus)
      RetCode.E_NOT_OK { s with bus := s.bus ++ readOps dev ic.REG_FLASH_STATUS 1 s.bus }
        = (ic.EVE_FLASH_STATUS_INIT, RetCode.EVE_FAIL_FLASH_STATUS_INIT,
            { s with bus := (s.bus ++ readOps dev ic.REG_FLASH_STATUS 1 s.bus ++
                statusPolls dev ic.REG_FLASH_STATUS 101
                  (s.bus ++ readOps dev ic.REG_FLASH_STATUS 1 s.bus)) }) := by
    rw [EVE_init_flash_wait_eq ic dev _ 100 0 _ _ rfl, hinit,
      statusPollsWhile_stuck dev _ _ hinit]
    simp only [c1, if_true]
  exact EVE_init_flash_other cfg ic dev fuel s _ _ _ hw
    (fun h => h01 h.symm) (fun h => h02 h.symm) (fun h => h03 h.symm)

theorem grows_refl (s : State) : Grows s s := ⟨⟨[], by simp⟩, rfl⟩

theorem grows_trans {a b c : State} (h1 : Grows a b) (h2 : Grows b c) : Grows a c := by
  obtain ⟨⟨t1, e1⟩, d1⟩ := h1
  obtain ⟨⟨t2, e2⟩, d2⟩ := h2
  exact ⟨⟨t1 ++ t2, by rw [e2, e1, List.append_assoc]⟩, d2.trans d1⟩

theorem grows_memWrite8 (a v : Nat) {s x : State} (h : Grows s x) :
    Grows s (EVE_memWrite8 a v x) :=
  grows_trans h (by rw [EVE_memWrite8_eq]; exact ⟨⟨_, rfl⟩, rfl⟩)

theorem grows_memWrite16 (a v : Nat) {s x : State} (h : Grows s x) :
    Grows s (EVE_memWrite16 a v x) :=
  grows_trans h (by rw [EVE_memWrite16_eq]; exact ⟨⟨_, rfl⟩, rfl⟩)

theorem grows_memWrite32 (a v : Nat) {s x : State} (h : Grows s x) :
    Grows s (EVE_memWrite32 a v x) :=
  grows_trans h (by rw [EVE_memWrite32_eq]; exact ⟨⟨_, rfl⟩, rfl⟩)

theorem grows_memRead16 (dev : Device) (a : Nat) {s x : State} (h : Grows s x) :
    Grows s (EVE_memRead16 dev a x).2 :=
  grows_trans h (by rw [EVE_memRead16_eq]; exact ⟨⟨_, rfl⟩, rfl⟩)

theorem grows_delay (ms : Nat) {s x : State} (h : Grows s x) : Grows s (DELAY_MS ms x) :=
  grows_trans h ⟨⟨_, rfl⟩, rfl⟩

theorem grows_busy (cfg : Config) (dev : Device) (s : State) :
    Grows s (EVE_busy cfg dev s).2 := by
  by_cases hd : cfg.EVE_DMA = true → s.EVE_dma_busy = 0
  · rw [EVE_busy_idle cfg dev s hd]
    split
    · exact ⟨⟨_, by simp only [List.append_assoc]; rfl⟩, rfl⟩
    · exact ⟨⟨_, rfl⟩, rfl⟩
  · have h1 : cfg.EVE_DMA = true := by
      by_contra hn; exact hd (fun h => absurd h hn)
    have h2 : s.EVE_dma_busy ≠ 0 := fun e => hd (fun _ => e)
    rw [EVE_busy_dma cfg dev s h1 h2]
    exact grows_refl s

theorem grows_execute (cfg : Config) (dev : Device) (fuel : Nat) (s s1 : State)
    (h : EVE_execute_cmd cfg dev fuel s = some s1) : Grows s s1 := by
  induction fuel generalizing s with
  | zero => simp [EVE_execute_cmd] at h
  | succ n ih =>
      rw [EVE_execute_cmd] at h
      by_cases hr : (EVE_busy cfg dev s).1 ≠ RetCode.E_OK
      · simp only [hr, ne_eq, not_false_eq_true, if_true] at h
        exact grows_trans (grows_busy cfg dev s) (ih _ h)
      · simp only [hr, if_false, Option.some.injEq] at h
        rw [← h]
        exact grows_busy cfg dev s

theorem grows_idle (cfg : Config) {s x : State} (h : Grows s x)
    (hi : cfg.EVE_DMA = true → s.EVE_dma_busy = 0) :
    cfg.EVE_DMA = true → x.EVE_dma_busy = 0 :=
  fun hd => h.2.trans (hi hd)

theorem grows_write_display_parameters (ic : InitConfig) (dev : Device) {s x : State}
    (h : Grows s x) : Grows s (EVE_write_display_parameters ic dev x) := by
  simp only [EVE_write_display_parameters]
  repeat' first
    | with_reducible apply grows_memWrite8
    | with_reducible apply grows_memWrite16
    | with_reducible apply grows_memRead16
    | split
    | with_reducible exact h

theorem grows_enable_pixel_clock (cfg : Config) (ic : InitConfig) {s x : State}
    (h : Grows s x) : Grows s (enable_pixel_clock cfg ic x) := by
  simp only [enable_pixel_clock]
  repeat' first
    | with_reducible apply grows_memWrite8
    | with_reducible apply grows_memWrite16
    | split
    | with_reducible exact h

theorem grows_gt911_upload (p_data : Ptr) (len : Nat) (hl : len < 65536) (s : State) :
    Grows s (EVE_cs_clear (private_block_write p_data len
      (spi_transmit 0x78 (spi_transmit 0x25 (spi_transmit 0xB0 (EVE_cs_set s)))))) := by
  rw [private_block_write_eq _ _ _ hl]
  exact ⟨⟨_, by simp only [EVE_cs_clear, EVE_cs_set, spi_transmit, List.append_assoc]; rfl⟩,
    rfl⟩

theorem grows_use_gt911 (cfg : Config) (ic : InitConfig) (dev : Device) (fuel : Nat)
    (s s1 : State) (h : use_gt911 cfg ic dev fuel s = some s1) : Grows s s1 := by
  simp only [use_gt911] at h
  by_cases hg : cfg.EVE_GEN > 2
  · rw [if_pos hg, Option.some.injEq] at h
    rw [← h]
    exact grows_memWrite16 _ _ (grows_refl s)
  · rw [if_neg hg] at h
    cases he : EVE_execute_cmd cfg dev fuel (EVE_cs_clear (private_block_write
        eve_gt911_data_ptr 1184
        (spi_transmit 0x78 (spi_transmit 0x25 (spi_transmit 0xB0 (EVE_cs_set s)))))) with
    | none =>
        rw [he] at h
        cases h
    | some s2 =>
        rw [he] at h
        have g0 := grows_trans (grows_gt911_upload eve_gt911_data_ptr 1184
          (by decide) s) (grows_execute cfg dev fuel _ s2 he)
        rw [← Option.some.inj h]
        exact grows_memWrite16 _ _ (grows_delay _ (grows_memWrite8 _ _ (grows_delay _
          (grows_memWrite16 _ _ (grows_memWrite16 _ _ (grows_memWrite8 _ _ g0))))))

theorem use_gt911_mono (cfg : Config) (ic : InitConfig) (dev : Device) (fuel fuel1 : Nat)
    (s s1 : State) (h : use_gt911 cfg ic dev fuel s = some s1) (hle : fuel ≤ fuel1) :
    use_gt911 cfg ic dev fuel1 s = some s1 := by
  simp only [use_gt911] at h ⊢
  by_cases hg : cfg.EVE_GEN > 2
  · rw [if_pos hg] at h ⊢
    exact h
  · rw [if_neg hg] at h ⊢
    cases he : EVE_execute_cmd cfg dev fuel (EVE_cs_clear (private_block_write
        eve_gt911_data_ptr 1184
        (spi_transmit 0x78 (spi_transmit 0x25 (spi_transmit 0xB0 (EVE_cs_set s)))))) with
    | none =>
        rw [he] at h
        cases h
    | some s2 =>
        rw [execute_mono cfg dev fuel fuel1 _ s2 he hle]
        rw [he] at h
        exact h

theorem use_gt911_terminates (cfg : Config) (ic : InitConfig) (dev : Device) (s : State)
    (hd : Drains cfg dev) (hi : cfg.EVE_DMA = true → s.EVE_dma_busy = 0) :
    ∃ fuel s1, use_gt911 cfg ic dev fuel s = some s1 := by
  by_cases hg : cfg.EVE_GEN > 2
  · exact ⟨0, EVE_memWrite16 ic.REG_TOUCH_CONFIG 0x05d0 s, by simp only [use_gt911, if_pos hg]⟩
  · obtain ⟨fuel, s2, he⟩ := hd (EVE_cs_clear (private_block_write
        eve_gt911_data_ptr 1184
        (spi_transmit 0x78 (spi_transmit 0x25 (spi_transmit 0xB0 (EVE_cs_set s))))))
      (grows_idle cfg (grows_gt911_upload _ 1184 (by decide) s) hi)
    refine ⟨fuel, ?_⟩
    simp only [use_gt911, if_neg hg, he]
    exact ⟨_, rfl⟩

theorem EVE_init_setup_shape (cfg : Config) (ic : InitConfig) (dev : Device) :
    ∃ F : State → State, (∀ x, Grows x (F x)) ∧
      ∀ fuel s, EVE_init_setup cfg ic dev fuel s
        = match (if ic.EVE_HAS_GT911 then
              use_gt911 cfg ic dev fuel
                (if cfg.EVE_GEN > 2 then EVE_memWrite32 ic.REG_FREQUENCY 72000000 s else s)
            else some
              (if cfg.EVE_GEN > 2 then EVE_memWrite32 ic.REG_FREQUENCY 72000000 s else s)) with
          | none => none
          | some s3 =>
              match EVE_execute_cmd cfg dev fuel (F s3) with
              | none => none
              | some s5 => some (if cfg.EVE_DMA then EVE_init_dma s5 else s5) := by
  refine ⟨(fun s =>
    let s := if ic.EVE_ADAM101 then EVE_memWrite8 ic.REG_PWM_DUTY 0x80 s
      else EVE_memWrite8 ic.REG_PWM_DUTY 0 s
    let s := EVE_write_display_parameters ic dev s
    let s := EVE_memWrite8 ic.REG_VOL_PB 0 s
    let s := EVE_memWrite8 ic.REG_VOL_SOUND 0 s
    let s := EVE_memWrite16 ic.REG_SOUND ic.EVE_MUTE s
    let s := EVE_memWrite32 ic.EVE_RAM_DL ic.DL_CLEAR_COLOR_RGB s
    let s := EVE_memWrite32 (ic.EVE_RAM_DL + 4)
      (ic.DL_CLEAR ||| ic.CLR_COL ||| ic.CLR_STN ||| ic.CLR_TAG) s
    let s := EVE_memWrite32 (ic.EVE_RAM_DL + 8) ic.DL_DISPLAY s
    let s := EVE_memWrite32 ic.REG_DLSWAP ic.EVE_DLSWAP_FRAME s
    let s := if ic.EVE_GD3X then EVE_memWrite16 ic.REG_OUTBITS 0x01B6 s else s
    let s := enable_pixel_clock cfg ic s
    let s :=
      match ic.EVE_BACKLIGHT_PWM with
      | some pwm => EVE_memWrite8 ic.REG_PWM_DUTY pwm s
      | none =>
          if ic.EVE_ADAM101 then EVE_memWrite8 ic.REG_PWM_DUTY 0x60 s
          else EVE_memWrite8 ic.REG_PWM_DUTY 0x20 s
    DELAY_MS 1 s : State → State), ?_, ?_⟩
  rotate_left
  · intro fuel s
    rfl
  intro x
  simp only []
  repeat' first
    | with_reducible apply grows_memWrite8
    | with_reducible apply grows_memWrite16
    | with_reducible apply grows_memWrite32
    | with_reducible apply grows_delay
    | with_reducible apply grows_write_display_parameters
    | with_reducible apply grows_enable_pixel_clock
    | split
    | with_reducible exact grows_refl x

theorem grows_init_pre (cfg : Config) (ic : InitConfig) (s : State) :
    Grows s (if cfg.EVE_GEN > 2 then EVE_memWrite32 ic.REG_FREQUENCY 72000000 s else s) := by
  split
  · exact grows_memWrite32 _ _ (grows_refl s)
  · exact grows_refl s

theorem grows_init_setup (cfg : Config) (ic : InitConfig) (dev : Device) (fuel : Nat)
    (s s1 : State) (h : EVE_init_setup cfg ic dev fuel s = some s1) : Grows s s1 := by
  obtain ⟨F, hF, hs⟩ := EVE_init_setup_shape cfg ic dev
  rw [hs] at h
  have hdma : ∀ x : State, (if cfg.EVE_DMA = true then EVE_init_dma x else x) = x := by
    intro x; split <;> rfl
  by_cases hgt : ic.EVE_HAS_GT911 = true
  · rw [if_pos hgt] at h
    cases hu : use_gt911 cfg ic dev fuel
        (if cfg.EVE_GEN > 2 then EVE_memWrite32 ic.REG_FREQUENCY 72000000 s else s) with
    | none => rw [hu] at h; cases h
    | some s3 =>
        rw [hu] at h
        cases he : EVE_execute_cmd cfg dev fuel (F s3) with
        | none => simp only [he] at h; cases h
        | some s5 =>
            simp only [he, hdma, Option.some.injEq] at h
            rw [← h]
            exact grows_trans (grows_init_pre cfg ic s) (grows_trans
              (grows_use_gt911 cfg ic dev fuel _ s3 hu) (grows_trans (hF s3)
                (grows_execute cfg dev fuel _ s5 he)))
  · rw [if_neg hgt] at h
    cases he : EVE_execute_cmd cfg dev fuel
        (F (if cfg.EVE_GEN > 2 then EVE_memWrite32 ic.REG_FREQUENCY 72000000 s else s)) with
    | none => simp only [he] at h; cases h
    | some s5 =>
        simp only [he, hdma, Option.some.injEq] at h
        rw [← h]
        exact grows_trans (grows_init_pre cfg ic s) (grows_trans (hF _)
          (grows_execute cfg dev fuel _ s5 he))

theorem EVE_init_setup_terminates (cfg : Config) (ic : InitConfig) (dev : Device)
    (s : State) (hd : Drains cfg dev) (hi : cfg.EVE_DMA = true → s.EVE_dma_busy = 0) :
    ∃ fuel s1, EVE_init_setup cfg ic dev fuel s = some s1 := by
  obtain ⟨F, hF, hs⟩ := EVE_init_setup_shape cfg ic dev
  have hpre := grows_idle cfg (grows_init_pre cfg ic s) hi
  by_cases hgt : ic.EVE_HAS_GT911 = true
  · obtain ⟨f1, s3, hu⟩ := use_gt911_terminates cfg ic dev _ hd hpre
    have h3 := grows_idle cfg (grows_use_gt911 cfg ic dev f1 _ s3 hu) hpre
    obtain ⟨f2, s5, he⟩ := hd (F s3) (grows_idle cfg (hF s3) h3)
    refine ⟨max f1 f2, ?_⟩
    rw [hs, if_pos hgt, use_gt911_mono cfg ic dev f1 (max f1 f2) _ s3 hu (Nat.le_max_left _ _)]
    simp only [execute_mono cfg dev f2 (max f1 f2) _ s5 he (Nat.le_max_right _ _)]
    exact ⟨_, rfl⟩
  · obtain ⟨f2, s5, he⟩ := hd (F _) (grows_idle cfg (hF _) hpre)
    refine ⟨f2, ?_⟩
    rw [hs, if_neg hgt]
    simp only [he]
    exact ⟨_, rfl⟩

/-! ## The scripted chip -/

theorem lastReadWord_open (h : List BusOp) (w : Nat) :
    lastReadWord (h ++ [BusOp.cs_set, BusOp.transmit_32 w]) = some w := by
  simp [lastReadWord, List.reverse_append, List.dropWhile, BusOp.isReceive]

theorem lastReadWord_recv (h : List BusOp) (w b : Nat) :
    lastReadWord (h ++ [BusOp.cs_set, BusOp.transmit_32 w] ++ [BusOp.receive b]) = some w := by
  simp [lastReadWord, List.reverse_append, List.dropWhile, BusOp.isReceive]

theorem trailing_open (h : List BusOp) (w : Nat) :
    ((h ++ [BusOp.cs_set, BusOp.transmit_32 w]).reverse.takeWhile BusOp.isReceive).length
      = 0 := by
  simp [List.reverse_append, List.takeWhile, BusOp.isReceive]

theorem trailing_recv (h : List BusOp) (w b : Nat) :
    ((h ++ [BusOp.cs_set, BusOp.transmit_32 w] ++ [BusOp.receive b]).reverse.takeWhile
      BusOp.isReceive).length = 1 := by
  simp [List.reverse_append, List.takeWhile, BusOp.isReceive]

theorem scriptDevice_other (sa ra : Nat) (script : List Nat) (result addr : Nat)
    (h : List BusOp) (h1 : readWord addr ≠ readWord sa) (h2 : readWord addr ≠ readWord ra) :
    readValue (scriptDevice sa ra script result) addr 2 h = 0xFFC := by
  rw [readValue_two]
  simp only [scriptDevice, lastReadWord_open, lastReadWord_recv, trailing_open,
    trailing_recv, if_neg h1, if_neg h2]
  rfl

theorem scriptDevice_result (sa ra : Nat) (script : List Nat) (result : Nat)
    (h : List BusOp) (h1 : readWord ra ≠ readWord sa) :
    readValue (scriptDevice sa ra script result) ra 1 h = result % 256 := by
  simp only [readValue, rxBytes, leValue, scriptDevice, lastReadWord_open, trailing_open,
    if_neg h1, if_true, Nat.mul_zero, Nat.shiftRight_zero, Nat.mod_mod, Nat.add_zero]

theorem scriptDevice_empty (sa ra : Nat) (result : Nat) (h : List BusOp) :
    readValue (scriptDevice sa ra [] result) sa 1 h = 0 := by
  simp only [readValue, rxBytes, leValue, scriptDevice, lastReadWord_open, if_true,
    List.getD_nil, Nat.zero_mod, Nat.mul_zero, Nat.add_zero]

theorem drains_scriptDevice (cfg : Config) (sa ra : Nat) (script : List Nat) (result : Nat)
    (h1 : readWord cfg.REG_CMDB_SPACE ≠ readWord sa)
    (h2 : readWord cfg.REG_CMDB_SPACE ≠ readWord ra) :
    Drains cfg (scriptDevice sa ra script result) := by
  intro s hd
  refine ⟨1, (EVE_busy cfg (scriptDevice sa ra script result) s).2, ?_⟩
  have hr : (EVE_busy cfg (scriptDevice sa ra script result) s).1 = RetCode.E_OK := by
    rw [EVE_busy_idle cfg _ s hd, scriptDevice_other sa ra script result _ _ h1 h2]
    rfl
  rw [EVE_execute_cmd]
  simp [hr]

/-! ## Readback of command results: offsets and reads -/

theorem and_0xfff (x : Nat) : x &&& 0xfff = x % 4096 :=
  Nat.and_pow_two_sub_one_eq_mod x 12

theorem result_offset_eq (w k : Nat) (hk : k ≤ 2 ^ 32) :
    result_offset w k = ringOffset w k := by
  unfold result_offset ringOffset
  rw [and_0xfff, Nat.mod_mod_of_dvd _ (by decide : 4096 ∣ 2 ^ 32)]
  have h32 : (2 : Nat) ^ 32 = 4294967296 := by decide
  rw [h32] at hk ⊢
  omega

theorem ringOffset_lt (w k : Nat) : ringOffset w k < 4096 := by
  unfold ringOffset
  omega

theorem offset16_eq (w : Nat) : ((w + 65536 - 4) % 65536) &&& 0x0fff = ringOffset w 4 := by
  unfold ringOffset
  rw [and_0xfff, Nat.mod_mod_of_dvd _ (by decide : 4096 ∣ 65536)]
  omega

theorem read_result_eq (dev : Device) (a : Nat) (s : State) :
    read_result dev true a s
      = (some (readValue dev a 4 s.bus), { s with bus := s.bus ++ readOps dev a 4 s.bus }) := by
  simp only [read_result, if_true, EVE_memRead32_eq]

theorem getimage_open (cc : CmdConfig) (s : State) :
    EVE_cs_clear (spi_transmit_32 0 (spi_transmit_32 0 (spi_transmit_32 0 (spi_transmit_32 0
      (spi_transmit_32 0 (eve_begin_cmd cc.CMD_GETIMAGE s))))))
      = { s with bus := s.bus ++ commandOps [cc.CMD_GETIMAGE, 0, 0, 0, 0, 0] } := by
  simp only [eve_begin_cmd, EVE_cs_set, EVE_cs_clear, spi_transmit, spi_transmit_32,
    commandOps, List.map_cons, List.map_nil, List.append_assoc, List.cons_append,
    List.nil_append]

theorem getmatrix_open (cc : CmdConfig) (s : State) :
    EVE_cs_clear (spi_transmit_32 0 (spi_transmit_32 0 (spi_transmit_32 0 (spi_transmit_32 0
      (spi_transmit_32 0 (spi_transmit_32 0 (eve_begin_cmd cc.CMD_GETMATRIX s)))))))
      = { s with bus := s.bus ++ commandOps [cc.CMD_GETMATRIX, 0, 0, 0, 0, 0, 0] } := by
  simp only [eve_begin_cmd, EVE_cs_set, EVE_cs_clear, spi_transmit, spi_transmit_32,
    commandOps, List.map_cons, List.map_nil, List.append_assoc, List.cons_append,
    List.nil_append]

/-- The flash speed-up command reads its result at the offset of the spec. -/
theorem EVE_cmd_flashfast_offset (cfg : Config) (ic : InitConfig) (dev : Device) (fuel : Nat)
    (s : State) :
    EVE_cmd_flashfast cfg ic dev fuel s =
      (EVE_execute_cmd cfg dev fuel
        { s with bus := s.bus ++ commandOps [ic.CMD_FLASHFAST, 0] }).map
        (fun s1 =>
          EVE_memRead32 dev
            ((ic.EVE_RAM_CMD + ringOffset (readValue dev cfg.REG_CMD_WRITE 2 s1.bus) 4) % 2 ^ 32)
            { s1 with bus := s1.bus ++ readOps dev cfg.REG_CMD_WRITE 2 s1.bus }) := by
  unfold EVE_cmd_flashfast
  simp only [flashfast_open]
  cases EVE_execute_cmd cfg dev fuel
      { s with bus := s.bus ++ commandOps [ic.CMD_FLASHFAST, 0] } with
  | none => rfl
  | some s1 =>
      simp only [EVE_memRead16_eq, offset16_eq, Option.map_some']

/-- The image readback with every pointer given reads the five result words at the
offsets of the spec, last word first. -/
theorem EVE_cmd_getimage_reads (cfg : Config) (ic : InitConfig) (cc : CmdConfig)
    (dev : Device) (fuel : Nat) (s : State) :
    EVE_cmd_getimage cfg ic cc dev fuel true true true true true s =
      (EVE_execute_cmd cfg dev fuel
        { s with bus := s.bus ++ commandOps [cc.CMD_GETIMAGE, 0, 0, 0, 0, 0] }).map
        (fun s1 =>
          (((wordValues dev
              (resultAddrs ic.EVE_RAM_CMD (readValue dev cfg.REG_CMD_WRITE 2 s1.bus)
                [4, 8, 12, 16, 20])
              (s1.bus ++ readOps dev cfg.REG_CMD_WRITE 2 s1.bus)).map some).reverse,
            { s1 with bus := (s1.bus ++ readOps dev cfg.REG_CMD_WRITE 2 s1.bus ++
                wordReads dev
                  (resultAddrs ic.EVE_RAM_CMD (readValue dev cfg.REG_CMD_WRITE 2 s1.bus)
                    [4, 8, 12, 16, 20])
                  (s1.bus ++ readOps dev cfg.REG_CMD_WRITE 2 s1.bus)) })) := by
  unfold EVE_cmd_getimage
  simp only [getimage_open]
  cases EVE_execute_cmd cfg dev fuel
      { s with bus := s.bus ++ commandOps [cc.CMD_GETIMAGE, 0, 0, 0, 0, 0] } with
  | none => rfl
  | some s1 =>
      simp only [EVE_memRead16_eq, read_result_eq, Option.map_some', resultAddrs, wordValues,
        wordReads, List.map_cons, List.map_nil, List.reverse_cons, List.reverse_nil,
        List.nil_append, List.cons_append, List.append_assoc, List.append_nil,
        result_offset_eq _ _ (by decide : 4 ≤ 2 ^ 32), result_offset_eq _ _ (by decide : 8 ≤ 2 ^ 32),
        result_offset_eq _ _ (by decide : 12 ≤ 2 ^ 32),
        result_offset_eq _ _ (by decide : 16 ≤ 2 ^ 32),
        result_offset_eq _ _ (by decide : 20 ≤ 2 ^ 32)]

/-- The matrix readback with every pointer given reads the six result words at the
offsets of the spec, last word first. -/
theorem EVE_cmd_getmatrix_reads (cfg : Config) (ic : InitConfig) (cc : CmdConfig)
    (dev : Device) (fuel : Nat) (s : State) (hb : s.cmd_burst = 0) :
    EVE_cmd_getmatrix cfg ic cc dev fuel true true true true true true s =
      (EVE_execute_cmd cfg dev fuel
        { s with bus := s.bus ++ commandOps [cc.CMD_GETMATRIX, 0, 0, 0, 0, 0, 0] }).map
        (fun s1 =>
          (((wordValues dev
              (resultAddrs ic.EVE_RAM_CMD (readValue dev cfg.REG_CMD_WRITE 2 s1.bus)
                [4, 8, 12, 16, 20, 24])
              (s1.bus ++ readOps dev cfg.REG_CMD_WRITE 2 s1.bus)).map
                (fun (v : Nat) => some (to_int32 (v : Int)))).reverse,
            { s1 with bus := (s1.bus ++ readOps dev cfg.REG_CMD_WRITE 2 s1.bus ++
                wordReads dev
                  (resultAddrs ic.EVE_RAM_CMD (readValue dev cfg.REG_CMD_WRITE 2 s1.bus)
                    [4, 8, 12, 16, 20, 24])
                  (s1.bus ++ readOps dev cfg.REG_CMD_WRITE 2 s1.bus)) })) := by
  unfold EVE_cmd_getmatrix
  rw [if_pos hb.symm]
  simp only [getmatrix_open]
  cases EVE_execute_cmd cfg dev fuel
      { s with bus := s.bus ++ commandOps [cc.CMD_GETMATRIX, 0, 0, 0, 0, 0, 0] } with
  | none => rfl
  | some s1 =>
      simp only [EVE_memRead16_eq, read_result_eq, Option.map_some', resultAddrs, wordValues,
        wordReads, List.map_cons, List.map_nil, List.reverse_cons, List.reverse_nil,
        List.nil_append, List.cons_append, List.append_assoc, List.append_nil,
        result_offset_eq _ _ (by decide : 4 ≤ 2 ^ 32), result_offset_eq _ _ (by decide : 8 ≤ 2 ^ 32),
        result_offset_eq _ _ (by decide : 12 ≤ 2 ^ 32),
        result_offset_eq _ _ (by decide : 16 ≤ 2 ^ 32),
        result_offset_eq _ _ (by decide : 20 ≤ 2 ^ 32),
        result_offset_eq _ _ (by decide : 24 ≤ 2 ^ 32)]

/-! ## Burst entry: the wait before the mode change -/

theorem untouched_refl (s : State) : BurstUntouched s s := ⟨rfl, rfl, rfl⟩

theorem untouched_trans {a b c : State} (h1 : BurstUntouched a b) (h2 : BurstUntouched b c) :
    BurstUntouched a c :=
  ⟨h2.1.trans h1.1, h2.2.1.trans h1.2.1, h2.2.2.trans h1.2.2⟩

theorem untouched_busy (cfg : Config) (dev : Device) (s : State) :
    BurstUntouched s (EVE_busy cfg dev s).2 := by
  by_cases hd : cfg.EVE_DMA = true → s.EVE_dma_busy = 0
  · rw [EVE_busy_idle cfg dev s hd]
    split
    · exact ⟨rfl, rfl, rfl⟩
    · exact ⟨rfl, rfl, rfl⟩
  · have h1 : cfg.EVE_DMA = true := by
      by_contra hn; exact hd (fun h => absurd h hn)
    have h2 : s.EVE_dma_busy ≠ 0 := fun e => hd (fun _ => e)
    rw [EVE_busy_dma cfg dev s h1 h2]
    exact ⟨rfl, rfl, rfl⟩

theorem untouched_callback (cfg : Config) (s : State) :
    BurstUntouched s (eve_spi_post_transfer_callback cfg s) := by
  unfold eve_spi_post_transfer_callback
  cases cfg.EVE_DMA <;> exact ⟨rfl, rfl, rfl⟩

theorem callback_idle (cfg : Config) (s : State) :
    cfg.EVE_DMA = true → (eve_spi_post_transfer_callback cfg s).EVE_dma_busy = 0 := by
  intro h
  simp [eve_spi_post_transfer_callback, h]

theorem untouched_pollStates (cfg : Config) (dev : Device) :
    ∀ (n : Nat) (s : State), ∀ x ∈ pollStates cfg dev n s, BurstUntouched s x
  | 0, s, x, hx => by simp [pollStates] at hx
  | n + 1, s, x, hx => by
      rw [pollStates, List.mem_cons] at hx
      rcases hx with rfl | hx
      · exact untouched_busy cfg dev s
      · by_cases hr : (EVE_busy cfg dev s).1 ≠ RetCode.E_OK
        · rw [if_pos hr] at hx
          exact untouched_trans (untouched_busy cfg dev s)
            (untouched_pollStates cfg dev n _ x hx)
        · rw [if_neg hr] at hx
          simp at hx

theorem untouched_waitStates (cfg : Config) (dev : Device) :
    ∀ (irq n : Nat) (s : State), ∀ x ∈ waitStates cfg dev irq n s, BurstUntouched s x
  | 0, n, s, x, hx => by
      rw [waitStates, List.mem_cons] at hx
      rcases hx with rfl | hx
      · exact untouched_callback cfg s
      · exact untouched_trans (untouched_callback cfg s)
          (untouched_pollStates cfg dev n _ x hx)
  | irq + 1, 0, s, x, hx => by simp [waitStates] at hx
  | irq + 1, n + 1, s, x, hx => by
      rw [waitStates, List.mem_cons] at hx
      rcases hx with rfl | hx
      · exact untouched_busy cfg dev s
      · by_cases hr : (EVE_busy cfg dev s).1 ≠ RetCode.E_OK
        · rw [if_pos hr] at hx
          exact untouched_trans (untouched_busy cfg dev s)
            (untouched_waitStates cfg dev irq n _ x hx)
        · rw [if_neg hr] at hx
          simp at hx

/-- A wait that returns ends with a poll that reported Ok, and its result is the last of
the states passed through. -/
theorem execute_last (cfg : Config) (dev : Device) :
    ∀ (fuel : Nat) (s s1 : State), EVE_execute_cmd cfg dev fuel s = some s1 →
      (pollStates cfg dev fuel s).getLast? = some s1 ∧
      ∃ s0, (s0 = s ∨ s0 ∈ pollStates cfg dev fuel s) ∧
        EVE_busy cfg dev s0 = (RetCode.E_OK, s1)
  | 0, s, s1, h => by simp [EVE_execute_cmd] at h
  | fuel + 1, s, s1, h => by
      rw [EVE_execute_cmd] at h
      rw [pollStates]
      by_cases hr : (EVE_busy cfg dev s).1 ≠ RetCode.E_OK
      · simp only [hr, ne_eq, not_false_eq_true, if_true] at h ⊢
        obtain ⟨hl, s0, hm, hb⟩ := execute_last cfg dev fuel _ s1 h
        refine ⟨?_, s0, ?_, hb⟩
        · rw [List.getLast?_cons, hl]
          rfl
        · rcases hm with rfl | hm
          · exact Or.inr (List.mem_cons_self _ _)
          · exact Or.inr (List.mem_cons_of_mem _ hm)
      · simp only [hr, if_false, Option.some.injEq] at h ⊢
        have hok : (EVE_busy cfg dev s).1 = RetCode.E_OK := by
          by_contra hn; exact hr hn
        refine ⟨by rw [h]; rfl, s, Or.inl rfl, ?_⟩
        rw [← h, ← hok]

/-- The interrupted wait, entered with a transfer in flight: the polls before the
callback change nothing, and what follows the callback is the plain wait. -/
theorem execute_irq_eq (cfg : Config) (dev : Device) (hd : cfg.EVE_DMA = true) :
    ∀ (irq fuel : Nat) (s : State), s.EVE_dma_busy ≠ 0 →
      EVE_execute_cmd_irq cfg dev irq fuel s =
        if fuel < irq then none
        else EVE_execute_cmd cfg dev (fuel - irq) (eve_spi_post_transfer_callback cfg s)
  | 0, fuel, s, _ => by simp [EVE_execute_cmd_irq]
  | irq + 1, 0, s, _ => by simp [EVE_execute_cmd_irq]
  | irq + 1, fuel + 1, s, hb => by
      rw [EVE_execute_cmd_irq]
      simp only [EVE_busy_dma cfg dev s hd hb]
      rw [if_pos (by decide), execute_irq_eq cfg dev hd irq fuel s hb]
      by_cases hlt : fuel < irq
      · rw [if_pos hlt, if_pos (by omega)]
      · rw [if_neg hlt, if_neg (by omega)]
        congr 1
        omega

theorem waitStates_eq (cfg : Config) (dev : Device) (hd : cfg.EVE_DMA = true) :
    ∀ (irq fuel : Nat) (s : State), s.EVE_dma_busy ≠ 0 → irq ≤ fuel →
      waitStates cfg dev irq fuel s =
        List.replicate irq s ++ eve_spi_post_transfer_callback cfg s ::
          pollStates cfg dev (fuel - irq) (eve_spi_post_transfer_callback cfg s)
  | 0, fuel, s, _, _ => by simp [waitStates]
  | irq + 1, 0, s, _, hle => by omega
  | irq + 1, fuel + 1, s, hb, hle => by
      rw [waitStates]
      simp only [EVE_busy_dma cfg dev s hd hb]
      rw [if_pos (by decide), waitStates_eq cfg dev hd irq fuel s hb (by omega),
        List.replicate_succ, List.cons_append, Nat.add_sub_add_right]

theorem dma_pollStates (cfg : Config) (dev : Device) :
    ∀ (n : Nat) (s : State), ∀ x ∈ pollStates cfg dev n s, x.EVE_dma_busy = s.EVE_dma_busy
  | 0, s, x, hx => by simp [pollStates] at hx
  | n + 1, s, x, hx => by
      rw [pollStates, List.mem_cons] at hx
      rcases hx with rfl | hx
      · exact (grows_busy cfg dev s).2
      · by_cases hr : (EVE_busy cfg dev s).1 ≠ RetCode.E_OK
        · rw [if_pos hr] at hx
          exact (dma_pollStates cfg dev n _ x hx).trans (grows_busy cfg dev s).2
        · rw [if_neg hr] at hx
          simp at hx

/-- Burst entry with a transfer in flight, in a build with DMA: the interrupted wait, then
the mode change and the header word. -/
theorem EVE_start_cmd_burst_busy (cfg : Config) (dev : Device) (irq fuel : Nat) (s : State)
    (hd : cfg.EVE_DMA = true) (hb : s.EVE_dma_busy ≠ 0) :
    EVE_start_cmd_burst cfg dev irq fuel s =
      (EVE_execute_cmd_irq cfg dev irq fuel s).map (fun s1 =>
        { s1 with
          cmd_burst := 42
          EVE_dma_buffer := s1.EVE_dma_buffer.set 0 0x7825B000
          EVE_dma_buffer_index := 1 }) := by
  unfold EVE_start_cmd_burst
  simp only [hd, hb, ne_eq, not_false_eq_true, decide_True, Bool.and_self, if_true]
  cases EVE_execute_cmd_irq cfg dev irq fuel s <;> rfl

/-- What the return of an interrupted wait tells: the last state passed through is the
result, it follows a poll made with no transfer in flight that reported Ok, and the
stream mode and the DMA buffer are as they were. -/
theorem execute_irq_last (cfg : Config) (dev : Device) (irq fuel : Nat) (s s1 : State)
    (hd : cfg.EVE_DMA = true) (hb : s.EVE_dma_busy ≠ 0)
    (h : EVE_execute_cmd_irq cfg dev irq fuel s = some s1) :
    (waitStates cfg dev irq fuel s).getLast? = some s1 ∧
    (∃ s0, s0 ∈ waitStates cfg dev irq fuel s ∧ s0.EVE_dma_busy = 0 ∧
      EVE_busy cfg dev s0 = (RetCode.E_OK, s1)) ∧
    BurstUntouched s s1 := by
  rw [execute_irq_eq cfg dev hd irq fuel s hb] at h
  by_cases hlt : fuel < irq
  · rw [if_pos hlt] at h
    exact absurd h (by simp)
  · rw [if_neg hlt] at h
    obtain ⟨hl, s0, hm, hok⟩ := execute_last cfg dev _ _ s1 h
    have hw := waitStates_eq cfg dev hd irq fuel s hb (by omega)
    have hne : pollStates cfg dev (fuel - irq) (eve_spi_post_transfer_callback cfg s) ≠ [] := by
      intro e
      rw [e] at hl
      simp at hl
    have hlast : (waitStates cfg dev irq fuel s).getLast? = some s1 := by
      rw [hw, List.getLast?_append]
      cases hp : pollStates cfg dev (fuel - irq) (eve_spi_post_transfer_callback cfg s) with
      | nil => exact absurd hp hne
      | cons b l =>
          rw [hp] at hl
          rw [List.getLast?_cons_cons, hl]
          rfl
    have hmem : s1 ∈ waitStates cfg dev irq fuel s := List.mem_of_getLast?_eq_some hlast
    refine ⟨hlast, ⟨s0, ?_, ?_, hok⟩, untouched_waitStates cfg dev irq fuel s s1 hmem⟩
    · rw [hw]
      rcases hm with rfl | hm
      · exact List.mem_append_right _ (List.mem_cons_self _ _)
      · exact List.mem_append_right _ (List.mem_cons_of_mem _ hm)
    · rcases hm with rfl | hm
      · exact callback_idle cfg s hd
      · rw [dma_pollStates cfg dev _ _ s0 hm]
        exact callback_idle cfg s hd

/-! ## The wait loop against a sequence of free-space values: lemmas -/

theorem countReads_writeOps (addr a : Nat) (payload : List Nat) :
    countReads addr (writeOps a payload) = 0 := by
  unfold countReads writeOps
  rw [List.count_eq_zero]
  intro hm
  simp at hm

theorem countReads_readOps_ne (dev : Device) (addr a n : Nat) (h : List BusOp)
    (hne : readWord a ≠ readWord addr) : countReads addr (readOps dev a n h) = 0 := by
  unfold countReads readOps
  rw [List.count_eq_zero]
  intro hm
  simp at hm
  exact hne hm.symm

theorem countReads_recoverOps (cfg : Config) (dev : Device) (h : List BusOp)
    (hp : cfg.patchApart) : countReads cfg.REG_CMDB_SPACE (recoverOps cfg dev h) = 0 := by
  unfold recoverOps
  by_cases hg : cfg.EVE_GEN > 2
  · cases hf : (if cfg.EVE_GEN > 3 then cfg.EVE_PCLK_FREQ else none)
    · simp [hg, hf, countReads_append, countReads_writeOps, countReads_delay,
        countReads_readOps_ne dev _ _ 2 h (hp hg)]
    · simp [hg, hf, countReads_append, countReads_writeOps, countReads_delay,
        countReads_readOps_ne dev _ _ 2 h (hp hg)]
  · simp [hg, countReads_append, countReads_writeOps, countReads_delay]

theorem faultCount_succ (seq : Nat → Nat) (n : Nat) :
    faultCount seq (n + 1) =
      (if seq 0 &&& 3 ≠ 0 then 1 else 0) + faultCount (fun j => seq (j + 1)) n := by
  unfold faultCount
  rw [List.range_succ_eq_map, List.filter_cons, List.filter_map]
  by_cases h0 : seq 0 &&& 3 ≠ 0
  · simp only [h0, ne_eq, not_false_eq_true, decide_True, if_true, List.length_cons,
      List.length_map]
    rw [Nat.add_comm]
    rfl
  · simp only [h0, decide_False, if_false, Nat.zero_add, Bool.false_eq_true,
      List.length_map]
    rfl

/-- One poll of the wait that reads a value other than `0xFFC`: the loop goes on from a
state to which the chip shows the rest of the sequence. -/
theorem execute_step (cfg : Config) (dev : Device) (seq : Nat → Nat) (s : State)
    (hi : cfg.EVE_DMA = true → s.EVE_dma_busy = 0) (hp : cfg.patchApart)
    (hs : ShowsSpace cfg dev s.bus seq) (h0 : seq 0 ≠ 0xFFC) :
    ∃ s1 : State,
      (∀ fuel, EVE_execute_cmd cfg dev (fuel + 1) s = EVE_execute_cmd cfg dev fuel s1) ∧
      s1 = { s with
        bus := (s.bus ++ (readOps dev cfg.REG_CMDB_SPACE 2 s.bus ++
          (if seq 0 &&& 3 ≠ 0 then
            recoverOps cfg dev (s.bus ++ readOps dev cfg.REG_CMDB_SPACE 2 s.bus) else [])))
        fault_recovered :=
          (if seq 0 &&& 3 ≠ 0 then RetCode.EVE_FAULT_RECOVERED else s.fault_recovered) } ∧
      (cfg.EVE_DMA = true → s1.EVE_dma_busy = 0) ∧
      ShowsSpace cfg dev s1.bus (fun j => seq (j + 1)) := by
  have hv : readValue dev cfg.REG_CMDB_SPACE 2 s.bus = seq 0 := by
    have := hs []
    simpa [countReads] using this
  refine ⟨_, ?_, rfl, hi, ?_⟩
  · intro fuel
    rw [EVE_execute_cmd, EVE_busy_idle cfg dev s hi, hv, ← and_3]
    by_cases hf : seq 0 &&& 3 ≠ 0
    · simp only [if_pos hf]
      rw [if_pos (by decide)]
      simp only [List.append_assoc]
    · simp only [if_neg hf, if_neg h0]
      have hne : (if seq 0 > 0x800 then RetCode.EVE_FIFO_HALF_EMPTY else RetCode.EVE_IS_BUSY)
          ≠ RetCode.E_OK := by
        split <;> decide
      rw [if_pos hne]
      simp only [List.append_nil]
  · intro h
    simp only []
    rw [List.append_assoc, hs, countReads_append, countReads_append, countReads_readOps]
    have hz : countReads cfg.REG_CMDB_SPACE
        (if seq 0 &&& 3 ≠ 0 then
          recoverOps cfg dev (s.bus ++ readOps dev cfg.REG_CMDB_SPACE 2 s.bus) else []) = 0 := by
      split
      · exact countReads_recoverOps cfg dev _ hp
      · rfl
    rw [hz]
    congr 1
    omega

/-- The wait against a sequence whose first `0xFFC` is at position `k`. -/
theorem execute_seq (cfg : Config) (dev : Device) (hp : cfg.patchApart) :
    ∀ (k : Nat) (seq : Nat → Nat) (s : State),
      (cfg.EVE_DMA = true → s.EVE_dma_busy = 0) → ShowsSpace cfg dev s.bus seq →
      seq k = 0xFFC → (∀ i < k, seq i ≠ 0xFFC) →
      ∀ fuel, EVE_execute_cmd cfg dev fuel s =
        if fuel ≤ k then none
        else some { s with
          bus := s.bus ++ spaceWaitOps cfg dev seq (k + 1) s.bus
          fault_recovered :=
            (if faultCount seq k = 0 then s.fault_recovered
              else RetCode.EVE_FAULT_RECOVERED) }
  | 0, seq, s, hi, hs, hk, _, fuel => by
      have hv : readValue dev cfg.REG_CMDB_SPACE 2 s.bus = seq 0 := by
        have := hs []
        simpa [countReads] using this
      cases fuel with
      | zero => simp [EVE_execute_cmd]
      | succ f =>
          have h3 : (0xFFC : Nat) &&& 3 = 0 := by decide
          rw [EVE_execute_cmd, EVE_busy_idle cfg dev s hi, hv, hk]
          simp [spaceWaitOps, faultCount, hk, h3]
  | k + 1, seq, s, hi, hs, hk, hlt, fuel => by
      obtain ⟨s1, he, e1, hi1, hs1⟩ :=
        execute_step cfg dev seq s hi hp hs (hlt 0 (Nat.succ_pos k))
      cases fuel with
      | zero => simp [EVE_execute_cmd]
      | succ f =>
          rw [he f, execute_seq cfg dev hp k (fun j => seq (j + 1)) s1 hi1 hs1 hk
            (fun i hik => hlt (i + 1) (by omega)) f]
          by_cases hf : f ≤ k
          · rw [if_pos hf, if_pos (show f + 1 ≤ k + 1 by omega)]
          · rw [if_neg hf, if_neg (show ¬ (f + 1 ≤ k + 1) by omega)]
            rw [faultCount_succ seq k, e1]
            simp only [spaceWaitOps, List.append_assoc, Option.some.injEq]
            by_cases hq : seq 0 &&& 3 ≠ 0
            · simp [hq]
            · simp [hq]

/-- The wait against a sequence that never shows `0xFFC` does not return. -/
theorem execute_never (cfg : Config) (dev : Device) (hp : cfg.patchApart) :
    ∀ (fuel : Nat) (seq : Nat → Nat) (s : State),
      (cfg.EVE_DMA = true → s.EVE_dma_busy = 0) → ShowsSpace cfg dev s.bus seq →
      (∀ i, seq i ≠ 0xFFC) → EVE_execute_cmd cfg dev fuel s = none
  | 0, _, _, _, _, _ => by simp [EVE_execute_cmd]
  | fuel + 1, seq, s, hi, hs, hn => by
      obtain ⟨s1, he, _, hi1, hs1⟩ := execute_step cfg dev seq s hi hp hs (hn 0)
      rw [he fuel]
      exact execute_never cfg dev hp fuel _ s1 hi1 hs1 (fun i => hn (i + 1))

theorem countReads_spaceWaitOps (cfg : Config) (dev : Device) (hp : cfg.patchApart) :
    ∀ (n : Nat) (seq : Nat → Nat) (h : List BusOp),
      countReads cfg.REG_CMDB_SPACE (spaceWaitOps cfg dev seq n h) = n
  | 0, _, _ => rfl
  | n + 1, seq, h => by
      rw [spaceWaitOps, countReads_append, countReads_append, countReads_readOps,
        countReads_spaceWaitOps cfg dev hp n]
      have hz : countReads cfg.REG_CMDB_SPACE
          (if seq 0 &&& 3 ≠ 0 then
            recoverOps cfg dev (h ++ readOps dev cfg.REG_CMDB_SPACE 2 h) else []) = 0 := by
        split
        · exact countReads_recoverOps cfg dev _ hp
        · rfl
      rw [hz]
      omega

theorem countDelays_spaceWaitOps (cfg : Config) (dev : Device) :
    ∀ (n : Nat) (seq : Nat → Nat) (h : List BusOp),
      countDelays (spaceWaitOps cfg dev seq n h) = faultCount seq n
  | 0, _, _ => rfl
  | n + 1, seq, h => by
      rw [spaceWaitOps, countDelays_append, countDelays_append, countDelays_readOps,
        countDelays_spaceWaitOps cfg dev n, faultCount_succ]
      by_cases hq : seq 0 &&& 3 ≠ 0
      · rw [if_pos hq, if_pos hq, countDelays_recoverOps]
      · rw [if_neg hq, if_neg hq]
        rfl

theorem countReads_open (addr : Nat) (h : List BusOp) :
    countReads addr (h ++ [BusOp.cs_set, BusOp.transmit_32 (readWord addr)])
      = countReads addr h + 1 := by
  simp [countReads, List.count_append, List.count_cons]

theorem countReads_open_recv (addr b : Nat) (h : List BusOp) :
    countReads addr (h ++ [BusOp.cs_set, BusOp.transmit_32 (readWord addr)] ++ [BusOp.receive b])
      = countReads addr h + 1 := by
  simp [countReads, List.count_append, List.count_cons]

theorem readValue_seqDevice (addr : Nat) (seq : Nat → Nat) (h : List BusOp) :
    readValue (seqDevice addr seq) addr 2 h = seq (countReads addr h) % 65536 := by
  rw [readValue_two]
  simp only [seqDevice, lastReadWord_open, lastReadWord_recv, trailing_open, trailing_recv,
    if_true, countReads_open, countReads_open_recv, Nat.add_sub_cancel, Nat.mul_zero,
    Nat.shiftRight_zero, Nat.mul_one, Nat.mod_mod, Nat.shiftRight_eq_div_pow]
  have e : (2 : Nat) ^ 8 = 256 := by decide
  rw [e]
  omega

theorem showsSpace_seqDevice (cfg : Config) (seq : Nat → Nat) (hlt : ∀ i, seq i < 65536) :
    ShowsSpace cfg (seqDevice cfg.REG_CMDB_SPACE seq) [] seq := by
  intro h
  rw [List.nil_append, readValue_seqDevice, Nat.mod_eq_of_lt (hlt _)]

theorem sampleSpace_lt (i : Nat) : sampleSpace i < 65536 := by
  unfold sampleSpace
  rcases i with _ | _ | _ | i <;> simp [List.getD]

theorem sampleSpace_before (i : Nat) (h : i < 2) : sampleSpace i ≠ 0xFFC := by
  unfold sampleSpace
  rcases i with _ | _ | i
  · decide
  · decide
  · omega

/-! ## The reset wait against a sequence of status values: lemmas -/

theorem showsPolls_step (dev : Device) (addr : Nat) (h0 : List BusOp) (seq : Nat → Nat)
    (hs : ShowsPolls dev addr h0 seq) :
    ShowsPolls dev addr (h0 ++ pollOps dev addr h0) (fun j => seq (j + 1)) := by
  intro h
  rw [List.append_assoc, hs, countReads_append, countReads_pollOps, Nat.add_comm]

theorem showsPolls_zero (dev : Device) (addr : Nat) (h0 : List BusOp) (seq : Nat → Nat)
    (hs : ShowsPolls dev addr h0 seq) : pollValue dev addr h0 = seq 0 := by
  have := hs []
  simpa [countReads] using this

/-- A bounded wait against a sequence whose first good value is at position `k`, within
the budget: it accepts, after exactly `k + 1` polls. -/
theorem pollUntil_seq (dev : Device) (addr : Nat) (good : Nat → Bool) :
    ∀ (k n : Nat) (h : List BusOp) (seq : Nat → Nat), ShowsPolls dev addr h seq → k < n →
      good (seq k) = true → (∀ i < k, good (seq i) = false) →
      (pollUntil dev addr good n h).1 = true ∧
      countReads addr (pollUntil dev addr good n h).2 = k + 1 ∧
      countDelays (pollUntil dev addr good n h).2 = k + 1
  | 0, n, h, seq, hs, hn, hg, _ => by
      obtain ⟨m, rfl⟩ : ∃ m, n = m + 1 := ⟨n - 1, by omega⟩
      rw [pollUntil_good dev addr good m h (by rw [showsPolls_zero dev addr h seq hs]; exact hg)]
      exact ⟨rfl, countReads_pollOps dev addr h, countDelays_pollOps dev addr h⟩
  | k + 1, n, h, seq, hs, hn, hg, hb => by
      obtain ⟨m, rfl⟩ : ∃ m, n = m + 1 := ⟨n - 1, by omega⟩
      rw [pollUntil_bad dev addr good m h
        (by rw [showsPolls_zero dev addr h seq hs]; exact hb 0 (Nat.succ_pos k))]
      obtain ⟨i1, i2, i3⟩ := pollUntil_seq dev addr good k m (h ++ pollOps dev addr h)
        (fun j => seq (j + 1)) (showsPolls_step dev addr h seq hs) (by omega) hg
        (fun i hi => hb (i + 1) (by omega))
      refine ⟨i1, ?_, ?_⟩
      · rw [countReads_append, countReads_pollOps, i2]
        omega
      · rw [countDelays_append, countDelays_pollOps, i3]
        omega

/-- A bounded wait against a sequence with no good value within the budget: it gives up,
after all its polls. -/
theorem pollUntil_seq_never (dev : Device) (addr : Nat) (good : Nat → Bool) :
    ∀ (n : Nat) (h : List BusOp) (seq : Nat → Nat), ShowsPolls dev addr h seq →
      (∀ i < n, good (seq i) = false) →
      (pollUntil dev addr good n h).1 = false ∧
      countReads addr (pollUntil dev addr good n h).2 = n
  | 0, _, _, _, _ => ⟨rfl, rfl⟩
  | n + 1, h, seq, hs, hb => by
      rw [pollUntil_bad dev addr good n h
        (by rw [showsPolls_zero dev addr h seq hs]; exact hb 0 (Nat.succ_pos n))]
      obtain ⟨i1, i2⟩ := pollUntil_seq_never dev addr good n (h ++ pollOps dev addr h)
        (fun j => seq (j + 1)) (showsPolls_step dev addr h seq hs)
        (fun i hi => hb (i + 1) (by omega))
      refine ⟨i1, ?_⟩
      rw [countReads_append, countReads_pollOps, i2]
      omega

theorem resetGood_iff (r : Nat) : resetGood r = true ↔ r &&& 7 = 0 := by
  unfold resetGood
  rw [decide_eq_true_iff]
  exact eq_comm

theorem and_7 (x : Nat) : x &&& 7 = x % 8 :=
  Nat.and_pow_two_sub_one_eq_mod x 3

theorem pollValue_scriptDevice (sa ra : Nat) (script : List Nat) (result : Nat)
    (h : List BusOp) :
    pollValue (scriptDevice sa ra script result) sa h
      = script.getD (countReads sa h) 0 % 256 := by
  have hc : countReads sa (h ++ [BusOp.delay_ms 1] ++ [BusOp.cs_set,
      BusOp.transmit_32 (readWord sa)]) = countReads sa h + 1 := by
    simp [countReads, List.count_append, List.count_cons]
  simp only [pollValue, readValue, rxBytes, leValue, scriptDevice, lastReadWord_open,
    if_true, hc, Nat.add_sub_cancel, Nat.mul_zero, Nat.add_zero, Nat.mod_mod]

theorem showsPolls_resettingChip :
    ShowsPolls resettingChip sampleConfig.REG_CPURESET []
      (fun i => [0x07, 0xF9, 0xF8].getD i 0) := by
  intro h
  rw [List.nil_append, resettingChip, pollValue_scriptDevice]
  generalize countReads sampleConfig.REG_CPURESET h = c
  rcases c with _ | _ | _ | c <;> simp [List.getD]

/-! ## Register writes of the driver's traces -/

theorem whole_append {a b : List BusOp} (ha : Whole a) (hb : Whole b) : Whole (a ++ b) := by
  intro rest
  rw [List.append_assoc, ha, hb, ha, List.append_assoc]

theorem csWindows_nil : csWindows [] = [] := rfl

theorem whole_window (body : List BusOp) (hb : ∀ op ∈ body, op ≠ BusOp.cs_clear) :
    Whole (BusOp.cs_set :: (body ++ [BusOp.cs_clear])) ∧
    csWindows (BusOp.cs_set :: (body ++ [BusOp.cs_clear])) = [body] := by
  have e : ∀ rest, csWindows (BusOp.cs_set :: (body ++ [BusOp.cs_clear]) ++ rest)
      = body :: csWindows rest := by
    intro rest
    have e1 : BusOp.cs_set :: (body ++ [BusOp.cs_clear]) ++ rest
        = BusOp.cs_set :: (body ++ BusOp.cs_clear :: rest) := by simp
    rw [e1, csWindows_window body rest hb]
  have e0 := e []
  rw [List.append_nil, csWindows_nil] at e0
  refine ⟨fun rest => ?_, e0⟩
  rw [e rest, e0]
  rfl

theorem whole_delay (ms : Nat) : Whole [BusOp.delay_ms ms] ∧ csWindows [BusOp.delay_ms ms] = [] := by
  have e0 : csWindows [BusOp.delay_ms ms] = [] := by
    rw [csWindows_delay]; rfl
  refine ⟨fun rest => ?_, e0⟩
  rw [List.singleton_append, csWindows_delay, e0]
  rfl

theorem registerWrites_append {a : List BusOp} (ha : Whole a) (b : List BusOp) :
    registerWrites (a ++ b) = registerWrites a ++ registerWrites b := by
  unfold registerWrites
  rw [ha, List.filterMap_append]

theorem readOps_window (dev : Device) (addr n : Nat) (h : List BusOp) :
    Whole (readOps dev addr n h) ∧ registerWrites (readOps dev addr n h) = [] := by
  have e : readOps dev addr n h = BusOp.cs_set ::
      ((BusOp.transmit_32 (readWord addr) ::
        (rxBytes dev n (h ++ [BusOp.cs_set, BusOp.transmit_32 (readWord addr)])).map
          BusOp.receive) ++ [BusOp.cs_clear]) := by
    simp [readOps]
  have hb : ∀ op ∈ (BusOp.transmit_32 (readWord addr) ::
      (rxBytes dev n (h ++ [BusOp.cs_set, BusOp.transmit_32 (readWord addr)])).map
        BusOp.receive), op ≠ BusOp.cs_clear := by
    intro op hop
    rcases List.mem_cons.mp hop with h1 | h1
    · rw [h1]; simp
    · exact no_clear_map_receive _ op h1
  obtain ⟨w, c⟩ := whole_window _ hb
  rw [e]
  refine ⟨w, ?_⟩
  unfold registerWrites
  rw [c]
  rfl

theorem writeOps_window (addr : Nat) (payload : List Nat) :
    Whole (writeOps addr payload) ∧
    registerWrites (writeOps addr payload) = [writeHeader addr ++ payload] := by
  have e : writeOps addr payload = BusOp.cs_set ::
      ((writeHeader addr ++ payload).map BusOp.transmit ++ [BusOp.cs_clear]) := rfl
  obtain ⟨w, c⟩ := whole_window _ (no_clear_map_transmit (writeHeader addr ++ payload))
  rw [e]
  refine ⟨w, ?_⟩
  unfold registerWrites
  rw [c]
  obtain ⟨x, y, z, hxyz⟩ := writeHeader_shape addr
  rw [hxyz]
  simp [writeWindow, txBytes, txBytes_map_transmit]

theorem registerWrites_delay (ms : Nat) : registerWrites [BusOp.delay_ms ms] = [] := by
  unfold registerWrites
  rw [(whole_delay ms).2]
  rfl

/-- The register writes of the fault recovery, in order. -/
theorem recoverOps_window (cfg : Config) (dev : Device) (h : List BusOp) :
    Whole (recoverOps cfg dev h) ∧
    registerWrites (recoverOps cfg dev h) =
      [writeHeader cfg.REG_CPURESET ++ [1], writeHeader cfg.REG_CMD_READ ++ [0, 0],
        writeHeader cfg.REG_CMD_WRITE ++ [0, 0], writeHeader cfg.REG_CMD_DL ++ [0, 0]] ++
      (if cfg.EVE_GEN > 2 then
        [writeHeader cfg.REG_COPRO_PATCH_PTR ++
          leBytes 2 (readValue dev cfg.REG_COPRO_PATCH_PTR 2 h)] ++
        (match (if cfg.EVE_GEN > 3 then cfg.EVE_PCLK_FREQ else none) with
          | some freq => [writeHeader cfg.REG_PCLK_FREQ ++ leBytes 2 freq,
              writeHeader cfg.REG_PCLK ++ [1]]
          | none => [writeHeader cfg.REG_PCLK ++ leBytes 1 cfg.EVE_PCLK])
       else []) ++
      [writeHeader cfg.REG_CPURESET ++ [0]] := by
  have w8 := fun a v => (writeOps_window a (leBytes 1 v)).1
  have w16 := fun a v => (writeOps_window a (leBytes 2 v)).1
  have r8 := fun a v => (writeOps_window a (leBytes 1 v)).2
  have r16 := fun a v => (writeOps_window a (leBytes 2 v)).2
  have hr := readOps_window dev cfg.REG_COPRO_PATCH_PTR 2 h
  have hd := whole_delay 10
  have l1 : leBytes 1 1 = [1] := by decide
  have l0 : leBytes 1 0 = [0] := by decide
  have l00 : leBytes 2 0 = [0, 0] := by decide
  unfold recoverOps
  by_cases hg : cfg.EVE_GEN > 2
  · cases hf : (if cfg.EVE_GEN > 3 then cfg.EVE_PCLK_FREQ else none) with
    | none =>
        simp only [hg, if_true]
        refine ⟨whole_append (whole_append (whole_append (whole_append (whole_append
          (whole_append (whole_append hr.1 (w8 _ _)) (w16 _ _)) (w16 _ _)) (w16 _ _))
          (whole_append (w16 _ _) (w8 _ _))) (w8 _ _)) hd.1, ?_⟩
        rw [registerWrites_append (whole_append (whole_append (whole_append (whole_append
          (whole_append (whole_append hr.1 (w8 _ _)) (w16 _ _)) (w16 _ _)) (w16 _ _))
          (whole_append (w16 _ _) (w8 _ _))) (w8 _ _)),
          registerWrites_append (whole_append (whole_append (whole_append (whole_append
          (whole_append hr.1 (w8 _ _)) (w16 _ _)) (w16 _ _)) (w16 _ _))
          (whole_append (w16 _ _) (w8 _ _))),
          registerWrites_append (whole_append (whole_append (whole_append
          (whole_append hr.1 (w8 _ _)) (w16 _ _)) (w16 _ _)) (w16 _ _)),
          registerWrites_append (whole_append (whole_append
          (whole_append hr.1 (w8 _ _)) (w16 _ _)) (w16 _ _)),
          registerWrites_append (whole_append
          (whole_append hr.1 (w8 _ _)) (w16 _ _)),
          registerWrites_append (whole_append hr.1 (w8 _ _)),
          registerWrites_append hr.1, registerWrites_append (w16 _ _),
          hr.2, r8, r8, r8, r16, r16, r16, r16, registerWrites_delay, l1, l0, l00]
        simp
    | some freq =>
        simp only [hg, if_true]
        refine ⟨whole_append (whole_append (whole_append (whole_append (whole_append
          (whole_append (whole_append hr.1 (w8 _ _)) (w16 _ _)) (w16 _ _)) (w16 _ _))
          (whole_append (w16 _ _) (whole_append (w16 _ _) (w8 _ _)))) (w8 _ _)) hd.1, ?_⟩
        rw [registerWrites_append (whole_append (whole_append (whole_append (whole_append
          (whole_append (whole_append hr.1 (w8 _ _)) (w16 _ _)) (w16 _ _)) (w16 _ _))
          (whole_append (w16 _ _) (whole_append (w16 _ _) (w8 _ _)))) (w8 _ _)),
          registerWrites_append (whole_append (whole_append (whole_append (whole_append
          (whole_append hr.1 (w8 _ _)) (w16 _ _)) (w16 _ _)) (w16 _ _))
          (whole_append (w16 _ _) (whole_append (w16 _ _) (w8 _ _)))),
          registerWrites_append (whole_append (whole_append (whole_append
          (whole_append hr.1 (w8 _ _)) (w16 _ _)) (w16 _ _)) (w16 _ _)),
          registerWrites_append (whole_append (whole_append
          (whole_append hr.1 (w8 _ _)) (w16 _ _)) (w16 _ _)),
          registerWrites_append (whole_append
          (whole_append hr.1 (w8 _ _)) (w16 _ _)),
          registerWrites_append (whole_append hr.1 (w8 _ _)),
          registerWrites_append hr.1, registerWrites_append (w16 _ _),
          registerWrites_append (w16 _ _),
          hr.2, r8, r8, r8, r16, r16, r16, r16, r16, registerWrites_delay, l1, l0, l00]
        simp
  · simp only [hg, if_false, List.nil_append, List.append_nil]
    refine ⟨whole_append (whole_append (whole_append (whole_append
      (whole_append (w8 _ _) (w16 _ _)) (w16 _ _)) (w16 _ _)) (w8 _ _)) hd.1, ?_⟩
    rw [registerWrites_append (whole_append (whole_append (whole_append
      (whole_append (w8 _ _) (w16 _ _)) (w16 _ _)) (w16 _ _)) (w8 _ _)),
      registerWrites_append (whole_append (whole_append
      (whole_append (w8 _ _) (w16 _ _)) (w16 _ _)) (w16 _ _)),
      registerWrites_append (whole_append
      (whole_append (w8 _ _) (w16 _ _)) (w16 _ _)),
      registerWrites_append (whole_append (w8 _ _) (w16 _ _)),
      registerWrites_append (w8 _ _),
      r8, r8, r16, r16, r16, registerWrites_delay, l1, l0, l00]
    simp

theorem leValue_leBytes_two (v : Nat) (h : v < 65536) : leValue (leBytes 2 v) = v := by
  rw [leBytes_two]
  simp only [leValue]
  omega

/-! ## Touch calibration: ranges of the solve -/

theorem int32_result_ok (x : Int) (h : InInt32 x) : int32_result x = Except.ok x := by
  unfold int32_result
  exact if_pos h

theorem int64_result_ok (x : Int) (h : InInt64 x) : int64_result x = Except.ok x := by
  unfold int64_result
  exact if_pos h

theorem sub32_ok (a b : Int) (h : InInt32 (a - b)) :
    sub32 (Except.ok a) (Except.ok b) = Except.ok (a - b) := by
  rw [sub32, int32_result_ok _ h]

theorem add32_ok (a b : Int) (h : InInt32 (a + b)) :
    add32 (Except.ok a) (Except.ok b) = Except.ok (a + b) := by
  rw [add32, int32_result_ok _ h]

theorem mul32_ok (a b : Int) (h : InInt32 (a * b)) :
    mul32 (Except.ok a) (Except.ok b) = Except.ok (a * b) := by
  rw [mul32, int32_result_ok _ h]

theorem elem3 (a0 a1 a2 : Int) :
    elem [a0, a1, a2] 0 = Except.ok a0 ∧ elem [a0, a1, a2] 1 = Except.ok a1 ∧
      elem [a0, a1, a2] 2 = Except.ok a2 :=
  ⟨rfl, rfl, rfl⟩

/-- The range of a product from the ranges of its factors. -/
theorem prod_bounds (a b A B : Int) (ha1 : -A ≤ a) (ha2 : a ≤ A) (hb1 : -B ≤ b) (hb2 : b ≤ B) :
    -(A * B) ≤ a * b ∧ a * b ≤ A * B := by
  constructor
  · nlinarith [mul_nonneg (sub_nonneg.mpr ha2) (sub_nonneg.mpr (show -B ≤ b from hb1)),
      mul_nonneg (sub_nonneg.mpr (show -A ≤ a from ha1)) (sub_nonneg.mpr hb2)]
  · nlinarith [mul_nonneg (sub_nonneg.mpr ha2) (sub_nonneg.mpr hb2),
      mul_nonneg (sub_nonneg.mpr (show -A ≤ a from ha1)) (sub_nonneg.mpr (show -B ≤ b from hb1))]

/-- The range of a product of a value in `0 .. T` and a value in `-L .. U`. -/
theorem prod_range (y q T L U : Int) (hy0 : 0 ≤ y) (hyT : y ≤ T) (hL : -L ≤ q) (hU : q ≤ U)
    (hL0 : 0 ≤ L) (hU0 : 0 ≤ U) : -(T * L) ≤ y * q ∧ y * q ≤ T * U := by
  constructor
  · nlinarith [mul_nonneg hy0 (sub_nonneg.mpr (show -L ≤ q from hL)),
      mul_nonneg (sub_nonneg.mpr hyT) hL0]
  · nlinarith [mul_nonneg hy0 (sub_nonneg.mpr hU), mul_nonneg (sub_nonneg.mpr hyT) hU0]

/-- The determinant never overflows: it is computed exactly, within `2 * 1023 ^ 2`. -/
theorem calibrate_div_ok (x0 y0 x1 y1 x2 y2 : Int) (hx0 : RawCoord x0) (hy0 : RawCoord y0)
    (hx1 : RawCoord x1) (hy1 : RawCoord y1) (hx2 : RawCoord x2) (hy2 : RawCoord y2) :
    calibrate_div [x0, x1, x2] [y0, y1, y2] = Except.ok (detExact x0 y0 x1 y1 x2 y2) ∧
    -2093058 ≤ detExact x0 y0 x1 y1 x2 y2 ∧ detExact x0 y0 x1 y1 x2 y2 ≤ 2093058 := by
  unfold RawCoord at *
  have p1 := prod_bounds (x0 - x2) (y1 - y2) 1023 1023 (by omega) (by omega) (by omega)
    (by omega)
  have p2 := prod_bounds (x1 - x2) (y0 - y2) 1023 1023 (by omega) (by omega) (by omega)
    (by omega)
  have e : (1023 : Int) * 1023 = 1046529 := by norm_num
  rw [e] at p1 p2
  have h31 : (2 : Int) ^ 31 = 2147483648 := by norm_num
  refine ⟨?_, ?_, ?_⟩
  · unfold calibrate_div
    simp only [elem3]
    rw [sub32_ok x0 x2 (by unfold InInt32; rw [h31]; omega),
      sub32_ok y1 y2 (by unfold InInt32; rw [h31]; omega),
      sub32_ok x1 x2 (by unfold InInt32; rw [h31]; omega),
      sub32_ok y0 y2 (by unfold InInt32; rw [h31]; omega),
      mul32_ok _ _ (by unfold InInt32; rw [h31]; omega),
      mul32_ok _ _ (by unfold InInt32; rw [h31]; omega),
      sub32_ok _ _ (by unfold InInt32; rw [h31]; omega)]
    rfl
  · unfold detExact; omega
  · unfold detExact; omega

/-- The numerators of A and D never overflow, for display coordinates of 16 bits. -/
theorem calibrate_tmp0_ok (d0 d1 d2 y0 y1 y2 : Int) (hd0 : 0 ≤ d0 ∧ d0 ≤ 65535)
    (hd1 : 0 ≤ d1 ∧ d1 ≤ 65535) (hd2 : 0 ≤ d2 ∧ d2 ≤ 65535)
    (hy0 : RawCoord y0) (hy1 : RawCoord y1) (hy2 : RawCoord y2) :
    calibrate_tmp0 [d0, d1, d2] [y0, y1, y2] = Except.ok (num0Exact d0 d1 d2 y0 y1 y2) ∧
    InInt32 (num0Exact d0 d1 d2 y0 y1 y2) := by
  unfold RawCoord at *
  have p1 := prod_bounds (d0 - d2) (y1 - y2) 65535 1023 (by omega) (by omega) (by omega)
    (by omega)
  have p2 := prod_bounds (d1 - d2) (y0 - y2) 65535 1023 (by omega) (by omega) (by omega)
    (by omega)
  have e : (65535 : Int) * 1023 = 67042305 := by norm_num
  rw [e] at p1 p2
  have h31 : (2 : Int) ^ 31 = 2147483648 := by norm_num
  refine ⟨?_, ?_⟩
  · unfold calibrate_tmp0
    simp only [elem3]
    rw [sub32_ok d0 d2 (by unfold InInt32; rw [h31]; omega),
      sub32_ok y1 y2 (by unfold InInt32; rw [h31]; omega),
      sub32_ok d1 d2 (by unfold InInt32; rw [h31]; omega),
      sub32_ok y0 y2 (by unfold InInt32; rw [h31]; omega),
      mul32_ok _ _ (by unfold InInt32; rw [h31]; omega),
      mul32_ok _ _ (by unfold InInt32; rw [h31]; omega),
      sub32_ok _ _ (by unfold InInt32; rw [h31]; omega)]
    rfl
  · unfold InInt32 num0Exact; rw [h31]; omega

/-- The numerators of B and E never overflow, for display coordinates of 16 bits. -/
theorem calibrate_tmp1_ok (d0 d1 d2 x0 x1 x2 : Int) (hd0 : 0 ≤ d0 ∧ d0 ≤ 65535)
    (hd1 : 0 ≤ d1 ∧ d1 ≤ 65535) (hd2 : 0 ≤ d2 ∧ d2 ≤ 65535)
    (hx0 : RawCoord x0) (hx1 : RawCoord x1) (hx2 : RawCoord x2) :
    calibrate_tmp1 [d0, d1, d2] [x0, x1, x2] = Except.ok (num1Exact d0 d1 d2 x0 x1 x2) ∧
    InInt32 (num1Exact d0 d1 d2 x0 x1 x2) := by
  unfold RawCoord at *
  have p1 := prod_bounds (x0 - x2) (d1 - d2) 1023 65535 (by omega) (by omega) (by omega)
    (by omega)
  have p2 := prod_bounds (d0 - d2) (x1 - x2) 65535 1023 (by omega) (by omega) (by omega)
    (by omega)
  have e : (65535 : Int) * 1023 = 67042305 := by norm_num
  have e2 : (1023 : Int) * 65535 = 67042305 := by norm_num
  rw [e2] at p1
  rw [e] at p2
  have h31 : (2 : Int) ^ 31 = 2147483648 := by norm_num
  refine ⟨?_, ?_⟩
  · unfold calibrate_tmp1
    simp only [elem3]
    rw [sub32_ok x0 x2 (by unfold InInt32; rw [h31]; omega),
      sub32_ok d1 d2 (by unfold InInt32; rw [h31]; omega),
      sub32_ok d0 d2 (by unfold InInt32; rw [h31]; omega),
      sub32_ok x1 x2 (by unfold InInt32; rw [h31]; omega),
      mul32_ok _ _ (by unfold InInt32; rw [h31]; omega),
      mul32_ok _ _ (by unfold InInt32; rw [h31]; omega),
      sub32_ok _ _ (by unfold InInt32; rw [h31]; omega)]
    rfl
  · unfold InInt32 num1Exact; rw [h31]; omega

/-- The numerators of C and F do not overflow when the display coordinates are
nonnegative and sum to at most 2051. -/
theorem calibrate_tmp2_ok (d0 d1 d2 x0 y0 x1 y1 x2 y2 : Int) (hd0 : 0 ≤ d0) (hd1 : 0 ≤ d1)
    (hd2 : 0 ≤ d2) (hsum : d0 + d1 + d2 ≤ 2051)
    (hx0 : RawCoord x0) (hy0 : RawCoord y0) (hx1 : RawCoord x1) (hy1 : RawCoord y1)
    (hx2 : RawCoord x2) (hy2 : RawCoord y2) :
    calibrate_tmp2 [d0, d1, d2] [x0, x1, x2] [y0, y1, y2]
      = Except.ok (num2Exact d0 d1 d2 x0 y0 x1 y1 x2 y2) ∧
    InInt32 (num2Exact d0 d1 d2 x0 y0 x1 y1 x2 y2) := by
  unfold RawCoord at *
  have a21 := prod_range x2 d1 1023 0 d1 hx2.1 hx2.2 (by omega) (by omega) (by omega) hd1
  have a12 := prod_range x1 d2 1023 0 d2 hx1.1 hx1.2 (by omega) (by omega) (by omega) hd2
  have a02 := prod_range x0 d2 1023 0 d2 hx0.1 hx0.2 (by omega) (by omega) (by omega) hd2
  have a20 := prod_range x2 d0 1023 0 d0 hx2.1 hx2.2 (by omega) (by omega) (by omega) hd0
  have a10 := prod_range x1 d0 1023 0 d0 hx1.1 hx1.2 (by omega) (by omega) (by omega) hd0
  have a01 := prod_range x0 d1 1023 0 d1 hx0.1 hx0.2 (by omega) (by omega) (by omega) hd1
  have t0 := prod_range y0 (x2 * d1 - x1 * d2) 1023 (1023 * d2) (1023 * d1) hy0.1 hy0.2
    (by omega) (by omega) (by omega) (by omega)
  have t1 := prod_range y1 (x0 * d2 - x2 * d0) 1023 (1023 * d0) (1023 * d2) hy1.1 hy1.2
    (by omega) (by omega) (by omega) (by omega)
  have t2 := prod_range y2 (x1 * d0 - x0 * d1) 1023 (1023 * d1) (1023 * d0) hy2.1 hy2.2
    (by omega) (by omega) (by omega) (by omega)
  have h31 : (2 : Int) ^ 31 = 2147483648 := by norm_num
  refine ⟨?_, ?_⟩
  · unfold calibrate_tmp2
    simp only [elem3]
    rw [mul32_ok x2 d1 (by unfold InInt32; rw [h31]; omega),
      mul32_ok x1 d2 (by unfold InInt32; rw [h31]; omega),
      sub32_ok (x2 * d1) (x1 * d2) (by unfold InInt32; rw [h31]; omega),
      mul32_ok y0 _ (by unfold InInt32; rw [h31]; omega),
      mul32_ok x0 d2 (by unfold InInt32; rw [h31]; omega),
      mul32_ok x2 d0 (by unfold InInt32; rw [h31]; omega),
      sub32_ok (x0 * d2) (x2 * d0) (by unfold InInt32; rw [h31]; omega),
      mul32_ok y1 _ (by unfold InInt32; rw [h31]; omega),
      add32_ok _ _ (by unfold InInt32; rw [h31]; omega),
      mul32_ok x1 d0 (by unfold InInt32; rw [h31]; omega),
      mul32_ok x0 d1 (by unfold InInt32; rw [h31]; omega),
      sub32_ok (x1 * d0) (x0 * d1) (by unfold InInt32; rw [h31]; omega),
      mul32_ok y2 _ (by unfold InInt32; rw [h31]; omega),
      add32_ok _ _ (by unfold InInt32; rw [h31]; omega)]
    rfl
  · unfold InInt32 num2Exact; rw [h31]; omega

theorem natAbs_tdiv_le (a b : Int) : (Int.tdiv a b).natAbs ≤ a.natAbs := by
  rw [Int.natAbs_tdiv]
  exact Nat.div_le_self _ _

/-- The coefficient of a numerator that an `int32_t` holds: undefined for a zero
determinant, the converted truncated quotient otherwise. -/
theorem calibrate_coefficient_eq (tmp div : Int) (h : InInt32 tmp) :
    calibrate_coefficient tmp div =
      if div = 0 then Except.error ArithError.division_by_zero
      else Except.ok (to_int32 (Int.tdiv (tmp * 65536) div)) := by
  unfold InInt32 at h
  have h31 : (2 : Int) ^ 31 = 2147483648 := by norm_num
  have h63 : (2 : Int) ^ 63 = 9223372036854775808 := by norm_num
  rw [h31] at h
  have hp : InInt64 (tmp * 65536) := by
    unfold InInt64; rw [h63]; omega
  have hq : InInt64 (Int.tdiv (tmp * 65536) div) := by
    have hle := natAbs_tdiv_le (tmp * 65536) div
    unfold InInt64; rw [h63]
    omega
  unfold calibrate_coefficient
  rw [int64_result_ok _ hp]
  by_cases hd : div = 0
  · simp only [if_pos hd]
  · simp only [if_neg hd]
    rw [int64_result_ok _ hq]

theorem int32_result_inv (x c : Int) (h : int32_result x = Except.ok c) :
    c = x ∧ InInt32 c := by
  unfold int32_result at h
  by_cases hr : -2 ^ 31 ≤ x ∧ x < 2 ^ 31
  · rw [if_pos hr] at h
    cases h
    exact ⟨rfl, hr⟩
  · rw [if_neg hr] at h
    cases h

theorem int32_result_overflow (x : Int) : OverflowOnly (int32_result x) := by
  intro e h
  unfold int32_result at h
  by_cases hr : -2 ^ 31 ≤ x ∧ x < 2 ^ 31
  · rw [if_pos hr] at h
    cases h
  · rw [if_neg hr] at h
    cases h
    rfl

theorem agrees_elem (a0 a1 a2 : Int) (h0 : InInt32 a0) (h1 : InInt32 a1) (h2 : InInt32 a2) :
    Agrees (elem [a0, a1, a2] 0) a0 ∧ Agrees (elem [a0, a1, a2] 1) a1 ∧
      Agrees (elem [a0, a1, a2] 2) a2 := by
  refine ⟨?_, ?_, ?_⟩ <;> intro c h <;> cases h
  · exact ⟨rfl, h0⟩
  · exact ⟨rfl, h1⟩
  · exact ⟨rfl, h2⟩

theorem agrees_sub32 {x y : Except ArithError Int} {a b : Int} (hx : Agrees x a)
    (hy : Agrees y b) : Agrees (sub32 x y) (a - b) := by
  intro c h
  cases x with
  | error e => simp [sub32] at h
  | ok a1 =>
      cases y with
      | error e => simp [sub32] at h
      | ok b1 =>
          rw [sub32] at h
          obtain ⟨e1, r1⟩ := int32_result_inv _ _ h
          rw [(hx a1 rfl).1, (hy b1 rfl).1] at e1
          exact ⟨e1, r1⟩

theorem agrees_add32 {x y : Except ArithError Int} {a b : Int} (hx : Agrees x a)
    (hy : Agrees y b) : Agrees (add32 x y) (a + b) := by
  intro c h
  cases x with
  | error e => simp [add32] at h
  | ok a1 =>
      cases y with
      | error e => simp [add32] at h
      | ok b1 =>
          rw [add32] at h
          obtain ⟨e1, r1⟩ := int32_result_inv _ _ h
          rw [(hx a1 rfl).1, (hy b1 rfl).1] at e1
          exact ⟨e1, r1⟩

theorem agrees_mul32 {x y : Except ArithError Int} {a b : Int} (hx : Agrees x a)
    (hy : Agrees y b) : Agrees (mul32 x y) (a * b) := by
  intro c h
  cases x with
  | error e => simp [mul32] at h
  | ok a1 =>
      cases y with
      | error e => simp [mul32] at h
      | ok b1 =>
          rw [mul32] at h
          obtain ⟨e1, r1⟩ := int32_result_inv _ _ h
          rw [(hx a1 rfl).1, (hy b1 rfl).1] at e1
          exact ⟨e1, r1⟩

theorem overflow_elem (a : List Int) (i : Nat) : OverflowOnly (elem a i) := by
  intro e h
  cases h

theorem overflow_sub32 {x y : Except ArithError Int} (hx : OverflowOnly x)
    (hy : OverflowOnly y) : OverflowOnly (sub32 x y) := by
  intro e h
  cases x with
  | error e1 =>
      simp only [sub32] at h
      cases h
      exact hx _ rfl
  | ok a1 =>
      cases y with
      | error e1 =>
          simp only [sub32] at h
          cases h
          exact hy _ rfl
      | ok b1 =>
          rw [sub32] at h
          exact int32_result_overflow _ e h

theorem overflow_add32 {x y : Except ArithError Int} (hx : OverflowOnly x)
    (hy : OverflowOnly y) : OverflowOnly (add32 x y) := by
  intro e h
  cases x with
  | error e1 =>
      simp only [add32] at h
      cases h
      exact hx _ rfl
  | ok a1 =>
      cases y with
      | error e1 =>
          simp only [add32] at h
          cases h
          exact hy _ rfl
      | ok b1 =>
          rw [add32] at h
          exact int32_result_overflow _ e h

theorem overflow_mul32 {x y : Except ArithError Int} (hx : OverflowOnly x)
    (hy : OverflowOnly y) : OverflowOnly (mul32 x y) := by
  intro e h
  cases x with
  | error e1 =>
      simp only [mul32] at h
      cases h
      exact hx _ rfl
  | ok a1 =>
      cases y with
      | error e1 =>
          simp only [mul32] at h
          cases h
          exact hy _ rfl
      | ok b1 =>
          rw [mul32] at h
          exact int32_result_overflow _ e h

theorem calibrate_div_agrees (x0 y0 x1 y1 x2 y2 : Int) (hx0 : InInt32 x0) (hy0 : InInt32 y0)
    (hx1 : InInt32 x1) (hy1 : InInt32 y1) (hx2 : InInt32 x2) (hy2 : InInt32 y2) :
    Agrees (calibrate_div [x0, x1, x2] [y0, y1, y2]) (detExact x0 y0 x1 y1 x2 y2) := by
  obtain ⟨ex0, ex1, ex2⟩ := agrees_elem x0 x1 x2 hx0 hx1 hx2
  obtain ⟨ey0, ey1, ey2⟩ := agrees_elem y0 y1 y2 hy0 hy1 hy2
  exact agrees_sub32 (agrees_mul32 (agrees_sub32 ex0 ex2) (agrees_sub32 ey1 ey2))
    (agrees_mul32 (agrees_sub32 ex1 ex2) (agrees_sub32 ey0 ey2))

theorem calibrate_tmp0_agrees (d0 d1 d2 y0 y1 y2 : Int) (hd0 : InInt32 d0) (hd1 : InInt32 d1)
    (hd2 : InInt32 d2) (hy0 : InInt32 y0) (hy1 : InInt32 y1) (hy2 : InInt32 y2) :
    Agrees (calibrate_tmp0 [d0, d1, d2] [y0, y1, y2]) (num0Exact d0 d1 d2 y0 y1 y2) := by
  obtain ⟨ed0, ed1, ed2⟩ := agrees_elem d0 d1 d2 hd0 hd1 hd2
  obtain ⟨ey0, ey1, ey2⟩ := agrees_elem y0 y1 y2 hy0 hy1 hy2
  exact agrees_sub32 (agrees_mul32 (agrees_sub32 ed0 ed2) (agrees_sub32 ey1 ey2))
    (agrees_mul32 (agrees_sub32 ed1 ed2) (agrees_sub32 ey0 ey2))

theorem calibrate_tmp1_agrees (d0 d1 d2 x0 x1 x2 : Int) (hd0 : InInt32 d0) (hd1 : InInt32 d1)
    (hd2 : InInt32 d2) (hx0 : InInt32 x0) (hx1 : InInt32 x1) (hx2 : InInt32 x2) :
    Agrees (calibrate_tmp1 [d0, d1, d2] [x0, x1, x2]) (num1Exact d0 d1 d2 x0 x1 x2) := by
  obtain ⟨ed0, ed1, ed2⟩ := agrees_elem d0 d1 d2 hd0 hd1 hd2
  obtain ⟨ex0, ex1, ex2⟩ := agrees_elem x0 x1 x2 hx0 hx1 hx2
  exact agrees_sub32 (agrees_mul32 (agrees_sub32 ex0 ex2) (agrees_sub32 ed1 ed2))
    (agrees_mul32 (agrees_sub32 ed0 ed2) (agrees_sub32 ex1 ex2))

theorem calibrate_tmp2_agrees (d0 d1 d2 x0 y0 x1 y1 x2 y2 : Int) (hd0 : InInt32 d0)
    (hd1 : InInt32 d1) (hd2 : InInt32 d2) (hx0 : InInt32 x0) (hy0 : InInt32 y0)
    (hx1 : InInt32 x1) (hy1 : InInt32 y1) (hx2 : InInt32 x2) (hy2 : InInt32 y2) :
    Agrees (calibrate_tmp2 [d0, d1, d2] [x0, x1, x2] [y0, y1, y2])
      (num2Exact d0 d1 d2 x0 y0 x1 y1 x2 y2) := by
  obtain ⟨ed0, ed1, ed2⟩ := agrees_elem d0 d1 d2 hd0 hd1 hd2
  obtain ⟨ex0, ex1, ex2⟩ := agrees_elem x0 x1 x2 hx0 hx1 hx2
  obtain ⟨ey0, ey1, ey2⟩ := agrees_elem y0 y1 y2 hy0 hy1 hy2
  exact agrees_add32
    (agrees_add32
      (agrees_mul32 ey0 (agrees_sub32 (agrees_mul32 ex2 ed1) (agrees_mul32 ex1 ed2)))
      (agrees_mul32 ey1 (agrees_sub32 (agrees_mul32 ex0 ed2) (agrees_mul32 ex2 ed0))))
    (agrees_mul32 ey2 (agrees_sub32 (agrees_mul32 ex1 ed0) (agrees_mul32 ex0 ed1)))

theorem calibrate_tmp2_overflow (d x y : List Int) : OverflowOnly (calibrate_tmp2 d x y) :=
  overflow_add32
    (overflow_add32
      (overflow_mul32 (overflow_elem _ _)
        (overflow_sub32 (overflow_mul32 (overflow_elem _ _) (overflow_elem _ _))
          (overflow_mul32 (overflow_elem _ _) (overflow_elem _ _))))
      (overflow_mul32 (overflow_elem _ _)
        (overflow_sub32 (overflow_mul32 (overflow_elem _ _) (overflow_elem _ _))
          (overflow_mul32 (overflow_elem _ _) (overflow_elem _ _)))))
    (overflow_mul32 (overflow_elem _ _)
      (overflow_sub32 (overflow_mul32 (overflow_elem _ _) (overflow_elem _ _))
        (overflow_mul32 (overflow_elem _ _) (overflow_elem _ _))))

theorem calibrate_coefficient_inv (tmp div c : Int)
    (h : calibrate_coefficient tmp div = Except.ok c) :
    div ≠ 0 ∧ c = to_int32 (coefficientExact tmp div) := by
  unfold calibrate_coefficient at h
  cases hp : int64_result (tmp * 65536) with
  | error e => rw [hp] at h; cases h
  | ok p =>
      have ep : p = tmp * 65536 := by
        unfold int64_result at hp
        split at hp
        · cases hp; rfl
        · cases hp
      rw [hp] at h
      simp only [] at h
      by_cases hd : div = 0
      · rw [if_pos hd] at h; cases h
      · rw [if_neg hd] at h
        cases hq : int64_result (Int.tdiv p div) with
        | error e => rw [hq] at h; cases h
        | ok q =>
            have eq : q = Int.tdiv p div := by
              unfold int64_result at hq
              split at hq
              · cases hq; rfl
              · cases hq
            rw [hq] at h
            cases h
            exact ⟨hd, by rw [eq, ep]; rfl⟩

/-- Whenever the solve is defined, the determinant is not zero and each coefficient is
the truncated quotient of the exact numerator times 65536 by the exact determinant,
converted to 32 bits. -/
theorem calibrate_solve_inv (dx0 dx1 dx2 dy0 dy1 dy2 x0 y0 x1 y1 x2 y2 : Int) (m : List Int)
    (hdx0 : InInt32 dx0) (hdx1 : InInt32 dx1) (hdx2 : InInt32 dx2)
    (hdy0 : InInt32 dy0) (hdy1 : InInt32 dy1) (hdy2 : InInt32 dy2)
    (hx0 : InInt32 x0) (hy0 : InInt32 y0) (hx1 : InInt32 x1) (hy1 : InInt32 y1)
    (hx2 : InInt32 x2) (hy2 : InInt32 y2)
    (h : calibrate_solve [dx0, dx1, dx2] [dy0, dy1, dy2] [x0, x1, x2] [y0, y1, y2]
      = Except.ok m) :
    detExact x0 y0 x1 y1 x2 y2 ≠ 0 ∧
    m = [to_int32 (coefficientExact (num0Exact dx0 dx1 dx2 y0 y1 y2)
          (detExact x0 y0 x1 y1 x2 y2)),
        to_int32 (coefficientExact (num1Exact dx0 dx1 dx2 x0 x1 x2)
          (detExact x0 y0 x1 y1 x2 y2)),
        to_int32 (coefficientExact (num2Exact dx0 dx1 dx2 x0 y0 x1 y1 x2 y2)
          (detExact x0 y0 x1 y1 x2 y2)),
        to_int32 (coefficientExact (num0Exact dy0 dy1 dy2 y0 y1 y2)
          (detExact x0 y0 x1 y1 x2 y2)),
        to_int32 (coefficientExact (num1Exact dy0 dy1 dy2 x0 x1 x2)
          (detExact x0 y0 x1 y1 x2 y2)),
        to_int32 (coefficientExact (num2Exact dy0 dy1 dy2 x0 y0 x1 y1 x2 y2)
          (detExact x0 y0 x1 y1 x2 y2))] := by
  unfold calibrate_solve at h
  cases h0 : calibrate_div [x0, x1, x2] [y0, y1, y2] with
  | error e => rw [h0] at h; cases h
  | ok div =>
  rw [h0] at h; simp only [] at h
  have ediv := (calibrate_div_agrees x0 y0 x1 y1 x2 y2 hx0 hy0 hx1 hy1 hx2 hy2 div h0).1
  cases h1 : calibrate_tmp0 [dx0, dx1, dx2] [y0, y1, y2] with
  | error e => rw [h1] at h; cases h
  | ok ta =>
  rw [h1] at h; simp only [] at h
  have ea := (calibrate_tmp0_agrees dx0 dx1 dx2 y0 y1 y2 hdx0 hdx1 hdx2 hy0 hy1 hy2 ta h1).1
  cases c0 : calibrate_coefficient ta div with
  | error e => rw [c0] at h; cases h
  | ok m0 =>
  rw [c0] at h; simp only [] at h
  cases h2 : calibrate_tmp1 [dx0, dx1, dx2] [x0, x1, x2] with
  | error e => rw [h2] at h; cases h
  | ok tb =>
  rw [h2] at h; simp only [] at h
  have eb := (calibrate_tmp1_agrees dx0 dx1 dx2 x0 x1 x2 hdx0 hdx1 hdx2 hx0 hx1 hx2 tb h2).1
  cases c1 : calibrate_coefficient tb div with
  | error e => rw [c1] at h; cases h
  | ok m1 =>
  rw [c1] at h; simp only [] at h
  cases h3 : calibrate_tmp2 [dx0, dx1, dx2] [x0, x1, x2] [y0, y1, y2] with
  | error e => rw [h3] at h; cases h
  | ok tc =>
  rw [h3] at h; simp only [] at h
  have ec := (calibrate_tmp2_agrees dx0 dx1 dx2 x0 y0 x1 y1 x2 y2 hdx0 hdx1 hdx2 hx0 hy0 hx1
    hy1 hx2 hy2 tc h3).1
  cases c2 : calibrate_coefficient tc div with
  | error e => rw [c2] at h; cases h
  | ok m2 =>
  rw [c2] at h; simp only [] at h
  cases h4 : calibrate_tmp0 [dy0, dy1, dy2] [y0, y1, y2] with
  | error e => rw [h4] at h; cases h
  | ok td =>
  rw [h4] at h; simp only [] at h
  have ed := (calibrate_tmp0_agrees dy0 dy1 dy2 y0 y1 y2 hdy0 hdy1 hdy2 hy0 hy1 hy2 td h4).1
  cases c3 : calibrate_coefficient td div with
  | error e => rw [c3] at h; cases h
  | ok m3 =>
  rw [c3] at h; simp only [] at h
  cases h5 : calibrate_tmp1 [dy0, dy1, dy2] [x0, x1, x2] with
  | error e => rw [h5] at h; cases h
  | ok te =>
  rw [h5] at h; simp only [] at h
  have ee := (calibrate_tmp1_agrees dy0 dy1 dy2 x0 x1 x2 hdy0 hdy1 hdy2 hx0 hx1 hx2 te h5).1
  cases c4 : calibrate_coefficient te div with
  | error e => rw [c4] at h; cases h
  | ok m4 =>
  rw [c4] at h; simp only [] at h
  cases h6 : calibrate_tmp2 [dy0, dy1, dy2] [x0, x1, x2] [y0, y1, y2] with
  | error e => rw [h6] at h; cases h
  | ok tf =>
  rw [h6] at h; simp only [] at h
  have ef := (calibrate_tmp2_agrees dy0 dy1 dy2 x0 y0 x1 y1 x2 y2 hdy0 hdy1 hdy2 hx0 hy0 hx1
    hy1 hx2 hy2 tf h6).1
  cases c5 : calibrate_coefficient tf div with
  | error e => rw [c5] at h; cases h
  | ok m5 =>
  rw [c5] at h; simp only [] at h
  cases h
  obtain ⟨hd, q0⟩ := calibrate_coefficient_inv _ _ _ c0
  have q1 := (calibrate_coefficient_inv _ _ _ c1).2
  have q2 := (calibrate_coefficient_inv _ _ _ c2).2
  have q3 := (calibrate_coefficient_inv _ _ _ c3).2
  have q4 := (calibrate_coefficient_inv _ _ _ c4).2
  have q5 := (calibrate_coefficient_inv _ _ _ c5).2
  rw [ediv] at hd q0 q1 q2 q3 q4 q5
  rw [ea] at q0
  rw [eb] at q1
  rw [ec] at q2
  rw [ed] at q3
  rw [ee] at q4
  rw [ef] at q5
  exact ⟨hd, by rw [q0, q1, q2, q3, q4, q5]⟩

/-- The solve on raw touch samples and display coordinates of 16 bits: the determinant
and the numerators of A, B, D, E are exact, a zero determinant stops it at the first
division, and otherwise only the numerators of C and F can be undefined. -/
theorem calibrate_solve_raw (dx0 dx1 dx2 dy0 dy1 dy2 x0 y0 x1 y1 x2 y2 : Int)
    (hdx0 : 0 ≤ dx0 ∧ dx0 ≤ 65535) (hdx1 : 0 ≤ dx1 ∧ dx1 ≤ 65535)
    (hdx2 : 0 ≤ dx2 ∧ dx2 ≤ 65535) (hdy0 : 0 ≤ dy0 ∧ dy0 ≤ 65535)
    (hdy1 : 0 ≤ dy1 ∧ dy1 ≤ 65535) (hdy2 : 0 ≤ dy2 ∧ dy2 ≤ 65535)
    (hx0 : RawCoord x0) (hy0 : RawCoord y0) (hx1 : RawCoord x1) (hy1 : RawCoord y1)
    (hx2 : RawCoord x2) (hy2 : RawCoord y2) :
    calibrate_solve [dx0, dx1, dx2] [dy0, dy1, dy2] [x0, x1, x2] [y0, y1, y2] =
      if detExact x0 y0 x1 y1 x2 y2 = 0 then Except.error ArithError.division_by_zero
      else
        match calibrate_tmp2 [dx0, dx1, dx2] [x0, x1, x2] [y0, y1, y2] with
        | Except.error e => Except.error e
        | Except.ok tc =>
            match calibrate_tmp2 [dy0, dy1, dy2] [x0, x1, x2] [y0, y1, y2] with
            | Except.error e => Except.error e
            | Except.ok tf =>
                Except.ok
                  [to_int32 (coefficientExact (num0Exact dx0 dx1 dx2 y0 y1 y2)
                      (detExact x0 y0 x1 y1 x2 y2)),
                    to_int32 (coefficientExact (num1Exact dx0 dx1 dx2 x0 x1 x2)
                      (detExact x0 y0 x1 y1 x2 y2)),
                    to_int32 (coefficientExact tc (detExact x0 y0 x1 y1 x2 y2)),
                    to_int32 (coefficientExact (num0Exact dy0 dy1 dy2 y0 y1 y2)
                      (detExact x0 y0 x1 y1 x2 y2)),
                    to_int32 (coefficientExact (num1Exact dy0 dy1 dy2 x0 x1 x2)
                      (detExact x0 y0 x1 y1 x2 y2)),
                    to_int32 (coefficientExact tf (detExact x0 y0 x1 y1 x2 y2))] := by
  obtain ⟨e0, _, _⟩ := calibrate_div_ok x0 y0 x1 y1 x2 y2 hx0 hy0 hx1 hy1 hx2 hy2
  obtain ⟨ea, ra⟩ := calibrate_tmp0_ok dx0 dx1 dx2 y0 y1 y2 hdx0 hdx1 hdx2 hy0 hy1 hy2
  obtain ⟨eb, rb⟩ := calibrate_tmp1_ok dx0 dx1 dx2 x0 x1 x2 hdx0 hdx1 hdx2 hx0 hx1 hx2
  obtain ⟨ed, rd⟩ := calibrate_tmp0_ok dy0 dy1 dy2 y0 y1 y2 hdy0 hdy1 hdy2 hy0 hy1 hy2
  obtain ⟨ee, re⟩ := calibrate_tmp1_ok dy0 dy1 dy2 x0 x1 x2 hdy0 hdy1 hdy2 hx0 hx1 hx2
  have h31 : (2 : Int) ^ 31 = 2147483648 := by norm_num
  have r32 : ∀ v : Int, 0 ≤ v ∧ v ≤ 65535 → InInt32 v := by
    intro v hv; unfold InInt32; rw [h31]; omega
  have c32 : ∀ v : Int, RawCoord v → InInt32 v := by
    intro v hv; unfold RawCoord at hv; unfold InInt32; rw [h31]; omega
  unfold calibrate_solve
  simp only [e0, ea, eb, ed, ee, calibrate_coefficient_eq _ _ ra,
    calibrate_coefficient_eq _ _ rb, calibrate_coefficient_eq _ _ rd,
    calibrate_coefficient_eq _ _ re]
  by_cases hD : detExact x0 y0 x1 y1 x2 y2 = 0
  · simp only [if_pos hD]
  · simp only [if_neg hD]
    cases h3 : calibrate_tmp2 [dx0, dx1, dx2] [x0, x1, x2] [y0, y1, y2] with
    | error e => rfl
    | ok tc =>
        have rc := (calibrate_tmp2_agrees dx0 dx1 dx2 x0 y0 x1 y1 x2 y2 (r32 _ hdx0)
          (r32 _ hdx1) (r32 _ hdx2) (c32 _ hx0) (c32 _ hy0) (c32 _ hx1) (c32 _ hy1)
          (c32 _ hx2) (c32 _ hy2) tc h3).2
        simp only [calibrate_coefficient_eq _ _ rc, if_neg hD]
        cases h6 : calibrate_tmp2 [dy0, dy1, dy2] [x0, x1, x2] [y0, y1, y2] with
        | error e => rfl
        | ok tf =>
            have rf := (calibrate_tmp2_agrees dy0 dy1 dy2 x0 y0 x1 y1 x2 y2 (r32 _ hdy0)
              (r32 _ hdy1) (r32 _ hdy2) (c32 _ hx0) (c32 _ hy0) (c32 _ hx1) (c32 _ hy1)
              (c32 _ hx2) (c32 _ hy2) tf h6).2
            simp only [calibrate_coefficient_eq _ _ rf, if_neg hD]
            rfl

theorem calibrate_targets_range (width height : Nat) (hw : width < 65536)
    (hh : height < 65536) :
    ∃ dx0 dx1 dx2 dy0 dy1 dy2 : Int,
      calibrate_targets width height = ([dx0, dx1, dx2], [dy0, dy1, dy2]) ∧
      (0 ≤ dx0 ∧ dx0 ≤ 65535) ∧ (0 ≤ dx1 ∧ dx1 ≤ 65535) ∧ (0 ≤ dx2 ∧ dx2 ≤ 65535) ∧
      (0 ≤ dy0 ∧ dy0 ≤ 65535) ∧ (0 ≤ dy1 ∧ dy1 ≤ 65535) ∧ (0 ≤ dy2 ∧ dy2 ≤ 65535) ∧
      (width ≤ 1280 → dx0 + dx1 + dx2 ≤ 2051) ∧ (height ≤ 1280 → dy0 + dy1 + dy2 ≤ 2051) := by
  refine ⟨_, _, _, _, _, _, rfl, ?_, ?_, ?_, ?_, ?_, ?_, ?_, ?_⟩ <;> omega

/-- Collinear samples are those with a zero determinant. -/
theorem detExact_zero_iff (x0 y0 x1 y1 x2 y2 : Int) :
    detExact x0 y0 x1 y1 x2 y2 = 0 ↔ Collinear3 x0 y0 x1 y1 x2 y2 := by
  unfold detExact Collinear3
  constructor
  · intro h
    by_cases h1 : y0 - y2 = 0 ∧ x0 - x2 = 0
    · by_cases h2 : y1 - y2 = 0 ∧ x1 - x2 = 0
      · refine ⟨1, 0, x2, Or.inl one_ne_zero, ?_, ?_, ?_⟩ <;> omega
      · refine ⟨y1 - y2, -(x1 - x2), (y1 - y2) * x2 + -(x1 - x2) * y2, ?_, ?_, ?_, rfl⟩
        · by_contra hn
          push_neg at hn
          exact h2 ⟨hn.1, by omega⟩
        · have hx : x0 = x2 := by omega
          have hy : y0 = y2 := by omega
          rw [hx, hy]
        · ring
    · refine ⟨y0 - y2, -(x0 - x2), (y0 - y2) * x2 + -(x0 - x2) * y2, ?_, ?_, ?_, rfl⟩
      · by_contra hn
        push_neg at hn
        exact h1 ⟨hn.1, by omega⟩
      · ring
      · linear_combination (-1 : Int) * h
  · rintro ⟨a, b, c, hab, e0, e1, e2⟩
    have ha : a * ((x0 - x2) * (y1 - y2) - (x1 - x2) * (y0 - y2)) = 0 := by
      linear_combination (y1 - y2) * (e0 - e2) - (y0 - y2) * (e1 - e2)
    have hb : b * ((x0 - x2) * (y1 - y2) - (x1 - x2) * (y0 - y2)) = 0 := by
      linear_combination (x0 - x2) * (e1 - e2) - (x1 - x2) * (e0 - e2)
    rcases hab with h | h
    · exact (mul_eq_zero.mp ha).resolve_left h
    · exact (mul_eq_zero.mp hb).resolve_left h

theorem to_int32_eq_iff (q : Int) : to_int32 q = q ↔ InInt32 q := by
  unfold to_int32 InInt32
  have h31 : (2 : Int) ^ 31 = 2147483648 := by norm_num
  have h32 : (2 : Int) ^ 32 = 4294967296 := by norm_num
  rw [h31, h32]
  constructor
  · intro h
    split at h <;> omega
  · intro h
    split <;> omega

theorem natAbs_tmod_eq (a b : Int) : (Int.tmod a b).natAbs = a.natAbs % b.natAbs := by
  cases a <;> cases b <;> simp [Int.tmod, Int.natAbs_neg] <;> norm_cast

/-- The truncated quotient is within one unit of the exact ratio: it differs from it,
times the divisor, by less than the divisor. -/
theorem coefficientExact_near (num d : Int) (hd : d ≠ 0) :
    (coefficientExact num d * d - num * 65536).natAbs < d.natAbs := by
  unfold coefficientExact
  have h1 := Int.tmod_add_tdiv (num * 65536) d
  have h2 : (Int.tmod (num * 65536) d).natAbs < d.natAbs := by
    rw [natAbs_tmod_eq]
    exact Nat.mod_lt _ (Int.natAbs_pos.mpr hd)
  have e : Int.tdiv (num * 65536) d * d - num * 65536 = -(Int.tmod (num * 65536) d) := by
    linear_combination h1
  rw [e, Int.natAbs_neg]
  exact h2

/-! ## Touch calibration: the trace of the sampling -/

theorem terminatorScan_spec (p : Ptr) : ∀ (k i : Nat),
    i ≤ terminatorScan p k i ∧ terminatorScan p k i ≤ i + k ∧
    (∀ j, i ≤ j → j < terminatorScan p k i → p j % 256 ≠ 0) ∧
    (p (terminatorScan p k i) % 256 = 0 ∨ terminatorScan p k i = i + k)
  | 0, i => by
      simp only [terminatorScan]
      exact ⟨Nat.le_refl _, Nat.le_refl _, fun j h1 h2 => absurd h2 (by omega), Or.inr rfl⟩
  | k + 1, i => by
      by_cases h : p i % 256 = 0
      · simp only [terminatorScan, if_pos h]
        exact ⟨Nat.le_refl _, by omega, fun j h1 h2 => absurd h2 (by omega), Or.inl h⟩
      · simp only [terminatorScan, if_neg h]
        obtain ⟨h1, h2, h3, h4⟩ := terminatorScan_spec p k (i + 1)
        refine ⟨by omega, by omega, ?_, ?_⟩
        · intro j hj1 hj2
          by_cases hji : j = i
          · rw [hji]; exact h
          · exact h3 j (by omega) hj2
        · rcases h4 with h4 | h4
          · exact Or.inl h4
          · exact Or.inr (by omega)

theorem emittedLength_spec (p : Ptr) :
    emittedLength p ≤ 249 ∧ (∀ i < emittedLength p, p i % 256 ≠ 0) ∧
    (p (emittedLength p) % 256 = 0 ∨ emittedLength p = 249) := by
  obtain ⟨_, h2, h3, h4⟩ := terminatorScan_spec p 249 0
  refine ⟨by unfold emittedLength; omega, fun i hi => h3 i (Nat.zero_le _) hi, ?_⟩
  rcases h4 with h4 | h4
  · exact Or.inl h4
  · exact Or.inr (by unfold emittedLength; omega)

theorem emittedLength_unique (p : Ptr) (n : Nat) (hn : n ≤ 249)
    (ht : ∀ i < n, p i % 256 ≠ 0) (hz : p n % 256 = 0 ∨ n = 249) :
    emittedLength p = n := by
  obtain ⟨h1, h2, h3⟩ := emittedLength_spec p
  rcases Nat.lt_trichotomy (emittedLength p) n with h | h | h
  · rcases h3 with h3 | h3
    · exact absurd h3 (ht _ h)
    · omega
  · exact h
  · rcases hz with hz | hz
    · exact absurd hz (h2 _ h)
    · omega

theorem private_string_write_immediate (cfg : Config) (p_text : Ptr) (s : State)
    (hi : s.cmd_burst = 0) :
    private_string_write cfg p_text s
      = { s with bus := s.bus ++
          (textBytes p_text 0 (emittedLength p_text) ++
            List.replicate (4 - emittedLength p_text % 4) 0).map BusOp.transmit } := by
  obtain ⟨hn, htext, hz⟩ := emittedLength_spec p_text
  have ht0 : ∀ i < emittedLength p_text, p_text (0 + i) % 256 ≠ 0 := by
    intro i h; rw [Nat.zero_add]; exact htext i h
  have hz0 : p_text (0 + emittedLength p_text) % 256 = 0 ∨ 0 + emittedLength p_text = 249 := by
    rw [Nat.zero_add]; exact hz
  have hpad : (4 - ((0 + emittedLength p_text) &&& 3) % 256) % 256
      = 4 - emittedLength p_text % 4 := by
    rw [Nat.zero_add, and_3]
    have := Nat.mod_lt (emittedLength p_text) (show 0 < 4 by decide)
    omega
  simp only [private_string_write, if_pos hi.symm]
  rw [private_string_write_text_eq p_text (emittedLength p_text) 0 249 s hn (by omega) ht0 hz0]
  simp only [hpad, private_block_write_padding_eq, List.map_append, List.append_assoc]

/-! ## Touch calibration: the numerators solve the three-point system -/

theorem cramer_exact (d0 d1 d2 x0 y0 x1 y1 x2 y2 : Int) :
    (num0Exact d0 d1 d2 y0 y1 y2 * x0 + num1Exact d0 d1 d2 x0 x1 x2 * y0
        + num2Exact d0 d1 d2 x0 y0 x1 y1 x2 y2 = detExact x0 y0 x1 y1 x2 y2 * d0) ∧
    (num0Exact d0 d1 d2 y0 y1 y2 * x1 + num1Exact d0 d1 d2 x0 x1 x2 * y1
        + num2Exact d0 d1 d2 x0 y0 x1 y1 x2 y2 = detExact x0 y0 x1 y1 x2 y2 * d1) ∧
    (num0Exact d0 d1 d2 y0 y1 y2 * x2 + num1Exact d0 d1 d2 x0 x1 x2 * y2
        + num2Exact d0 d1 d2 x0 y0 x1 y1 x2 y2 = detExact x0 y0 x1 y1 x2 y2 * d2) := by
  unfold num0Exact num1Exact num2Exact detExact
  refine ⟨?_, ?_, ?_⟩ <;> ring

theorem affineExact_eq (a b c d x y t : Int) (hd : d ≠ 0) (h : a * x + b * y + c = d * t) :
    affineExact a b c d x y = (t : ℚ) := by
  have hq : (d : ℚ) ≠ 0 := by exact_mod_cast hd
  have h2 : (a : ℚ) * x + b * y + c = d * t := by exact_mod_cast h
  unfold affineExact
  field_simp
  linarith

theorem calibrate_numerators (d0 d1 d2 x0 y0 x1 y1 x2 y2 div n0 n1 n2 : Int)
    (hd0 : InInt32 d0) (hd1 : InInt32 d1) (hd2 : InInt32 d2)
    (hx0 : InInt32 x0) (hy0 : InInt32 y0) (hx1 : InInt32 x1) (hy1 : InInt32 y1)
    (hx2 : InInt32 x2) (hy2 : InInt32 y2)
    (hdiv : calibrate_div [x0, x1, x2] [y0, y1, y2] = Except.ok div)
    (h0 : calibrate_tmp0 [d0, d1, d2] [y0, y1, y2] = Except.ok n0)
    (h1 : calibrate_tmp1 [d0, d1, d2] [x0, x1, x2] = Except.ok n1)
    (h2 : calibrate_tmp2 [d0, d1, d2] [x0, x1, x2] [y0, y1, y2] = Except.ok n2) :
    n0 * x0 + n1 * y0 + n2 = div * d0 ∧ n0 * x1 + n1 * y1 + n2 = div * d1 ∧
    n0 * x2 + n1 * y2 + n2 = div * d2 := by
  obtain ⟨e, _⟩ := calibrate_div_agrees x0 y0 x1 y1 x2 y2 hx0 hy0 hx1 hy1 hx2 hy2 div hdiv
  obtain ⟨e0, _⟩ := calibrate_tmp0_agrees d0 d1 d2 y0 y1 y2 hd0 hd1 hd2 hy0 hy1 hy2 n0 h0
  obtain ⟨e1, _⟩ := calibrate_tmp1_agrees d0 d1 d2 x0 x1 x2 hd0 hd1 hd2 hx0 hx1 hx2 n1 h1
  obtain ⟨e2, _⟩ := calibrate_tmp2_agrees d0 d1 d2 x0 y0 x1 y1 x2 y2 hd0 hd1 hd2 hx0 hy0 hx1
    hy1 hx2 hy2 n2 h2
  rw [e, e0, e1, e2]
  exact cramer_exact d0 d1 d2 x0 y0 x1 y1 x2 y2

/-! ## Touch calibration: which read is sampled -/

theorem touchStream_shift (dev : Device) (addr : Nat) (h : List BusOp) (i : Nat) :
    touchStream dev addr (h ++ readOps dev addr 4 h) i = touchStream dev addr h (i + 1) := rfl

theorem sampleResult_shift (dev : Device) (addr : Nat) (s : State) (k : Nat) :
    sampleResult dev addr { s with bus := s.bus ++ readOps dev addr 4 s.bus } k
      = sampleResult dev addr s (k + 1) := rfl

theorem calibrate_touch_succ (cc : CmdConfig) (dev : Device) (fuel tl : Nat) (s : State) :
    calibrate_touch cc dev (fuel + 1) tl s =
      if tl ≠ 0 then
        if touchStream dev cc.REG_TOUCH_DIRECT_XY s.bus 0 &&& 0x80000000 ≠ 0 then
          calibrate_touch cc dev fuel 0
            { s with bus := s.bus ++ readOps dev cc.REG_TOUCH_DIRECT_XY 4 s.bus }
        else
          calibrate_touch cc dev fuel tl
            { s with bus := s.bus ++ readOps dev cc.REG_TOUCH_DIRECT_XY 4 s.bus }
      else
        if 0 = touchStream dev cc.REG_TOUCH_DIRECT_XY s.bus 0 &&& 0x80000000 then
          some (sampleResult dev cc.REG_TOUCH_DIRECT_XY s 0)
        else
          calibrate_touch cc dev fuel tl
            { s with bus := s.bus ++ readOps dev cc.REG_TOUCH_DIRECT_XY 4 s.bus } := by
  rw [calibrate_touch, EVE_memRead32_eq]
  rfl

/-- The wait with the lock released samples the first read with bit 31 clear. -/
theorem calibrate_touch_unlocked (cc : CmdConfig) (dev : Device) :
    ∀ (m fuel : Nat) (s : State),
      (∀ i < m, touchStream dev cc.REG_TOUCH_DIRECT_XY s.bus i &&& 0x80000000 ≠ 0) →
      touchStream dev cc.REG_TOUCH_DIRECT_XY s.bus m &&& 0x80000000 = 0 →
      calibrate_touch cc dev fuel 0 s =
        if m < fuel then some (sampleResult dev cc.REG_TOUCH_DIRECT_XY s m) else none
  | m, 0, s, _, _ => by simp [calibrate_touch]
  | 0, fuel + 1, s, _, hz => by
      rw [calibrate_touch_succ, if_neg (fun h => h rfl), if_pos hz.symm,
        if_pos (Nat.succ_pos _)]
  | m + 1, fuel + 1, s, hs, hz => by
      have h0 : ¬ (0 = touchStream dev cc.REG_TOUCH_DIRECT_XY s.bus 0 &&& 0x80000000) :=
        fun h => hs 0 (Nat.succ_pos _) h.symm
      rw [calibrate_touch_succ, if_neg (fun h => h rfl), if_neg h0,
        calibrate_touch_unlocked cc dev m fuel _
          (fun i hi => by rw [touchStream_shift]; exact hs (i + 1) (by omega))
          (by rw [touchStream_shift]; exact hz), sampleResult_shift]
      by_cases hm : m < fuel
      · rw [if_pos hm, if_pos (by omega)]
      · rw [if_neg hm, if_neg (by omega)]

/-- The wait with the lock set skips reads with bit 31 clear, releases the lock at the
first read with bit 31 set, and then samples the first read with bit 31 clear. -/
theorem calibrate_touch_locked (cc : CmdConfig) (dev : Device) :
    ∀ (j fuel tl k : Nat) (s : State), tl ≠ 0 → j < k →
      (∀ i < j, touchStream dev cc.REG_TOUCH_DIRECT_XY s.bus i &&& 0x80000000 = 0) →
      touchStream dev cc.REG_TOUCH_DIRECT_XY s.bus j &&& 0x80000000 ≠ 0 →
      (∀ i, j < i → i < k →
        touchStream dev cc.REG_TOUCH_DIRECT_XY s.bus i &&& 0x80000000 ≠ 0) →
      touchStream dev cc.REG_TOUCH_DIRECT_XY s.bus k &&& 0x80000000 = 0 →
      calibrate_touch cc dev fuel tl s =
        if k < fuel then some (sampleResult dev cc.REG_TOUCH_DIRECT_XY s k) else none
  | j, 0, tl, k, s, _, _, _, _, _, _ => by simp [calibrate_touch]
  | 0, fuel + 1, tl, k, s, htl, hjk, _, hset, hmid, hz => by
      obtain ⟨m, rfl⟩ : ∃ m, k = m + 1 := ⟨k - 1, by omega⟩
      rw [calibrate_touch_succ, if_pos htl, if_pos hset,
        calibrate_touch_unlocked cc dev m fuel _
          (fun i hi => by rw [touchStream_shift]; exact hmid (i + 1) (by omega) (by omega))
          (by rw [touchStream_shift]; exact hz), sampleResult_shift]
      by_cases hm : m < fuel
      · rw [if_pos hm, if_pos (by omega)]
      · rw [if_neg hm, if_neg (by omega)]
  | j + 1, fuel + 1, tl, k, s, htl, hjk, hclr, hset, hmid, hz => by
      obtain ⟨m, rfl⟩ : ∃ m, k = m + 1 := ⟨k - 1, by omega⟩
      have h0 : ¬ (touchStream dev cc.REG_TOUCH_DIRECT_XY s.bus 0 &&& 0x80000000 ≠ 0) :=
        fun h => h (hclr 0 (Nat.succ_pos _))
      rw [calibrate_touch_succ, if_pos htl, if_neg h0,
        calibrate_touch_locked cc dev j fuel tl m _ htl (by omega)
          (fun i hi => by rw [touchStream_shift]; exact hclr (i + 1) (by omega))
          (by rw [touchStream_shift]; exact hset)
          (fun i h1 h2 => by rw [touchStream_shift]; exact hmid (i + 1) (by omega) (by omega))
          (by rw [touchStream_shift]; exact hz), sampleResult_shift]
      by_cases hm : m < fuel
      · rw [if_pos hm, if_pos (by omega)]
      · rw [if_neg hm, if_neg (by omega)]

theorem firstTouch_parts (v : Nat → Nat) (k : Nat) (h : FirstTouchAfterRelease v k) :
    ∃ j, j < k ∧ (∀ i < j, v i &&& 0x80000000 = 0) ∧ v j &&& 0x80000000 ≠ 0 ∧
      (∀ i, j < i → i < k → v i &&& 0x80000000 ≠ 0) ∧ v k &&& 0x80000000 = 0 := by
  obtain ⟨⟨hz, hex⟩, hmin⟩ := h
  have hex2 : ∃ j, j < k ∧ v j &&& 0x80000000 ≠ 0 := hex
  refine ⟨Nat.find hex2, (Nat.find_spec hex2).1, ?_, (Nat.find_spec hex2).2, ?_, hz⟩
  · intro i hi
    by_contra hc
    exact Nat.find_min hex2 hi ⟨Nat.lt_trans hi (Nat.find_spec hex2).1, hc⟩
  · intro i h1 h2 hc
    exact hmin i h2 ⟨hc, Nat.find hex2, h1, (Nat.find_spec hex2).2⟩

theorem firstTouch_of_parts (v : Nat → Nat) (j k : Nat) (hjk : j < k)
    (hclr : ∀ i < j, v i &&& 0x80000000 = 0) (hset : v j &&& 0x80000000 ≠ 0)
    (hmid : ∀ i, j < i → i < k → v i &&& 0x80000000 ≠ 0) (hz : v k &&& 0x80000000 = 0) :
    FirstTouchAfterRelease v k := by
  refine ⟨⟨hz, j, hjk, hset⟩, ?_⟩
  rintro n hn ⟨hnz, j2, hj2, hs2⟩
  have h1 : j ≤ j2 := by
    by_contra hc
    exact hs2 (hclr j2 (by omega))
  exact hmid n (by omega) hn hnz

/-- A wait that starts with the lock set samples the first touch after a release, when
the fuel reaches it. -/
theorem calibrate_touch_first (cc : CmdConfig) (dev : Device) (fuel tl k : Nat) (s : State)
    (htl : tl ≠ 0)
    (h : FirstTouchAfterRelease (touchStream dev cc.REG_TOUCH_DIRECT_XY s.bus) k) :
    calibrate_touch cc dev fuel tl s =
      if k < fuel then some (sampleResult dev cc.REG_TOUCH_DIRECT_XY s k) else none := by
  obtain ⟨j, hjk, hclr, hset, hmid, hz⟩ := firstTouch_parts _ _ h
  exact calibrate_touch_locked cc dev j fuel tl k s htl hjk hclr hset hmid hz

theorem calibrate_touch_unlocked_inv (cc : CmdConfig) (dev : Device) :
    ∀ (fuel : Nat) (s : State) (r : Int × Int × Nat × State),
      calibrate_touch cc dev fuel 0 s = some r →
      ∃ m, m < fuel ∧
        (∀ i < m, touchStream dev cc.REG_TOUCH_DIRECT_XY s.bus i &&& 0x80000000 ≠ 0) ∧
        touchStream dev cc.REG_TOUCH_DIRECT_XY s.bus m &&& 0x80000000 = 0 ∧
        r = sampleResult dev cc.REG_TOUCH_DIRECT_XY s m
  | 0, s, r, h => by simp [calibrate_touch] at h
  | fuel + 1, s, r, h => by
      rw [calibrate_touch_succ, if_neg (fun h => h rfl)] at h
      by_cases h0 : 0 = touchStream dev cc.REG_TOUCH_DIRECT_XY s.bus 0 &&& 0x80000000
      · rw [if_pos h0] at h
        exact ⟨0, Nat.succ_pos _, fun i hi => absurd hi (Nat.not_lt_zero _), h0.symm,
          (Option.some.inj h).symm⟩
      · rw [if_neg h0] at h
        obtain ⟨m, hm, hs, hz, hr⟩ := calibrate_touch_unlocked_inv cc dev fuel _ r h
        simp only [touchStream_shift] at hs hz
        rw [sampleResult_shift] at hr
        refine ⟨m + 1, by omega, ?_, hz, hr⟩
        intro i hi
        cases i with
        | zero => exact fun hc => h0 hc.symm
        | succ i => exact hs i (by omega)

theorem calibrate_touch_locked_inv (cc : CmdConfig) (dev : Device) :
    ∀ (fuel tl : Nat) (s : State) (r : Int × Int × Nat × State), tl ≠ 0 →
      calibrate_touch cc dev fuel tl s = some r →
      ∃ k, k < fuel ∧ FirstTouchAfterRelease (touchStream dev cc.REG_TOUCH_DIRECT_XY s.bus) k ∧
        r = sampleResult dev cc.REG_TOUCH_DIRECT_XY s k
  | 0, tl, s, r, _, h => by simp [calibrate_touch] at h
  | fuel + 1, tl, s, r, htl, h => by
      rw [calibrate_touch_succ, if_pos htl] at h
      by_cases h0 : touchStream dev cc.REG_TOUCH_DIRECT_XY s.bus 0 &&& 0x80000000 ≠ 0
      · rw [if_pos h0] at h
        obtain ⟨m, hm, hs, hz, hr⟩ := calibrate_touch_unlocked_inv cc dev fuel _ r h
        simp only [touchStream_shift] at hs hz
        rw [sampleResult_shift] at hr
        refine ⟨m + 1, by omega, ?_, hr⟩
        refine firstTouch_of_parts _ 0 (m + 1) (Nat.succ_pos _)
          (fun i hi => absurd hi (Nat.not_lt_zero _)) h0 ?_ hz
        intro i h1 h2
        obtain ⟨i2, rfl⟩ : ∃ i2, i = i2 + 1 := ⟨i - 1, by omega⟩
        exact hs i2 (by omega)
      · rw [if_neg h0] at h
        obtain ⟨k, hk, hf, hr⟩ := calibrate_touch_locked_inv cc dev fuel tl _ r htl h
        obtain ⟨j, hjk, hclr, hset, hmid, hz⟩ := firstTouch_parts _ _ hf
        simp only [touchStream_shift] at hclr hset hmid hz
        rw [sampleResult_shift] at hr
        refine ⟨k + 1, by omega, ?_, hr⟩
        refine firstTouch_of_parts _ (j + 1) (k + 1) (by omega) ?_ hset ?_ hz
        · intro i hi
          cases i with
          | zero => exact not_not.mp h0
          | succ i => exact hclr i (by omega)
        · intro i h1 h2
          obtain ⟨i2, rfl⟩ : ∃ i2, i = i2 + 1 := ⟨i - 1, by omega⟩
          exact hmid i2 (by omega) (by omega)
/-- One round of the sampling loop: the prompt, the drain, and a wait that samples the
first touch after a release. -/
theorem calibrate_sample_succ (cfg : Config) (ic : InitConfig) (cc : CmdConfig)
    (dev : Device) (fuel width : Nat) (display_x display_y : List Int)
    (n count tl : Nat) (tx ty : List Int) (s : State) (hc : count < 3) (htl : tl ≠ 0)
    (r : List Int × List Int × State) :
    calibrate_sample cfg ic cc dev fuel width display_x display_y (n + 1) count tl tx ty s
        = some r ↔
      ∃ a k, waitStart cfg ic cc dev fuel width display_x display_y count s = some a ∧
        k < fuel ∧ FirstTouchAfterRelease (touchStream dev cc.REG_TOUCH_DIRECT_XY a.bus) k ∧
        calibrate_sample cfg ic cc dev fuel width display_x display_y n ((count + 1) % 256) 1
          (tx.set count (sampleResult dev cc.REG_TOUCH_DIRECT_XY a k).1)
          (ty.set count (sampleResult dev cc.REG_TOUCH_DIRECT_XY a k).2.1)
          (sampleResult dev cc.REG_TOUCH_DIRECT_XY a k).2.2.2 = some r := by
  rw [calibrate_sample, if_pos hc]
  unfold waitStart
  simp only []
  cases he : EVE_execute_cmd cfg dev fuel
      (calibrate_prompt cfg ic cc width display_x display_y count s) with
  | none =>
      simp only []
      constructor
      · intro h; cases h
      · rintro ⟨a, k, h, _⟩; cases h
  | some a0 =>
      simp only []
      constructor
      · intro h
        cases ht : calibrate_touch cc dev fuel tl a0 with
        | none => rw [ht] at h; cases h
        | some res =>
            obtain ⟨k, hk, hf, hr⟩ := calibrate_touch_locked_inv cc dev fuel tl a0 res htl ht
            rw [ht, hr] at h
            exact ⟨a0, k, rfl, hk, hf, h⟩
      · rintro ⟨a, k, ha, hk, hf, h⟩
        cases ha
        rw [calibrate_touch_first cc dev fuel tl k a0 htl hf, if_pos hk]
        exact h

theorem calibrate_sample_done (cfg : Config) (ic : InitConfig) (cc : CmdConfig)
    (dev : Device) (fuel width : Nat) (display_x display_y : List Int)
    (tl : Nat) (tx ty : List Int) (s : State) :
    calibrate_sample cfg ic cc dev fuel width display_x display_y 0 3 tl tx ty s
      = some (tx, ty, s) := by
  rw [calibrate_sample, if_neg (by decide)]

theorem firstTouch_not_held (v : Nat → Nat) (k m : Nat) (h : FirstTouchAfterRelease v k)
    (hheld : ∀ i ≤ m, v i &&& 0x80000000 = 0) : m < k := by
  obtain ⟨j, hjk, _, hset, _, _⟩ := firstTouch_parts v k h
  by_contra hc
  exact hset (hheld j (by omega))

theorem firstTouch_unique (v : Nat → Nat) (k n : Nat) (h : FirstTouchAfterRelease v k)
    (h2 : FirstTouchAfterRelease v n) : k = n := by
  rcases Nat.lt_trichotomy k n with hlt | heq | hgt
  · exact absurd h.1 (h2.2 k hlt)
  · exact heq
  · exact absurd h2.1 (h.2 n hgt)

/-- The three rounds of the sampling loop, as `EVE_calibrate_manual` enters it. -/
theorem calibrate_sample_three (cfg : Config) (ic : InitConfig) (cc : CmdConfig)
    (dev : Device) (fuel width : Nat) (display_x display_y : List Int) (s : State)
    (r : List Int × List Int × State) :
    calibrate_sample cfg ic cc dev fuel width display_x display_y 3 0 1 [0, 0, 0] [0, 0, 0] s
        = some r ↔
      ∃ a0 k0 a1 k1 a2 k2,
        waitStart cfg ic cc dev fuel width display_x display_y 0 s = some a0 ∧
        k0 < fuel ∧ FirstTouchAfterRelease (touchStream dev cc.REG_TOUCH_DIRECT_XY a0.bus) k0 ∧
        waitStart cfg ic cc dev fuel width display_x display_y 1
          (sampleResult dev cc.REG_TOUCH_DIRECT_XY a0 k0).2.2.2 = some a1 ∧
        k1 < fuel ∧ FirstTouchAfterRelease (touchStream dev cc.REG_TOUCH_DIRECT_XY a1.bus) k1 ∧
        waitStart cfg ic cc dev fuel width display_x display_y 2
          (sampleResult dev cc.REG_TOUCH_DIRECT_XY a1 k1).2.2.2 = some a2 ∧
        k2 < fuel ∧ FirstTouchAfterRelease (touchStream dev cc.REG_TOUCH_DIRECT_XY a2.bus) k2 ∧
        r = ([(sampleResult dev cc.REG_TOUCH_DIRECT_XY a0 k0).1,
              (sampleResult dev cc.REG_TOUCH_DIRECT_XY a1 k1).1,
              (sampleResult dev cc.REG_TOUCH_DIRECT_XY a2 k2).1],
            [(sampleResult dev cc.REG_TOUCH_DIRECT_XY a0 k0).2.1,
              (sampleResult dev cc.REG_TOUCH_DIRECT_XY a1 k1).2.1,
              (sampleResult dev cc.REG_TOUCH_DIRECT_XY a2 k2).2.1],
            (sampleResult dev cc.REG_TOUCH_DIRECT_XY a2 k2).2.2.2) := by
  rw [calibrate_sample_succ cfg ic cc dev fuel width display_x display_y 2 0 1 _ _ s
    (by decide) (by decide)]
  constructor
  · rintro ⟨a0, k0, h0, hk0, hf0, h⟩
    rw [show (0 + 1) % 256 = 1 from rfl,
      calibrate_sample_succ cfg ic cc dev fuel width display_x display_y 1 1 1 _ _ _
        (by decide) (by decide)] at h
    obtain ⟨a1, k1, h1, hk1, hf1, h⟩ := h
    rw [show (1 + 1) % 256 = 2 from rfl,
      calibrate_sample_succ cfg ic cc dev fuel width display_x display_y 0 2 1 _ _ _
        (by decide) (by decide)] at h
    obtain ⟨a2, k2, h2, hk2, hf2, h⟩ := h
    rw [show (2 + 1) % 256 = 3 from rfl, calibrate_sample_done] at h
    exact ⟨a0, k0, a1, k1, a2, k2, h0, hk0, hf0, h1, hk1, hf1, h2, hk2, hf2,
      (Option.some.inj h).symm⟩
  · rintro ⟨a0, k0, a1, k1, a2, k2, h0, hk0, hf0, h1, hk1, hf1, h2, hk2, hf2, hr⟩
    refine ⟨a0, k0, h0, hk0, hf0, ?_⟩
    rw [show (0 + 1) % 256 = 1 from rfl,
      calibrate_sample_succ cfg ic cc dev fuel width display_x display_y 1 1 1 _ _ _
        (by decide) (by decide)]
    refine ⟨a1, k1, h1, hk1, hf1, ?_⟩
    rw [show (1 + 1) % 256 = 2 from rfl,
      calibrate_sample_succ cfg ic cc dev fuel width display_x display_y 0 2 1 _ _ _
        (by decide) (by decide)]
    refine ⟨a2, k2, h2, hk2, hf2, ?_⟩
    rw [show (2 + 1) % 256 = 3 from rfl, calibrate_sample_done, hr]
    rfl

/-! ## The selector of the command FIFO -/

theorem writeHeader_fifo : writeHeader 0x302578 = [0xB0, 0x25, 0x78] := by decide

theorem eve_begin_cmd_eq (c : Nat) (s : State) :
    eve_begin_cmd c s = { s with bus := s.bus ++ BusOp.cs_set ::
      ((writeHeader 0x302578).map BusOp.transmit ++ [BusOp.transmit_32 (c % 2 ^ 32)]) } := by
  rw [writeHeader_fifo]
  simp [eve_begin_cmd, EVE_cs_set, spi_transmit, spi_transmit_32]

theorem EVE_memWrite32_begin (c : Nat) (s : State) :
    EVE_memWrite32 0x302578 c s = EVE_cs_clear (eve_begin_cmd c s) := by
  rw [EVE_memWrite32_eq, eve_begin_cmd_eq]
  simp [EVE_cs_clear]

theorem head_set_zero (l : List Nat) (v : Nat) (h : l ≠ []) : (l.set 0 v).head? = some v := by
  cases l with
  | nil => exact absurd rfl h
  | cons a t => simp

/-- Burst entry in a build with DMA stores the header word at the head of the buffer. -/
theorem EVE_start_cmd_burst_header (cfg : Config) (dev : Device) (irq fuel : Nat)
    (s s2 : State) (hd : cfg.EVE_DMA = true)
    (h : EVE_start_cmd_burst cfg dev irq fuel s = some s2) :
    s2.EVE_dma_buffer = s.EVE_dma_buffer.set 0 0x7825B000 ∧ s2.EVE_dma_buffer_index = 1 ∧
    s2.cmd_burst = 42 := by
  by_cases hb : s.EVE_dma_busy ≠ 0
  · rw [EVE_start_cmd_burst_busy cfg dev irq fuel s hd hb] at h
    cases he : EVE_execute_cmd_irq cfg dev irq fuel s with
    | none => rw [he] at h; exact absurd h (by simp)
    | some s1 =>
        rw [he, Option.map_some', Option.some.injEq] at h
        obtain ⟨_, _, hu⟩ := execute_irq_last cfg dev irq fuel s s1 hd hb he
        rw [← h]
        exact ⟨by rw [← hu.2.1], rfl, rfl⟩
  · have hb0 : s.EVE_dma_busy = 0 := not_not.mp hb
    unfold EVE_start_cmd_burst at h
    simp only [hd, hb0, ne_eq, not_true_eq_false, decide_False, Bool.and_false,
      Bool.false_eq_true, if_false, if_true, Option.some.injEq] at h
    rw [← h]
    exact ⟨rfl, rfl, rfl⟩

theorem EVE_start_cmd_burst_noDma (cfg : Config) (dev : Device) (irq fuel : Nat) (s : State)
    (hd : cfg.EVE_DMA = false) :
    EVE_start_cmd_burst cfg dev irq fuel s =
      some { s with
        cmd_burst := 42
        bus := s.bus ++ BusOp.cs_set :: (writeHeader 0x302578).map BusOp.transmit } := by
  rw [writeHeader_fifo]
  unfold EVE_start_cmd_burst
  simp [hd, EVE_cs_set, spi_transmit]

/-! ## Commands with 16-bit arguments: lemmas -/

theorem to_uint16_lt (x : Int) : to_uint16 x < 65536 := by
  unfold to_uint16
  have h1 : (0 : Int) ≤ x % 2 ^ 16 := Int.emod_nonneg _ (by norm_num)
  have h2 : x % 2 ^ 16 < 2 ^ 16 := Int.emod_lt_of_pos _ (by norm_num)
  omega

theorem wordBytes_cons (w : Nat) (ws : List Nat) :
    wordBytes (w :: ws) = leBytes 4 w ++ wordBytes ws := by
  simp [wordBytes]

theorem halfBytes_cons (a : Nat) (t : List Nat) :
    halfBytes (a :: t) = leBytes 2 a ++ halfBytes t := by
  simp [halfBytes]

theorem wordBytes_length (ws : List Nat) : (wordBytes ws).length = 4 * ws.length := by
  induction ws with
  | nil => rfl
  | cons w t ih =>
      rw [wordBytes_cons, List.length_append, ih, leBytes_four]
      simp only [List.length_cons, List.length_nil]
      omega

/-- The packed words of 16-bit arguments serialise, least-significant byte first, to the
bytes of the arguments followed by their padding. -/
theorem wordBytes_pairWords : ∀ (args : List Nat), (∀ a ∈ args, a < 65536) →
    wordBytes (pairWords args) = halfBytes args ++ halfPadding args ∧
    ∀ w ∈ pairWords args, w < 2 ^ 32
  | [], _ => ⟨rfl, fun w hw => by simp [pairWords] at hw⟩
  | [a], h => by
      have ha : a < 65536 := h a (by simp)
      refine ⟨?_, ?_⟩
      · simp only [pairWords, wordBytes_cons, halfBytes_cons, leBytes_four, leBytes_two,
          halfPadding, List.length_singleton]
        have e1 : a / 65536 % 256 = 0 := by omega
        have e2 : a / 16777216 % 256 = 0 := by omega
        rw [e1, e2]
        rfl
      · intro w hw
        simp only [pairWords, List.mem_singleton] at hw
        rw [hw]
        omega
  | a :: b :: t, h => by
      have ha : a < 65536 := h a (by simp)
      have hb : b < 65536 := h b (by simp)
      obtain ⟨ih1, ih2⟩ := wordBytes_pairWords t (fun x hx => h x (by simp [hx]))
      refine ⟨?_, ?_⟩
      · have hp : halfPadding (a :: b :: t) = halfPadding t := by
          have e : (t.length + 1 + 1) % 2 = t.length % 2 := by omega
          simp only [halfPadding, List.length_cons, e]
        rw [pairWords, wordBytes_cons, halfBytes_cons, halfBytes_cons, ih1, hp, leBytes_four,
          leBytes_two, leBytes_two, Nat.shiftLeft_eq]
        have e0 : (a + b * 2 ^ 16) % 256 = a % 256 := by omega
        have e1 : (a + b * 2 ^ 16) / 256 % 256 = a / 256 % 256 := by omega
        have e2 : (a + b * 2 ^ 16) / 65536 % 256 = b % 256 := by omega
        have e3 : (a + b * 2 ^ 16) / 16777216 % 256 = b / 256 % 256 := by omega
        rw [e0, e1, e2, e3]
        simp
      · intro w hw
        rw [pairWords, List.mem_cons] at hw
        rcases hw with rfl | hw
        · rw [Nat.shiftLeft_eq]; omega
        · exact ih2 w hw

/-- The bytes that a command puts on the bus in immediate mode are the selector followed
by the little-endian bytes of the words of burst mode. -/
theorem txBytes_immediateOps (cmd : Nat) (pre args : List Nat) (h : ∀ a ∈ args, a < 65536) :
    txBytes (immediateOps cmd pre args)
      = [0xB0, 0x25, 0x78] ++
        wordBytes ((cmd :: pre).map (fun w => w % 2 ^ 32) ++ pairWords args) ∧
    (wordBytes ((cmd :: pre).map (fun w => w % 2 ^ 32) ++ pairWords args)).length % 4 = 0 := by
  refine ⟨?_, by rw [wordBytes_length]; omega⟩
  have hw : ∀ ws : List Nat, txBytes (ws.map (fun w => BusOp.transmit_32 (w % 2 ^ 32)))
      = wordBytes (ws.map (fun w => w % 2 ^ 32)) := by
    intro ws
    induction ws with
    | nil => rfl
    | cons w t ih =>
        rw [List.map_cons, List.map_cons, wordBytes_cons, leBytes_four, ← ih]
        rfl
  have ha : ∀ a b : List Nat, wordBytes (a ++ b) = wordBytes a ++ wordBytes b := by
    intro a b
    simp [wordBytes]
  have e : immediateOps cmd pre args = [BusOp.cs_set] ++ ([0xB0, 0x25, 0x78].map BusOp.transmit
      ++ ((cmd :: pre).map (fun w => BusOp.transmit_32 (w % 2 ^ 32)) ++
      ((halfBytes args ++ halfPadding args).map BusOp.transmit ++ [BusOp.cs_clear]))) := by
    simp [immediateOps]
  rw [e, txBytes_append, txBytes_append, txBytes_append, txBytes_append, txBytes_map_transmit,
    txBytes_map_transmit, hw, ha, (wordBytes_pairWords args h).1]
  simp [txBytes]

/-! ## The widget commands in the two modes -/

theorem EVE_cmd_clock_immediate (cfg : Config) (wc : WidgetConfig)
    (xc0 yc0 rad : Int) (options hours mins secs msecs : Nat)
    (s : State) (hi : s.cmd_burst = 0) :
    EVE_cmd_clock cfg wc xc0 yc0 rad options hours mins secs msecs s =
      { s with bus := s.bus ++ (immediateOps wc.CMD_CLOCK []
        [to_uint16 xc0, to_uint16 yc0, to_uint16 rad, options % 65536, hours % 65536,
          mins % 65536, secs % 65536, msecs % 65536]) } := by
  simp [EVE_cmd_clock, hi, eve_begin_cmd, EVE_cs_set, EVE_cs_clear, spi_transmit,
    spi_transmit_32, immediateOps, halfBytes, halfPadding, leBytes_two, shr8]

theorem EVE_cmd_clock_words (cfg : Config) (wc : WidgetConfig)
    (xc0 yc0 rad : Int) (options hours mins secs msecs : Nat)
    (sb : State) (hb : sb.cmd_burst ≠ 0) :
    EVE_cmd_clock cfg wc xc0 yc0 rad options hours mins secs msecs sb =
      burstAll cfg (wc.CMD_CLOCK :: [] ++ pairWords
        [to_uint16 xc0, to_uint16 yc0, to_uint16 rad, options % 65536, hours % 65536,
          mins % 65536, secs % 65536, msecs % 65536]) sb := by
  have hb0 : ¬ (0 = sb.cmd_burst) := fun h => hb h.symm
  simp only [EVE_cmd_clock, if_neg hb0, burstAll, pairWords, List.foldl, List.cons_append,
    List.nil_append]

theorem EVE_cmd_clock_lt (xc0 yc0 rad : Int) (options hours mins secs msecs : Nat) :
    ∀ a ∈ [to_uint16 xc0, to_uint16 yc0, to_uint16 rad, options % 65536, hours % 65536,
          mins % 65536, secs % 65536, msecs % 65536],
      a < 65536 := by
  intro a ha
  simp only [List.mem_cons, List.mem_singleton, List.not_mem_nil, or_false] at ha
  rcases ha with rfl | rfl | rfl | rfl | rfl | rfl | rfl | rfl
  all_goals first | exact to_uint16_lt _ | exact Nat.mod_lt _ (by decide)

theorem EVE_cmd_gauge_immediate (cfg : Config) (wc : WidgetConfig)
    (xc0 yc0 rad : Int) (options major minor val range : Nat)
    (s : State) (hi : s.cmd_burst = 0) :
    EVE_cmd_gauge cfg wc xc0 yc0 rad options major minor val range s =
      { s with bus := s.bus ++ (immediateOps wc.CMD_GAUGE []
        [to_uint16 xc0, to_uint16 yc0, to_uint16 rad, options % 65536, major % 65536,
          minor % 65536, val % 65536, range % 65536]) } := by
  simp [EVE_cmd_gauge, hi, eve_begin_cmd, EVE_cs_set, EVE_cs_clear, spi_transmit,
    spi_transmit_32, immediateOps, halfBytes, halfPadding, leBytes_two, shr8]

theorem EVE_cmd_gauge_words (cfg : Config) (wc : WidgetConfig)
    (xc0 yc0 rad : Int) (options major minor val range : Nat)
    (sb : State) (hb : sb.cmd_burst ≠ 0) :
    EVE_cmd_gauge cfg wc xc0 yc0 rad options major minor val range sb =
      burstAll cfg (wc.CMD_GAUGE :: [] ++ pairWords
        [to_uint16 xc0, to_uint16 yc0, to_uint16 rad, options % 65536, major % 65536,
          minor % 65536, val % 65536, range % 65536]) sb := by
  have hb0 : ¬ (0 = sb.cmd_burst) := fun h => hb h.symm
  simp only [EVE_cmd_gauge, if_neg hb0, burstAll, pairWords, List.foldl, List.cons_append,
    List.nil_append]

theorem EVE_cmd_gauge_lt (xc0 yc0 rad : Int) (options major minor val range : Nat) :
    ∀ a ∈ [to_uint16 xc0, to_uint16 yc0, to_uint16 rad, options % 65536, major % 65536,
          minor % 65536, val % 65536, range % 65536],
      a < 65536 := by
  intro a ha
  simp only [List.mem_cons, List.mem_singleton, List.not_mem_nil, or_false] at ha
  rcases ha with rfl | rfl | rfl | rfl | rfl | rfl | rfl | rfl
  all_goals first | exact to_uint16_lt _ | exact Nat.mod_lt _ (by decide)

theorem EVE_cmd_dial_immediate (cfg : Config) (wc : WidgetConfig)
    (xc0 yc0 rad : Int) (options val : Nat)
    (s : State) (hi : s.cmd_burst = 0) :
    EVE_cmd_dial cfg wc xc0 yc0 rad options val s =
      { s with bus := s.bus ++ (immediateOps wc.CMD_DIAL []
        [to_uint16 xc0, to_uint16 yc0, to_uint16 rad, options % 65536, val % 65536]) } := by
  simp [EVE_cmd_dial, hi, eve_begin_cmd, EVE_cs_set, EVE_cs_clear, spi_transmit,
    spi_transmit_32, immediateOps, halfBytes, halfPadding, leBytes_two, shr8]

theorem EVE_cmd_dial_words (cfg : Config) (wc : WidgetConfig)
    (xc0 yc0 rad : Int) (options val : Nat)
    (sb : State) (hb : sb.cmd_burst ≠ 0) :
    EVE_cmd_dial cfg wc xc0 yc0 rad options val sb =
      burstAll cfg (wc.CMD_DIAL :: [] ++ pairWords
        [to_uint16 xc0, to_uint16 yc0, to_uint16 rad, options % 65536, val % 65536]) sb := by
  have hb0 : ¬ (0 = sb.cmd_burst) := fun h => hb h.symm
  simp only [EVE_cmd_dial, if_neg hb0, burstAll, pairWords, List.foldl, List.cons_append,
    List.nil_append]

theorem EVE_cmd_dial_lt (xc0 yc0 rad : Int) (options val : Nat) :
    ∀ a ∈ [to_uint16 xc0, to_uint16 yc0, to_uint16 rad, options % 65536, val % 65536],
      a < 65536 := by
  intro a ha
  simp only [List.mem_cons, List.mem_singleton, List.not_mem_nil, or_false] at ha
  rcases ha with rfl | rfl | rfl | rfl | rfl
  all_goals first | exact to_uint16_lt _ | exact Nat.mod_lt _ (by decide)

theorem EVE_cmd_progress_immediate (cfg : Config) (wc : WidgetConfig)
    (xc0 yc0 wid hgt : Int) (options val range : Nat)
    (s : State) (hi : s.cmd_burst = 0) :
    EVE_cmd_progress cfg wc xc0 yc0 wid hgt options val range s =
      { s with bus := s.bus ++ (immediateOps wc.CMD_PROGRESS []
        [to_uint16 xc0, to_uint16 yc0, to_uint16 wid, to_uint16 hgt, options % 65536,
          val % 65536, range % 65536]) } := by
  simp [EVE_cmd_progress, hi, eve_begin_cmd, EVE_cs_set, EVE_cs_clear, spi_transmit,
    spi_transmit_32, immediateOps, halfBytes, halfPadding, leBytes_two, shr8]

theorem EVE_cmd_progress_words (cfg : Config) (wc : WidgetConfig)
    (xc0 yc0 wid hgt : Int) (options val range : Nat)
    (sb : State) (hb : sb.cmd_burst ≠ 0) :
    EVE_cmd_progress cfg wc xc0 yc0 wid hgt options val range sb =
      burstAll cfg (wc.CMD_PROGRESS :: [] ++ pairWords
        [to_uint16 xc0, to_uint16 yc0, to_uint16 wid, to_uint16 hgt, options % 65536,
          val % 65536, range % 65536]) sb := by
  have hb0 : ¬ (0 = sb.cmd_burst) := fun h => hb h.symm
  simp only [EVE_cmd_progress, if_neg hb0, burstAll, pairWords, List.foldl, List.cons_append,
    List.nil_append]

theorem EVE_cmd_progress_lt (xc0 yc0 wid hgt : Int) (options val range : Nat) :
    ∀ a ∈ [to_uint16 xc0, to_uint16 yc0, to_uint16 wid, to_uint16 hgt, options % 65536,
          val % 65536, range % 65536],
      a < 65536 := by
  intro a ha
  simp only [List.mem_cons, List.mem_singleton, List.not_mem_nil, or_false] at ha
  rcases ha with rfl | rfl | rfl | rfl | rfl | rfl | rfl
  all_goals first | exact to_uint16_lt _ | exact Nat.mod_lt _ (by decide)

theorem EVE_cmd_scrollbar_immediate (cfg : Config) (wc : WidgetConfig)
    (xc0 yc0 wid hgt : Int) (options val size range : Nat)
    (s : State) (hi : s.cmd_burst = 0) :
    EVE_cmd_scrollbar cfg wc xc0 yc0 wid hgt options val size range s =
      { s with bus := s.bus ++ (immediateOps wc.CMD_SCROLLBAR []
        [to_uint16 xc0, to_uint16 yc0, to_uint16 wid, to_uint16 hgt, options % 65536,
          val % 65536, size % 65536, range % 65536]) } := by
  simp [EVE_cmd_scrollbar, hi, eve_begin_cmd, EVE_cs_set, EVE_cs_clear, spi_transmit,
    spi_transmit_32, immediateOps, halfBytes, halfPadding, leBytes_two, shr8]

theorem EVE_cmd_scrollbar_words (cfg : Config) (wc : WidgetConfig)
    (xc0 yc0 wid hgt : Int) (options val size range : Nat)
    (sb : State) (hb : sb.cmd_burst ≠ 0) :
    EVE_cmd_scrollbar cfg wc xc0 yc0 wid hgt options val size range sb =
      burstAll cfg (wc.CMD_SCROLLBAR :: [] ++ pairWords
        [to_uint16 xc0, to_uint16 yc0, to_uint16 wid, to_uint16 hgt, options % 65536,
          val % 65536, size % 65536, range % 65536]) sb := by
  have hb0 : ¬ (0 = sb.cmd_burst) := fun h => hb h.symm
  simp only [EVE_cmd_scrollbar, if_neg hb0, burstAll, pairWords, List.foldl, List.cons_append,
    List.nil_append]

theorem EVE_cmd_scrollbar_lt (xc0 yc0 wid hgt : Int) (options val size range : Nat) :
    ∀ a ∈ [to_uint16 xc0, to_uint16 yc0, to_uint16 wid, to_uint16 hgt, options % 65536,
          val % 65536, size % 65536, range % 65536],
      a < 65536 := by
  intro a ha
  simp only [List.mem_cons, List.mem_singleton, List.not_mem_nil, or_false] at ha
  rcases ha with rfl | rfl | rfl | rfl | rfl | rfl | rfl | rfl
  all_goals first | exact to_uint16_lt _ | exact Nat.mod_lt _ (by decide)

theorem EVE_cmd_setbitmap_immediate (cfg : Config) (wc : WidgetConfig)
    (addr fmt width height : Nat)
    (s : State) (hi : s.cmd_burst = 0) :
    EVE_cmd_setbitmap cfg wc addr fmt width height s =
      { s with bus := s.bus ++ (immediateOps wc.CMD_SETBITMAP [addr]
        [fmt % 65536, width % 65536, height % 65536]) } := by
  simp [EVE_cmd_setbitmap, hi, eve_begin_cmd, EVE_cs_set, EVE_cs_clear, spi_transmit,
    spi_transmit_32, immediateOps, halfBytes, halfPadding, leBytes_two, shr8]

theorem EVE_cmd_setbitmap_words (cfg : Config) (wc : WidgetConfig)
    (addr fmt width height : Nat)
    (sb : State) (hb : sb.cmd_burst ≠ 0) :
    EVE_cmd_setbitmap cfg wc addr fmt width height sb =
      burstAll cfg (wc.CMD_SETBITMAP :: [addr] ++ pairWords
        [fmt % 65536, width % 65536, height % 65536]) sb := by
  have hb0 : ¬ (0 = sb.cmd_burst) := fun h => hb h.symm
  simp only [EVE_cmd_setbitmap, if_neg hb0, burstAll, pairWords, List.foldl, List.cons_append,
    List.nil_append]

theorem EVE_cmd_setbitmap_lt (fmt width height : Nat) :
    ∀ a ∈ [fmt % 65536, width % 65536, height % 65536],
      a < 65536 := by
  intro a ha
  simp only [List.mem_cons, List.mem_singleton, List.not_mem_nil, or_false] at ha
  rcases ha with rfl | rfl | rfl
  all_goals first | exact to_uint16_lt _ | exact Nat.mod_lt _ (by decide)

/-! ## The colour commands in the two modes -/

theorem leBytes_three (v : Nat) :
    leBytes 3 v = [v % 256, (v / 256) % 256, (v / 65536) % 256] := by
  simp [leBytes, List.range, List.range.loop, Nat.shiftRight_eq_div_pow]

theorem EVE_cmd_bgcolor_immediate (cfg : Config) (wc : WidgetConfig) (color : Nat) (s : State)
    (hi : s.cmd_burst = 0) :
    EVE_cmd_bgcolor cfg wc color s =
      { s with bus := s.bus ++ payloadOps wc.CMD_BGCOLOR (leBytes 3 (color % 2 ^ 32) ++ [0]) } := by
  simp [EVE_cmd_bgcolor, hi, eve_begin_cmd, EVE_cs_set, EVE_cs_clear, spi_transmit,
    spi_transmit_32, payloadOps, leBytes_three, shr8, shr16]

theorem EVE_cmd_fgcolor_immediate (cfg : Config) (wc : WidgetConfig) (color : Nat) (s : State)
    (hi : s.cmd_burst = 0) :
    EVE_cmd_fgcolor cfg wc color s =
      { s with bus := s.bus ++ payloadOps wc.CMD_FGCOLOR (leBytes 3 (color % 2 ^ 32) ++ [0]) } := by
  simp [EVE_cmd_fgcolor, hi, eve_begin_cmd, EVE_cs_set, EVE_cs_clear, spi_transmit,
    spi_transmit_32, payloadOps, leBytes_three, shr8, shr16]

theorem EVE_cmd_gradcolor_immediate (cfg : Config) (wc : WidgetConfig) (color : Nat)
    (s : State) (hi : s.cmd_burst = 0) :
    EVE_cmd_gradcolor cfg wc color s =
      { s with bus := s.bus ++
          payloadOps wc.CMD_GRADCOLOR (leBytes 3 (color % 2 ^ 32) ++ [0]) } := by
  simp [EVE_cmd_gradcolor, hi, eve_begin_cmd, EVE_cs_set, EVE_cs_clear, spi_transmit,
    spi_transmit_32, payloadOps, leBytes_three, shr8, shr16]

theorem colour_burst (cfg : Config) (wc : WidgetConfig) (color : Nat) (sb : State)
    (hb : sb.cmd_burst ≠ 0) :
    EVE_cmd_bgcolor cfg wc color sb = burstAll cfg [wc.CMD_BGCOLOR, color % 2 ^ 32] sb ∧
    EVE_cmd_fgcolor cfg wc color sb = burstAll cfg [wc.CMD_FGCOLOR, color % 2 ^ 32] sb ∧
    EVE_cmd_gradcolor cfg wc color sb = burstAll cfg [wc.CMD_GRADCOLOR, color % 2 ^ 32] sb := by
  have hb0 : ¬ (0 = sb.cmd_burst) := fun h => hb h.symm
  simp only [EVE_cmd_bgcolor, EVE_cmd_fgcolor, EVE_cmd_gradcolor, if_neg hb0, burstAll,
    List.foldl, and_self]

theorem txBytes_payloadOps (cmd : Nat) (payload : List Nat) :
    txBytes (payloadOps cmd payload)
      = [0xB0, 0x25, 0x78] ++ (leBytes 4 (cmd % 2 ^ 32) ++ payload) := by
  have e : payloadOps cmd payload = [BusOp.cs_set] ++ ([0xB0, 0x25, 0x78].map BusOp.transmit
      ++ ([BusOp.transmit_32 (cmd % 2 ^ 32)] ++ (payload.map BusOp.transmit ++
        [BusOp.cs_clear]))) := by
    simp [payloadOps]
  rw [e, txBytes_append, txBytes_append, txBytes_append, txBytes_append, txBytes_map_transmit,
    txBytes_map_transmit, leBytes_four]
  simp [txBytes]

/-- The payload of the colour commands in immediate mode against the little-endian bytes
of the word of burst mode: they differ in the fourth byte, which immediate mode sends as
zero. -/
theorem colour_payloads (color : Nat) :
    leBytes 4 (color % 2 ^ 32)
      = leBytes 3 (color % 2 ^ 32) ++ [(color % 2 ^ 32) / 16777216] ∧
    (leBytes 3 (color % 2 ^ 32) ++ [0] = leBytes 4 (color % 2 ^ 32)
      ↔ color % 2 ^ 32 < 0x1000000) := by
  have hlt : color % 2 ^ 32 < 2 ^ 32 := Nat.mod_lt _ (by decide)
  have e : (color % 2 ^ 32) / 16777216 % 256 = (color % 2 ^ 32) / 16777216 := by omega
  rw [leBytes_four, leBytes_three, e]
  refine ⟨rfl, ?_⟩
  simp only [List.cons_append, List.nil_append, List.cons.injEq, true_and, and_true]
  omega

/-! ## Padding of the chunks of a block transfer -/

theorem chunkLen_full (L k : Nat) (hk : k + 1 < chunkCount L) : chunkLen L k = 3840 := by
  unfold chunkCount at hk
  unfold chunkLen
  omega

theorem chunkLen_last (L : Nat) (hL : 0 < L) :
    chunkLen L (chunkCount L - 1) = L - 3840 * (chunkCount L - 1) ∧
    chunkLen L (chunkCount L - 1) % 4 = L % 4 := by
  unfold chunkCount chunkLen
  omega

theorem chunkWrites_flatten (L : Nat) :
    ∀ p_data : Ptr, (chunkWrites p_data L).flatten
      = (List.range L).map (fun i => p_data i % 256) ++ List.replicate ((4 - L % 4) % 4) 0 := by
  induction L using Nat.strong_induction_on with
  | _ L ih =>
    intro p_data
    by_cases hL : 0 < L
    · rw [chunkWrites_pos p_data L hL, List.flatten_cons]
      by_cases hbig : L > 3840
      · simp only [hbig, if_true]
        rw [ih (L - 3840) (by omega)]
        have hr : List.range L = List.range (3840 + (L - 3840)) := by
          rw [show 3840 + (L - 3840) = L from by omega]
        have hp : (4 - (L - 3840) % 4) % 4 = (4 - L % 4) % 4 := by omega
        rw [hr, List.range_add, List.map_append, List.map_map, hp]
        simp [Function.comp]
      · simp only [hbig, if_false, Nat.sub_self]
        rw [chunkWrites_zero]
        simp
    · have h0 : L = 0 := by omega
      subst h0
      rw [chunkWrites_zero]
      rfl

/-! ## The transaction queue of the SRAM block write: order of reuse, lemmas -/

theorem replayQueue_append (st : Nat × List (Nat × Nat)) (a b : List QueueOp) :
    replayQueue st (a ++ b) = replayQueue (replayQueue st a) b := by
  induction a generalizing st with
  | nil => rfl
  | cons x t ih =>
      obtain ⟨m, fifo⟩ := st
      cases x <;> simp [replayQueue, ih]

theorem lastFour_length (n : Nat) : (lastFour n).length = min n 4 := by
  simp only [lastFour, List.length_drop, List.length_map, List.length_range]
  omega

theorem lastFour_succ_small (n : Nat) (h : n < 4) :
    lastFour (n + 1) = lastFour n ++ [(n + 1, n % 4)] := by
  unfold lastFour
  rw [show n + 1 - 4 = 0 from by omega, show n - 4 = 0 from by omega, List.drop_zero,
    List.drop_zero, List.range_succ, List.map_append]
  rfl

theorem lastFour_succ_full (n : Nat) (h : 4 ≤ n) :
    lastFour (n + 1) = (lastFour n).tail ++ [(n + 1, n % 4)] := by
  unfold lastFour
  rw [List.range_succ, List.map_append, List.tail_drop,
    show n + 1 - 4 = n - 4 + 1 from by omega,
    List.drop_append_of_le_length (by simp; omega)]
  rfl

theorem lastFour_head (n : Nat) (h : 4 ≤ n) : (lastFour n).head? = some (n - 3, n % 4) := by
  unfold lastFour
  rw [List.head?_drop, List.getElem?_map,
    List.getElem?_range (by omega : n - 4 < n)]
  simp only [Option.map_some', Option.some.injEq, Prod.mk.injEq]
  omega

/-- The invariant of the order of reuse, kept by one call. -/
theorem sram_order_step (fl : SpiFlags) (a : Nat) (p_data : Option Ptr) (len : Nat)
    (q : SramQueue) (n : Nat)
    (h : q.index = n % 4 ∧ q.queued = min n 4 ∧
      replayQueue (0, []) q.calls = (n, lastFour n)) :
    (EVE_memWrite_sram_buffer fl a p_data len q).index
      = (n + validCalls [(a, p_data, len)]) % 4 ∧
    (EVE_memWrite_sram_buffer fl a p_data len q).queued
      = min (n + validCalls [(a, p_data, len)]) 4 ∧
    replayQueue (0, []) (EVE_memWrite_sram_buffer fl a p_data len q).calls
      = (n + validCalls [(a, p_data, len)], lastFour (n + validCalls [(a, p_data, len)])) := by
  obtain ⟨h1, h2, h3⟩ := h
  cases p_data with
  | none =>
      rw [EVE_memWrite_sram_buffer_skip fl a none len q (Or.inl rfl)]
      exact ⟨h1, h2, h3⟩
  | some p =>
      by_cases hl : len = 0
      · rw [EVE_memWrite_sram_buffer_skip fl a (some p) len q (Or.inr hl)]
        have hv : validCalls [(a, some p, len)] = 0 := by simp [validCalls, hl]
        rw [hv]
        exact ⟨h1, h2, h3⟩
      · have hv : validCalls [(a, some p, len)] = 1 := by
          simp [validCalls, Nat.pos_of_ne_zero hl]
        rw [hv, EVE_memWrite_sram_buffer_valid fl a p len q (by omega)]
        have hi : (q.index + 1) &&& 3 = (n + 1) % 4 := by rw [and_3, h1]; omega
        by_cases hq : q.queued = 4
        · have hn : 4 ≤ n := by omega
          simp only [hq, if_true]
          refine ⟨hi, by omega, ?_⟩
          rw [List.append_assoc, replayQueue_append, h3, h1]
          simp only [List.singleton_append, replayQueue]
          rw [lastFour_succ_full n hn]
        · have hn : n < 4 := by omega
          simp only [hq, if_false, List.append_nil]
          refine ⟨hi, by omega, ?_⟩
          rw [replayQueue_append, h3, h1]
          simp only [replayQueue]
          rw [lastFour_succ_small n hn]

theorem validCalls_cons (c : Nat × Option Ptr × Nat) (rest : List (Nat × Option Ptr × Nat)) :
    validCalls (c :: rest) = validCalls [c] + validCalls rest := by
  unfold validCalls
  rw [List.filter_cons, List.filter_cons]
  split
  · simp; omega
  · simp

theorem sram_order_run (fl : SpiFlags) (calls : List (Nat × Option Ptr × Nat))
    (q : SramQueue) (n : Nat)
    (h : q.index = n % 4 ∧ q.queued = min n 4 ∧
      replayQueue (0, []) q.calls = (n, lastFour n)) :
    (runSram fl calls q).index = (n + validCalls calls) % 4 ∧
    (runSram fl calls q).queued = min (n + validCalls calls) 4 ∧
    replayQueue (0, []) (runSram fl calls q).calls
      = (n + validCalls calls, lastFour (n + validCalls calls)) := by
  induction calls generalizing q n with
  | nil => exact h
  | cons c rest ih =>
      obtain ⟨a, p, len⟩ := c
      have hs := ih _ _ (sram_order_step fl a p len q n h)
      rw [validCalls_cons, ← Nat.add_assoc]
      exact hs

/-! ## Fill of chip memory: lemmas -/

theorem EVE_memWrite_sram_fill_data_eq (data : Nat) : ∀ (n : Nat) (s : State),
    EVE_memWrite_sram_fill_data data n s =
      { s with bus := s.bus ++ List.replicate n (BusOp.transmit_32 (data % 2 ^ 32)) }
  | 0, s => by simp [EVE_memWrite_sram_fill_data]
  | n + 1, s => by
      rw [EVE_memWrite_sram_fill_data, EVE_memWrite_sram_fill_data_eq data n]
      simp [spi_transmit_32, List.replicate_succ]

/-- The fill in closed form: the number of words is computed in 32 bits. -/
theorem EVE_memWrite_sram_fill_eq (a data len : Nat) (s : State) (hl : 0 < len % 2 ^ 32) :
    EVE_memWrite_sram_fill a data len s =
      { s with bus := s.bus ++ fillOps a data (((len % 2 ^ 32 + 3) % 2 ^ 32) / 4) } := by
  have h0 : ((a >>> 16) % 256 ||| 0x80) % 256 = ((a >>> 16) &&& 0x7F) ||| 0x80 := by
    rw [hdr_high]; exact Nat.mod_eq_of_lt (hdr_high_lt _)
  have h1 : (a >>> 8) % 256 % 256 = (a >>> 8) &&& 0xFF := by rw [and_0xFF, Nat.mod_mod]
  have h2 : (a &&& 0xFF) % 256 % 256 = a &&& 0xFF := by rw [and_0xFF, Nat.mod_mod, Nat.mod_mod]
  unfold EVE_memWrite_sram_fill
  simp only [gt_iff_lt, hl, if_true, EVE_memWrite_sram_fill_data_eq, EVE_cs_set, EVE_cs_clear,
    spi_transmit, MEM_WRITE, writeHeader, fillOps, h0, h1, h2]
  simp

theorem EVE_memWrite_sram_fill_zero (a data len : Nat) (s : State) (hl : len % 2 ^ 32 = 0) :
    EVE_memWrite_sram_fill a data len s = s := by
  unfold EVE_memWrite_sram_fill
  simp only [hl, gt_iff_lt, Nat.lt_irrefl, if_false]

theorem txBytes_fillOps (a data n : Nat) :
    (txBytes (fillOps a data n)).length = 3 + 4 * n := by
  have e : fillOps a data n = [BusOp.cs_set] ++ ((writeHeader a).map BusOp.transmit ++
      (List.replicate n (BusOp.transmit_32 (data % 2 ^ 32)) ++ [BusOp.cs_clear])) := by
    simp [fillOps]
  have hr : ∀ m : Nat, (txBytes (List.replicate m (BusOp.transmit_32 (data % 2 ^ 32)))).length
      = 4 * m := by
    intro m
    induction m with
    | zero => rfl
    | succ k ih =>
        rw [List.replicate_succ]
        simp only [txBytes, List.length_cons, ih]
        omega
  rw [e, txBytes_append, txBytes_append, txBytes_append, txBytes_map_transmit,
    List.length_append, List.length_append, List.length_append, hr]
  simp [txBytes, writeHeader]

/-! ## The frame blit: lemmas -/

theorem submittedBytes_append (a b : List QueueOp) :
    submittedBytes (a ++ b) = submittedBytes a ++ submittedBytes b := by
  induction a with
  | nil => rfl
  | cons x t ih => cases x <;> simp [submittedBytes, ih]

/-- A valid call of the SRAM block write submits one block of `len` bytes. -/
theorem EVE_memWrite_sram_buffer_bytes (fl : SpiFlags) (a : Nat) (p : Ptr) (len : Nat)
    (q : SramQueue) (hl : 0 < len) (hu : len * 8 < 2 ^ 32) :
    ∃ added, (EVE_memWrite_sram_buffer fl a (some p) len q).calls = q.calls ++ added ∧
      submittedBytes added = [len] := by
  rw [EVE_memWrite_sram_buffer_valid fl a p len q hl]
  refine ⟨(if q.queued = 4 then [QueueOp.get_trans_result] else []) ++
    [QueueOp.queue_trans q.index
      { tx_buffer := some p, length := (len * 8) % 2 ^ 32, addr := a ||| (MEM_WRITE <<< 16),
        flags := fl.SPI_TRANS_MODE_QIO ||| fl.SPI_TRANS_MODE_DIOQIO_ADDR }],
    by simp only [List.append_assoc], ?_⟩
  rw [submittedBytes_append]
  have h8 : (len * 8) % 2 ^ 32 / 8 = len := by
    rw [Nat.mod_eq_of_lt hu]; omega
  split <;> simp only [submittedBytes, List.nil_append, List.singleton_append, h8]

theorem pixel_offset_row (y : Int) (h0 : 0 ≤ y) (h1 : y < 480) :
    pixel_offset 0 y = (y * 640).toNat := by
  unfold pixel_offset to_uint32 SCREEN_WIDTH
  have e : (y * 640 + 0) * 1 = y * 640 := by ring
  rw [e, Int.emod_eq_of_lt (by omega) (by norm_num; omega)]

theorem pixel_offset_block : pixel_offset 0 32 = 20480 := by decide

theorem vga_display_rows_bytes (fl : SpiFlags) (framebuffer : Ptr) :
    ∀ (n : Nat) (y : Int) (q : SramQueue), 0 ≤ y → y + 32 * (n : Int) = 480 →
      ∃ added, (vga_display_rows fl framebuffer n y q).calls = q.calls ++ added ∧
        submittedBytes added = List.replicate n 20480
  | 0, y, q, _, _ => ⟨[], by simp [vga_display_rows], rfl⟩
  | n + 1, y, q, h0, h1 => by
      have hy : y < SCREEN_HEIGHT := by unfold SCREEN_HEIGHT; push_cast at h1; omega
      rw [vga_display_rows, if_pos hy, pixel_offset_block]
      obtain ⟨a1, e1, b1⟩ := EVE_memWrite_sram_buffer_bytes fl
        ((0x1000 + pixel_offset 0 y) % 2 ^ 32)
        (fun i => framebuffer (pixel_offset 0 y + i)) 20480 q (by decide) (by decide)
      obtain ⟨a2, e2, b2⟩ := vga_display_rows_bytes fl framebuffer n (y + 32)
        (EVE_memWrite_sram_buffer fl ((0x1000 + pixel_offset 0 y) % 2 ^ 32)
          (some (fun i => framebuffer (pixel_offset 0 y + i))) 20480 q)
        (by omega) (by push_cast at h1; omega)
      refine ⟨a1 ++ a2, ?_, ?_⟩
      · rw [e2, e1, List.append_assoc]
      · rw [submittedBytes_append, b1, b2]
        rfl

/-- The blocks that a frame blit submits: the palette of 512 bytes and 15 blocks of
20480 bytes. -/
theorem vga_display_bytes (fl : SpiFlags) (framebuffer palette : Ptr) (q : SramQueue) :
    ∃ added, (vga_display fl framebuffer (some palette) q).calls = q.calls ++ added ∧
      submittedBytes added = 512 :: List.replicate 15 20480 := by
  unfold vga_display
  obtain ⟨a1, e1, b1⟩ := EVE_memWrite_sram_buffer_bytes fl 0x0 palette (2 * 256) q
    (by decide) (by decide)
  obtain ⟨a2, e2, b2⟩ := vga_display_rows_bytes fl framebuffer 15 0
    (EVE_memWrite_sram_buffer fl 0x0 (some palette) (2 * 256) q) (by decide) (by decide)
  refine ⟨a1 ++ a2, ?_, ?_⟩
  · simp only []
    rw [e2, e1, List.append_assoc]
  · rw [submittedBytes_append, b1, b2]
    rfl

/-! ## Burst entry, statement by statement: lemmas -/

/-- The steps of a wait that returns are the states after its polls. -/
theorem EVE_execute_cmd_steps_eq (cfg : Config) (dev : Device) :
    ∀ (fuel : Nat) (s : State),
      EVE_execute_cmd_steps cfg dev fuel s
        = (EVE_execute_cmd cfg dev fuel s).map (fun _ => pollStates cfg dev fuel s)
  | 0, s => rfl
  | fuel + 1, s => by
      rw [EVE_execute_cmd_steps, EVE_execute_cmd, pollStates]
      by_cases hr : (EVE_busy cfg dev s).1 ≠ RetCode.E_OK
      · simp only [hr, ne_eq, not_false_eq_true, if_true]
        rw [EVE_execute_cmd_steps_eq cfg dev fuel]
        cases EVE_execute_cmd cfg dev fuel (EVE_busy cfg dev s).2 <;> rfl
      · simp only [hr, if_false, Option.map_some']

theorem EVE_execute_cmd_irq_steps_eq (cfg : Config) (dev : Device) :
    ∀ (irq fuel : Nat) (s : State),
      EVE_execute_cmd_irq_steps cfg dev irq fuel s
        = (EVE_execute_cmd_irq cfg dev irq fuel s).map (fun _ => waitStates cfg dev irq fuel s)
  | 0, fuel, s => by
      rw [EVE_execute_cmd_irq_steps, EVE_execute_cmd_irq, waitStates]
      rw [EVE_execute_cmd_steps_eq cfg dev fuel]
      cases EVE_execute_cmd cfg dev fuel (eve_spi_post_transfer_callback cfg s) <;> rfl
  | irq + 1, 0, s => rfl
  | irq + 1, fuel + 1, s => by
      rw [EVE_execute_cmd_irq_steps, EVE_execute_cmd_irq, waitStates]
      by_cases hr : (EVE_busy cfg dev s).1 ≠ RetCode.E_OK
      · simp only [hr, ne_eq, not_false_eq_true, if_true]
        rw [EVE_execute_cmd_irq_steps_eq cfg dev irq fuel]
        cases EVE_execute_cmd_irq cfg dev irq fuel (EVE_busy cfg dev s).2 <;> rfl
      · simp only [hr, if_false, Option.map_some']

/-- Burst entry with a transfer in flight, statement by statement: the steps of the wait,
then the three stores in program order. -/
theorem EVE_start_cmd_burst_steps_busy (cfg : Config) (dev : Device) (irq fuel : Nat)
    (s : State) (hd : cfg.EVE_DMA = true) (hb : s.EVE_dma_busy ≠ 0) :
    EVE_start_cmd_burst_steps cfg dev irq fuel s =
      (EVE_execute_cmd_irq cfg dev irq fuel s).map (fun s1 =>
        waitStates cfg dev irq fuel s ++
          [{ s1 with cmd_burst := 42 },
            { s1 with cmd_burst := 42, EVE_dma_buffer := s1.EVE_dma_buffer.set 0 0x7825B000 },
            { s1 with
              cmd_burst := 42
              EVE_dma_buffer := s1.EVE_dma_buffer.set 0 0x7825B000
              EVE_dma_buffer_index := 1 }]) := by
  unfold EVE_start_cmd_burst_steps
  simp only [hd, hb, ne_eq, not_false_eq_true, decide_True, Bool.and_self, if_true]
  rw [EVE_execute_cmd_irq_steps_eq]
  cases he : EVE_execute_cmd_irq cfg dev irq fuel s with
  | none => rfl
  | some s1 =>
      obtain ⟨hl, _, _⟩ := execute_irq_last cfg dev irq fuel s s1 hd hb he
      simp only [Option.map_some', List.getLastD_eq_getLast?, hl, Option.getD_some]

/-- The state in which burst entry returns is the last of its steps. -/
theorem EVE_start_cmd_burst_last (cfg : Config) (dev : Device) (irq fuel : Nat) (s : State) :
    EVE_start_cmd_burst cfg dev irq fuel s
      = (EVE_start_cmd_burst_steps cfg dev irq fuel s).map (fun l => l.getLastD s) := by
  by_cases hd : cfg.EVE_DMA = true
  · by_cases hb : s.EVE_dma_busy ≠ 0
    · rw [EVE_start_cmd_burst_busy cfg dev irq fuel s hd hb,
        EVE_start_cmd_burst_steps_busy cfg dev irq fuel s hd hb]
      cases EVE_execute_cmd_irq cfg dev irq fuel s with
      | none => rfl
      | some s1 =>
          simp only [Option.map_some', List.getLastD_eq_getLast?, List.getLast?_append,
            List.getLast?_cons_cons, List.getLast?_singleton]
          rfl
    · have hb0 : s.EVE_dma_busy = 0 := not_not.mp hb
      unfold EVE_start_cmd_burst EVE_start_cmd_burst_steps
      simp [hd, hb0]
  · have hd0 : cfg.EVE_DMA = false := by simpa using hd
    unfold EVE_start_cmd_burst EVE_start_cmd_burst_steps
    simp [hd0]

/-- In a list that ends with three more entries after `wait`, an entry that is not in
`wait` has the whole of `wait` before it. -/
theorem mem_prefix_of_split {α : Type} (wait pre post tail : List α) (x : α)
    (h : wait ++ tail = pre ++ x :: post) (hx : x ∉ wait) : ∀ y ∈ wait, y ∈ pre := by
  intro y hy
  rcases List.append_eq_append_iff.mp h with ⟨a, ha, _⟩ | ⟨c, hc, hc2⟩
  · rw [ha]
    exact List.mem_append_left _ hy
  · cases c with
    | nil =>
        rw [List.append_nil] at hc
        rw [← hc]
        exact hy
    | cons z zs =>
        rw [List.cons_append, List.cons.injEq] at hc2
        exfalso
        apply hx
        rw [hc, ← hc2.1]
        exact List.mem_append_right _ (List.mem_cons_self _ _)

/-! ## Claims: register access layer -/

/-- C1: for every address a and value v, EVE_memWrite8/16/32 put on the bus, between
exactly one chip-select assert and one chip-select clear, the three header bytes
[((a>>16)&0x7F)|0x80, (a>>8)&0xFF, a&0xFF] followed by the 1, 2 or 4 bytes of v, least
significant first (the 32-bit payload as one spi_transmit_32, whose bytes are the four
little-endian bytes of v); nothing else in the driver state changes; and the code's
unmasked high byte (uint8_t)(a>>16)|0x80 equals the spec's ((a>>16)&0x7F)|0x80. -/
theorem memWrite_wire_framing (a v : Nat) (s : State) :
    EVE_memWrite8 a v s =
      { s with bus := s.bus ++ BusOp.cs_set ::
          ((writeHeader a ++ leBytes 1 v).map BusOp.transmit ++ [BusOp.cs_clear]) } ∧
    EVE_memWrite16 a v s =
      { s with bus := s.bus ++ BusOp.cs_set ::
          ((writeHeader a ++ leBytes 2 v).map BusOp.transmit ++ [BusOp.cs_clear]) } ∧
    EVE_memWrite32 a v s =
      { s with bus := s.bus ++ BusOp.cs_set ::
          ((writeHeader a).map BusOp.transmit ++
            [BusOp.transmit_32 (v % 2 ^ 32), BusOp.cs_clear]) } ∧
    txBytes ((writeHeader a).map BusOp.transmit ++ [BusOp.transmit_32 (v % 2 ^ 32)])
      = writeHeader a ++ leBytes 4 v ∧
    ((a >>> 16) % 256) ||| MEM_WRITE = ((a >>> 16) &&& 0x7F) ||| 0x80 := by
  refine ⟨?_, ?_, EVE_memWrite32_eq a v s, ?_, hdr_high _⟩
  · rw [EVE_memWrite8_eq]; rfl
  · rw [EVE_memWrite16_eq]; rfl
  · rw [txBytes_append, txBytes_map_transmit, leBytes_four]
    simp only [txBytes, List.append_cancel_left_eq, List.cons.injEq, and_true]
    refine ⟨?_, ?_, ?_, ?_⟩ <;> omega

/-- C2: for every address a, EVE_memRead8/16/32 assert chip select, transmit exactly one
32-bit word, readWord a = ((a>>16)&0x7F) + (a&0xFF00) + ((a&0xFF)<<16), whose bytes sent
least significant first are [(a>>16)&0x7F, (a>>8)&0xFF, a&0xFF, 0x00], then receive
N = 1, 2 or 4 bytes, clear chip select, and return the sum of b_i << (8*i) of the bytes
received (the first received byte is the least significant); nothing else in the driver
state changes. -/
theorem memRead_wire_framing (dev : Device) (a : Nat) (s : State) :
    EVE_memRead8 dev a s =
      (readValue dev a 1 s.bus, { s with bus := s.bus ++ readOps dev a 1 s.bus }) ∧
    EVE_memRead16 dev a s =
      (readValue dev a 2 s.bus, { s with bus := s.bus ++ readOps dev a 2 s.bus }) ∧
    EVE_memRead32 dev a s =
      (readValue dev a 4 s.bus, { s with bus := s.bus ++ readOps dev a 4 s.bus }) ∧
    (∀ n h, ∃ bs : List Nat, bs.length = n ∧ readValue dev a n h = leValue bs ∧
      readOps dev a n h = [BusOp.cs_set, BusOp.transmit_32 (readWord a)] ++
        bs.map BusOp.receive ++ [BusOp.cs_clear]) ∧
    readWord a = ((a >>> 16) &&& 0x7F) + (a &&& 0xFF00) + ((a &&& 0xFF) <<< 16) ∧
    txBytes [BusOp.transmit_32 (readWord a)]
      = [(a >>> 16) &&& 0x7F, (a >>> 8) &&& 0xFF, a &&& 0xFF, 0x00] ∧
    (∀ b0 b1 b2 b3 : Nat, leValue [b0] = b0 ∧ leValue [b0, b1] = b0 + (b1 <<< 8) ∧
      leValue [b0, b1, b2, b3] = b0 + (b1 <<< 8) + (b2 <<< 16) + (b3 <<< 24)) := by
  refine ⟨EVE_memRead8_eq dev a s, EVE_memRead16_eq dev a s, EVE_memRead32_eq dev a s,
    ?_, rfl, txBytes_readWord a, ?_⟩
  · intro n h
    refine ⟨rxBytes dev n (h ++ [BusOp.cs_set, BusOp.transmit_32 (readWord a)]), ?_, rfl, rfl⟩
    exact rxBytes_length dev n _
  · intro b0 b1 b2 b3
    simp only [leValue, Nat.shiftLeft_eq]
    refine ⟨?_, ?_, ?_⟩ <;> omega

/-! ## Claims: command stream builder -/

/-- C3: for every command word c, EVE_cmd_dl(c) in immediate mode (cmd_burst = 0)
asserts chip select, sends the bytes 0xB0, 0x25, 0x78, then c as one 32-bit word (its
four bytes least significant first) and clears chip select; in burst mode
(cmd_burst != 0) it emits only the single word c into the burst stream (the next slot of
the DMA buffer in a DMA build, where a slot inside the buffer then holds c; one
spi_transmit_32 otherwise), touches chip select in neither case and does not re-send
the selector. -/
theorem cmd_dl_framing (cfg : Config) (c : Nat) (s : State) :
    EVE_cmd_dl cfg c s =
      (if s.cmd_burst = 0 then
        { s with bus := s.bus ++ [BusOp.cs_set, BusOp.transmit 0xB0, BusOp.transmit 0x25,
            BusOp.transmit 0x78, BusOp.transmit_32 (c % 2 ^ 32), BusOp.cs_clear] }
      else if cfg.EVE_DMA = true then
        { s with
          EVE_dma_buffer := s.EVE_dma_buffer.set s.EVE_dma_buffer_index (c % 2 ^ 32)
          EVE_dma_buffer_index := (s.EVE_dma_buffer_index + 1) % 65536 }
      else
        { s with bus := s.bus ++ [BusOp.transmit_32 (c % 2 ^ 32)] }) ∧
    txBytes [BusOp.cs_set, BusOp.transmit 0xB0, BusOp.transmit 0x25, BusOp.transmit 0x78,
        BusOp.transmit_32 (c % 2 ^ 32), BusOp.cs_clear]
      = [0xB0, 0x25, 0x78] ++ leBytes 4 c ∧
    (s.cmd_burst ≠ 0 → cfg.EVE_DMA = true →
      s.EVE_dma_buffer_index < s.EVE_dma_buffer.length →
      (EVE_cmd_dl cfg c s).EVE_dma_buffer[s.EVE_dma_buffer_index]? = some (c % 2 ^ 32) ∧
      (EVE_cmd_dl cfg c s).bus = s.bus) := by
  have main : EVE_cmd_dl cfg c s =
      (if s.cmd_burst = 0 then
        { s with bus := s.bus ++ [BusOp.cs_set, BusOp.transmit 0xB0, BusOp.transmit 0x25,
            BusOp.transmit 0x78, BusOp.transmit_32 (c % 2 ^ 32), BusOp.cs_clear] }
      else if cfg.EVE_DMA = true then
        { s with
          EVE_dma_buffer := s.EVE_dma_buffer.set s.EVE_dma_buffer_index (c % 2 ^ 32)
          EVE_dma_buffer_index := (s.EVE_dma_buffer_index + 1) % 65536 }
      else
        { s with bus := s.bus ++ [BusOp.transmit_32 (c % 2 ^ 32)] }) := by
    unfold EVE_cmd_dl
    by_cases hb : s.cmd_burst = 0
    · have hb' : (0 : Nat) = s.cmd_burst := hb.symm
      simp [hb, eve_begin_cmd, EVE_cs_set, EVE_cs_clear, spi_transmit, spi_transmit_32]
    · have hb' : ¬ ((0 : Nat) = s.cmd_burst) := fun e => hb e.symm
      by_cases hd : cfg.EVE_DMA = true
      · simp [hb, hb', hd, spi_transmit_burst]
      · simp [hb, hb', hd, spi_transmit_burst, spi_transmit_32]
  refine ⟨main, ?_, ?_⟩
  · rw [leBytes_four]
    simp only [txBytes, List.cons_append, List.nil_append, List.cons.injEq, true_and, and_true]
    refine ⟨?_, ?_, ?_, ?_⟩ <;> omega
  · intro hb hd hi
    rw [main, if_neg hb, if_pos hd]
    exact ⟨by simp [List.getElem?_set, hi], rfl⟩

/-- Witness for C3: in a DMA build in burst mode, a command word lands in slot 0 of the
DMA buffer and the bus is not touched. -/
theorem cmd_dl_framing_witness :
    ({ initialState with cmd_burst := 42 }).cmd_burst ≠ 0 ∧ sampleConfig.EVE_DMA = true ∧
    ({ initialState with cmd_burst := 42 }).EVE_dma_buffer_index
      < ({ initialState with cmd_burst := 42 }).EVE_dma_buffer.length ∧
    (EVE_cmd_dl sampleConfig 0xFFFFFF00 { initialState with cmd_burst := 42 }).EVE_dma_buffer[
      ({ initialState with cmd_burst := 42 }).EVE_dma_buffer_index]? = some (0xFFFFFF00 % 2 ^ 32) ∧
    (EVE_cmd_dl sampleConfig 0xFFFFFF00 { initialState with cmd_burst := 42 }).bus = [] :=
  ⟨by decide, rfl,
    by show 0 < (List.replicate 1025 0).length; rw [List.length_replicate]; decide,
    (cmd_dl_framing sampleConfig 0xFFFFFF00 { initialState with cmd_burst := 42 }).2.2
      (by decide) rfl
      (by show 0 < (List.replicate 1025 0).length; rw [List.length_replicate]; decide)⟩

/-! ## Claims: block transfer chunker -/

/-- C4: for every payload of L bytes, whenever block_transfer returns, the command-FIFO
writes it has put on the bus are exactly ceil(L/3840) chunks, in order: chunk k carries
the payload bytes 3840*k .. 3840*k + chunkLen - 1 followed by its zero padding; each
chunk carries between 1 and 3840 payload bytes, and the chunk payloads concatenated in
issue order are the original L bytes.  It does return on a chip on which every wait
drains (the environment assumption of section 5) when started with no DMA transfer in
flight, and its result does not depend on the fuel.  For L = 0 it issues no chunk and
performs no bus operation: the state is returned unchanged. -/
theorem block_transfer_chunking (cfg : Config) (dev : Device) (p_data : Ptr) (L : Nat)
    (s : State) (hc : cfg.recoveryAvoidsFifo) :
    (∀ fuel s1, block_transfer cfg dev fuel p_data L s = some s1 →
      ∃ t, s1.bus = s.bus ++ t ∧ fifoWrites t = chunkWrites p_data L) ∧
    (Drains cfg dev → (cfg.EVE_DMA = true → s.EVE_dma_busy = 0) →
      ∃ fuel s1, block_transfer cfg dev fuel p_data L s = some s1 ∧
        ∀ fuel1 s2, block_transfer cfg dev fuel1 p_data L s = some s2 → s2 = s1) ∧
    (chunkWrites p_data L).length = (L + 3839) / 3840 ∧
    (L + 3839) / 3840 = (if L % 3840 = 0 then L / 3840 else L / 3840 + 1) ∧
    (∀ k, k < (L + 3839) / 3840 →
      (chunkWrites p_data L)[k]? = some (chunkPayload p_data L k ++ chunkPadding L k) ∧
      1 ≤ (chunkPayload p_data L k).length ∧ (chunkPayload p_data L k).length ≤ 3840) ∧
    ((List.range ((L + 3839) / 3840)).map (chunkPayload p_data L)).flatten
      = (List.range L).map (fun i => p_data i % 256) ∧
    (∀ fuel, block_transfer cfg dev fuel p_data 0 s = some s) := by
  refine ⟨?_, ?_, ?_, ?_, ?_, ?_, ?_⟩
  · intro fuel s1 h
    obtain ⟨t, h2, h3⟩ := block_transfer_writes cfg dev hc fuel p_data L s s1 h
    refine ⟨t, h2, ?_⟩
    have := h3 []
    simpa [fifoWrites, csWindows, csWindowsFrom] using this
  · intro hdr hd
    obtain ⟨fuel, s1, t, h1, _, _⟩ := block_transfer_effect cfg dev hc hdr L p_data s hd
    exact ⟨fuel, s1, h1, fun fuel1 s2 h =>
      block_transfer_unique cfg dev fuel fuel1 p_data L s s1 s2 h1 h⟩
  · simp [chunkWrites, chunkCount]
  · split <;> omega
  · intro k hk
    have hb := chunkLen_bounds L k hk
    rw [chunkPayload_length]
    refine ⟨?_, hb.1, hb.2⟩
    unfold chunkWrites chunkCount
    rw [List.getElem?_map, List.getElem?_range hk]
    rfl
  · exact chunkPayload_flatten L p_data
  · intro fuel
    cases fuel <;> unfold block_transfer <;> simp

/-- Witness for C4: on a chip that always reports an empty FIFO, a transfer of 7681
bytes returns and writes three chunks to the command FIFO; and the whole trace of a
5-byte transfer: one chunk with 3 padding bytes, then one poll. -/
theorem block_transfer_chunking_witness :
    sampleConfig.recoveryAvoidsFifo ∧ Drains sampleConfig (constDevice 0xFFC) ∧
    (sampleConfig.EVE_DMA = true → initialState.EVE_dma_busy = 0) ∧
    (∃ fuel s1 t, block_transfer sampleConfig (constDevice 0xFFC) fuel (fun i => i) 7681
        initialState = some s1 ∧
      s1.bus = initialState.bus ++ t ∧ (fifoWrites t).length = 3) ∧
    (block_transfer sampleConfig (constDevice 0xFFC) 1 (fun i => i + 1) 5 initialState).map
        State.bus =
      some [BusOp.cs_set, BusOp.transmit 0xB0, BusOp.transmit 0x25, BusOp.transmit 0x78,
        BusOp.transmit 1, BusOp.transmit 2, BusOp.transmit 3, BusOp.transmit 4,
        BusOp.transmit 5, BusOp.transmit 0, BusOp.transmit 0, BusOp.transmit 0,
        BusOp.cs_clear, BusOp.cs_set, BusOp.transmit_32 0x742530, BusOp.receive 0xFC,
        BusOp.receive 0x0F, BusOp.cs_clear] :=
  ⟨by unfold Config.recoveryAvoidsFifo; decide, drains_constDevice sampleConfig, fun _ => rfl,
    by
      have hw := block_transfer_chunking sampleConfig (constDevice 0xFFC) (fun i => i) 7681
        initialState (by unfold Config.recoveryAvoidsFifo; decide)
      obtain ⟨hpart, hterm, hlen, _⟩ := hw
      obtain ⟨fuel, s1, h1, _⟩ := hterm (drains_constDevice sampleConfig) (fun _ => rfl)
      obtain ⟨t, h2, h3⟩ := hpart fuel s1 h1
      exact ⟨fuel, s1, t, h1, h2, by rw [h3, hlen]⟩,
    by decide⟩

/-- C5: for every length N with 0 <= N <= 65535, private_block_write transmits the N
data bytes in order followed by exactly (4 - N%4)%4 zero bytes (0, 1, 2 or 3), and
nothing else; so the number of bytes it transmits is the least multiple of 4 that is
>= N. -/
theorem private_block_write_padding_rule (p_data : Ptr) (N : Nat) (s : State)
    (hN : N ≤ 65535) :
    private_block_write p_data N s =
      { s with bus := s.bus ++
        ((List.range N).map (fun i => p_data i % 256) ++
          List.replicate ((4 - N % 4) % 4) 0).map BusOp.transmit } ∧
    ((List.range N).map (fun i => p_data i % 256) ++
        List.replicate ((4 - N % 4) % 4) 0).length = N + (4 - N % 4) % 4 ∧
    (4 - N % 4) % 4 ≤ 3 ∧
    (N + (4 - N % 4) % 4) % 4 = 0 ∧
    N ≤ N + (4 - N % 4) % 4 ∧
    (∀ m, m % 4 = 0 → N ≤ m → N + (4 - N % 4) % 4 ≤ m) := by
  refine ⟨private_block_write_eq p_data N s (by omega), by simp, by omega, by omega,
    by omega, ?_⟩
  intro m h1 h2
  omega

/-- Witness for C5: a 5-byte block is followed by 3 zero bytes. -/
theorem private_block_write_padding_rule_witness :
    (5 ≤ 65535) ∧
    (private_block_write (fun i => i + 1) 5 initialState).bus =
      [BusOp.transmit 1, BusOp.transmit 2, BusOp.transmit 3, BusOp.transmit 4,
        BusOp.transmit 5, BusOp.transmit 0, BusOp.transmit 0, BusOp.transmit 0] :=
  ⟨by decide, by
    rw [(private_block_write_padding_rule (fun i => i + 1) 5 initialState (by decide)).1]
    decide⟩

/-! ## Claims: flow control and fault monitor -/

/-- C6: with no DMA transfer in flight, the result of EVE_busy is a total function of
the 16-bit value read from the free-space register: FaultRecovered if its low two bits
are nonzero; otherwise Ok if it is 0xFFC; otherwise FifoHalfEmpty if it exceeds 0x800;
otherwise Busy.  The four outcomes are exhaustive and mutually exclusive, every one of
the 65536 values can be read, and the spec's listing order (0xFFC first) gives the same
result as the code's order (fault check first) for every value. -/
theorem busy_classification (cfg : Config) (dev : Device) (s : State)
    (h : cfg.EVE_DMA = true → s.EVE_dma_busy = 0) :
    (EVE_memRead16 dev cfg.REG_CMDB_SPACE s).1 < 65536 ∧
    (EVE_busy cfg dev s).1 =
      (if (EVE_memRead16 dev cfg.REG_CMDB_SPACE s).1 &&& 3 ≠ 0 then RetCode.EVE_FAULT_RECOVERED
       else if (EVE_memRead16 dev cfg.REG_CMDB_SPACE s).1 = 0xFFC then RetCode.E_OK
       else if (EVE_memRead16 dev cfg.REG_CMDB_SPACE s).1 > 0x800 then
         RetCode.EVE_FIFO_HALF_EMPTY
       else RetCode.EVE_IS_BUSY) ∧
    (EVE_busy cfg dev s).1 = poll_state_spec ((EVE_memRead16 dev cfg.REG_CMDB_SPACE s).1) ∧
    ((EVE_busy cfg dev s).1 = RetCode.EVE_FAULT_RECOVERED ↔
      (EVE_memRead16 dev cfg.REG_CMDB_SPACE s).1 &&& 3 ≠ 0) ∧
    ((EVE_busy cfg dev s).1 = RetCode.E_OK ↔
      (EVE_memRead16 dev cfg.REG_CMDB_SPACE s).1 = 0xFFC) ∧
    ((EVE_busy cfg dev s).1 = RetCode.EVE_FIFO_HALF_EMPTY ↔
      ((EVE_memRead16 dev cfg.REG_CMDB_SPACE s).1 &&& 3 = 0 ∧
       (EVE_memRead16 dev cfg.REG_CMDB_SPACE s).1 ≠ 0xFFC ∧
       (EVE_memRead16 dev cfg.REG_CMDB_SPACE s).1 > 0x800)) ∧
    ((EVE_busy cfg dev s).1 = RetCode.EVE_IS_BUSY ↔
      ((EVE_memRead16 dev cfg.REG_CMDB_SPACE s).1 &&& 3 = 0 ∧
       (EVE_memRead16 dev cfg.REG_CMDB_SPACE s).1 ≤ 0x800)) ∧
    (∀ value, value < 65536 →
      (EVE_memRead16 (constDevice value) cfg.REG_CMDB_SPACE s).1 = value ∧
      (EVE_busy cfg (constDevice value) s).1 = poll_state_spec value) ∧
    (∀ value, poll_state_spec value =
      (if value &&& 3 ≠ 0 then RetCode.EVE_FAULT_RECOVERED
       else if value = 0xFFC then RetCode.E_OK
       else if value > 0x800 then RetCode.EVE_FIFO_HALF_EMPTY
       else RetCode.EVE_IS_BUSY)) := by
  simp only [EVE_memRead16_fst]
  have key : ∀ (d : Device), (EVE_busy cfg d s).1 =
      (if readValue d cfg.REG_CMDB_SPACE 2 s.bus % 4 ≠ 0 then RetCode.EVE_FAULT_RECOVERED
       else if readValue d cfg.REG_CMDB_SPACE 2 s.bus = 0xFFC then RetCode.E_OK
       else if readValue d cfg.REG_CMDB_SPACE 2 s.bus > 0x800 then
         RetCode.EVE_FIFO_HALF_EMPTY
       else RetCode.EVE_IS_BUSY) := by
    intro d
    rw [EVE_busy_idle cfg d s h]
    split <;> rfl
  have spec : ∀ value, poll_state_spec value =
      (if value % 4 ≠ 0 then RetCode.EVE_FAULT_RECOVERED
       else if value = 0xFFC then RetCode.E_OK
       else if value > 0x800 then RetCode.EVE_FIFO_HALF_EMPTY
       else RetCode.EVE_IS_BUSY) := by
    intro value
    unfold poll_state_spec
    rw [and_3]
    by_cases h1 : value = 0xFFC
    · subst h1; decide
    · simp only [h1, if_false]
  simp only [and_3]
  refine ⟨readValue_two_lt dev _ _, key dev, ?_, ?_, ?_, ?_, ?_, ?_, spec⟩
  · rw [key dev, spec]
  · rw [key dev]
    generalize readValue dev cfg.REG_CMDB_SPACE 2 s.bus = v
    by_cases h0 : v % 4 = 0 <;> by_cases h1 : v = 0xFFC <;> by_cases h2 : v > 0x800 <;>
      simp [h0, h1, h2]
  · rw [key dev]
    generalize readValue dev cfg.REG_CMDB_SPACE 2 s.bus = v
    by_cases h0 : v % 4 = 0 <;> by_cases h1 : v = 0xFFC <;> by_cases h2 : v > 0x800 <;>
      simp [h0, h1, h2]
  · rw [key dev]
    generalize readValue dev cfg.REG_CMDB_SPACE 2 s.bus = v
    by_cases h0 : v % 4 = 0 <;> by_cases h1 : v = 0xFFC <;> by_cases h2 : v > 0x800 <;>
      simp [h0, h1, h2]
  · rw [key dev]
    generalize readValue dev cfg.REG_CMDB_SPACE 2 s.bus = v
    by_cases h0 : v % 4 = 0 <;> by_cases h1 : v = 0xFFC <;> by_cases h2 : v > 0x800 <;>
      simp [h0, h1, h2]
    all_goals omega
  · intro value hv
    refine ⟨readValue_constDevice value _ _ hv, ?_⟩
    rw [key, readValue_constDevice value _ _ hv, spec]

/-- Witness for C6: an idle chip (free space 0xFFC) polled from the start-up state. -/
theorem busy_classification_witness :
    (sampleConfig.EVE_DMA = true → initialState.EVE_dma_busy = 0) ∧
    (EVE_busy sampleConfig (constDevice 0xFFC) initialState).1 =
      poll_state_spec ((EVE_memRead16 (constDevice 0xFFC) sampleConfig.REG_CMDB_SPACE initialState).1) :=
  ⟨fun _ => rfl,
    (busy_classification sampleConfig (constDevice 0xFFC) initialState (fun _ => rfl)).2.2.1⟩

/-- C7: one call of EVE_busy with no DMA transfer in flight runs the fault-recovery
sequence exactly once, after the register read, and sets the sticky fault flag when the
value read has nonzero low two bits; for every other value it runs no recovery and
performs no bus write: the only bus activity is the one 16-bit register read, and the
sticky fault flag and every other global are unchanged. -/
theorem busy_recovery_effect (cfg : Config) (dev : Device) (s : State)
    (h : cfg.EVE_DMA = true → s.EVE_dma_busy = 0) :
    ((EVE_memRead16 dev cfg.REG_CMDB_SPACE s).1 &&& 3 ≠ 0 →
      (EVE_busy cfg dev s).2 =
        CoprocessorFaultRecover cfg dev
          { (EVE_memRead16 dev cfg.REG_CMDB_SPACE s).2 with
            fault_recovered := RetCode.EVE_FAULT_RECOVERED } ∧
      (EVE_busy cfg dev s).2 =
        { s with
          bus := s.bus ++ readOps dev cfg.REG_CMDB_SPACE 2 s.bus ++
            recoverOps cfg dev (s.bus ++ readOps dev cfg.REG_CMDB_SPACE 2 s.bus)
          fault_recovered := RetCode.EVE_FAULT_RECOVERED } ∧
      (EVE_busy cfg dev s).2.fault_recovered = RetCode.EVE_FAULT_RECOVERED ∧
      countDelays (readOps dev cfg.REG_CMDB_SPACE 2 s.bus ++
        recoverOps cfg dev (s.bus ++ readOps dev cfg.REG_CMDB_SPACE 2 s.bus)) = 1) ∧
    ((EVE_memRead16 dev cfg.REG_CMDB_SPACE s).1 &&& 3 = 0 →
      (EVE_busy cfg dev s).2 = { s with bus := s.bus ++ readOps dev cfg.REG_CMDB_SPACE 2 s.bus } ∧
      (EVE_busy cfg dev s).2.fault_recovered = s.fault_recovered ∧
      txBytes (readOps dev cfg.REG_CMDB_SPACE 2 s.bus) =
        [(cfg.REG_CMDB_SPACE >>> 16) &&& 0x7F, (cfg.REG_CMDB_SPACE >>> 8) &&& 0xFF,
          cfg.REG_CMDB_SPACE &&& 0xFF, 0x00] ∧
      countDelays (readOps dev cfg.REG_CMDB_SPACE 2 s.bus) = 0) := by
  simp only [EVE_memRead16_fst]
  rw [and_3]
  constructor
  · intro hf
    have e : (EVE_busy cfg dev s).2 =
        { s with
          bus := s.bus ++ readOps dev cfg.REG_CMDB_SPACE 2 s.bus ++
            recoverOps cfg dev (s.bus ++ readOps dev cfg.REG_CMDB_SPACE 2 s.bus)
          fault_recovered := RetCode.EVE_FAULT_RECOVERED } := by
      rw [EVE_busy_idle cfg dev s h, if_pos hf]
    refine ⟨?_, e, ?_, ?_⟩
    · rw [e, CoprocessorFaultRecover_eq, EVE_memRead16_eq]
    · rw [e]
    · rw [countDelays_append, countDelays_readOps, countDelays_recoverOps]
  · intro hf
    have e : (EVE_busy cfg dev s).2 =
        { s with bus := s.bus ++ readOps dev cfg.REG_CMDB_SPACE 2 s.bus } := by
      rw [EVE_busy_idle cfg dev s h, if_neg (by simp [hf])]
    refine ⟨e, ?_, txBytes_readOps _ _ _ _, countDelays_readOps _ _ _ _⟩
    rw [e]

/-- Witness for C7: a chip reporting the fault signature 0xFFD, polled from the
start-up state, sets the flag; the recovery ends with its one settle delay. -/
theorem busy_recovery_effect_witness :
    (sampleConfig.EVE_DMA = true → initialState.EVE_dma_busy = 0) ∧
    ((EVE_memRead16 (constDevice 0xFFD) sampleConfig.REG_CMDB_SPACE initialState).1 &&& 3 ≠ 0) ∧
    (EVE_busy sampleConfig (constDevice 0xFFD) initialState).2.fault_recovered
      = RetCode.EVE_FAULT_RECOVERED :=
  ⟨fun _ => rfl, by decide,
    ((busy_recovery_effect sampleConfig (constDevice 0xFFD) initialState (fun _ => rfl)).1
      (by decide)).2.2.1⟩

/-- C8: when a DMA transfer is in flight (EVE_dma_busy != 0, in a build with EVE_DMA),
EVE_busy returns Busy without any bus operation: the whole driver state, bus trace and
sticky fault flag included, is unchanged, whatever the chip would have answered. -/
theorem busy_dma_short_circuit (cfg : Config) (dev : Device) (s : State)
    (hd : cfg.EVE_DMA = true) (hb : s.EVE_dma_busy ≠ 0) :
    EVE_busy cfg dev s = (RetCode.EVE_IS_BUSY, s) :=
  EVE_busy_dma cfg dev s hd hb

/-- Witness for C8: a chip that would report a fault is not even read while DMA is
busy. -/
theorem busy_dma_short_circuit_witness :
    sampleConfig.EVE_DMA = true ∧ ({ initialState with EVE_dma_busy := 42 }).EVE_dma_busy ≠ 0 ∧
    EVE_busy sampleConfig (constDevice 0xFFD) { initialState with EVE_dma_busy := 42 } =
      (RetCode.EVE_IS_BUSY, { initialState with EVE_dma_busy := 42 }) :=
  ⟨rfl, by decide,
    busy_dma_short_circuit sampleConfig (constDevice 0xFFD)
      { initialState with EVE_dma_busy := 42 } rfl (by decide)⟩

/-- C9: EVE_get_and_reset_fault_state returns FaultRecovered once for a recorded fault
and resets the sticky flag: with the flag set, two calls in a row return FaultRecovered
then Ok (in particular right after an EVE_busy that read a fault signature); after any
call the flag is clear; and with the flag clear a call returns Ok and changes no
state. -/
theorem fault_state_read_and_reset (s : State) :
    (s.fault_recovered ≠ RetCode.E_OK →
      EVE_get_and_reset_fault_state s =
        (RetCode.EVE_FAULT_RECOVERED, { s with fault_recovered := RetCode.E_OK }) ∧
      EVE_get_and_reset_fault_state (EVE_get_and_reset_fault_state s).2 =
        (RetCode.E_OK, { s with fault_recovered := RetCode.E_OK })) ∧
    (EVE_get_and_reset_fault_state s).2.fault_recovered = RetCode.E_OK ∧
    (s.fault_recovered = RetCode.E_OK → EVE_get_and_reset_fault_state s = (RetCode.E_OK, s)) ∧
    (∀ (cfg : Config) (dev : Device), (cfg.EVE_DMA = true → s.EVE_dma_busy = 0) →
      (EVE_memRead16 dev cfg.REG_CMDB_SPACE s).1 &&& 3 ≠ 0 →
      (EVE_get_and_reset_fault_state (EVE_busy cfg dev s).2).1 = RetCode.EVE_FAULT_RECOVERED ∧
      (EVE_get_and_reset_fault_state
        (EVE_get_and_reset_fault_state (EVE_busy cfg dev s).2).2).1 = RetCode.E_OK) := by
  refine ⟨?_, ?_, ?_, ?_⟩
  · intro hf
    simp [EVE_get_and_reset_fault_state, hf]
  · unfold EVE_get_and_reset_fault_state
    by_cases hf : s.fault_recovered = RetCode.E_OK
    · simp [hf]
    · simp [hf]
  · intro hf
    simp [EVE_get_and_reset_fault_state, hf]
  · intro cfg dev hd hv
    rw [EVE_memRead16_fst, and_3] at hv
    rw [EVE_busy_idle cfg dev s hd, if_pos hv]
    simp [EVE_get_and_reset_fault_state]

/-- Witness for C9: after a poll that read the fault signature 0xFFD, the first call
reports the fault and the second reports Ok. -/
theorem fault_state_read_and_reset_witness :
    (sampleConfig.EVE_DMA = true → initialState.EVE_dma_busy = 0) ∧
    ((EVE_memRead16 (constDevice 0xFFD) sampleConfig.REG_CMDB_SPACE initialState).1 &&& 3 ≠ 0) ∧
    (EVE_get_and_reset_fault_state
      (EVE_busy sampleConfig (constDevice 0xFFD) initialState).2).1
        = RetCode.EVE_FAULT_RECOVERED ∧
    (EVE_get_and_reset_fault_state (EVE_get_and_reset_fault_state
      (EVE_busy sampleConfig (constDevice 0xFFD) initialState).2).2).1 = RetCode.E_OK :=
  ⟨fun _ => rfl, by decide,
    (fault_state_read_and_reset initialState).2.2.2 sampleConfig (constDevice 0xFFD)
      (fun _ => rfl) (by decide)⟩

/-- C10: the sticky fault flag is written only by EVE_busy (set to FaultRecovered, on a
free-space read with the fault signature) and by EVE_get_and_reset_fault_state (cleared).
For every sequence of EVE_busy, EVE_execute_cmd, register-access, command-wrapper and
block-transfer calls, transport primitives and assignments to the other globals that
contains no read-and-reset, a flag that is set stays set; and for every sequence of
steps, a flag that is clear stays clear as long as every free-space read begun during
the sequence delivers a low byte whose low two bits are zero. -/
theorem fault_flag_ownership (cfg : Config) (dev : Device) :
    (∀ (c : Call) (s s1 : State), c.run cfg dev s = some s1 →
      s1.fault_recovered ≠ s.fault_recovered →
      (c.isReset = true ∧ s1.fault_recovered = RetCode.E_OK) ∨
      (c.polls = true ∧ s1.fault_recovered = RetCode.EVE_FAULT_RECOVERED ∧
        FaultRead cfg dev s.bus s1.bus)) ∧
    (∀ (calls : List Call) (s s1 : State), (∀ c ∈ calls, c.isReset = false) →
      runCalls cfg dev calls s = some s1 →
      (s.fault_recovered ≠ RetCode.E_OK → s1.fault_recovered ≠ RetCode.E_OK) ∧
      (s.fault_recovered = RetCode.EVE_FAULT_RECOVERED →
        s1.fault_recovered = RetCode.EVE_FAULT_RECOVERED)) ∧
    (∀ (calls : List Call) (s s1 : State), runCalls cfg dev calls s = some s1 →
      s.fault_recovered = RetCode.E_OK →
      (∀ h t, s.bus.length ≤ h.length → s1.bus = h ++ spaceReadOpen cfg ++ t →
        dev (h ++ spaceReadOpen cfg) % 4 = 0) →
      s1.fault_recovered = RetCode.E_OK) := by
  refine ⟨?_, ?_, ?_⟩
  · intro c s s1 hrun hne
    by_cases hr : c.isReset = false
    · right
      have ht := tracks_call cfg dev c s s1 hr hrun
      by_cases hp : c.polls = false
      · exact absurd (flag_kept_call cfg dev c s s1 hr hp hrun) hne
      · exact ⟨by simpa using hp, ht.2.2 hne⟩
    · left
      refine ⟨by simpa using hr, ?_⟩
      cases c <;> simp [Call.isReset] at hr
      simp only [Call.run, Option.some.injEq] at hrun
      rw [← hrun]
      unfold EVE_get_and_reset_fault_state
      by_cases e : s.fault_recovered = RetCode.E_OK
      · simp [e]
      · simp [e]
  · intro calls s s1 hc hrun
    have ht := tracks_runCalls cfg dev calls s s1 hc hrun
    refine ⟨ht.2.1, fun hs => ?_⟩
    by_cases e : s1.fault_recovered = s.fault_recovered
    · rw [e, hs]
    · exact (ht.2.2 e).1
  · intro calls s s1 hrun hs hdev
    by_contra hne
    rcases (clean_runCalls cfg dev calls s s1 hrun).2 hne with a | ⟨h, t, hl, he, hd⟩
    · exact a hs
    · exact hd (hdev h t hl he)

/-- Witness for C10: after a poll that read the fault signature 0xFFD, a run of a
register write, a display-list command and another poll leaves the flag set; and on a
chip that always reports 0xFFC a run of polls and waits leaves a clear flag clear. -/
theorem fault_flag_ownership_witness :
    (∀ c ∈ [Call.memWrite8 0x302020 1, Call.cmd_dl 0xFFFFFF00, Call.busy],
      c.isReset = false) ∧
    (EVE_busy sampleConfig (constDevice 0xFFD) initialState).2.fault_recovered
      = RetCode.EVE_FAULT_RECOVERED ∧
    (∃ s1, runCalls sampleConfig (constDevice 0xFFC)
        [Call.memWrite8 0x302020 1, Call.cmd_dl 0xFFFFFF00, Call.busy]
        (EVE_busy sampleConfig (constDevice 0xFFD) initialState).2 = some s1 ∧
      s1.fault_recovered = RetCode.EVE_FAULT_RECOVERED) ∧
    initialState.fault_recovered = RetCode.E_OK ∧
    (∀ h, constDevice 0xFFC (h ++ spaceReadOpen sampleConfig) % 4 = 0) ∧
    (∃ s1, runCalls sampleConfig (constDevice 0xFFC)
        [Call.busy, Call.execute_cmd 2, Call.get_and_reset_fault_state,
          Call.block_transfer 3 (fun i => i) 5] initialState = some s1 ∧
      s1.fault_recovered = RetCode.E_OK) :=
  ⟨by simp [Call.isReset], by decide,
    ⟨_, rfl,
      ((fault_flag_ownership sampleConfig (constDevice 0xFFC)).2.1
        [Call.memWrite8 0x302020 1, Call.cmd_dl 0xFFFFFF00, Call.busy]
        (EVE_busy sampleConfig (constDevice 0xFFD) initialState).2 _
        (by simp [Call.isReset]) rfl).2 (by decide)⟩,
    rfl,
    fun h => by simp only [constDevice, spaceReadOpen, getLast?_append_two],
    ⟨_, rfl,
      (fault_flag_ownership sampleConfig (constDevice 0xFFC)).2.2
        [Call.busy, Call.execute_cmd 2, Call.get_and_reset_fault_state,
          Call.block_transfer 3 (fun i => i) 5] initialState _ rfl rfl
        (fun h _ _ _ => by
          simp only [constDevice, spaceReadOpen, getLast?_append_two])⟩⟩

/-! ## Claims: block helpers and the DMA transaction queue -/

/-- C11: across every sequence of EVE_memWrite_sram_buffer calls, started from the
function's static initial values, `queued` stays within 0..4 and `index` within 0..3;
`queued` is the number of submissions not yet reclaimed, and at no moment are more than
4 submissions outstanding.  A valid submission attempted while 4 are outstanding first
waits for one completion (spi_device_get_trans_result) and only then queues its own
descriptor (buffer, length in bits, address with the write marker); one attempted with
fewer outstanding queues it at once. -/
theorem sram_queue_bounded (fl : SpiFlags) (calls : List (Nat × Option Ptr × Nat)) :
    (runSram fl calls initialQueue).queued ≤ 4 ∧
    (runSram fl calls initialQueue).index < 4 ∧
    outstandingFrom 0 (runSram fl calls initialQueue).calls
      = (runSram fl calls initialQueue).queued ∧
    withinLimit 4 0 (runSram fl calls initialQueue).calls = true ∧
    (∀ (a : Nat) (p : Ptr) (len : Nat), 0 < len →
      (runSram fl calls initialQueue).queued = 4 →
      (∃ trans, trans.tx_buffer = some p ∧ trans.length = (len * 8) % 2 ^ 32 ∧
        trans.addr = a ||| (MEM_WRITE <<< 16) ∧
        (EVE_memWrite_sram_buffer fl a (some p) len (runSram fl calls initialQueue)).calls
        = (runSram fl calls initialQueue).calls ++
          [QueueOp.get_trans_result,
            QueueOp.queue_trans (runSram fl calls initialQueue).index trans]) ∧
      (EVE_memWrite_sram_buffer fl a (some p) len (runSram fl calls initialQueue)).queued = 4) ∧
    (∀ (a : Nat) (p : Ptr) (len : Nat), 0 < len →
      (runSram fl calls initialQueue).queued < 4 →
      (∃ trans, trans.tx_buffer = some p ∧ trans.length = (len * 8) % 2 ^ 32 ∧
        trans.addr = a ||| (MEM_WRITE <<< 16) ∧
        (EVE_memWrite_sram_buffer fl a (some p) len (runSram fl calls initialQueue)).calls
        = (runSram fl calls initialQueue).calls ++
          [QueueOp.queue_trans (runSram fl calls initialQueue).index trans]) ∧
      (EVE_memWrite_sram_buffer fl a (some p) len (runSram fl calls initialQueue)).queued
        = (runSram fl calls initialQueue).queued + 1) := by
  have hinit : initialQueue.queued ≤ 4 ∧ initialQueue.index < 4 ∧
      outstandingFrom 0 initialQueue.calls = initialQueue.queued ∧
      withinLimit 4 0 initialQueue.calls = true := by
    refine ⟨by decide, by decide, rfl, rfl⟩
  obtain ⟨h1, h2, h3, h4⟩ := sram_invariant_run fl calls initialQueue hinit
  refine ⟨h1, h2, h3, h4, ?_, ?_⟩
  · intro a p len hl hq
    rw [EVE_memWrite_sram_buffer_valid fl a p len _ hl]
    refine ⟨⟨⟨some p, (len * 8) % 2 ^ 32, a ||| (MEM_WRITE <<< 16),
      fl.SPI_TRANS_MODE_QIO ||| fl.SPI_TRANS_MODE_DIOQIO_ADDR⟩, rfl, rfl, rfl, ?_⟩, ?_⟩
    · simp only [hq, if_true, List.append_assoc, List.singleton_append]
    · simp only [hq, if_true]
  · intro a p len hl hq
    rw [EVE_memWrite_sram_buffer_valid fl a p len _ hl]
    have hne : ¬ (runSram fl calls initialQueue).queued = 4 := by omega
    refine ⟨⟨⟨some p, (len * 8) % 2 ^ 32, a ||| (MEM_WRITE <<< 16),
      fl.SPI_TRANS_MODE_QIO ||| fl.SPI_TRANS_MODE_DIOQIO_ADDR⟩, rfl, rfl, rfl, ?_⟩, ?_⟩
    · simp only [hne, if_false, List.append_nil]
    · simp only [hne, if_false]

/-- Witness for C11: five submissions in a row, with a skipped null call in between;
the fifth waits for a completion before it queues, and reuses slot 0. -/
theorem sram_queue_bounded_witness :
    (runSram ⟨2, 16⟩
      [(0, some (fun i => i), 512), (0x1000, some (fun i => i), 20480),
        (0x6000, none, 20480), (0x6000, some (fun i => i), 20480),
        (0xB000, some (fun i => i), 20480)] initialQueue).queued = 4 ∧
    (0 : Nat) < 20480 ∧
    (EVE_memWrite_sram_buffer ⟨2, 16⟩ 0x10000 (some (fun i => i)) 20480
      (runSram ⟨2, 16⟩
        [(0, some (fun i => i), 512), (0x1000, some (fun i => i), 20480),
          (0x6000, none, 20480), (0x6000, some (fun i => i), 20480),
          (0xB000, some (fun i => i), 20480)] initialQueue)).queued = 4 ∧
    ((EVE_memWrite_sram_buffer ⟨2, 16⟩ 0x10000 (some (fun i => i)) 20480
      (runSram ⟨2, 16⟩
        [(0, some (fun i => i), 512), (0x1000, some (fun i => i), 20480),
          (0x6000, none, 20480), (0x6000, some (fun i => i), 20480),
          (0xB000, some (fun i => i), 20480)] initialQueue)).calls.map QueueOp.isQueue)
      = [true, true, true, true, false, true] :=
  ⟨rfl, by decide,
    ((sram_queue_bounded ⟨2, 16⟩
      [(0, some (fun i => i), 512), (0x1000, some (fun i => i), 20480),
        (0x6000, none, 20480), (0x6000, some (fun i => i), 20480),
        (0xB000, some (fun i => i), 20480)]).2.2.2.2.1 0x10000 (fun i => i) 20480
      (by decide) rfl).2,
    by decide⟩


/-- Counterexample for C12: a call with a buffer that is not null and length 0 is not a
no-op for the flash block write and for the block read: each asserts chip select, sends
the address header (the read word) and clears chip select. -/
theorem block_helpers_empty_not_noop :
    (EVE_memWrite_flash_buffer 0x1000 (some (fun _ => 0)) 0 initialState).bus
      = [BusOp.cs_set, BusOp.transmit 0x80, BusOp.transmit 0x10, BusOp.transmit 0x00,
          BusOp.cs_clear] ∧
    (EVE_memRead_sram_buffer (constDevice 0) 0x1000 (some (fun _ => 0)) 0 initialState).2.bus
      = [BusOp.cs_set, BusOp.transmit_32 0x1000, BusOp.cs_clear] ∧
    (EVE_memWrite_flash_buffer 0x1000 (some (fun _ => 0)) 0 initialState).bus
      ≠ initialState.bus ∧
    (EVE_memRead_sram_buffer (constDevice 0) 0x1000 (some (fun _ => 0)) 0 initialState).2.bus
      ≠ initialState.bus := by
  refine ⟨by decide, by decide, by decide, by decide⟩

/-- C12 (amended): a call with a null buffer pointer is a no-op for each of the three
block helpers (no bus operation, no queued transaction, no state change, the read leaves
no buffer), and a call with length 0 is a no-op for EVE_memWrite_sram_buffer.  For
EVE_memWrite_flash_buffer and EVE_memRead_sram_buffer a call with a buffer that is not
null and length 0 still opens a transaction without data: chip select, the write header
(resp. the packed read word), chip-select clear; the buffer of the read is unchanged. -/
theorem block_helpers_null_or_empty (fl : SpiFlags) (dev : Device) (a len : Nat) (p : Ptr)
    (s : State) (q : SramQueue) :
    EVE_memWrite_flash_buffer a none len s = s ∧
    EVE_memRead_sram_buffer dev a none len s = (none, s) ∧
    EVE_memWrite_sram_buffer fl a none len q = q ∧
    EVE_memWrite_sram_buffer fl a (some p) 0 q = q ∧
    EVE_memWrite_flash_buffer a (some p) 0 s = { s with bus := s.bus ++ writeOps a [] } ∧
    EVE_memRead_sram_buffer dev a (some p) 0 s
      = (some p, { s with bus := s.bus ++ readOps dev a 0 s.bus }) := by
  have h0 : ((a >>> 16) % 256 ||| 0x80) % 256 = ((a >>> 16) &&& 0x7F) ||| 0x80 := by
    rw [hdr_high]; exact Nat.mod_eq_of_lt (hdr_high_lt _)
  have h1 : (a >>> 8) % 256 % 256 = (a >>> 8) &&& 0xFF := by rw [and_0xFF, Nat.mod_mod]
  have h2 : (a &&& 0xFF) % 256 % 256 = a &&& 0xFF := by rw [and_0xFF, Nat.mod_mod, Nat.mod_mod]
  refine ⟨rfl, rfl, rfl, rfl, ?_, ?_⟩
  · simp only [EVE_memWrite_flash_buffer, private_block_write_data, EVE_cs_set, EVE_cs_clear,
      spi_transmit, MEM_WRITE, writeHeader, writeOps, h0, h1, h2]
    simp
  · simp only [EVE_memRead_sram_buffer, EVE_memRead_sram_buffer_data, EVE_cs_set,
      EVE_cs_clear, spi_transmit_32, readWord_mod, readOps, rxBytes]
    simp


/-! ## Claims: strings in the command stream -/

/-- C13: for every text of n ≤ 249 bytes before its zero terminator, private_string_write
puts the same bytes into the FIFO in both modes.  In immediate mode it transmits the text
bytes one by one and then 4 - n % 4 zero bytes; in burst mode it hands to
spi_transmit_burst exactly the words that pack this byte string four bytes per word, and
these words, each below 2^32 and serialised least-significant byte first, give back the
byte string.  Without DMA the burst words go to the bus as 32-bit transmits, whose bytes
are again the byte string. -/
theorem string_write_modes_agree (cfg : Config) (p_text : Ptr) (n : Nat) (s sb : State)
    (hn : n ≤ 249) (htext : ∀ i < n, p_text i % 256 ≠ 0) (hz : p_text n % 256 = 0)
    (hi : s.cmd_burst = 0) (hb : sb.cmd_burst ≠ 0) :
    private_string_write cfg p_text s
      = { s with bus := s.bus ++ (stringContent p_text n).map BusOp.transmit } ∧
    txBytes ((stringContent p_text n).map BusOp.transmit) = stringContent p_text n ∧
    private_string_write cfg p_text sb
      = burstAll cfg (packWords (stringContent p_text n)) sb ∧
    (∀ w ∈ packWords (stringContent p_text n), w < 2 ^ 32) ∧
    wordBytes (packWords (stringContent p_text n)) = stringContent p_text n ∧
    (cfg.EVE_DMA = false →
      private_string_write cfg p_text sb
        = { sb with bus := sb.bus ++
            (packWords (stringContent p_text n)).map (fun w => BusOp.transmit_32 (w % 2 ^ 32)) } ∧
      txBytes ((packWords (stringContent p_text n)).map
          (fun w => BusOp.transmit_32 (w % 2 ^ 32)))
        = stringContent p_text n) := by
  have hlt := packWords_lt _ _ (stringContent_length p_text n) (stringContent_lt p_text n)
  have hwb := wordBytes_packWords _ _ (stringContent_length p_text n)
    (stringContent_lt p_text n)
  have hburst : private_string_write cfg p_text sb
      = burstAll cfg (packWords (stringContent p_text n)) sb := by
    have hb0 : ¬ (0 = sb.cmd_burst) := fun h => hb h.symm
    simp only [private_string_write, if_neg hb0]
    exact private_string_write_burst_eq cfg p_text n sb hn htext hz
  refine ⟨?_, txBytes_map_transmit _, hburst, hlt, hwb, ?_⟩
  · have ht0 : ∀ i < n, p_text (0 + i) % 256 ≠ 0 := by
      intro i h; rw [Nat.zero_add]; exact htext i h
    have hz0 : p_text (0 + n) % 256 = 0 ∨ 0 + n = 249 := by
      rw [Nat.zero_add]; exact Or.inl hz
    have hpad : (4 - ((0 + n) &&& 3) % 256) % 256 = 4 - n % 4 := by
      rw [Nat.zero_add, and_3]
      have := Nat.mod_lt n (show 0 < 4 by decide)
      omega
    simp only [private_string_write, if_pos hi.symm]
    rw [private_string_write_text_eq p_text n 0 249 s hn (by omega) ht0 hz0]
    simp only [hpad, private_block_write_padding_eq, stringContent, List.map_append,
      List.append_assoc]
  · intro hd
    rw [hburst, burstAll_noDma cfg hd, txBytes_words _ hlt, hwb]
    exact ⟨rfl, rfl⟩

/-- Witness for C13: the text "ABCDE" in both modes. -/
theorem string_write_modes_agree_witness :
    (5 ≤ 249 ∧ (∀ i < 5, (fun i => if i < 5 then 0x41 + i else 0 : Ptr) i % 256 ≠ 0) ∧
      (fun i => if i < 5 then 0x41 + i else 0 : Ptr) 5 % 256 = 0 ∧
      initialState.cmd_burst = 0 ∧ burstState.cmd_burst ≠ 0) ∧
    stringContent (fun i => if i < 5 then 0x41 + i else 0) 5
      = [0x41, 0x42, 0x43, 0x44, 0x45, 0, 0, 0] ∧
    packWords (stringContent (fun i => if i < 5 then 0x41 + i else 0) 5)
      = [0x44434241, 0x00000045] ∧
    wordBytes (packWords (stringContent (fun i => if i < 5 then 0x41 + i else 0) 5))
      = stringContent (fun i => if i < 5 then 0x41 + i else 0) 5 :=
  ⟨⟨by decide, by decide, by decide, rfl, by decide⟩, by decide, by decide,
    (string_write_modes_agree sampleConfig (fun i => if i < 5 then 0x41 + i else 0) 5
      initialState burstState (by decide) (by decide) (by decide) rfl (by decide)).2.2.2.2.1⟩

/-- C14 (the code departs from it): in burst mode private_string_write tests the bound of
249 only between words.  For every text whose first 252 bytes are nonzero it hands 63
words to spi_transmit_burst, which serialise to the 252 text bytes: more than 249 text
bytes, and no zero byte follows them.  In immediate mode the same text is cut after 249
bytes and followed by 3 zero bytes. -/
theorem string_write_burst_overrun (cfg : Config) (p_text : Ptr) (s sb : State)
    (htext : ∀ i < 252, p_text i % 256 ≠ 0) (hi : s.cmd_burst = 0)
    (hb : sb.cmd_burst ≠ 0) :
    private_string_write cfg p_text sb
      = burstAll cfg (packWords (textBytes p_text 0 252)) sb ∧
    (packWords (textBytes p_text 0 252)).length = 63 ∧
    wordBytes (packWords (textBytes p_text 0 252)) = textBytes p_text 0 252 ∧
    (textBytes p_text 0 252).length = 252 ∧
    (∀ b ∈ textBytes p_text 0 252, b ≠ 0) ∧
    private_string_write cfg p_text s
      = { s with bus := s.bus ++
          (textBytes p_text 0 249 ++ [0, 0, 0]).map BusOp.transmit } := by
  have hwb := wordBytes_packWords 63 _ (textBytes_length p_text 0 252)
    (textBytes_lt p_text 0 252)
  refine ⟨?_, ?_, hwb, textBytes_length _ _ _, ?_, ?_⟩
  · have hb0 : ¬ (0 = sb.cmd_burst) := fun h => hb h.symm
    have ht0 : ∀ i < 4 * 63, p_text (0 + i) % 256 ≠ 0 := by
      intro i h; rw [Nat.zero_add]; exact htext i h
    simp only [private_string_write, if_neg hb0]
    rw [burst_full_words cfg p_text 63 0 249 sb (by decide) ht0 (by decide)]
    show private_string_write_burst cfg p_text 252 (185 + 1) _ = _
    rw [private_string_write_burst, if_neg (by decide)]
  · have h := congrArg List.length hwb
    rw [textBytes_length] at h
    have hl : ∀ ws : List Nat, (wordBytes ws).length = 4 * ws.length := by
      intro ws
      induction ws with
      | nil => rfl
      | cons w t ih =>
          simp only [wordBytes, List.map_cons, List.flatten_cons, List.length_append,
            List.length_cons] at ih ⊢
          rw [ih, leBytes_four]
          simp only [List.length_cons, List.length_nil]
          omega
    rw [hl] at h
    omega
  · intro b hm
    simp only [textBytes, List.mem_map, List.mem_range] at hm
    obtain ⟨i, hi2, rfl⟩ := hm
    rw [Nat.zero_add]
    exact htext i hi2
  · have ht0 : ∀ i < 249, p_text (0 + i) % 256 ≠ 0 := by
      intro i h; rw [Nat.zero_add]; exact htext i (by omega)
    simp only [private_string_write, if_pos hi.symm]
    rw [private_string_write_text_eq p_text 249 0 249 s (by decide) (by decide) ht0
      (Or.inr rfl)]
    have hpad : (4 - ((0 + 249) &&& 3) % 256) % 256 = 3 := by decide
    simp only [hpad, private_block_write_padding_eq, List.map_append, List.append_assoc]
    rfl

set_option maxRecDepth 100000 in
/-- Witness for C14: a text of bytes 0x41 that never ends, without DMA.  In burst mode
the bus carries 63 words of four such bytes and nothing else; in immediate mode 249 such
bytes and 3 zero bytes. -/
theorem string_write_burst_overrun_witness :
    ((∀ i < 252, (fun _ => 0x41 : Ptr) i % 256 ≠ 0) ∧ initialState.cmd_burst = 0 ∧
      burstState.cmd_burst ≠ 0) ∧
    private_string_write sampleConfigNoDma (fun _ => 0x41) burstState
      = burstAll sampleConfigNoDma (packWords (textBytes (fun _ => 0x41) 0 252)) burstState ∧
    (private_string_write sampleConfigNoDma (fun _ => 0x41) burstState).bus
      = List.replicate 63 (BusOp.transmit_32 0x41414141) ∧
    txBytes (private_string_write sampleConfigNoDma (fun _ => 0x41) burstState).bus
      = List.replicate 252 0x41 ∧
    txBytes (private_string_write sampleConfigNoDma (fun _ => 0x41) initialState).bus
      = List.replicate 249 0x41 ++ [0, 0, 0] :=
  ⟨⟨fun _ _ => (by decide : (0x41 : Nat) % 256 ≠ 0), rfl, by decide⟩,
    (string_write_burst_overrun sampleConfigNoDma (fun _ => 0x41) initialState burstState
      (fun _ _ => (by decide : (0x41 : Nat) % 256 ≠ 0)) rfl (by decide)).1,
    rfl, rfl, rfl⟩


/-! ## Claims: flash bring-up -/

/-- C15: when the flash status read is Basic, EVE_init_flash runs the flash speed-up
command once and returns the outcome of its 32-bit result r: 0 gives E_OK, 0xE001
FlashfastNotSupported, 0xE002 NoHeaderDetected, 0xE003 Sector0Failed, 0xE004 BlobMismatch,
0xE005 SpeedTestFailed and every other value E_NOT_OK; the six named outcomes are
pairwise distinct.  Whenever it returns, the only command-FIFO write after the status
read is the speed-up command with its zero argument; it returns on a chip whose FIFO
drains. -/
theorem flash_basic_speedup (cfg : Config) (ic : InitConfig) (dev : Device) (s : State)
    (hc : cfg.recoveryAvoidsFifo) (hcodes : ic.flashCodes)
    (hst : readValue dev ic.REG_FLASH_STATUS 1 s.bus = ic.EVE_FLASH_STATUS_BASIC) :
    (∀ fuel, EVE_init_flash cfg ic dev fuel s
      = (EVE_cmd_flashfast cfg ic dev fuel
          { s with bus := s.bus ++ readOps dev ic.REG_FLASH_STATUS 1 s.bus }).map
          (fun x => (flashfast_outcome x.1, x.2))) ∧
    (∀ fuel ret s2, EVE_init_flash cfg ic dev fuel s = some (ret, s2) →
      ∃ t, s2.bus = s.bus ++ readOps dev ic.REG_FLASH_STATUS 1 s.bus ++ t ∧
        fifoWrites t = [wordBytes [ic.CMD_FLASHFAST % 2 ^ 32, 0]]) ∧
    (Drains cfg dev → (cfg.EVE_DMA = true → s.EVE_dma_busy = 0) →
      ∃ fuel ret s2, EVE_init_flash cfg ic dev fuel s = some (ret, s2)) ∧
    (flashfast_outcome 0 = RetCode.E_OK ∧
      flashfast_outcome 0xE001 = RetCode.EVE_FAIL_FLASHFAST_NOT_SUPPORTED ∧
      flashfast_outcome 0xE002 = RetCode.EVE_FAIL_FLASHFAST_NO_HEADER_DETECTED ∧
      flashfast_outcome 0xE003 = RetCode.EVE_FAIL_FLASHFAST_SECTOR0_FAILED ∧
      flashfast_outcome 0xE004 = RetCode.EVE_FAIL_FLASHFAST_BLOB_MISMATCH ∧
      flashfast_outcome 0xE005 = RetCode.EVE_FAIL_FLASHFAST_SPEED_TEST ∧
      (∀ r, r ∉ [0, 0xE001, 0xE002, 0xE003, 0xE004, 0xE005] →
        flashfast_outcome r = RetCode.E_NOT_OK)) ∧
    [RetCode.E_OK, RetCode.EVE_FAIL_FLASHFAST_NOT_SUPPORTED,
      RetCode.EVE_FAIL_FLASHFAST_NO_HEADER_DETECTED,
      RetCode.EVE_FAIL_FLASHFAST_SECTOR0_FAILED, RetCode.EVE_FAIL_FLASHFAST_BLOB_MISMATCH,
      RetCode.EVE_FAIL_FLASHFAST_SPEED_TEST].Nodup := by
  obtain ⟨_, _, h02, _, h12, _, h23⟩ := flashCodes_ne ic hcodes
  have hw : EVE_init_flash_wait ic dev 0 (readValue dev ic.REG_FLASH_STATUS 1 s.bus)
      RetCode.E_NOT_OK { s with bus := s.bus ++ readOps dev ic.REG_FLASH_STATUS 1 s.bus }
        = (ic.EVE_FLASH_STATUS_BASIC, RetCode.E_NOT_OK,
            { s with bus := s.bus ++ readOps dev ic.REG_FLASH_STATUS 1 s.bus }) := by
    rw [hst]
    exact EVE_init_flash_wait_skip ic dev 0 _ _ _ h02
  have main : ∀ fuel, EVE_init_flash cfg ic dev fuel s
      = (EVE_cmd_flashfast cfg ic dev fuel
          { s with bus := s.bus ++ readOps dev ic.REG_FLASH_STATUS 1 s.bus }).map
          (fun x => (flashfast_outcome x.1, x.2)) :=
    fun fuel => EVE_init_flash_basic cfg ic dev fuel s _ _ hw h12 (fun h => h23 h.symm)
  refine ⟨main, ?_, ?_, ⟨rfl, rfl, rfl, rfl, rfl, rfl, flashfast_outcome_other⟩, by decide⟩
  · intro fuel ret s2 h
    rw [main fuel] at h
    cases hf : EVE_cmd_flashfast cfg ic dev fuel
        { s with bus := s.bus ++ readOps dev ic.REG_FLASH_STATUS 1 s.bus } with
    | none => simp [hf] at h
    | some x =>
        obtain ⟨r, s3⟩ := x
        simp only [hf, Option.map_some', Option.some.injEq, Prod.mk.injEq] at h
        obtain ⟨⟨t, e, q⟩, _⟩ := EVE_cmd_flashfast_some cfg ic dev fuel _ s3 r hc hf
        rw [← h.2]
        refine ⟨commandOps [ic.CMD_FLASHFAST, 0] ++ t, ?_, ?_⟩
        · rw [e, List.append_assoc]
        · rw [fifoWrites_command_silent _ t q, txBytes_command]
          rfl
  · intro hd hi
    obtain ⟨fuel, x, hf⟩ := EVE_cmd_flashfast_terminates cfg ic dev
      { s with bus := s.bus ++ readOps dev ic.REG_FLASH_STATUS 1 s.bus } hd hi
    exact ⟨fuel, flashfast_outcome x.1, x.2, by rw [main fuel, hf]; rfl⟩

/-- Witness for C15: a chip whose flash status reads Basic and whose speed-up command
leaves the result 0xE003: flash bring-up yields Sector0Failed. -/
theorem flash_basic_speedup_witness :
    (sampleConfig.recoveryAvoidsFifo ∧ sampleInit.flashCodes ∧
      readValue (scriptDevice 0x3025f0 0x308ff8 [2] 0xE003) sampleInit.REG_FLASH_STATUS 1
        initialState.bus = sampleInit.EVE_FLASH_STATUS_BASIC) ∧
    (EVE_init_flash sampleConfig sampleInit (scriptDevice 0x3025f0 0x308ff8 [2] 0xE003) 1
      initialState).map Prod.fst = some RetCode.EVE_FAIL_FLASHFAST_SECTOR0_FAILED :=
  ⟨⟨by unfold Config.recoveryAvoidsFifo; decide, by unfold InitConfig.flashCodes; decide,
      by decide⟩,
    by
      rw [(flash_basic_speedup sampleConfig sampleInit
        (scriptDevice 0x3025f0 0x308ff8 [2] 0xE003) initialState
        (by unfold Config.recoveryAvoidsFifo; decide)
        (by unfold InitConfig.flashCodes; decide) (by decide)).1 1]
      rfl⟩

/-- C16: if the first read of the flash status register is Full, EVE_init_flash returns
E_OK, whatever the fuel, and all it has done is that one register read: the trace grows
by the operations of one 8-bit read, which hold no command-FIFO write (no attach, no
speed-up command) and no delay. -/
theorem flash_full_is_noop (cfg : Config) (ic : InitConfig) (dev : Device) (s : State)
    (hcodes : ic.flashCodes)
    (hst : readValue dev ic.REG_FLASH_STATUS 1 s.bus = ic.EVE_FLASH_STATUS_FULL) :
    (∀ fuel, EVE_init_flash cfg ic dev fuel s
      = some (RetCode.E_OK,
          { s with bus := s.bus ++ readOps dev ic.REG_FLASH_STATUS 1 s.bus })) ∧
    countReads ic.REG_FLASH_STATUS (readOps dev ic.REG_FLASH_STATUS 1 s.bus) = 1 ∧
    fifoWrites (readOps dev ic.REG_FLASH_STATUS 1 s.bus) = [] ∧
    countDelays (readOps dev ic.REG_FLASH_STATUS 1 s.bus) = 0 ∧
    (readOps dev ic.REG_FLASH_STATUS 1 s.bus).length = 4 := by
  obtain ⟨_, _, _, h03, _, h13, h23⟩ := flashCodes_ne ic hcodes
  have hw : EVE_init_flash_wait ic dev 0 (readValue dev ic.REG_FLASH_STATUS 1 s.bus)
      RetCode.E_NOT_OK { s with bus := s.bus ++ readOps dev ic.REG_FLASH_STATUS 1 s.bus }
        = (ic.EVE_FLASH_STATUS_FULL, RetCode.E_NOT_OK,
            { s with bus := s.bus ++ readOps dev ic.REG_FLASH_STATUS 1 s.bus }) := by
    rw [hst]
    exact EVE_init_flash_wait_skip ic dev 0 _ _ _ h03
  refine ⟨fun fuel => EVE_init_flash_full cfg ic dev fuel s _ _ hw h13 h23,
    countReads_readOps _ _ _ _, fifoWrites_silent _ (silent_readOps _ _ _ _),
    countDelays_readOps _ _ _ _, ?_⟩
  simp [readOps, rxBytes]

/-- Witness for C16: a chip whose flash status reads Full. -/
theorem flash_full_is_noop_witness :
    (sampleInit.flashCodes ∧
      readValue (scriptDevice 0x3025f0 0x308ff8 [3] 0) sampleInit.REG_FLASH_STATUS 1
        initialState.bus = sampleInit.EVE_FLASH_STATUS_FULL) ∧
    EVE_init_flash sampleConfig sampleInit (scriptDevice 0x3025f0 0x308ff8 [3] 0) 0
      initialState
      = some (RetCode.E_OK, { initialState with bus :=
          [BusOp.cs_set, BusOp.transmit_32 0xf02530, BusOp.receive 3, BusOp.cs_clear] }) :=
  ⟨⟨by unfold InitConfig.flashCodes; decide, by decide⟩,
    (flash_full_is_noop sampleConfig sampleInit (scriptDevice 0x3025f0 0x308ff8 [3] 0)
      initialState (by unfold InitConfig.flashCodes; decide) (by decide)).1 0⟩

/-- C17: if the flash status register reads Init on every poll, EVE_init_flash returns
EVE_FAIL_FLASH_STATUS_INIT, whatever the fuel: its wait loop is bounded.  Its trace is
the first read followed by 101 polls (a read and 1 ms of delay each); it holds no
command-FIFO write, so neither the attach nor the speed-up command was issued. -/
theorem flash_init_timeout (cfg : Config) (ic : InitConfig) (dev : Device) (s : State)
    (hcodes : ic.flashCodes)
    (hinit : ∀ h, readValue dev ic.REG_FLASH_STATUS 1 h = ic.EVE_FLASH_STATUS_INIT) :
    (∀ fuel, EVE_init_flash cfg ic dev fuel s
      = some (RetCode.EVE_FAIL_FLASH_STATUS_INIT,
          { s with bus := (s.bus ++ readOps dev ic.REG_FLASH_STATUS 1 s.bus ++
              statusPolls dev ic.REG_FLASH_STATUS 101
                (s.bus ++ readOps dev ic.REG_FLASH_STATUS 1 s.bus)) })) ∧
    fifoWrites (readOps dev ic.REG_FLASH_STATUS 1 s.bus ++
      statusPolls dev ic.REG_FLASH_STATUS 101
        (s.bus ++ readOps dev ic.REG_FLASH_STATUS 1 s.bus)) = [] ∧
    countDelays (readOps dev ic.REG_FLASH_STATUS 1 s.bus ++
      statusPolls dev ic.REG_FLASH_STATUS 101
        (s.bus ++ readOps dev ic.REG_FLASH_STATUS 1 s.bus)) = 101 ∧
    countReads ic.REG_FLASH_STATUS (readOps dev ic.REG_FLASH_STATUS 1 s.bus ++
      statusPolls dev ic.REG_FLASH_STATUS 101
        (s.bus ++ readOps dev ic.REG_FLASH_STATUS 1 s.bus)) = 102 := by
  obtain ⟨c1, c2, c3⟩ := statusPolls_counts dev ic.REG_FLASH_STATUS 101
    (s.bus ++ readOps dev ic.REG_FLASH_STATUS 1 s.bus)
  refine ⟨fun fuel => EVE_init_flash_stuck cfg ic dev s fuel hcodes hinit, ?_, ?_, ?_⟩
  · exact fifoWrites_silent _ (silent_append (silent_readOps _ _ _ _) c3)
  · rw [countDelays_append, countDelays_readOps, c1]
  · rw [countReads_append, countReads_readOps, c2]

/-- Witness for C17: a chip that answers every read with 0, the Init status. -/
theorem flash_init_timeout_witness :
    (sampleInit.flashCodes ∧
      ∀ h, readValue (constDevice 0) sampleInit.REG_FLASH_STATUS 1 h
        = sampleInit.EVE_FLASH_STATUS_INIT) ∧
    (EVE_init_flash sampleConfig sampleInit (constDevice 0) 0 initialState).map Prod.fst
      = some RetCode.EVE_FAIL_FLASH_STATUS_INIT :=
  ⟨⟨by unfold InitConfig.flashCodes; decide, fun h => readValue_one_constDevice 0 _ h⟩,
    by
      rw [(flash_init_timeout sampleConfig sampleInit (constDevice 0) initialState
        (by unfold InitConfig.flashCodes; decide)
        (fun h => readValue_one_constDevice 0 _ h)).1 0]
      rfl⟩


/-- Counterexample for C18: the flash status reads Detached and, after the attach
command, Full.  EVE_init_flash then returns E_OK, not EVE_FAIL_FLASH_STATUS_DETACHED,
although the re-polled status is not Basic. -/
theorem flash_detached_then_full :
    readValue (scriptDevice 0x3025f0 0x308ff8 [1, 3] 0) sampleInit.REG_FLASH_STATUS 1
      initialState.bus = sampleInit.EVE_FLASH_STATUS_DETACHED ∧
    (EVE_init_flash sampleConfig sampleInit (scriptDevice 0x3025f0 0x308ff8 [1, 3] 0) 1
      initialState).map Prod.fst = some RetCode.E_OK ∧
    ((EVE_init_flash sampleConfig sampleInit (scriptDevice 0x3025f0 0x308ff8 [1, 3] 0) 1
      initialState).map (fun x => x.2.bus))
      = some [BusOp.cs_set, BusOp.transmit_32 0xf02530, BusOp.receive 1, BusOp.cs_clear,
          BusOp.cs_set, BusOp.transmit 0xB0, BusOp.transmit 0x25, BusOp.transmit 0x78,
          BusOp.transmit_32 0xFFFFFF49, BusOp.cs_clear,
          BusOp.cs_set, BusOp.transmit_32 0x742530, BusOp.receive 0xFC, BusOp.receive 0x0F,
          BusOp.cs_clear,
          BusOp.cs_set, BusOp.transmit_32 0xf02530, BusOp.receive 3, BusOp.cs_clear] := by
  have hw : EVE_init_flash_wait sampleInit (scriptDevice 0x3025f0 0x308ff8 [1, 3] 0) 0
      (readValue (scriptDevice 0x3025f0 0x308ff8 [1, 3] 0) sampleInit.REG_FLASH_STATUS 1
        initialState.bus) RetCode.E_NOT_OK
      { initialState with bus := (initialState.bus ++
          readOps (scriptDevice 0x3025f0 0x308ff8 [1, 3] 0) sampleInit.REG_FLASH_STATUS 1
            initialState.bus) }
      = (sampleInit.EVE_FLASH_STATUS_DETACHED, RetCode.E_NOT_OK,
          { initialState with bus := (initialState.bus ++
              readOps (scriptDevice 0x3025f0 0x308ff8 [1, 3] 0) sampleInit.REG_FLASH_STATUS 1
                initialState.bus) }) :=
    EVE_init_flash_wait_skip sampleInit _ 0 _ _ _ (by decide)
  rw [EVE_init_flash_detached sampleConfig sampleInit _ 1 initialState _ _ hw rfl
    (by decide)]
  exact ⟨by decide, rfl, rfl⟩

/-- C18 (amended): if the flash status reads Detached (in immediate mode), EVE_init_flash
writes one attach command to the command FIFO, waits for the FIFO to drain and re-polls
the status once.  A re-polled Basic continues to the flash speed-up step, a re-polled
Full returns E_OK, and every other re-polled status fails with
EVE_FAIL_FLASH_STATUS_DETACHED.  Up to the re-poll the only command-FIFO write is the
attach command, and the wait returns on a chip whose FIFO drains. -/
theorem flash_detached_attach (cfg : Config) (ic : InitConfig) (dev : Device) (s : State)
    (hc : cfg.recoveryAvoidsFifo) (hcodes : ic.flashCodes) (hburst : s.cmd_burst = 0)
    (hst : readValue dev ic.REG_FLASH_STATUS 1 s.bus = ic.EVE_FLASH_STATUS_DETACHED) :
    (∀ fuel, EVE_execute_cmd cfg dev fuel
        { s with bus := (s.bus ++ readOps dev ic.REG_FLASH_STATUS 1 s.bus
          ++ commandOps [ic.CMD_FLASHATTACH]) } = none →
      EVE_init_flash cfg ic dev fuel s = none) ∧
    (∀ fuel s2, EVE_execute_cmd cfg dev fuel
        { s with bus := (s.bus ++ readOps dev ic.REG_FLASH_STATUS 1 s.bus
          ++ commandOps [ic.CMD_FLASHATTACH]) } = some s2 →
      (readValue dev ic.REG_FLASH_STATUS 1 s2.bus = ic.EVE_FLASH_STATUS_BASIC →
        EVE_init_flash cfg ic dev fuel s
          = (EVE_cmd_flashfast cfg ic dev fuel
              { s2 with bus := s2.bus ++ readOps dev ic.REG_FLASH_STATUS 1 s2.bus }).map
              (fun x => (flashfast_outcome x.1, x.2))) ∧
      (readValue dev ic.REG_FLASH_STATUS 1 s2.bus = ic.EVE_FLASH_STATUS_FULL →
        EVE_init_flash cfg ic dev fuel s
          = some (RetCode.E_OK,
              { s2 with bus := s2.bus ++ readOps dev ic.REG_FLASH_STATUS 1 s2.bus })) ∧
      (readValue dev ic.REG_FLASH_STATUS 1 s2.bus ≠ ic.EVE_FLASH_STATUS_BASIC →
        readValue dev ic.REG_FLASH_STATUS 1 s2.bus ≠ ic.EVE_FLASH_STATUS_FULL →
        EVE_init_flash cfg ic dev fuel s
          = some (RetCode.EVE_FAIL_FLASH_STATUS_DETACHED,
              { s2 with bus := s2.bus ++ readOps dev ic.REG_FLASH_STATUS 1 s2.bus })) ∧
      (∃ tw, Silent tw ∧
        s2.bus ++ readOps dev ic.REG_FLASH_STATUS 1 s2.bus
          = s.bus ++ (readOps dev ic.REG_FLASH_STATUS 1 s.bus
              ++ commandOps [ic.CMD_FLASHATTACH] ++ tw
              ++ readOps dev ic.REG_FLASH_STATUS 1 s2.bus) ∧
        fifoWrites (readOps dev ic.REG_FLASH_STATUS 1 s.bus
              ++ commandOps [ic.CMD_FLASHATTACH] ++ tw
              ++ readOps dev ic.REG_FLASH_STATUS 1 s2.bus)
          = [wordBytes [ic.CMD_FLASHATTACH % 2 ^ 32]])) ∧
    (Drains cfg dev → (cfg.EVE_DMA = true → s.EVE_dma_busy = 0) →
      ∃ fuel s2, EVE_execute_cmd cfg dev fuel
        { s with bus := (s.bus ++ readOps dev ic.REG_FLASH_STATUS 1 s.bus
          ++ commandOps [ic.CMD_FLASHATTACH]) } = some s2) := by
  obtain ⟨hb2, h01, _, _, _, _, h23⟩ := flashCodes_ne ic hcodes
  have hw : EVE_init_flash_wait ic dev 0 (readValue dev ic.REG_FLASH_STATUS 1 s.bus)
      RetCode.E_NOT_OK { s with bus := s.bus ++ readOps dev ic.REG_FLASH_STATUS 1 s.bus }
        = (ic.EVE_FLASH_STATUS_DETACHED, RetCode.E_NOT_OK,
            { s with bus := s.bus ++ readOps dev ic.REG_FLASH_STATUS 1 s.bus }) := by
    rw [hst]
    exact EVE_init_flash_wait_skip ic dev 0 _ _ _ h01
  have hdl : EVE_cmd_dl cfg ic.CMD_FLASHATTACH
      { s with bus := s.bus ++ readOps dev ic.REG_FLASH_STATUS 1 s.bus }
      = { s with bus := (s.bus ++ readOps dev ic.REG_FLASH_STATUS 1 s.bus
          ++ commandOps [ic.CMD_FLASHATTACH]) } := by
    have hburst1 : ({ s with bus := s.bus ++ readOps dev ic.REG_FLASH_STATUS 1 s.bus }
        : State).cmd_burst = 0 := hburst
    rw [EVE_cmd_dl_eq cfg _ _ hburst1]
  have main := fun fuel => EVE_init_flash_detached cfg ic dev fuel s _ _ hw hb2
    (fun h => h23 h.symm)
  simp only [hdl] at main
  refine ⟨?_, ?_, ?_⟩
  · intro fuel he
    rw [main fuel, he]
  · intro fuel s2 he
    refine ⟨?_, ?_, ?_, ?_⟩
    · intro hv
      rw [main fuel, he]
      simp only []
      rw [if_pos hv]
    · intro hv
      have hvb : ¬ (readValue dev ic.REG_FLASH_STATUS 1 s2.bus = ic.EVE_FLASH_STATUS_BASIC) := by
        rw [hv]; exact fun h => h23 h.symm
      rw [main fuel, he]
      simp only []
      rw [if_neg hvb, if_pos hv]
    · intro hvb hvf
      rw [main fuel, he]
      simp only []
      rw [if_neg hvb, if_neg hvf]
    · obtain ⟨tw, e, q, _⟩ := execute_silent cfg dev fuel _ s2 hc he
      refine ⟨tw, q, ?_, ?_⟩
      · rw [e]
        simp only [List.append_assoc]
      · have e2 : readOps dev ic.REG_FLASH_STATUS 1 s.bus
              ++ commandOps [ic.CMD_FLASHATTACH] ++ tw
              ++ readOps dev ic.REG_FLASH_STATUS 1 s2.bus
            = readOps dev ic.REG_FLASH_STATUS 1 s.bus
              ++ (commandOps [ic.CMD_FLASHATTACH]
                ++ (tw ++ readOps dev ic.REG_FLASH_STATUS 1 s2.bus)) := by
          simp only [List.append_assoc]
        rw [e2, silent_readOps dev _ 1 s.bus,
          fifoWrites_command_silent _ _ (silent_append q (silent_readOps _ _ _ _)),
          txBytes_command_one]
  · intro hd hi
    exact hd _ hi

/-- Witness for C18: a chip whose flash stays Detached after the attach command. -/
theorem flash_detached_attach_witness :
    (sampleConfig.recoveryAvoidsFifo ∧ sampleInit.flashCodes ∧ initialState.cmd_burst = 0 ∧
      readValue (scriptDevice 0x3025f0 0x308ff8 [1, 1] 0) sampleInit.REG_FLASH_STATUS 1
        initialState.bus = sampleInit.EVE_FLASH_STATUS_DETACHED) ∧
    (∀ fuel, EVE_execute_cmd sampleConfig (scriptDevice 0x3025f0 0x308ff8 [1, 1] 0) fuel
        { initialState with bus := (initialState.bus ++
          readOps (scriptDevice 0x3025f0 0x308ff8 [1, 1] 0) sampleInit.REG_FLASH_STATUS 1
            initialState.bus ++ commandOps [sampleInit.CMD_FLASHATTACH]) } = none →
      EVE_init_flash sampleConfig sampleInit (scriptDevice 0x3025f0 0x308ff8 [1, 1] 0) fuel
        initialState = none) :=
  ⟨⟨by unfold Config.recoveryAvoidsFifo; decide, by unfold InitConfig.flashCodes; decide,
      rfl, by decide⟩,
    (flash_detached_attach sampleConfig sampleInit (scriptDevice 0x3025f0 0x308ff8 [1, 1] 0)
      initialState (by unfold Config.recoveryAvoidsFifo; decide)
      (by unfold InitConfig.flashCodes; decide) rfl (by decide)).1⟩


/-! ## Claims: chip initialisation and its bounded waits -/

/-- C19: EVE_init returns E_OK exactly when wait_chipid and wait_reset both succeed (and
it does return then, on a chip whose FIFO drains).  If the wait for the chip id fails,
EVE_init returns EVE_FAIL_CHIPID_TIMEOUT in the state wait_chipid left: after the
power-up sequence the trace holds nothing but polls of the chip-id register, so the
reset register was not polled and no register was written.  If the wait for the reset
fails, it returns EVE_FAIL_RESET_TIMEOUT in the state wait_reset left: after the chip-id
polls the trace holds nothing but polls of the reset register, so no display parameter,
display list, pixel clock or backlight was written.  Each wait runs once, and the two
failure codes differ from each other and from E_OK. -/
theorem init_outcome (cfg : Config) (ic : InitConfig) (dev : Device) (s s0 : State)
    (h0 : s0 = { s with bus := s.bus ++ bootOps cfg ic }) :
    (∀ fuel ret s1, EVE_init cfg ic dev fuel s = some (ret, s1) →
      (ret = RetCode.E_OK ↔ (wait_chipid ic dev s0).1 = RetCode.E_OK ∧
        (wait_reset cfg dev (wait_chipid ic dev s0).2).1 = RetCode.E_OK)) ∧
    ((wait_chipid ic dev s0).1 ≠ RetCode.E_OK →
      ∀ fuel, EVE_init cfg ic dev fuel s
        = some (RetCode.EVE_FAIL_CHIPID_TIMEOUT, (wait_chipid ic dev s0).2)) ∧
    ((wait_chipid ic dev s0).2.bus = s.bus ++ bootOps cfg ic ++
        (pollUntil dev ic.REG_ID chipidGood 401 (s.bus ++ bootOps cfg ic)).2 ∧
      OnlyPolls ic.REG_ID (pollUntil dev ic.REG_ID chipidGood 401 (s.bus ++ bootOps cfg ic)).2) ∧
    ((wait_chipid ic dev s0).1 = RetCode.E_OK →
      (wait_reset cfg dev (wait_chipid ic dev s0).2).1 ≠ RetCode.E_OK →
      ∀ fuel, EVE_init cfg ic dev fuel s
        = some (RetCode.EVE_FAIL_RESET_TIMEOUT,
            (wait_reset cfg dev (wait_chipid ic dev s0).2).2)) ∧
    ((wait_reset cfg dev (wait_chipid ic dev s0).2).2.bus
        = (wait_chipid ic dev s0).2.bus ++
          (pollUntil dev cfg.REG_CPURESET resetGood 51 (wait_chipid ic dev s0).2.bus).2 ∧
      OnlyPolls cfg.REG_CPURESET
        (pollUntil dev cfg.REG_CPURESET resetGood 51 (wait_chipid ic dev s0).2.bus).2) ∧
    ((wait_chipid ic dev s0).1 = RetCode.E_OK →
      (wait_reset cfg dev (wait_chipid ic dev s0).2).1 = RetCode.E_OK →
      (∀ fuel ret s1, EVE_init cfg ic dev fuel s = some (ret, s1) →
        ∃ t, s1.bus = (wait_reset cfg dev (wait_chipid ic dev s0).2).2.bus ++ t) ∧
      (Drains cfg dev → (cfg.EVE_DMA = true → s.EVE_dma_busy = 0) →
        ∃ fuel s1, EVE_init cfg ic dev fuel s = some (RetCode.E_OK, s1))) ∧
    (RetCode.EVE_FAIL_CHIPID_TIMEOUT ≠ RetCode.E_OK ∧
      RetCode.EVE_FAIL_RESET_TIMEOUT ≠ RetCode.E_OK ∧
      RetCode.EVE_FAIL_CHIPID_TIMEOUT ≠ RetCode.EVE_FAIL_RESET_TIMEOUT) := by
  have hinit := fun fuel => EVE_init_eq cfg ic dev fuel s s0 h0
  have hchip := wait_chipid_eq ic dev s0
  have hres := wait_reset_eq cfg dev (wait_chipid ic dev s0).2
  have hc1 : (wait_chipid ic dev s0).1 ≠ RetCode.E_OK →
      (wait_chipid ic dev s0).1 = RetCode.EVE_FAIL_CHIPID_TIMEOUT := by
    intro hne
    rw [hchip] at hne ⊢
    by_cases hp : (pollUntil dev ic.REG_ID chipidGood 401 s0.bus).1 = true
    · simp only [hp, if_true] at hne
      exact absurd rfl hne
    · simp only [hp, if_false, Bool.false_eq_true]
  have hr1 : (wait_reset cfg dev (wait_chipid ic dev s0).2).1 ≠ RetCode.E_OK →
      (wait_reset cfg dev (wait_chipid ic dev s0).2).1 = RetCode.EVE_FAIL_RESET_TIMEOUT := by
    intro hne
    rw [hres] at hne ⊢
    by_cases hp : (pollUntil dev cfg.REG_CPURESET resetGood 51
        (wait_chipid ic dev s0).2.bus).1 = true
    · simp only [hp, if_true] at hne
      exact absurd rfl hne
    · simp only [hp, if_false, Bool.false_eq_true]
  refine ⟨?_, ?_, ?_, ?_, ?_, ?_, by decide, by decide, by decide⟩
  · intro fuel ret s1 h
    rw [hinit fuel] at h
    by_cases hc : RetCode.E_OK = (wait_chipid ic dev s0).1
    · by_cases hr : RetCode.E_OK = (wait_reset cfg dev (wait_chipid ic dev s0).2).1
      · rw [if_pos hc, if_pos hr] at h
        cases hs : EVE_init_setup cfg ic dev fuel
            (wait_reset cfg dev (wait_chipid ic dev s0).2).2 with
        | none => rw [hs] at h; cases h
        | some s2 =>
            rw [hs] at h
            simp only [Option.some.injEq, Prod.mk.injEq] at h
            rw [← h.1]
            exact ⟨fun _ => ⟨hc.symm, hr.symm⟩, fun _ => hr.symm⟩
      · rw [if_pos hc, if_neg hr, Option.some.injEq] at h
        have e : ret = (wait_reset cfg dev (wait_chipid ic dev s0).2).1 := by rw [h]
        rw [e]
        exact ⟨fun hx => absurd hx.symm hr, fun hx => absurd hx.2.symm hr⟩
    · rw [if_neg hc, Option.some.injEq] at h
      have e : ret = (wait_chipid ic dev s0).1 := by rw [h]
      rw [e]
      exact ⟨fun hx => absurd hx.symm hc, fun hx => absurd hx.1.symm hc⟩
  · intro hne fuel
    rw [hinit fuel, if_neg (fun h => hne h.symm), ← hc1 hne]
  · rw [hchip, h0]
    exact ⟨rfl, onlyPolls_pollUntil _ _ _ _ _⟩
  · intro hc hne fuel
    rw [hinit fuel, if_pos hc.symm, if_neg (fun h => hne h.symm), ← hr1 hne]
  · rw [hres]
    exact ⟨rfl, onlyPolls_pollUntil _ _ _ _ _⟩
  · intro hc hr
    refine ⟨?_, ?_⟩
    · intro fuel ret s1 h
      rw [hinit fuel, if_pos hc.symm, if_pos hr.symm] at h
      cases hs : EVE_init_setup cfg ic dev fuel
          (wait_reset cfg dev (wait_chipid ic dev s0).2).2 with
      | none => rw [hs] at h; cases h
      | some s2 =>
          rw [hs] at h
          simp only [Option.some.injEq, Prod.mk.injEq] at h
          rw [← h.2]
          exact (grows_init_setup cfg ic dev fuel _ s2 hs).1
    · intro hd hi
      have g1 : Grows s (wait_reset cfg dev (wait_chipid ic dev s0).2).2 := by
        rw [hres, hchip, h0]
        exact ⟨⟨_, by simp only [List.append_assoc]; rfl⟩, rfl⟩
      obtain ⟨fuel, s1, hs⟩ := EVE_init_setup_terminates cfg ic dev _ hd
        (grows_idle cfg g1 hi)
      refine ⟨fuel, s1, ?_⟩
      rw [hinit fuel, if_pos hc.symm, if_pos hr.symm, hs, hr]

/-- Witness for C19: a chip that answers every read with 0 never shows the chip id, and
one that answers every read with 0x7C shows it at once but never clears its reset bits:
initialisation fails with the code of the first wait, resp. of the second.  A chip that
shows the chip id, has its reset bits clear and reports an empty FIFO is initialised
with E_OK. -/
theorem init_outcome_witness :
    ((wait_chipid sampleInit (constDevice 0)
        { initialState with bus := initialState.bus ++ bootOps sampleConfig sampleInit }).1
      ≠ RetCode.E_OK ∧
      (EVE_init sampleConfig sampleInit (constDevice 0) 0 initialState).map Prod.fst
        = some RetCode.EVE_FAIL_CHIPID_TIMEOUT) ∧
    (((wait_chipid sampleInit (constDevice 0x7C)
        { initialState with bus := initialState.bus ++ bootOps sampleConfig sampleInit }).1
      = RetCode.E_OK ∧
      (wait_reset sampleConfig (constDevice 0x7C)
        (wait_chipid sampleInit (constDevice 0x7C)
          { initialState with
            bus := initialState.bus ++ bootOps sampleConfig sampleInit }).2).1
      ≠ RetCode.E_OK) ∧
      (EVE_init sampleConfig sampleInit (constDevice 0x7C) 0 initialState).map Prod.fst
        = some RetCode.EVE_FAIL_RESET_TIMEOUT) ∧
    (((wait_chipid sampleInit healthyChip
        { initialState with bus := initialState.bus ++ bootOps sampleConfig sampleInit }).1
      = RetCode.E_OK ∧
      (wait_reset sampleConfig healthyChip
        (wait_chipid sampleInit healthyChip
          { initialState with
            bus := initialState.bus ++ bootOps sampleConfig sampleInit }).2).1
      = RetCode.E_OK ∧
      Drains sampleConfig healthyChip ∧
      (sampleConfig.EVE_DMA = true → initialState.EVE_dma_busy = 0)) ∧
      ∃ fuel s1, EVE_init sampleConfig sampleInit healthyChip fuel initialState
        = some (RetCode.E_OK, s1)) := by
  have a1 : (wait_chipid sampleInit (constDevice 0)
      { initialState with bus := initialState.bus ++ bootOps sampleConfig sampleInit }).1
      ≠ RetCode.E_OK := by
    rw [wait_chipid_eq, pollUntil_never _ _ _ (fun h => by
      rw [pollValue_constDevice]; rfl)]
    decide
  have b1 : (wait_chipid sampleInit (constDevice 0x7C)
      { initialState with bus := initialState.bus ++ bootOps sampleConfig sampleInit }).1
      = RetCode.E_OK := by
    rw [wait_chipid_eq, pollUntil_good _ _ _ _ _ (by rw [pollValue_constDevice]; rfl)]
    rfl
  have b2 : (wait_reset sampleConfig (constDevice 0x7C)
      (wait_chipid sampleInit (constDevice 0x7C)
        { initialState with
          bus := initialState.bus ++ bootOps sampleConfig sampleInit }).2).1
      ≠ RetCode.E_OK := by
    rw [wait_reset_eq, pollUntil_never _ _ _ (fun h => by
      rw [pollValue_constDevice]; rfl)]
    decide
  have c1 : (wait_chipid sampleInit healthyChip
      { initialState with bus := initialState.bus ++ bootOps sampleConfig sampleInit }).1
      = RetCode.E_OK := by
    rw [wait_chipid_eq, pollUntil_good _ _ _ _ _ (by
      rw [pollValue, healthyChip, scriptDevice_result _ _ _ _ _ (by decide)]; rfl)]
    rfl
  have c2 : (wait_reset sampleConfig healthyChip
      (wait_chipid sampleInit healthyChip
        { initialState with
          bus := initialState.bus ++ bootOps sampleConfig sampleInit }).2).1
      = RetCode.E_OK := by
    rw [wait_reset_eq, pollUntil_good _ _ _ _ _ (by
      rw [pollValue, healthyChip, scriptDevice_empty]; rfl)]
    rfl
  have c3 : Drains sampleConfig healthyChip :=
    drains_scriptDevice sampleConfig _ _ _ _ (by decide) (by decide)
  refine ⟨⟨a1, ?_⟩, ⟨⟨b1, b2⟩, ?_⟩, ⟨c1, c2, c3, fun _ => rfl⟩, ?_⟩
  · rw [(init_outcome sampleConfig sampleInit (constDevice 0) initialState _ rfl).2.1 a1 0]
    rfl
  · rw [(init_outcome sampleConfig sampleInit (constDevice 0x7C) initialState _ rfl).2.2.2.1
      b1 b2 0]
    rfl
  · exact ((init_outcome sampleConfig sampleInit healthyChip initialState _
      rfl).2.2.2.2.2.1 c1 c2).2 c3 (fun _ => rfl)

/-- Counterexample for C20: the waits poll once more than the stated counts.  A chip
whose id first reads 0x7C on the 401st poll is accepted by wait_chipid, after 401 reads;
a chip that never answers is read 401 times by wait_chipid and 51 times by wait_reset;
and a flash status stuck in Init is read 102 times by EVE_init_flash, with 101 delays. -/
theorem bounded_waits_extra_poll :
    ((wait_chipid sampleInit lateChip initialState).1 = RetCode.E_OK ∧
      countReads sampleInit.REG_ID (wait_chipid sampleInit lateChip initialState).2.bus
        = 401) ∧
    ((wait_chipid sampleInit (constDevice 0) initialState).1
        = RetCode.EVE_FAIL_CHIPID_TIMEOUT ∧
      countReads sampleInit.REG_ID
        (wait_chipid sampleInit (constDevice 0) initialState).2.bus = 401) ∧
    ((wait_reset sampleConfig (constDevice 7) initialState).1
        = RetCode.EVE_FAIL_RESET_TIMEOUT ∧
      countReads sampleConfig.REG_CPURESET
        (wait_reset sampleConfig (constDevice 7) initialState).2.bus = 51) ∧
    (EVE_init_flash sampleConfig sampleInit (constDevice 0) 0 initialState).map
        (fun x => (x.1, countReads sampleInit.REG_FLASH_STATUS x.2.bus, countDelays x.2.bus))
      = some (RetCode.EVE_FAIL_FLASH_STATUS_INIT, 102, 101) := by
  refine ⟨?_, ?_, ?_, ?_⟩
  · obtain ⟨a1, a2⟩ := pollUntil_late_accept sampleInit.REG_ID 401 0 0x7C chipidGood
      rfl rfl 401 initialState.bus rfl (by decide) (by decide)
    rw [lateChip, wait_chipid_eq]
    exact ⟨by rw [if_pos a1], by
      show countReads sampleInit.REG_ID (initialState.bus ++ _) = 401
      rw [countReads_append, a2]; rfl⟩
  · obtain ⟨a1, a2⟩ := pollUntil_never_counts (constDevice 0) sampleInit.REG_ID chipidGood
      (fun h => by rw [pollValue_constDevice]; rfl) 401 initialState.bus
    rw [wait_chipid_eq]
    exact ⟨by rw [a1]; rfl, by
      show countReads sampleInit.REG_ID (initialState.bus ++ _) = 401
      rw [countReads_append, a2]; rfl⟩
  · obtain ⟨a1, a2⟩ := pollUntil_never_counts (constDevice 7) sampleConfig.REG_CPURESET
      resetGood (fun h => by rw [pollValue_constDevice]; rfl) 51 initialState.bus
    rw [wait_reset_eq]
    exact ⟨by rw [a1]; rfl, by
      show countReads sampleConfig.REG_CPURESET (initialState.bus ++ _) = 51
      rw [countReads_append, a2]; rfl⟩
  · obtain ⟨c1, c2, _⟩ := statusPolls_counts (constDevice 0) sampleInit.REG_FLASH_STATUS 101
      (initialState.bus ++
        readOps (constDevice 0) sampleInit.REG_FLASH_STATUS 1 initialState.bus)
    rw [EVE_init_flash_stuck sampleConfig sampleInit (constDevice 0) initialState 0
      (by unfold InitConfig.flashCodes; decide)
      (fun h => readValue_one_constDevice 0 _ h)]
    simp only [Option.map_some', Option.some.injEq, Prod.mk.injEq, true_and]
    constructor
    · show countReads sampleInit.REG_FLASH_STATUS
        (initialState.bus ++ readOps _ sampleInit.REG_FLASH_STATUS 1 _ ++ _) = 102
      rw [countReads_append, countReads_append, countReads_readOps, c2]; rfl
    · show countDelays
        (initialState.bus ++ readOps _ sampleInit.REG_FLASH_STATUS 1 _ ++ _) = 101
      rw [countDelays_append, countDelays_append, countDelays_readOps, c1]; rfl

/-- C20 (amended): the bounded waits are bounded by one poll more than the constants in
their tests.  wait_chipid polls the chip-id register up to 401 times and wait_reset the
reset register up to 51 times, each poll 1 ms of delay followed by one read, stopping at
the first good value: they make at least one and at most 401 (51) reads, exactly that
many when they fail, and a good value that first appears on the last poll is accepted.
The wait of EVE_init_flash follows the first read of the status with up to 101 polls
(one read followed by 1 ms of delay) while the status is Init; it reports the Init
time-out exactly when it made all 101, and when it made fewer the status has left Init. -/
theorem bounded_waits_counts (cfg : Config) (ic : InitConfig) (dev : Device) (s : State) :
    wait_chipid ic dev s
      = (if (pollUntil dev ic.REG_ID chipidGood 401 s.bus).1 = true then RetCode.E_OK
          else RetCode.EVE_FAIL_CHIPID_TIMEOUT,
        { s with bus := s.bus ++ (pollUntil dev ic.REG_ID chipidGood 401 s.bus).2 }) ∧
    wait_reset cfg dev s
      = (if (pollUntil dev cfg.REG_CPURESET resetGood 51 s.bus).1 = true then RetCode.E_OK
          else RetCode.EVE_FAIL_RESET_TIMEOUT,
        { s with bus := s.bus ++ (pollUntil dev cfg.REG_CPURESET resetGood 51 s.bus).2 }) ∧
    (∀ (addr : Nat) (good : Nat → Bool) (n : Nat) (h : List BusOp),
      countReads addr (pollUntil dev addr good n h).2 ≤ n ∧
      countDelays (pollUntil dev addr good n h).2
        = countReads addr (pollUntil dev addr good n h).2 ∧
      ((pollUntil dev addr good n h).1 = false →
        countReads addr (pollUntil dev addr good n h).2 = n) ∧
      (0 < n → 1 ≤ countReads addr (pollUntil dev addr good n h).2)) ∧
    (∀ (addr : Nat) (good : Nat → Bool) (n : Nat) (h : List BusOp),
      (pollUntil dev addr good n h).1 = false →
      good (pollValue dev addr (h ++ (pollUntil dev addr good n h).2)) = true →
      (pollUntil dev addr good (n + 1) h).1 = true ∧
      countReads addr (pollUntil dev addr good (n + 1) h).2 = n + 1) ∧
    (∀ (status : Nat) (ret : RetCode),
      EVE_init_flash_wait ic dev 0 status ret s
        = ((statusPollsWhile dev ic.REG_FLASH_STATUS ic.EVE_FLASH_STATUS_INIT 101
              status s.bus).1,
            if countDelays (statusPollsWhile dev ic.REG_FLASH_STATUS
                ic.EVE_FLASH_STATUS_INIT 101 status s.bus).2 = 101
              then RetCode.EVE_FAIL_FLASH_STATUS_INIT else ret,
            { s with bus := s.bus ++ (statusPollsWhile dev ic.REG_FLASH_STATUS
                ic.EVE_FLASH_STATUS_INIT 101 status s.bus).2 })) ∧
    (∀ (n status : Nat) (h : List BusOp),
      countDelays (statusPollsWhile dev ic.REG_FLASH_STATUS ic.EVE_FLASH_STATUS_INIT n
        status h).2 ≤ n ∧
      countReads ic.REG_FLASH_STATUS (statusPollsWhile dev ic.REG_FLASH_STATUS
        ic.EVE_FLASH_STATUS_INIT n status h).2
        = countDelays (statusPollsWhile dev ic.REG_FLASH_STATUS ic.EVE_FLASH_STATUS_INIT n
            status h).2 ∧
      (countDelays (statusPollsWhile dev ic.REG_FLASH_STATUS ic.EVE_FLASH_STATUS_INIT n
          status h).2 < n →
        (statusPollsWhile dev ic.REG_FLASH_STATUS ic.EVE_FLASH_STATUS_INIT n status h).1
          ≠ ic.EVE_FLASH_STATUS_INIT)) := by
  refine ⟨wait_chipid_eq ic dev s, wait_reset_eq cfg dev s,
    fun addr good n h => pollUntil_counts dev addr good n h,
    fun addr good n h hf hg => pollUntil_accept_last dev addr good n h hf hg,
    fun status ret => EVE_init_flash_wait_eq ic dev ret 100 0 status s rfl, ?_⟩
  intro n status h
  obtain ⟨i1, i2, _, i4⟩ := statusPollsWhile_counts dev ic.REG_FLASH_STATUS
    ic.EVE_FLASH_STATUS_INIT n status h
  exact ⟨i1, i2, i4⟩

/-- Witness for C20: a chip whose reset bits first read clear on the 51st poll: the first
50 polls of wait_reset fail, the 51st is accepted. -/
theorem bounded_waits_counts_witness :
    ((pollUntil lateReset sampleConfig.REG_CPURESET resetGood 50 initialState.bus).1
        = false ∧
      resetGood (pollValue lateReset sampleConfig.REG_CPURESET (initialState.bus ++
        (pollUntil lateReset sampleConfig.REG_CPURESET resetGood 50 initialState.bus).2))
        = true) ∧
    ((pollUntil lateReset sampleConfig.REG_CPURESET resetGood 51 initialState.bus).1
        = true ∧
      countReads sampleConfig.REG_CPURESET
        (pollUntil lateReset sampleConfig.REG_CPURESET resetGood 51 initialState.bus).2
        = 51) := by
  obtain ⟨i1, i2⟩ := pollUntil_lateDevice sampleConfig.REG_CPURESET 51 7 0 resetGood rfl 50
    initialState.bus (by decide)
  have hg : resetGood (pollValue lateReset sampleConfig.REG_CPURESET (initialState.bus ++
      (pollUntil lateReset sampleConfig.REG_CPURESET resetGood 50 initialState.bus).2))
      = true := by
    rw [lateReset, pollValue_lateDevice, i2]
    rfl
  exact ⟨⟨i1, hg⟩, (bounded_waits_counts sampleConfig sampleInit lateReset
    initialState).2.2.2.1 sampleConfig.REG_CPURESET resetGood 50 initialState.bus i1 hg⟩

/-! ## Claims: readback offsets, burst entry and the wait loop -/

/-- C25: for every 16-bit write-pointer value w and every distance k in
{4, 8, 12, 16, 20, 24}, the Command-RAM offset of a result word, `(w - k) & 0xfff`
computed in 32-bit unsigned arithmetic, equals (w - k) mod 4096 and is below 4096, also
when w < k; the 16-bit sequence `w -= 4; w &= 0x0fff` gives the same offset as the
32-bit idiom at distance 4; and EVE_cmd_flashfast (16-bit idiom), EVE_cmd_getimage and
EVE_cmd_getmatrix (32-bit idiom) read their result words at the Command-RAM base plus
these offsets, behind the write pointer they have just read. -/
theorem result_offset_wraps (w k : Nat) (_ : w < 65536)
    (hk : k ∈ [4, 8, 12, 16, 20, 24]) :
    ((result_offset w k : Nat) : Int) = ((w : Int) - (k : Int)) % 4096 ∧
    result_offset w k < 4096 ∧
    ((w + 65536 - 4) % 65536) &&& 0x0fff = result_offset w 4 ∧
    (∀ (cfg : Config) (ic : InitConfig) (dev : Device) (fuel : Nat) (s : State),
      EVE_cmd_flashfast cfg ic dev fuel s =
        (EVE_execute_cmd cfg dev fuel
          { s with bus := s.bus ++ commandOps [ic.CMD_FLASHFAST, 0] }).map
          (fun s1 =>
            EVE_memRead32 dev
              ((ic.EVE_RAM_CMD + ringOffset (readValue dev cfg.REG_CMD_WRITE 2 s1.bus) 4)
                % 2 ^ 32)
              { s1 with bus := s1.bus ++ readOps dev cfg.REG_CMD_WRITE 2 s1.bus })) ∧
    (∀ (cfg : Config) (ic : InitConfig) (cc : CmdConfig) (dev : Device) (fuel : Nat)
        (s : State),
      EVE_cmd_getimage cfg ic cc dev fuel true true true true true s =
        (EVE_execute_cmd cfg dev fuel
          { s with bus := s.bus ++ commandOps [cc.CMD_GETIMAGE, 0, 0, 0, 0, 0] }).map
          (fun s1 =>
            (((wordValues dev
                (resultAddrs ic.EVE_RAM_CMD (readValue dev cfg.REG_CMD_WRITE 2 s1.bus)
                  [4, 8, 12, 16, 20])
                (s1.bus ++ readOps dev cfg.REG_CMD_WRITE 2 s1.bus)).map some).reverse,
              { s1 with bus := (s1.bus ++ readOps dev cfg.REG_CMD_WRITE 2 s1.bus ++
                  wordReads dev
                    (resultAddrs ic.EVE_RAM_CMD (readValue dev cfg.REG_CMD_WRITE 2 s1.bus)
                      [4, 8, 12, 16, 20])
                    (s1.bus ++ readOps dev cfg.REG_CMD_WRITE 2 s1.bus)) }))) ∧
    (∀ (cfg : Config) (ic : InitConfig) (cc : CmdConfig) (dev : Device) (fuel : Nat)
        (s : State), s.cmd_burst = 0 →
      EVE_cmd_getmatrix cfg ic cc dev fuel true true true true true true s =
        (EVE_execute_cmd cfg dev fuel
          { s with bus := s.bus ++ commandOps [cc.CMD_GETMATRIX, 0, 0, 0, 0, 0, 0] }).map
          (fun s1 =>
            (((wordValues dev
                (resultAddrs ic.EVE_RAM_CMD (readValue dev cfg.REG_CMD_WRITE 2 s1.bus)
                  [4, 8, 12, 16, 20, 24])
                (s1.bus ++ readOps dev cfg.REG_CMD_WRITE 2 s1.bus)).map
                  (fun (v : Nat) => some (to_int32 (v : Int)))).reverse,
              { s1 with bus := (s1.bus ++ readOps dev cfg.REG_CMD_WRITE 2 s1.bus ++
                  wordReads dev
                    (resultAddrs ic.EVE_RAM_CMD (readValue dev cfg.REG_CMD_WRITE 2 s1.bus)
                      [4, 8, 12, 16, 20, 24])
                    (s1.bus ++ readOps dev cfg.REG_CMD_WRITE 2 s1.bus)) }))) := by
  have hk32 : k ≤ 2 ^ 32 := by
    simp only [List.mem_cons, List.mem_singleton, List.mem_nil_iff, or_false] at hk
    have h32 : (2 : Nat) ^ 32 = 4294967296 := by decide
    rw [h32]
    omega
  refine ⟨?_, ?_, ?_, EVE_cmd_flashfast_offset, EVE_cmd_getimage_reads,
    EVE_cmd_getmatrix_reads⟩
  · rw [result_offset_eq w k hk32]
    unfold ringOffset
    omega
  · rw [result_offset_eq w k hk32]
    exact ringOffset_lt w k
  · rw [offset16_eq, result_offset_eq w 4 (by decide)]

/-- Witness for C25: a write pointer at 2 with the result word 4 bytes behind it wraps to
offset 4094, in both idioms. -/
theorem result_offset_wraps_witness :
    (2 : Nat) < 65536 ∧ 4 ∈ [4, 8, 12, 16, 20, 24] ∧
    ((result_offset 2 4 : Nat) : Int) = (((2 : Nat) : Int) - ((4 : Nat) : Int)) % 4096 ∧
    result_offset 2 4 = 4094 ∧
    ((2 + 65536 - 4) % 65536) &&& 0x0fff = result_offset 2 4 :=
  ⟨by decide, by decide,
    (result_offset_wraps 2 4 (by decide) (by decide)).1,
    by decide,
    (result_offset_wraps 2 4 (by decide) (by decide)).2.2.1⟩

/-- C26: when EVE_start_cmd_burst is entered while a DMA transfer is in flight (build
with EVE_DMA, EVE_dma_busy nonzero), it drains first.  Taken statement by statement, a
call that returns passes through the steps of the wait EVE_execute_cmd, in each of which
cmd_burst, EVE_dma_buffer and EVE_dma_buffer_index are those of the entry, the last of
them a poll made with no DMA transfer in flight that reported Ok, and only then through
the three stores, in program order: cmd_burst, EVE_dma_buffer[0], EVE_dma_buffer_index.
So every state of the call in which one of the three differs from the entry comes after
a poll made with no transfer in flight that reported Ok.  The state returned is the last
of these steps: the mode is Burst (cmd_burst nonzero), EVE_dma_buffer[0] is 0x7825B000
and the buffer index is 1.  The call does return once the transfer has completed on a
chip whose FIFO drains, and it does not while the transfer stays in flight. -/
theorem start_burst_drains_first (cfg : Config) (dev : Device) (irq fuel : Nat) (s : State)
    (hd : cfg.EVE_DMA = true) (hb : s.EVE_dma_busy ≠ 0) :
    EVE_start_cmd_burst cfg dev irq fuel s
      = (EVE_start_cmd_burst_steps cfg dev irq fuel s).map (fun l => l.getLastD s) ∧
    (∀ l, EVE_start_cmd_burst_steps cfg dev irq fuel s = some l →
      ∃ wait s0 s1,
        EVE_execute_cmd_irq_steps cfg dev irq fuel s = some wait ∧
        wait = waitStates cfg dev irq fuel s ∧
        EVE_execute_cmd_irq cfg dev irq fuel s = some s1 ∧
        wait.getLast? = some s1 ∧
        (∀ x ∈ wait, BurstUntouched s x) ∧
        s0 ∈ wait ∧ s0.EVE_dma_busy = 0 ∧ EVE_busy cfg dev s0 = (RetCode.E_OK, s1) ∧
        l = wait ++
          [{ s1 with cmd_burst := 42 },
            { s1 with cmd_burst := 42, EVE_dma_buffer := s1.EVE_dma_buffer.set 0 0x7825B000 },
            { s1 with
              cmd_burst := 42
              EVE_dma_buffer := s1.EVE_dma_buffer.set 0 0x7825B000
              EVE_dma_buffer_index := 1 }]) ∧
    (∀ l pre post x, EVE_start_cmd_burst_steps cfg dev irq fuel s = some l →
      l = pre ++ x :: post → ¬ BurstUntouched s x →
      ∃ s0 s1, s0 ∈ pre ∧ s1 ∈ pre ∧ s0.EVE_dma_busy = 0 ∧
        EVE_busy cfg dev s0 = (RetCode.E_OK, s1)) ∧
    (∀ n, ∀ x ∈ waitStates cfg dev irq n s, BurstUntouched s x) ∧
    (∀ s2, EVE_start_cmd_burst cfg dev irq fuel s = some s2 →
      s2.cmd_burst = 42 ∧ s2.cmd_burst ≠ 0 ∧ s2.EVE_dma_buffer_index = 1 ∧
      s2.EVE_dma_buffer = s.EVE_dma_buffer.set 0 0x7825B000 ∧
      (s.EVE_dma_buffer ≠ [] → s2.EVE_dma_buffer.head? = some 0x7825B000)) ∧
    (Drains cfg dev → ∃ fuel1 s2, EVE_start_cmd_burst cfg dev irq fuel1 s = some s2) ∧
    (fuel < irq → EVE_start_cmd_burst cfg dev irq fuel s = none) := by
  have hshape : ∀ l, EVE_start_cmd_burst_steps cfg dev irq fuel s = some l →
      ∃ wait s0 s1,
        EVE_execute_cmd_irq_steps cfg dev irq fuel s = some wait ∧
        wait = waitStates cfg dev irq fuel s ∧
        EVE_execute_cmd_irq cfg dev irq fuel s = some s1 ∧
        wait.getLast? = some s1 ∧
        (∀ x ∈ wait, BurstUntouched s x) ∧
        s0 ∈ wait ∧ s0.EVE_dma_busy = 0 ∧ EVE_busy cfg dev s0 = (RetCode.E_OK, s1) ∧
        l = wait ++
          [{ s1 with cmd_burst := 42 },
            { s1 with cmd_burst := 42, EVE_dma_buffer := s1.EVE_dma_buffer.set 0 0x7825B000 },
            { s1 with
              cmd_burst := 42
              EVE_dma_buffer := s1.EVE_dma_buffer.set 0 0x7825B000
              EVE_dma_buffer_index := 1 }] := by
    intro l h
    rw [EVE_start_cmd_burst_steps_busy cfg dev irq fuel s hd hb] at h
    cases he : EVE_execute_cmd_irq cfg dev irq fuel s with
    | none => rw [he] at h; exact absurd h (by simp)
    | some s1 =>
        rw [he, Option.map_some', Option.some.injEq] at h
        obtain ⟨hl, ⟨s0, hm, hi, hok⟩, _⟩ := execute_irq_last cfg dev irq fuel s s1 hd hb he
        refine ⟨waitStates cfg dev irq fuel s, s0, s1, ?_, rfl, rfl, hl,
          untouched_waitStates cfg dev irq fuel s, hm, hi, hok, h.symm⟩
        rw [EVE_execute_cmd_irq_steps_eq, he]
        rfl
  refine ⟨EVE_start_cmd_burst_last cfg dev irq fuel s, hshape, ?_,
    fun n => untouched_waitStates cfg dev irq n s, ?_, ?_, ?_⟩
  · intro l pre post x h hsplit hx
    obtain ⟨wait, s0, s1, _, _, _, hl, hu, hm, hi, hok, hlist⟩ := hshape l h
    have hnot : x ∉ wait := fun hmem => hx (hu x hmem)
    have hpre := mem_prefix_of_split wait pre post _ x (hlist.symm.trans hsplit) hnot
    exact ⟨s0, s1, hpre s0 hm, hpre s1 (List.mem_of_getLast?_eq_some hl), hi, hok⟩
  · intro s2 h
    obtain ⟨h1, h2, h3⟩ := EVE_start_cmd_burst_header cfg dev irq fuel s s2 hd h
    refine ⟨h3, by rw [h3]; exact (by decide : (42 : Nat) ≠ 0), h2, h1, ?_⟩
    intro hne
    rw [h1]
    exact head_set_zero _ _ hne
  · intro hdr
    obtain ⟨f, s1, he⟩ := hdr (eve_spi_post_transfer_callback cfg s)
      (fun h => callback_idle cfg s h)
    refine ⟨irq + f, { s1 with
      cmd_burst := 42
      EVE_dma_buffer := s1.EVE_dma_buffer.set 0 0x7825B000
      EVE_dma_buffer_index := 1 }, ?_⟩
    rw [EVE_start_cmd_burst_busy cfg dev irq (irq + f) s hd hb,
      execute_irq_eq cfg dev hd irq (irq + f) s hb, if_neg (by omega),
      Nat.add_sub_cancel_left, he]
    rfl
  · intro hlt
    rw [EVE_start_cmd_burst_busy cfg dev irq fuel s hd hb,
      execute_irq_eq cfg dev hd irq fuel s hb, if_pos hlt]
    rfl

set_option maxRecDepth 1000000 in
/-- Witness for C26: with a transfer in flight that completes after two polls, on a chip
whose FIFO reads empty.  The call passes through two polls that see the transfer in
flight, the completion, the poll that reports Ok, and then the three stores; cmd_burst,
the head of EVE_dma_buffer and the buffer index change only in the last three steps.
With fuel for one poll only, the call does not return. -/
theorem start_burst_drains_first_witness :
    sampleConfig.EVE_DMA = true ∧ ({ initialState with EVE_dma_busy := 42 }).EVE_dma_busy ≠ 0 ∧
    (EVE_start_cmd_burst_steps sampleConfig (constDevice 0xFFC) 2 3
        { initialState with EVE_dma_busy := 42 }).map
      (fun l => l.map (fun x =>
        (x.EVE_dma_busy, x.cmd_burst, x.EVE_dma_buffer.head?, x.EVE_dma_buffer_index)))
      = some [(42, 0, some 0, 0), (42, 0, some 0, 0), (0, 0, some 0, 0), (0, 0, some 0, 0),
          (0, 42, some 0, 0), (0, 42, some 0x7825B000, 0), (0, 42, some 0x7825B000, 1)] ∧
    EVE_start_cmd_burst sampleConfig (constDevice 0xFFC) 2 3
        { initialState with EVE_dma_busy := 42 }
      = (EVE_start_cmd_burst_steps sampleConfig (constDevice 0xFFC) 2 3
          { initialState with EVE_dma_busy := 42 }).map
        (fun l => l.getLastD { initialState with EVE_dma_busy := 42 }) ∧
    (∃ fuel1 s2, EVE_start_cmd_burst sampleConfig (constDevice 0xFFC) 2 fuel1
      { initialState with EVE_dma_busy := 42 } = some s2) ∧
    EVE_start_cmd_burst sampleConfig (constDevice 0xFFC) 2 1
      { initialState with EVE_dma_busy := 42 } = none :=
  ⟨rfl, by decide, by decide,
    (start_burst_drains_first sampleConfig (constDevice 0xFFC) 2 3
      { initialState with EVE_dma_busy := 42 } rfl (by decide)).1,
    (start_burst_drains_first sampleConfig (constDevice 0xFFC) 2 1
      { initialState with EVE_dma_busy := 42 } rfl (by decide)).2.2.2.2.2.1
      (drains_constDevice sampleConfig),
    (start_burst_drains_first sampleConfig (constDevice 0xFFC) 2 1
      { initialState with EVE_dma_busy := 42 } rfl (by decide)).2.2.2.2.2.2 (by decide)⟩

/-- C28: EVE_execute_cmd loops EVE_busy until Ok.  With no DMA transfer in flight and a
chip that shows the free-space values seq 0, seq 1, .. to the successive polls: if the
first 0xFFC is at position k, the wait returns as soon as it is allowed k+1 polls (and
not with fewer), having made exactly k+1 reads of the free-space register, each of the k
earlier ones followed by the fault-recovery sequence exactly when its value has a nonzero
low two bits (so the recoveries, each with its one 10 ms delay, number as many as those
values), the last one followed by nothing; the sticky fault flag is set exactly when
there was such a value; and if no value of the sequence equals 0xFFC the wait returns
for no number of polls. -/
theorem execute_cmd_polls (cfg : Config) (dev : Device) (seq : Nat → Nat) (s : State)
    (hi : cfg.EVE_DMA = true → s.EVE_dma_busy = 0) (hp : cfg.patchApart)
    (hs : ShowsSpace cfg dev s.bus seq) :
    (∀ k, seq k = 0xFFC → (∀ i < k, seq i ≠ 0xFFC) →
      (∀ fuel, EVE_execute_cmd cfg dev fuel s =
        if fuel ≤ k then none
        else some { s with
          bus := s.bus ++ spaceWaitOps cfg dev seq (k + 1) s.bus
          fault_recovered :=
            (if faultCount seq k = 0 then s.fault_recovered
              else RetCode.EVE_FAULT_RECOVERED) }) ∧
      countReads cfg.REG_CMDB_SPACE (spaceWaitOps cfg dev seq (k + 1) s.bus) = k + 1 ∧
      countDelays (spaceWaitOps cfg dev seq (k + 1) s.bus) = faultCount seq k) ∧
    ((∀ i, seq i ≠ 0xFFC) → ∀ fuel, EVE_execute_cmd cfg dev fuel s = none) := by
  refine ⟨fun k hk hlt => ⟨execute_seq cfg dev hp k seq s hi hs hk hlt,
    countReads_spaceWaitOps cfg dev hp (k + 1) seq s.bus, ?_⟩,
    fun hn fuel => execute_never cfg dev hp fuel seq s hi hs hn⟩
  rw [countDelays_spaceWaitOps, faultCount, faultCount, List.range_succ, List.filter_append]
  have h3 : (0xFFC : Nat) &&& 3 = 0 := by decide
  simp [hk, h3]

/-- Witness for C28: a chip that shows 0x800, then the fault signature 0xFFD, then 0xFFC:
the wait returns on the third poll and not before, after three reads of the free-space
register and one recovery. -/
theorem execute_cmd_polls_witness :
    (sampleConfig.EVE_DMA = true → initialState.EVE_dma_busy = 0) ∧
    sampleConfig.patchApart ∧
    ShowsSpace sampleConfig (seqDevice sampleConfig.REG_CMDB_SPACE sampleSpace)
      initialState.bus sampleSpace ∧
    EVE_execute_cmd sampleConfig (seqDevice sampleConfig.REG_CMDB_SPACE sampleSpace) 2
      initialState = none ∧
    EVE_execute_cmd sampleConfig (seqDevice sampleConfig.REG_CMDB_SPACE sampleSpace) 3
      initialState = some { initialState with
        bus := (initialState.bus ++ spaceWaitOps sampleConfig
          (seqDevice sampleConfig.REG_CMDB_SPACE sampleSpace) sampleSpace 3 initialState.bus)
        fault_recovered := RetCode.EVE_FAULT_RECOVERED } ∧
    countReads sampleConfig.REG_CMDB_SPACE (spaceWaitOps sampleConfig
      (seqDevice sampleConfig.REG_CMDB_SPACE sampleSpace) sampleSpace 3 initialState.bus) = 3 ∧
    countDelays (spaceWaitOps sampleConfig
      (seqDevice sampleConfig.REG_CMDB_SPACE sampleSpace) sampleSpace 3 initialState.bus) = 1 :=
  ⟨fun _ => rfl, fun _ => by decide,
    showsSpace_seqDevice sampleConfig sampleSpace sampleSpace_lt,
    (((execute_cmd_polls sampleConfig (seqDevice sampleConfig.REG_CMDB_SPACE sampleSpace)
      sampleSpace initialState (fun _ => rfl) (fun _ => by decide)
      (showsSpace_seqDevice sampleConfig sampleSpace sampleSpace_lt)).1 2 rfl
      sampleSpace_before).1 2).trans (if_pos (by decide)),
    (((execute_cmd_polls sampleConfig (seqDevice sampleConfig.REG_CMDB_SPACE sampleSpace)
      sampleSpace initialState (fun _ => rfl) (fun _ => by decide)
      (showsSpace_seqDevice sampleConfig sampleSpace sampleSpace_lt)).1 2 rfl
      sampleSpace_before).1 3).trans (if_neg (by decide)),
    ((execute_cmd_polls sampleConfig (seqDevice sampleConfig.REG_CMDB_SPACE sampleSpace)
      sampleSpace initialState (fun _ => rfl) (fun _ => by decide)
      (showsSpace_seqDevice sampleConfig sampleSpace sampleSpace_lt)).1 2 rfl
      sampleSpace_before).2.1,
    ((execute_cmd_polls sampleConfig (seqDevice sampleConfig.REG_CMDB_SPACE sampleSpace)
      sampleSpace initialState (fun _ => rfl) (fun _ => by decide)
      (showsSpace_seqDevice sampleConfig sampleSpace sampleSpace_lt)).1 2 rfl
      sampleSpace_before).2.2⟩

/-- C30: wait_reset checks exactly the three low bits of the reset status.  With a chip
that shows the values seq 0, seq 1, .. to the successive polls of the reset register: if
position k, within the 51 polls of the wait, holds the first value r with r & 7 = 0, then
wait_reset returns E_OK after exactly k+1 polls (each a 1 ms delay and one read),
whatever bits 3..7 of r are, the earlier values, each with one of the three low bits set,
not having counted as success whatever their upper bits; and if each of the first 51
values has one of the three low bits set, it returns EVE_FAIL_RESET_TIMEOUT after 51
polls.  The test of a value depends on its three low bits only. -/
theorem wait_reset_low_bits (cfg : Config) (dev : Device) (s : State) (seq : Nat → Nat)
    (hs : ShowsPolls dev cfg.REG_CPURESET s.bus seq) :
    (∀ k, k < 51 → seq k &&& 7 = 0 → (∀ i < k, seq i &&& 7 ≠ 0) →
      ∃ t, wait_reset cfg dev s = (RetCode.E_OK, { s with bus := s.bus ++ t }) ∧
        countReads cfg.REG_CPURESET t = k + 1 ∧ countDelays t = k + 1) ∧
    ((∀ i < 51, seq i &&& 7 ≠ 0) →
      ∃ t, wait_reset cfg dev s =
          (RetCode.EVE_FAIL_RESET_TIMEOUT, { s with bus := s.bus ++ t }) ∧
        countReads cfg.REG_CPURESET t = 51) ∧
    (∀ r, resetGood r = resetGood (r % 8)) ∧
    (∀ r, resetGood r = true ↔ r % 8 = 0) := by
  refine ⟨?_, ?_, ?_, ?_⟩
  · intro k hk hg hb
    obtain ⟨i1, i2, i3⟩ := pollUntil_seq dev cfg.REG_CPURESET resetGood k 51 s.bus seq hs hk
      ((resetGood_iff _).mpr hg)
      (fun i hi => by
        cases hq : resetGood (seq i) with
        | false => rfl
        | true => exact absurd ((resetGood_iff _).mp hq) (hb i hi))
    refine ⟨_, ?_, i2, i3⟩
    rw [wait_reset_eq, if_pos i1]
  · intro hb
    obtain ⟨i1, i2⟩ := pollUntil_seq_never dev cfg.REG_CPURESET resetGood 51 s.bus seq hs
      (fun i hi => by
        cases hq : resetGood (seq i) with
        | false => rfl
        | true => exact absurd ((resetGood_iff _).mp hq) (hb i hi))
    refine ⟨_, ?_, i2⟩
    rw [wait_reset_eq, if_neg (by rw [i1]; decide)]
  · intro r
    unfold resetGood
    rw [and_7, and_7, Nat.mod_mod]
  · intro r
    rw [resetGood_iff, and_7]

/-- Witness for C30: a chip whose reset register reads 0x07, then 0xF9, then 0xF8: the
wait returns E_OK on the third poll, the first whose three low bits are clear, although
bits 3..7 of that value are set. -/
theorem wait_reset_low_bits_witness :
    ShowsPolls resettingChip sampleConfig.REG_CPURESET initialState.bus
      (fun i => [0x07, 0xF9, 0xF8].getD i 0) ∧
    ∃ t, wait_reset sampleConfig resettingChip initialState
        = (RetCode.E_OK, { initialState with bus := initialState.bus ++ t }) ∧
      countReads sampleConfig.REG_CPURESET t = 3 ∧ countDelays t = 3 :=
  ⟨showsPolls_resettingChip,
    (wait_reset_low_bits sampleConfig resettingChip initialState
      (fun i => [0x07, 0xF9, 0xF8].getD i 0) showsPolls_resettingChip).1 2 (by decide)
      (by decide)
      (fun i hi => by
        rcases i with _ | _ | i
        · decide
        · decide
        · omega)⟩

/-- C29: CoprocessorFaultRecover always runs to completion and performs its bus
operations in this fixed order: (generation above 2: a 16-bit read of the patch pointer,)
the write of 1 to the reset register, the writes of 16-bit 0 to the FIFO read pointer,
the FIFO write pointer and the display-list pointer, (generation above 2: the write back
of the patch pointer, carrying the value read at the start unchanged, then the pixel-clock
setting: the frequency and 1 on generation 4 with a configured frequency, the configured
divider otherwise,) the write of 0 to the reset register and the delay of 10 ms.  Among
its register writes the one that holds reset is the first and the one that releases
reset is the last. -/
theorem fault_recover_sequence (cfg : Config) (dev : Device) (s : State) :
    CoprocessorFaultRecover cfg dev s = { s with bus := s.bus ++ recoverOps cfg dev s.bus } ∧
    recoverOps cfg dev s.bus =
      (if cfg.EVE_GEN > 2 then readOps dev cfg.REG_COPRO_PATCH_PTR 2 s.bus else []) ++
      writeOps cfg.REG_CPURESET [1] ++
      writeOps cfg.REG_CMD_READ [0, 0] ++
      writeOps cfg.REG_CMD_WRITE [0, 0] ++
      writeOps cfg.REG_CMD_DL [0, 0] ++
      (if cfg.EVE_GEN > 2 then
        writeOps cfg.REG_COPRO_PATCH_PTR
          (leBytes 2 (readValue dev cfg.REG_COPRO_PATCH_PTR 2 s.bus)) ++
        (match (if cfg.EVE_GEN > 3 then cfg.EVE_PCLK_FREQ else none) with
          | some freq => writeOps cfg.REG_PCLK_FREQ (leBytes 2 freq) ++
              writeOps cfg.REG_PCLK [1]
          | none => writeOps cfg.REG_PCLK (leBytes 1 cfg.EVE_PCLK))
       else []) ++
      writeOps cfg.REG_CPURESET [0] ++
      [BusOp.delay_ms 10] ∧
    leValue (leBytes 2 (readValue dev cfg.REG_COPRO_PATCH_PTR 2 s.bus))
      = readValue dev cfg.REG_COPRO_PATCH_PTR 2 s.bus ∧
    (registerWrites (recoverOps cfg dev s.bus)).head?
      = some (writeHeader cfg.REG_CPURESET ++ [1]) ∧
    (registerWrites (recoverOps cfg dev s.bus)).getLast?
      = some (writeHeader cfg.REG_CPURESET ++ [0]) := by
  refine ⟨CoprocessorFaultRecover_eq cfg dev s, ?_,
    leValue_leBytes_two _ (readValue_two_lt dev _ _), ?_, ?_⟩
  · have l1 : leBytes 1 1 = [1] := by decide
    have l0 : leBytes 1 0 = [0] := by decide
    have l00 : leBytes 2 0 = [0, 0] := by decide
    unfold recoverOps
    rw [l1, l0, l00]
  · rw [(recoverOps_window cfg dev s.bus).2]
    rfl
  · rw [(recoverOps_window cfg dev s.bus).2, List.getLast?_append]
    rfl

/-! ## Claims: touch calibration -/

/-- Counterexample for C21: on the samples touch = [(1,1),(999,1000),(0,0)] with the
targets of an 800x480 display, the solve is defined and the determinant is 1, but the
coefficient A it stores, -337903616, is not the quotient of numerator * 65536 by the
determinant, -17517772800: the quotient does not fit the 32-bit coefficient and only its
low 32 bits are kept. -/
theorem calibrate_quotient_wraps :
    calibrate_solve (calibrate_targets 800 480).1 (calibrate_targets 800 480).2
        [1, 999, 0] [1, 1000, 0]
      = Except.ok [-337903616, 320405504, 26214400, -795607040, 773324800, 27525120] ∧
    calibrate_div [1, 999, 0] [1, 1000, 0] = Except.ok 1 ∧
    calibrate_tmp0 (calibrate_targets 800 480).1 [1, 1000, 0] = Except.ok (-267300) ∧
    coefficientExact (-267300) 1 = -17517772800 ∧
    to_int32 (-17517772800) = -337903616 :=
  ⟨rfl, rfl, rfl, by decide, by decide⟩

/-- C21 (amended): on the samples touch = [(100,100),(900,500),(500,900)], display =
[(50,50),(590,240),(320,440)] the solve of EVE_calibrate_manual computes the determinant
480000, the numerators (324000, 0, -8400000, -4000, 236000, 800000) and the coefficients
(44236, 0, -1146880, -546, 32221, 109226), each of them the quotient of numerator * 65536
by the determinant truncated toward zero and within 1 unit of the exact 16.16 value.  In
general, whenever the solve is defined, the determinant is not zero and each coefficient
is the 32-bit conversion of the quotient of (numerator * 65536) by the determinant
truncated toward zero, a quotient within 1 unit of the exact ratio; the coefficient equals
that quotient exactly when the quotient fits in 32 bits. -/
theorem calibrate_solve_coefficients :
    calibrate_solve [50, 590, 320] [50, 240, 440] [100, 900, 500] [100, 500, 900]
      = Except.ok [44236, 0, -1146880, -546, 32221, 109226] ∧
    calibrate_div [100, 900, 500] [100, 500, 900] = Except.ok 480000 ∧
    [calibrate_tmp0 [50, 590, 320] [100, 500, 900],
      calibrate_tmp1 [50, 590, 320] [100, 900, 500],
      calibrate_tmp2 [50, 590, 320] [100, 900, 500] [100, 500, 900],
      calibrate_tmp0 [50, 240, 440] [100, 500, 900],
      calibrate_tmp1 [50, 240, 440] [100, 900, 500],
      calibrate_tmp2 [50, 240, 440] [100, 900, 500] [100, 500, 900]]
      = [Except.ok 324000, Except.ok 0, Except.ok (-8400000), Except.ok (-4000),
          Except.ok 236000, Except.ok 800000] ∧
    [coefficientExact 324000 480000, coefficientExact 0 480000,
      coefficientExact (-8400000) 480000, coefficientExact (-4000) 480000,
      coefficientExact 236000 480000, coefficientExact 800000 480000]
      = [44236, 0, -1146880, -546, 32221, 109226] ∧
    (∀ (dx0 dx1 dx2 dy0 dy1 dy2 x0 y0 x1 y1 x2 y2 : Int) (m : List Int),
      InInt32 dx0 → InInt32 dx1 → InInt32 dx2 → InInt32 dy0 → InInt32 dy1 → InInt32 dy2 →
      InInt32 x0 → InInt32 y0 → InInt32 x1 → InInt32 y1 → InInt32 x2 → InInt32 y2 →
      calibrate_solve [dx0, dx1, dx2] [dy0, dy1, dy2] [x0, x1, x2] [y0, y1, y2]
        = Except.ok m →
      detExact x0 y0 x1 y1 x2 y2 ≠ 0 ∧
      m = [to_int32 (coefficientExact (num0Exact dx0 dx1 dx2 y0 y1 y2)
            (detExact x0 y0 x1 y1 x2 y2)),
          to_int32 (coefficientExact (num1Exact dx0 dx1 dx2 x0 x1 x2)
            (detExact x0 y0 x1 y1 x2 y2)),
          to_int32 (coefficientExact (num2Exact dx0 dx1 dx2 x0 y0 x1 y1 x2 y2)
            (detExact x0 y0 x1 y1 x2 y2)),
          to_int32 (coefficientExact (num0Exact dy0 dy1 dy2 y0 y1 y2)
            (detExact x0 y0 x1 y1 x2 y2)),
          to_int32 (coefficientExact (num1Exact dy0 dy1 dy2 x0 x1 x2)
            (detExact x0 y0 x1 y1 x2 y2)),
          to_int32 (coefficientExact (num2Exact dy0 dy1 dy2 x0 y0 x1 y1 x2 y2)
            (detExact x0 y0 x1 y1 x2 y2))]) ∧
    (∀ num d : Int, coefficientExact num d = Int.tdiv (num * 65536) d ∧
      (d ≠ 0 → (coefficientExact num d * d - num * 65536).natAbs < d.natAbs) ∧
      (to_int32 (coefficientExact num d) = coefficientExact num d ↔
        InInt32 (coefficientExact num d))) :=
  ⟨rfl, rfl, rfl, by decide,
    fun dx0 dx1 dx2 dy0 dy1 dy2 x0 y0 x1 y1 x2 y2 m hdx0 hdx1 hdx2 hdy0 hdy1 hdy2 hx0 hy0 hx1
        hy1 hx2 hy2 h =>
      calibrate_solve_inv dx0 dx1 dx2 dy0 dy1 dy2 x0 y0 x1 y1 x2 y2 m hdx0 hdx1 hdx2 hdy0 hdy1
        hdy2 hx0 hy0 hx1 hy1 hx2 hy2 h,
    fun num d => ⟨rfl, coefficientExact_near num d, to_int32_eq_iff _⟩⟩

/-- Counterexample for C22: for a display 2048 wide and the raw samples
touch = [(1023,1023),(0,1023),(1023,0)], which are not collinear, the numerator of the
coefficient C is 2590159275 over the integers, more than an int32_t holds, and its
computation in int32_t overflows; and for a display of 800x480 and the samples
touch = [(2,1),(1000,1001),(1,0)] no numerator overflows but the quotient for A,
-8767635456, does not fit the 32-bit coefficient, which receives -177700864. -/
theorem calibrate_solve_overflows :
    num2Exact 341 1792 1024 1023 1023 0 1023 1023 0 = 2590159275 ∧
    ¬ InInt32 2590159275 ∧
    detExact 1023 1023 0 1023 1023 0 ≠ 0 ∧
    calibrate_tmp2 (calibrate_targets 2048 480).1 [1023, 0, 1023] [1023, 1023, 0]
      = Except.error ArithError.signed_overflow ∧
    calibrate_solve (calibrate_targets 2048 480).1 (calibrate_targets 2048 480).2
        [1023, 0, 1023] [1023, 1023, 0] = Except.error ArithError.signed_overflow ∧
    calibrate_solve (calibrate_targets 800 480).1 (calibrate_targets 800 480).2
        [2, 1000, 1] [1, 1001, 0]
      = Except.ok [-177700864, 160202752, 203915264, 1738539008, -1760821248, -1711013888] ∧
    coefficientExact (num0Exact 133 700 400 1 1001 0) (detExact 2 1 1000 1001 1 0)
      = -8767635456 ∧
    ¬ InInt32 (-8767635456) :=
  ⟨by decide, by unfold InInt32; decide, by decide, rfl, rfl, rfl, by decide,
    by unfold InInt32; decide⟩

/-- C22 (amended): for all raw touch samples (each coordinate in 0..1023) and all display
dimensions (width and height any uint16 value) the determinant and the numerators of A,
B, D and E are computed without overflow and fit an int32_t; the numerators of C and F
are computed without overflow when the width, respectively the height, is at most 1280;
every numerator that an int32_t holds can be multiplied by 65536 in 64 bits and the
truncated quotient by any divisor fits 64 bits; the coefficient stored is the 32-bit
conversion of that quotient, equal to it exactly when the quotient fits 32 bits, which is
not guaranteed. -/
theorem calibrate_solve_ranges (width height : Nat) (x0 y0 x1 y1 x2 y2 : Int)
    (hw : width < 65536) (hh : height < 65536)
    (hx0 : RawCoord x0) (hy0 : RawCoord y0) (hx1 : RawCoord x1) (hy1 : RawCoord y1)
    (hx2 : RawCoord x2) (hy2 : RawCoord y2) :
    ∃ dx0 dx1 dx2 dy0 dy1 dy2 : Int,
      calibrate_targets width height = ([dx0, dx1, dx2], [dy0, dy1, dy2]) ∧
      calibrate_div [x0, x1, x2] [y0, y1, y2] = Except.ok (detExact x0 y0 x1 y1 x2 y2) ∧
      InInt32 (detExact x0 y0 x1 y1 x2 y2) ∧
      calibrate_tmp0 [dx0, dx1, dx2] [y0, y1, y2]
        = Except.ok (num0Exact dx0 dx1 dx2 y0 y1 y2) ∧
      InInt32 (num0Exact dx0 dx1 dx2 y0 y1 y2) ∧
      calibrate_tmp1 [dx0, dx1, dx2] [x0, x1, x2]
        = Except.ok (num1Exact dx0 dx1 dx2 x0 x1 x2) ∧
      InInt32 (num1Exact dx0 dx1 dx2 x0 x1 x2) ∧
      calibrate_tmp0 [dy0, dy1, dy2] [y0, y1, y2]
        = Except.ok (num0Exact dy0 dy1 dy2 y0 y1 y2) ∧
      InInt32 (num0Exact dy0 dy1 dy2 y0 y1 y2) ∧
      calibrate_tmp1 [dy0, dy1, dy2] [x0, x1, x2]
        = Except.ok (num1Exact dy0 dy1 dy2 x0 x1 x2) ∧
      InInt32 (num1Exact dy0 dy1 dy2 x0 x1 x2) ∧
      (width ≤ 1280 →
        calibrate_tmp2 [dx0, dx1, dx2] [x0, x1, x2] [y0, y1, y2]
          = Except.ok (num2Exact dx0 dx1 dx2 x0 y0 x1 y1 x2 y2) ∧
        InInt32 (num2Exact dx0 dx1 dx2 x0 y0 x1 y1 x2 y2)) ∧
      (height ≤ 1280 →
        calibrate_tmp2 [dy0, dy1, dy2] [x0, x1, x2] [y0, y1, y2]
          = Except.ok (num2Exact dy0 dy1 dy2 x0 y0 x1 y1 x2 y2) ∧
        InInt32 (num2Exact dy0 dy1 dy2 x0 y0 x1 y1 x2 y2)) ∧
      (∀ tmp div : Int, InInt32 tmp →
        InInt64 (tmp * 65536) ∧ InInt64 (coefficientExact tmp div) ∧
        calibrate_coefficient tmp div =
          (if div = 0 then Except.error ArithError.division_by_zero
            else Except.ok (to_int32 (coefficientExact tmp div))) ∧
        (to_int32 (coefficientExact tmp div) = coefficientExact tmp div ↔
          InInt32 (coefficientExact tmp div))) := by
  obtain ⟨dx0, dx1, dx2, dy0, dy1, dy2, et, rx0, rx1, rx2, ry0, ry1, ry2, sx, sy⟩ :=
    calibrate_targets_range width height hw hh
  obtain ⟨e0, b1, b2⟩ := calibrate_div_ok x0 y0 x1 y1 x2 y2 hx0 hy0 hx1 hy1 hx2 hy2
  obtain ⟨ea, ra⟩ := calibrate_tmp0_ok dx0 dx1 dx2 y0 y1 y2 rx0 rx1 rx2 hy0 hy1 hy2
  obtain ⟨eb, rb⟩ := calibrate_tmp1_ok dx0 dx1 dx2 x0 x1 x2 rx0 rx1 rx2 hx0 hx1 hx2
  obtain ⟨ed, rd⟩ := calibrate_tmp0_ok dy0 dy1 dy2 y0 y1 y2 ry0 ry1 ry2 hy0 hy1 hy2
  obtain ⟨ee, re⟩ := calibrate_tmp1_ok dy0 dy1 dy2 x0 x1 x2 ry0 ry1 ry2 hx0 hx1 hx2
  have h31 : (2 : Int) ^ 31 = 2147483648 := by norm_num
  have h63 : (2 : Int) ^ 63 = 9223372036854775808 := by norm_num
  refine ⟨dx0, dx1, dx2, dy0, dy1, dy2, et, e0, ?_, ea, ra, eb, rb, ed, rd, ee, re, ?_, ?_, ?_⟩
  · unfold InInt32; rw [h31]; omega
  · intro hle
    exact calibrate_tmp2_ok dx0 dx1 dx2 x0 y0 x1 y1 x2 y2 rx0.1 rx1.1 rx2.1 (sx hle) hx0 hy0
      hx1 hy1 hx2 hy2
  · intro hle
    exact calibrate_tmp2_ok dy0 dy1 dy2 x0 y0 x1 y1 x2 y2 ry0.1 ry1.1 ry2.1 (sy hle) hx0 hy0
      hx1 hy1 hx2 hy2
  · intro tmp div ht
    refine ⟨?_, ?_, calibrate_coefficient_eq tmp div ht, to_int32_eq_iff _⟩
    · unfold InInt32 at ht; rw [h31] at ht
      unfold InInt64; rw [h63]; omega
    · have hle := natAbs_tdiv_le (tmp * 65536) div
      unfold InInt32 at ht; rw [h31] at ht
      unfold InInt64 coefficientExact; rw [h63]
      omega

/-- Witness for C22 (amended): the samples touch = [(100,100),(900,500),(500,900)] on a
display of 800x480. -/
theorem calibrate_solve_ranges_witness :
    (800 : Nat) < 65536 ∧ (480 : Nat) < 65536 ∧ RawCoord 100 ∧ RawCoord 900 ∧ RawCoord 500 ∧
    ∃ dx0 dx1 dx2 dy0 dy1 dy2 : Int,
      calibrate_targets 800 480 = ([dx0, dx1, dx2], [dy0, dy1, dy2]) ∧
      calibrate_div [100, 900, 500] [100, 500, 900]
        = Except.ok (detExact 100 100 900 500 500 900) ∧
      InInt32 (detExact 100 100 900 500 500 900) :=
  ⟨by decide, by decide, ⟨by decide, by decide⟩, ⟨by decide, by decide⟩,
    ⟨by decide, by decide⟩,
    (calibrate_solve_ranges 800 480 100 100 900 500 500 900 (by decide) (by decide)
      ⟨by decide, by decide⟩ ⟨by decide, by decide⟩ ⟨by decide, by decide⟩
      ⟨by decide, by decide⟩ ⟨by decide, by decide⟩ ⟨by decide, by decide⟩).imp
      (fun _ h => h.imp (fun _ h => h.imp (fun _ h => h.imp (fun _ h => h.imp (fun _ h =>
        h.imp (fun _ h => ⟨h.1, h.2.1, h.2.2.1⟩))))))⟩

/-- C23: for raw touch samples (coordinates in 0..1023) and display dimensions of 16 bits,
the determinant div of EVE_calibrate_manual is computed exactly, and it is zero exactly
when the three samples are collinear (two or three coincident samples included).  For a
collinear set the solve reaches the first division with a zero divisor, nothing before
it being undefined and no guard in between; for a non-collinear set no division has a
zero divisor, and the solve is defined altogether when width and height are at most
1280. -/
theorem calibrate_div_zero_iff_collinear (width height : Nat) (x0 y0 x1 y1 x2 y2 : Int)
    (hw : width < 65536) (hh : height < 65536)
    (hx0 : RawCoord x0) (hy0 : RawCoord y0) (hx1 : RawCoord x1) (hy1 : RawCoord y1)
    (hx2 : RawCoord x2) (hy2 : RawCoord y2) :
    calibrate_div [x0, x1, x2] [y0, y1, y2] = Except.ok (detExact x0 y0 x1 y1 x2 y2) ∧
    (detExact x0 y0 x1 y1 x2 y2 = 0 ↔ Collinear3 x0 y0 x1 y1 x2 y2) ∧
    (Collinear3 x0 y0 x1 y1 x2 y2 →
      calibrate_solve (calibrate_targets width height).1 (calibrate_targets width height).2
        [x0, x1, x2] [y0, y1, y2] = Except.error ArithError.division_by_zero) ∧
    (¬ Collinear3 x0 y0 x1 y1 x2 y2 →
      calibrate_solve (calibrate_targets width height).1 (calibrate_targets width height).2
        [x0, x1, x2] [y0, y1, y2] ≠ Except.error ArithError.division_by_zero ∧
      (width ≤ 1280 → height ≤ 1280 →
        ∃ m, calibrate_solve (calibrate_targets width height).1
          (calibrate_targets width height).2 [x0, x1, x2] [y0, y1, y2] = Except.ok m)) := by
  obtain ⟨dx0, dx1, dx2, dy0, dy1, dy2, et, rx0, rx1, rx2, ry0, ry1, ry2, sx, sy⟩ :=
    calibrate_targets_range width height hw hh
  have hs := calibrate_solve_raw dx0 dx1 dx2 dy0 dy1 dy2 x0 y0 x1 y1 x2 y2 rx0 rx1 rx2 ry0 ry1
    ry2 hx0 hy0 hx1 hy1 hx2 hy2
  rw [et]
  refine ⟨(calibrate_div_ok x0 y0 x1 y1 x2 y2 hx0 hy0 hx1 hy1 hx2 hy2).1,
    detExact_zero_iff x0 y0 x1 y1 x2 y2, ?_, ?_⟩
  · intro hc
    rw [hs, if_pos ((detExact_zero_iff x0 y0 x1 y1 x2 y2).mpr hc)]
  · intro hc
    have hD : detExact x0 y0 x1 y1 x2 y2 ≠ 0 :=
      fun h => hc ((detExact_zero_iff x0 y0 x1 y1 x2 y2).mp h)
    rw [hs, if_neg hD]
    constructor
    · cases h3 : calibrate_tmp2 [dx0, dx1, dx2] [x0, x1, x2] [y0, y1, y2] with
      | error e =>
          rw [calibrate_tmp2_overflow _ _ _ e h3]
          intro h; cases h
      | ok tc =>
          cases h6 : calibrate_tmp2 [dy0, dy1, dy2] [x0, x1, x2] [y0, y1, y2] with
          | error e =>
              rw [calibrate_tmp2_overflow _ _ _ e h6]
              intro h; cases h
          | ok tf =>
              intro h; cases h
    · intro hwl hhl
      rw [(calibrate_tmp2_ok dx0 dx1 dx2 x0 y0 x1 y1 x2 y2 rx0.1 rx1.1 rx2.1 (sx hwl) hx0 hy0
          hx1 hy1 hx2 hy2).1,
        (calibrate_tmp2_ok dy0 dy1 dy2 x0 y0 x1 y1 x2 y2 ry0.1 ry1.1 ry2.1 (sy hhl) hx0 hy0
          hx1 hy1 hx2 hy2).1]
      exact ⟨_, rfl⟩

/-- Witness for C23: the samples touch = [(100,100),(200,200),(300,300)], on one line,
with the targets of an 800x480 display: the determinant is computed as 0 and the solve
stops at a division by zero. -/
theorem calibrate_div_zero_iff_collinear_witness :
    (800 : Nat) < 65536 ∧ (480 : Nat) < 65536 ∧ RawCoord 100 ∧ RawCoord 200 ∧ RawCoord 300 ∧
    Collinear3 100 100 200 200 300 300 ∧
    calibrate_div [100, 200, 300] [100, 200, 300] = Except.ok 0 ∧
    calibrate_solve (calibrate_targets 800 480).1 (calibrate_targets 800 480).2
      [100, 200, 300] [100, 200, 300] = Except.error ArithError.division_by_zero :=
  ⟨by decide, by decide, ⟨by decide, by decide⟩, ⟨by decide, by decide⟩,
    ⟨by decide, by decide⟩,
    ⟨1, -1, 0, Or.inl (by decide), by decide, by decide, by decide⟩,
    (calibrate_div_zero_iff_collinear 800 480 100 100 200 200 300 300 (by decide) (by decide)
      ⟨by decide, by decide⟩ ⟨by decide, by decide⟩ ⟨by decide, by decide⟩
      ⟨by decide, by decide⟩ ⟨by decide, by decide⟩ ⟨by decide, by decide⟩).1,
    (calibrate_div_zero_iff_collinear 800 480 100 100 200 200 300 300 (by decide) (by decide)
      ⟨by decide, by decide⟩ ⟨by decide, by decide⟩ ⟨by decide, by decide⟩
      ⟨by decide, by decide⟩ ⟨by decide, by decide⟩ ⟨by decide, by decide⟩).2.2.1
      ⟨1, -1, 0, Or.inl (by decide), by decide, by decide, by decide⟩⟩

/-- C31: in immediate mode private_string_write transmits the first n bytes of the text,
where n is the length before the zero terminator or 249 if the first 249 bytes hold no
terminator, and then exactly 4 - n % 4 zero bytes.  The number of zero bytes is at least
one and at most four, and four when n is a multiple of 4; the bytes sent are a positive
multiple of 4 in number and at most 252. -/
theorem string_write_padding_count (cfg : Config) (p_text : Ptr) (s : State)
    (hi : s.cmd_burst = 0) :
    emittedLength p_text ≤ 249 ∧
    (∀ i < emittedLength p_text, p_text i % 256 ≠ 0) ∧
    (p_text (emittedLength p_text) % 256 = 0 ∨ emittedLength p_text = 249) ∧
    private_string_write cfg p_text s
      = { s with bus := s.bus ++
          (textBytes p_text 0 (emittedLength p_text) ++
            List.replicate (4 - emittedLength p_text % 4) 0).map BusOp.transmit } ∧
    (textBytes p_text 0 (emittedLength p_text)).length = emittedLength p_text ∧
    1 ≤ 4 - emittedLength p_text % 4 ∧ 4 - emittedLength p_text % 4 ≤ 4 ∧
    (emittedLength p_text % 4 = 0 → 4 - emittedLength p_text % 4 = 4) ∧
    (emittedLength p_text + (4 - emittedLength p_text % 4)) % 4 = 0 ∧
    0 < emittedLength p_text + (4 - emittedLength p_text % 4) ∧
    emittedLength p_text + (4 - emittedLength p_text % 4) ≤ 252 := by
  obtain ⟨hn, htext, hz⟩ := emittedLength_spec p_text
  have := Nat.mod_lt (emittedLength p_text) (show 0 < 4 by decide)
  exact ⟨hn, htext, hz, private_string_write_immediate cfg p_text s hi,
    textBytes_length _ _ _, by omega, by omega, by omega, by omega, by omega, by omega⟩

set_option maxRecDepth 1000000 in
/-- Witness for C31: a text of 248 bytes before its terminator is followed by four zero
bytes, 252 bytes in all; a text that never ends is cut after 249 bytes and followed by
three. -/
theorem string_write_padding_count_witness :
    initialState.cmd_burst = 0 ∧ emittedLength alignedText = 248 ∧
    emittedLength (fun _ => 0x41) = 249 ∧
    (private_string_write sampleConfig alignedText initialState).bus
      = (List.replicate 248 0x41 ++ [0, 0, 0, 0]).map BusOp.transmit ∧
    private_string_write sampleConfig alignedText initialState
      = { initialState with bus := initialState.bus ++
          (textBytes alignedText 0 (emittedLength alignedText) ++
            List.replicate (4 - emittedLength alignedText % 4) 0).map BusOp.transmit } :=
  ⟨rfl, by decide, by decide, by decide,
    (string_write_padding_count sampleConfig alignedText initialState rfl).2.2.2.1⟩

/-- C32: whenever the determinant and the six numerators of EVE_calibrate_manual are
computed without overflow, from display targets and touch samples that fit int32_t, they
solve the three-point system over the integers: for each sample i,
numA * tx_i + numB * ty_i + numC = div * dx_i and
numD * tx_i + numE * ty_i + numF = div * dy_i.  Hence, when div is not zero, the exact
affine map with the coefficients num / div sends every raw touch sample to its display
target. -/
theorem calibrate_numerators_cramer
    (dx0 dx1 dx2 dy0 dy1 dy2 x0 y0 x1 y1 x2 y2 div nA nB nC nD nE nF : Int)
    (hdx0 : InInt32 dx0) (hdx1 : InInt32 dx1) (hdx2 : InInt32 dx2)
    (hdy0 : InInt32 dy0) (hdy1 : InInt32 dy1) (hdy2 : InInt32 dy2)
    (hx0 : InInt32 x0) (hy0 : InInt32 y0) (hx1 : InInt32 x1) (hy1 : InInt32 y1)
    (hx2 : InInt32 x2) (hy2 : InInt32 y2)
    (hdiv : calibrate_div [x0, x1, x2] [y0, y1, y2] = Except.ok div)
    (hA : calibrate_tmp0 [dx0, dx1, dx2] [y0, y1, y2] = Except.ok nA)
    (hB : calibrate_tmp1 [dx0, dx1, dx2] [x0, x1, x2] = Except.ok nB)
    (hC : calibrate_tmp2 [dx0, dx1, dx2] [x0, x1, x2] [y0, y1, y2] = Except.ok nC)
    (hD : calibrate_tmp0 [dy0, dy1, dy2] [y0, y1, y2] = Except.ok nD)
    (hE : calibrate_tmp1 [dy0, dy1, dy2] [x0, x1, x2] = Except.ok nE)
    (hF : calibrate_tmp2 [dy0, dy1, dy2] [x0, x1, x2] [y0, y1, y2] = Except.ok nF) :
    (nA * x0 + nB * y0 + nC = div * dx0 ∧ nA * x1 + nB * y1 + nC = div * dx1 ∧
      nA * x2 + nB * y2 + nC = div * dx2) ∧
    (nD * x0 + nE * y0 + nF = div * dy0 ∧ nD * x1 + nE * y1 + nF = div * dy1 ∧
      nD * x2 + nE * y2 + nF = div * dy2) ∧
    (div ≠ 0 →
      affineExact nA nB nC div x0 y0 = (dx0 : ℚ) ∧ affineExact nD nE nF div x0 y0 = (dy0 : ℚ) ∧
      affineExact nA nB nC div x1 y1 = (dx1 : ℚ) ∧ affineExact nD nE nF div x1 y1 = (dy1 : ℚ) ∧
      affineExact nA nB nC div x2 y2 = (dx2 : ℚ) ∧
      affineExact nD nE nF div x2 y2 = (dy2 : ℚ)) := by
  have hx := calibrate_numerators dx0 dx1 dx2 x0 y0 x1 y1 x2 y2 div nA nB nC hdx0 hdx1 hdx2
    hx0 hy0 hx1 hy1 hx2 hy2 hdiv hA hB hC
  have hy := calibrate_numerators dy0 dy1 dy2 x0 y0 x1 y1 x2 y2 div nD nE nF hdy0 hdy1 hdy2
    hx0 hy0 hx1 hy1 hx2 hy2 hdiv hD hE hF
  refine ⟨hx, hy, fun hd => ⟨?_, ?_, ?_, ?_, ?_, ?_⟩⟩
  · exact affineExact_eq _ _ _ _ _ _ _ hd hx.1
  · exact affineExact_eq _ _ _ _ _ _ _ hd hy.1
  · exact affineExact_eq _ _ _ _ _ _ _ hd hx.2.1
  · exact affineExact_eq _ _ _ _ _ _ _ hd hy.2.1
  · exact affineExact_eq _ _ _ _ _ _ _ hd hx.2.2
  · exact affineExact_eq _ _ _ _ _ _ _ hd hy.2.2

/-- Witness for C32: the display targets of an 800 x 480 panel and the touch samples
(100, 100), (900, 100), (500, 900): the determinant is 640000 and the numerators are
(453600, -13200, 41080000) for x and (128000, 208000, 17600000) for y. -/
theorem calibrate_numerators_cramer_witness :
    (InInt32 133 ∧ InInt32 700 ∧ InInt32 400 ∧ InInt32 80 ∧ InInt32 240 ∧ InInt32 420 ∧
      InInt32 100 ∧ InInt32 900 ∧ InInt32 500 ∧
      calibrate_div [100, 900, 500] [100, 100, 900] = Except.ok 640000 ∧
      calibrate_tmp0 [133, 700, 400] [100, 100, 900] = Except.ok 453600 ∧
      calibrate_tmp1 [133, 700, 400] [100, 900, 500] = Except.ok (-13200) ∧
      calibrate_tmp2 [133, 700, 400] [100, 900, 500] [100, 100, 900]
        = Except.ok 41080000 ∧
      calibrate_tmp0 [80, 240, 420] [100, 100, 900] = Except.ok 128000 ∧
      calibrate_tmp1 [80, 240, 420] [100, 900, 500] = Except.ok 208000 ∧
      calibrate_tmp2 [80, 240, 420] [100, 900, 500] [100, 100, 900]
        = Except.ok 17600000) ∧
    (640000 : Int) ≠ 0 ∧
    affineExact 453600 (-13200) 41080000 640000 500 900 = ((400 : Int) : ℚ) ∧
    affineExact 128000 208000 17600000 640000 500 900 = ((420 : Int) : ℚ) :=
  have h := calibrate_numerators_cramer 133 700 400 80 240 420 100 100 900 100 500 900
    640000 453600 (-13200) 41080000 128000 208000 17600000
    (by unfold InInt32; decide) (by unfold InInt32; decide) (by unfold InInt32; decide)
    (by unfold InInt32; decide) (by unfold InInt32; decide) (by unfold InInt32; decide)
    (by unfold InInt32; decide) (by unfold InInt32; decide) (by unfold InInt32; decide)
    (by unfold InInt32; decide) (by unfold InInt32; decide) (by unfold InInt32; decide)
    (by rfl) (by rfl) (by rfl) (by rfl) (by rfl) (by rfl) (by rfl)
  ⟨⟨by unfold InInt32; decide, by unfold InInt32; decide, by unfold InInt32; decide,
      by unfold InInt32; decide, by unfold InInt32; decide, by unfold InInt32; decide,
      by unfold InInt32; decide, by unfold InInt32; decide, by unfold InInt32; decide,
      by rfl, by rfl, by rfl, by rfl, by rfl, by rfl, by rfl⟩,
    by decide, (h.2.2 (by decide)).2.2.2.2.1, (h.2.2 (by decide)).2.2.2.2.2⟩

/-- C33: a wait for a touch that starts with the lock set, as every wait of
EVE_calibrate_manual does, returns exactly when the stream of values read from the raw
touch register has a first read with bit 31 clear that follows at least one read with bit
31 set and the fuel reaches it; it then records touch_x = (v >> 16) & 0x3FF and
touch_y = v & 0x3FF of that read v and sets the lock again.  A run of reads with bit 31
clear at the start of the stream, a touch held since before the wait, is never sampled.
The sampling loop returns exactly when each of its three waits, started after the prompt
that follows the previous sample, finds such a read, and the three samples are the ones
recorded. -/
theorem touch_sampling_rule (cfg : Config) (ic : InitConfig) (cc : CmdConfig) (dev : Device)
    (fuel width : Nat) (display_x display_y : List Int) (s : State) :
    (∀ (a : State) (tl k : Nat), tl ≠ 0 →
      FirstTouchAfterRelease (touchStream dev cc.REG_TOUCH_DIRECT_XY a.bus) k →
      calibrate_touch cc dev fuel tl a =
        if k < fuel then some (sampleResult dev cc.REG_TOUCH_DIRECT_XY a k) else none) ∧
    (∀ (a : State) (tl : Nat) (r : Int × Int × Nat × State), tl ≠ 0 →
      calibrate_touch cc dev fuel tl a = some r →
      ∃ k, k < fuel ∧ FirstTouchAfterRelease (touchStream dev cc.REG_TOUCH_DIRECT_XY a.bus) k ∧
        r = sampleResult dev cc.REG_TOUCH_DIRECT_XY a k) ∧
    (∀ (a : State) (k : Nat),
      sampleResult dev cc.REG_TOUCH_DIRECT_XY a k =
        ((((touchStream dev cc.REG_TOUCH_DIRECT_XY a.bus k >>> 16) &&& 0x03FF : Nat) : Int),
          ((touchStream dev cc.REG_TOUCH_DIRECT_XY a.bus k &&& 0x03FF : Nat) : Int), 1,
          { a with bus := readsFrom dev cc.REG_TOUCH_DIRECT_XY (k + 1) a.bus })) ∧
    (∀ (v : Nat → Nat) (k m : Nat), FirstTouchAfterRelease v k →
      (∀ i ≤ m, v i &&& 0x80000000 = 0) → m < k) ∧
    (∀ r : List Int × List Int × State,
      calibrate_sample cfg ic cc dev fuel width display_x display_y 3 0 1 [0, 0, 0] [0, 0, 0] s
          = some r ↔
        ∃ a0 k0 a1 k1 a2 k2,
          waitStart cfg ic cc dev fuel width display_x display_y 0 s = some a0 ∧
          k0 < fuel ∧
          FirstTouchAfterRelease (touchStream dev cc.REG_TOUCH_DIRECT_XY a0.bus) k0 ∧
          waitStart cfg ic cc dev fuel width display_x display_y 1
            (sampleResult dev cc.REG_TOUCH_DIRECT_XY a0 k0).2.2.2 = some a1 ∧
          k1 < fuel ∧
          FirstTouchAfterRelease (touchStream dev cc.REG_TOUCH_DIRECT_XY a1.bus) k1 ∧
          waitStart cfg ic cc dev fuel width display_x display_y 2
            (sampleResult dev cc.REG_TOUCH_DIRECT_XY a1 k1).2.2.2 = some a2 ∧
          k2 < fuel ∧
          FirstTouchAfterRelease (touchStream dev cc.REG_TOUCH_DIRECT_XY a2.bus) k2 ∧
          r = ([(sampleResult dev cc.REG_TOUCH_DIRECT_XY a0 k0).1,
                (sampleResult dev cc.REG_TOUCH_DIRECT_XY a1 k1).1,
                (sampleResult dev cc.REG_TOUCH_DIRECT_XY a2 k2).1],
              [(sampleResult dev cc.REG_TOUCH_DIRECT_XY a0 k0).2.1,
                (sampleResult dev cc.REG_TOUCH_DIRECT_XY a1 k1).2.1,
                (sampleResult dev cc.REG_TOUCH_DIRECT_XY a2 k2).2.1],
              (sampleResult dev cc.REG_TOUCH_DIRECT_XY a2 k2).2.2.2)) :=
  ⟨fun a tl k htl h => calibrate_touch_first cc dev fuel tl k a htl h,
    fun a tl r htl h => calibrate_touch_locked_inv cc dev fuel tl a r htl h,
    fun _ _ => rfl,
    fun v k m h hheld => firstTouch_not_held v k m h hheld,
    fun r => calibrate_sample_three cfg ic cc dev fuel width display_x display_y s r⟩

set_option maxRecDepth 1000000 in
/-- Witness for C33: a chip answering the reads of a user who holds a touch at the start
and across the second prompt.  The first wait skips the held touch and samples the read
after the release, (100,100); the three samples recorded are (100,100), (900,500) and
(500,900). -/
theorem touch_sampling_rule_witness :
    FirstTouchAfterRelease
      (touchStream (touchDevice sampleCmd.REG_TOUCH_DIRECT_XY heldTaps)
        sampleCmd.REG_TOUCH_DIRECT_XY initialState.bus) 2 ∧
    (calibrate_touch sampleCmd (touchDevice sampleCmd.REG_TOUCH_DIRECT_XY heldTaps) 3 1
        initialState).map (fun r => (r.1, r.2.1, r.2.2.1)) = some (100, 100, 1) ∧
    calibrate_touch sampleCmd (touchDevice sampleCmd.REG_TOUCH_DIRECT_XY heldTaps) 3 1
        initialState =
      (if 2 < 3 then
        some (sampleResult (touchDevice sampleCmd.REG_TOUCH_DIRECT_XY heldTaps)
          sampleCmd.REG_TOUCH_DIRECT_XY initialState 2)
      else none) ∧
    ∃ r, calibrate_sample sampleConfig sampleInit sampleCmd
        (touchDevice sampleCmd.REG_TOUCH_DIRECT_XY heldTaps) 4 800 [133, 700, 400]
        [80, 240, 420] 3 0 1 [0, 0, 0] [0, 0, 0] initialState = some r ∧
      r.1 = [100, 900, 500] ∧ r.2.1 = [100, 500, 900] :=
  ⟨by unfold FirstTouchAfterRelease; decide, by decide,
    (touch_sampling_rule sampleConfig sampleInit sampleCmd
      (touchDevice sampleCmd.REG_TOUCH_DIRECT_XY heldTaps) 3 800 [133, 700, 400]
      [80, 240, 420] initialState).1 initialState 1 2 (by decide)
      (by unfold FirstTouchAfterRelease; decide),
    _, rfl, by decide, by decide⟩

/-! ## Claims: the FIFO selector, command wrappers and bulk writes -/

/-- C34: the selector bytes B0 25 78 are the write header of address 0x302578;
eve_begin_cmd(c) puts on the bus what EVE_memWrite32(0x302578, c) does up to the closing
chip-select clear; burst entry without DMA opens with the same selector; and on the DMA
path the address 0x00b02578 of the transaction queued by EVE_start_dma_transfer, sent as
the 24 address bits of EVE_init_spi most significant byte first, and the upper three
bytes in little-endian memory order of the header word 0x7825B000 that burst entry stores
at the head of the DMA buffer, are both B0 25 78. -/
theorem selector_is_write_header (cfg : Config) (dev : Device) (c irq fuel : Nat)
    (s s2 : State) (hb : s.EVE_dma_buffer ≠ [])
    (h : EVE_start_cmd_burst cfg dev irq fuel s = some s2) :
    writeHeader 0x302578 = [0xB0, 0x25, 0x78] ∧
    eve_begin_cmd c s = { s with bus := s.bus ++ BusOp.cs_set ::
      ((writeHeader 0x302578).map BusOp.transmit ++ [BusOp.transmit_32 (c % 2 ^ 32)]) } ∧
    EVE_memWrite32 0x302578 c s = EVE_cs_clear (eve_begin_cmd c s) ∧
    (EVE_memWrite32 0x302578 c s).bus = (eve_begin_cmd c s).bus ++ [BusOp.cs_clear] ∧
    txBytes (EVE_memWrite32 0x302578 c s).bus = txBytes (eve_begin_cmd c s).bus ∧
    (cfg.EVE_DMA = false →
      s2 = { s with
        cmd_burst := 42
        bus := s.bus ++ BusOp.cs_set :: (writeHeader 0x302578).map BusOp.transmit }) ∧
    (cfg.EVE_DMA = true →
      s2.EVE_dma_buffer.head? = some 0x7825B000 ∧
      (EVE_end_cmd_burst cfg s2).1.map (fun t => t.addr) = some 0x00b02578) ∧
    (leBytes 4 0x7825B000).drop 1 = [0xB0, 0x25, 0x78] ∧
    (EVE_start_dma_transfer s).1.addr = 0x00b02578 ∧
    addressPhase EVE_init_spi.2.1.address_bits (EVE_start_dma_transfer s).1.addr
      = [0xB0, 0x25, 0x78] := by
  have hw := EVE_memWrite32_begin c s
  refine ⟨writeHeader_fifo, eve_begin_cmd_eq c s, hw, by rw [hw]; rfl, ?_, ?_, ?_, by decide,
    rfl, ?_⟩
  · rw [hw]
    simp only [EVE_cs_clear, txBytes_append, txBytes, List.append_nil]
  · intro hd
    rw [EVE_start_cmd_burst_noDma cfg dev irq fuel s hd] at h
    exact (Option.some.inj h).symm
  · intro hd
    obtain ⟨h1, _, _⟩ := EVE_start_cmd_burst_header cfg dev irq fuel s s2 hd h
    refine ⟨?_, ?_⟩
    · rw [h1]
      exact head_set_zero _ _ hb
    · unfold EVE_end_cmd_burst
      rw [if_pos hd]
      rfl
  · have e1 : EVE_init_spi.2.1.address_bits = 24 := rfl
    have e2 : (EVE_start_dma_transfer s).1.addr = 0x00b02578 := rfl
    rw [e1, e2]
    decide

/-- Witness for C34: burst entry from the start-up state in a build with DMA, and the
command CMD_DLSTART in immediate mode. -/
theorem selector_is_write_header_witness :
    (initialState.EVE_dma_buffer ≠ [] ∧
      EVE_start_cmd_burst sampleConfig (constDevice 0xFFC) 0 0 initialState
        = some { initialState with
            cmd_burst := 42
            EVE_dma_buffer := initialState.EVE_dma_buffer.set 0 0x7825B000
            EVE_dma_buffer_index := 1 }) ∧
    (eve_begin_cmd 0xFFFFFF00 initialState).bus
      = [BusOp.cs_set, BusOp.transmit 0xB0, BusOp.transmit 0x25, BusOp.transmit 0x78,
          BusOp.transmit_32 0xFFFFFF00] ∧
    (EVE_memWrite32 0x302578 0xFFFFFF00 initialState).bus
      = (eve_begin_cmd 0xFFFFFF00 initialState).bus ++ [BusOp.cs_clear] :=
  ⟨⟨by decide, rfl⟩, by decide,
    (selector_is_write_header sampleConfig (constDevice 0xFFC) 0xFFFFFF00 0 0 initialState _
      (by decide) rfl).2.2.2.1⟩

/-- C35: for EVE_cmd_clock, EVE_cmd_gauge, EVE_cmd_dial, EVE_cmd_progress,
EVE_cmd_scrollbar and EVE_cmd_setbitmap and all argument values, negative int16
coordinates included: in immediate mode the command puts on the bus, after the selector,
the opcode (and for setbitmap the address) as 32-bit words and the 16-bit arguments byte
by byte, low byte first, with two zero bytes after a trailing single argument; in burst
mode it hands to spi_transmit_burst the opcode (and the address) and the arguments packed
in pairs as low + (high << 16), a trailing single argument as a word of its own.  The
bytes of immediate mode after the 3-byte selector are the little-endian serialisation of
the words of burst mode, a multiple of 4 bytes. -/
theorem widget_modes_agree (cfg : Config) (wc : WidgetConfig) (xc0 yc0 rad wid hgt : Int)
    (options hours mins secs msecs major minor val range size : Nat)
    (addr fmt width height : Nat) (s sb : State) (hi : s.cmd_burst = 0)
    (hb : sb.cmd_burst ≠ 0) :
    (EVE_cmd_clock cfg wc xc0 yc0 rad options hours mins secs msecs s =
        { s with bus := s.bus ++ (immediateOps wc.CMD_CLOCK []
          [to_uint16 xc0, to_uint16 yc0, to_uint16 rad, options % 65536, hours % 65536,
          mins % 65536, secs % 65536, msecs % 65536]) } ∧
      EVE_cmd_clock cfg wc xc0 yc0 rad options hours mins secs msecs sb =
        burstAll cfg (wc.CMD_CLOCK :: [] ++ pairWords
          [to_uint16 xc0, to_uint16 yc0, to_uint16 rad, options % 65536, hours % 65536,
          mins % 65536, secs % 65536, msecs % 65536]) sb ∧
      txBytes (immediateOps wc.CMD_CLOCK []
          [to_uint16 xc0, to_uint16 yc0, to_uint16 rad, options % 65536, hours % 65536,
          mins % 65536, secs % 65536, msecs % 65536])
        = [0xB0, 0x25, 0x78] ++ wordBytes ((wc.CMD_CLOCK :: []).map (fun w => w % 2 ^ 32) ++
          pairWords
          [to_uint16 xc0, to_uint16 yc0, to_uint16 rad, options % 65536, hours % 65536,
          mins % 65536, secs % 65536, msecs % 65536]) ∧
      (wordBytes ((wc.CMD_CLOCK :: []).map (fun w => w % 2 ^ 32) ++
          pairWords
          [to_uint16 xc0, to_uint16 yc0, to_uint16 rad, options % 65536, hours % 65536,
          mins % 65536, secs % 65536, msecs % 65536])).length
        % 4 = 0) ∧
    (EVE_cmd_gauge cfg wc xc0 yc0 rad options major minor val range s =
        { s with bus := s.bus ++ (immediateOps wc.CMD_GAUGE []
          [to_uint16 xc0, to_uint16 yc0, to_uint16 rad, options % 65536, major % 65536,
          minor % 65536, val % 65536, range % 65536]) } ∧
      EVE_cmd_gauge cfg wc xc0 yc0 rad options major minor val range sb =
        burstAll cfg (wc.CMD_GAUGE :: [] ++ pairWords
          [to_uint16 xc0, to_uint16 yc0, to_uint16 rad, options % 65536, major % 65536,
          minor % 65536, val % 65536, range % 65536]) sb ∧
      txBytes (immediateOps wc.CMD_GAUGE []
          [to_uint16 xc0, to_uint16 yc0, to_uint16 rad, options % 65536, major % 65536,
          minor % 65536, val % 65536, range % 65536])
        = [0xB0, 0x25, 0x78] ++ wordBytes ((wc.CMD_GAUGE :: []).map (fun w => w % 2 ^ 32) ++
          pairWords
          [to_uint16 xc0, to_uint16 yc0, to_uint16 rad, options % 65536, major % 65536,
          minor % 65536, val % 65536, range % 65536]) ∧
      (wordBytes ((wc.CMD_GAUGE :: []).map (fun w => w % 2 ^ 32) ++
          pairWords
          [to_uint16 xc0, to_uint16 yc0, to_uint16 rad, options % 65536, major % 65536,
          minor % 65536, val % 65536, range % 65536])).length
        % 4 = 0) ∧
    (EVE_cmd_dial cfg wc xc0 yc0 rad options val s =
        { s with bus := s.bus ++ (immediateOps wc.CMD_DIAL []
          [to_uint16 xc0, to_uint16 yc0, to_uint16 rad, options % 65536, val % 65536]) } ∧
      EVE_cmd_dial cfg wc xc0 yc0 rad options val sb =
        burstAll cfg (wc.CMD_DIAL :: [] ++ pairWords
          [to_uint16 xc0, to_uint16 yc0, to_uint16 rad, options % 65536, val % 65536]) sb ∧
      txBytes (immediateOps wc.CMD_DIAL []
          [to_uint16 xc0, to_uint16 yc0, to_uint16 rad, options % 65536, val % 65536])
        = [0xB0, 0x25, 0x78] ++ wordBytes ((wc.CMD_DIAL :: []).map (fun w => w % 2 ^ 32) ++
          pairWords
          [to_uint16 xc0, to_uint16 yc0, to_uint16 rad, options % 65536, val % 65536]) ∧
      (wordBytes ((wc.CMD_DIAL :: []).map (fun w => w % 2 ^ 32) ++
          pairWords
          [to_uint16 xc0, to_uint16 yc0, to_uint16 rad, options % 65536, val % 65536])).length
        % 4 = 0) ∧
    (EVE_cmd_progress cfg wc xc0 yc0 wid hgt options val range s =
        { s with bus := s.bus ++ (immediateOps wc.CMD_PROGRESS []
          [to_uint16 xc0, to_uint16 yc0, to_uint16 wid, to_uint16 hgt, options % 65536,
          val % 65536, range % 65536]) } ∧
      EVE_cmd_progress cfg wc xc0 yc0 wid hgt options val range sb =
        burstAll cfg (wc.CMD_PROGRESS :: [] ++ pairWords
          [to_uint16 xc0, to_uint16 yc0, to_uint16 wid, to_uint16 hgt, options % 65536,
          val % 65536, range % 65536]) sb ∧
      txBytes (immediateOps wc.CMD_PROGRESS []
          [to_uint16 xc0, to_uint16 yc0, to_uint16 wid, to_uint16 hgt, options % 65536,
          val % 65536, range % 65536])
        = [0xB0, 0x25, 0x78] ++ wordBytes ((wc.CMD_PROGRESS :: []).map (fun w => w % 2 ^ 32) ++
          pairWords
          [to_uint16 xc0, to_uint16 yc0, to_uint16 wid, to_uint16 hgt, options % 65536,
          val % 65536, range % 65536]) ∧
      (wordBytes ((wc.CMD_PROGRESS :: []).map (fun w => w % 2 ^ 32) ++
          pairWords
          [to_uint16 xc0, to_uint16 yc0, to_uint16 wid, to_uint16 hgt, options % 65536,
          val % 65536, range % 65536])).length
        % 4 = 0) ∧
    (EVE_cmd_scrollbar cfg wc xc0 yc0 wid hgt options val size range s =
        { s with bus := s.bus ++ (immediateOps wc.CMD_SCROLLBAR []
          [to_uint16 xc0, to_uint16 yc0, to_uint16 wid, to_uint16 hgt, options % 65536,
          val % 65536, size % 65536, range % 65536]) } ∧
      EVE_cmd_scrollbar cfg wc xc0 yc0 wid hgt options val size range sb =
        burstAll cfg (wc.CMD_SCROLLBAR :: [] ++ pairWords
          [to_uint16 xc0, to_uint16 yc0, to_uint16 wid, to_uint16 hgt, options % 65536,
          val % 65536, size % 65536, range % 65536]) sb ∧
      txBytes (immediateOps wc.CMD_SCROLLBAR []
          [to_uint16 xc0, to_uint16 yc0, to_uint16 wid, to_uint16 hgt, options % 65536,
          val % 65536, size % 65536, range % 65536])
        = [0xB0, 0x25, 0x78] ++ wordBytes ((wc.CMD_SCROLLBAR :: []).map (fun w => w % 2 ^ 32) ++
          pairWords
          [to_uint16 xc0, to_uint16 yc0, to_uint16 wid, to_uint16 hgt, options % 65536,
          val % 65536, size % 65536, range % 65536]) ∧
      (wordBytes ((wc.CMD_SCROLLBAR :: []).map (fun w => w % 2 ^ 32) ++
          pairWords
          [to_uint16 xc0, to_uint16 yc0, to_uint16 wid, to_uint16 hgt, options % 65536,
          val % 65536, size % 65536, range % 65536])).length
        % 4 = 0) ∧
    (EVE_cmd_setbitmap cfg wc addr fmt width height s =
        { s with bus := s.bus ++ (immediateOps wc.CMD_SETBITMAP [addr]
          [fmt % 65536, width % 65536, height % 65536]) } ∧
      EVE_cmd_setbitmap cfg wc addr fmt width height sb =
        burstAll cfg (wc.CMD_SETBITMAP :: [addr] ++ pairWords
          [fmt % 65536, width % 65536, height % 65536]) sb ∧
      txBytes (immediateOps wc.CMD_SETBITMAP [addr]
          [fmt % 65536, width % 65536, height % 65536])
        = [0xB0, 0x25, 0x78] ++ wordBytes ((wc.CMD_SETBITMAP :: [addr]).map (fun w => w % 2 ^ 32) ++
          pairWords
          [fmt % 65536, width % 65536, height % 65536]) ∧
      (wordBytes ((wc.CMD_SETBITMAP :: [addr]).map (fun w => w % 2 ^ 32) ++
          pairWords
          [fmt % 65536, width % 65536, height % 65536])).length
        % 4 = 0) :=
  ⟨⟨EVE_cmd_clock_immediate cfg wc xc0 yc0 rad options hours mins secs msecs s hi,
      EVE_cmd_clock_words cfg wc xc0 yc0 rad options hours mins secs msecs sb hb,
      txBytes_immediateOps _ _ _ (EVE_cmd_clock_lt xc0 yc0 rad options hours mins secs msecs)⟩,
    ⟨EVE_cmd_gauge_immediate cfg wc xc0 yc0 rad options major minor val range s hi,
      EVE_cmd_gauge_words cfg wc xc0 yc0 rad options major minor val range sb hb,
      txBytes_immediateOps _ _ _ (EVE_cmd_gauge_lt xc0 yc0 rad options major minor val range)⟩,
    ⟨EVE_cmd_dial_immediate cfg wc xc0 yc0 rad options val s hi,
      EVE_cmd_dial_words cfg wc xc0 yc0 rad options val sb hb,
      txBytes_immediateOps _ _ _ (EVE_cmd_dial_lt xc0 yc0 rad options val)⟩,
    ⟨EVE_cmd_progress_immediate cfg wc xc0 yc0 wid hgt options val range s hi,
      EVE_cmd_progress_words cfg wc xc0 yc0 wid hgt options val range sb hb,
      txBytes_immediateOps _ _ _ (EVE_cmd_progress_lt xc0 yc0 wid hgt options val range)⟩,
    ⟨EVE_cmd_scrollbar_immediate cfg wc xc0 yc0 wid hgt options val size range s hi,
      EVE_cmd_scrollbar_words cfg wc xc0 yc0 wid hgt options val size range sb hb,
      txBytes_immediateOps _ _ _ (EVE_cmd_scrollbar_lt xc0 yc0 wid hgt options val size range)⟩,
    ⟨EVE_cmd_setbitmap_immediate cfg wc addr fmt width height s hi,
      EVE_cmd_setbitmap_words cfg wc addr fmt width height sb hb,
      txBytes_immediateOps _ _ _ (EVE_cmd_setbitmap_lt fmt width height)⟩⟩

/-- Witness for C35: a dial at the negative coordinates (-1, -2) with radius 50 and the
value 0x1234, without DMA: the bytes of immediate mode after the selector are the bytes
of the four words of burst mode. -/
theorem widget_modes_agree_witness :
    (initialState.cmd_burst = 0 ∧ burstState.cmd_burst ≠ 0) ∧
    txBytes (EVE_cmd_dial sampleConfigNoDma sampleWidget (-1) (-2) 50 0 0x1234
        initialState).bus
      = [0xB0, 0x25, 0x78, 0x2D, 0xFF, 0xFF, 0xFF, 0xFF, 0xFF, 0xFE, 0xFF, 0x32, 0, 0, 0,
          0x34, 0x12, 0, 0] ∧
    (EVE_cmd_dial sampleConfigNoDma sampleWidget (-1) (-2) 50 0 0x1234 burstState).bus
      = [BusOp.transmit_32 0xFFFFFF2D, BusOp.transmit_32 0xFFFEFFFF,
          BusOp.transmit_32 0x00000032, BusOp.transmit_32 0x00001234] ∧
    EVE_cmd_dial sampleConfigNoDma sampleWidget (-1) (-2) 50 0 0x1234 burstState =
      burstAll sampleConfigNoDma (sampleWidget.CMD_DIAL :: [] ++ pairWords
        [to_uint16 (-1), to_uint16 (-2), to_uint16 50, 0 % 65536, 0x1234 % 65536])
        burstState :=
  ⟨⟨rfl, by decide⟩, by decide, by decide,
    (widget_modes_agree sampleConfigNoDma sampleWidget (-1) (-2) 50 0 0 0 0 0 0 0 0 0 0x1234
      0 0 0 0 0 0 initialState burstState rfl (by decide)).2.2.1.2.1⟩

/-- C36 (the code departs from it): EVE_cmd_bgcolor, EVE_cmd_fgcolor and EVE_cmd_gradcolor
send in immediate mode, after the opcode, the three low bytes of the colour and a zero
byte; in burst mode they hand the whole 32-bit colour to spi_transmit_burst, whose
little-endian bytes end with the top byte of the colour.  The two payloads are the same
bytes exactly when the top byte of the colour is zero. -/
theorem colour_modes_top_byte (cfg : Config) (wc : WidgetConfig) (color : Nat) (s sb : State)
    (hi : s.cmd_burst = 0) (hb : sb.cmd_burst ≠ 0) :
    EVE_cmd_bgcolor cfg wc color s =
      { s with bus := s.bus ++ payloadOps wc.CMD_BGCOLOR (leBytes 3 (color % 2 ^ 32) ++ [0]) } ∧
    EVE_cmd_fgcolor cfg wc color s =
      { s with bus := s.bus ++ payloadOps wc.CMD_FGCOLOR (leBytes 3 (color % 2 ^ 32) ++ [0]) } ∧
    EVE_cmd_gradcolor cfg wc color s =
      { s with bus := s.bus ++
          payloadOps wc.CMD_GRADCOLOR (leBytes 3 (color % 2 ^ 32) ++ [0]) } ∧
    EVE_cmd_bgcolor cfg wc color sb = burstAll cfg [wc.CMD_BGCOLOR, color % 2 ^ 32] sb ∧
    EVE_cmd_fgcolor cfg wc color sb = burstAll cfg [wc.CMD_FGCOLOR, color % 2 ^ 32] sb ∧
    EVE_cmd_gradcolor cfg wc color sb = burstAll cfg [wc.CMD_GRADCOLOR, color % 2 ^ 32] sb ∧
    (∀ cmd, txBytes (payloadOps cmd (leBytes 3 (color % 2 ^ 32) ++ [0]))
      = [0xB0, 0x25, 0x78] ++ (leBytes 4 (cmd % 2 ^ 32) ++ (leBytes 3 (color % 2 ^ 32) ++ [0]))) ∧
    (∀ cmd, wordBytes [cmd % 2 ^ 32, color % 2 ^ 32]
      = leBytes 4 (cmd % 2 ^ 32) ++
        (leBytes 3 (color % 2 ^ 32) ++ [(color % 2 ^ 32) / 16777216])) ∧
    (leBytes 3 (color % 2 ^ 32) ++ [0] = leBytes 4 (color % 2 ^ 32)
      ↔ color % 2 ^ 32 < 0x1000000) := by
  obtain ⟨b1, b2, b3⟩ := colour_burst cfg wc color sb hb
  refine ⟨EVE_cmd_bgcolor_immediate cfg wc color s hi,
    EVE_cmd_fgcolor_immediate cfg wc color s hi,
    EVE_cmd_gradcolor_immediate cfg wc color s hi, b1, b2, b3,
    fun cmd => txBytes_payloadOps cmd _, ?_, (colour_payloads color).2⟩
  intro cmd
  rw [wordBytes_cons, wordBytes_cons, (colour_payloads color).1]
  simp [wordBytes]

/-- Witness for C36: the colour 0xFF123456 without DMA.  In immediate mode the bytes
after the selector and the opcode are 56 34 12 00, in burst mode 56 34 12 FF. -/
theorem colour_modes_top_byte_witness :
    (initialState.cmd_burst = 0 ∧ burstState.cmd_burst ≠ 0) ∧
    txBytes (EVE_cmd_bgcolor sampleConfigNoDma sampleWidget 0xFF123456 initialState).bus
      = [0xB0, 0x25, 0x78, 0x09, 0xFF, 0xFF, 0xFF, 0x56, 0x34, 0x12, 0x00] ∧
    txBytes (EVE_cmd_bgcolor sampleConfigNoDma sampleWidget 0xFF123456 burstState).bus
      = [0x09, 0xFF, 0xFF, 0xFF, 0x56, 0x34, 0x12, 0xFF] ∧
    ¬ (leBytes 3 (0xFF123456 % 2 ^ 32) ++ [0] = leBytes 4 (0xFF123456 % 2 ^ 32)) :=
  ⟨⟨rfl, by decide⟩, by decide, by decide,
    fun h => absurd
      ((colour_modes_top_byte sampleConfigNoDma sampleWidget 0xFF123456 initialState
        burstState rfl (by decide)).2.2.2.2.2.2.2.2.mp h) (by decide)⟩

/-- C37: for every length L, the FIFO writes of block_transfer are the chunks of the
spec; every chunk before the last carries exactly 3840 payload bytes and no padding, the
last carries (4 - L % 4) % 4 zero bytes of padding; every chunk is a multiple of 4 bytes
long; the FIFO receives the L data bytes followed by that padding, L rounded up to the
next multiple of 4 bytes in all; and the chunk length handed to private_block_write, at
most 3840, is unchanged by its conversion to uint16_t.  On a chip that drains, the
transfer returns. -/
theorem block_transfer_padding_last (cfg : Config) (dev : Device) (p_data : Ptr) (L : Nat)
    (s : State) (hc : cfg.recoveryAvoidsFifo) :
    (∀ fuel s1, block_transfer cfg dev fuel p_data L s = some s1 →
      ∃ t, s1.bus = s.bus ++ t ∧ fifoWrites t = chunkWrites p_data L) ∧
    (Drains cfg dev → (cfg.EVE_DMA = true → s.EVE_dma_busy = 0) →
      ∃ fuel s1, block_transfer cfg dev fuel p_data L s = some s1) ∧
    (∀ k, k < chunkCount L →
      (chunkWrites p_data L)[k]? = some (chunkPayload p_data L k ++ chunkPadding L k) ∧
      (chunkPayload p_data L k).length = chunkLen L k) ∧
    (∀ k, k + 1 < chunkCount L → chunkLen L k = 3840 ∧ chunkPadding L k = []) ∧
    (0 < L →
      chunkLen L (chunkCount L - 1) = L - 3840 * (chunkCount L - 1) ∧
      chunkPadding L (chunkCount L - 1) = List.replicate ((4 - L % 4) % 4) 0) ∧
    (∀ k, k < chunkCount L →
      (chunkPayload p_data L k ++ chunkPadding L k).length % 4 = 0) ∧
    (chunkWrites p_data L).flatten
      = (List.range L).map (fun i => p_data i % 256) ++ List.replicate ((4 - L % 4) % 4) 0 ∧
    (chunkWrites p_data L).flatten.length = (L + 3) / 4 * 4 ∧
    (∀ k, k < chunkCount L → chunkLen L k ≤ 3840 ∧ chunkLen L k % 65536 = chunkLen L k) ∧
    (if L > 3840 then 3840 else L) % 65536 = (if L > 3840 then 3840 else L) := by
  refine ⟨?_, ?_, ?_, ?_, ?_, ?_, chunkWrites_flatten L p_data, ?_, ?_, ?_⟩
  · intro fuel s1 h
    obtain ⟨t, h2, h3⟩ := block_transfer_writes cfg dev hc fuel p_data L s s1 h
    refine ⟨t, h2, ?_⟩
    have := h3 []
    simpa [fifoWrites, csWindows, csWindowsFrom] using this
  · intro hdr hd
    obtain ⟨fuel, s1, t, h1, _, _⟩ := block_transfer_effect cfg dev hc hdr L p_data s hd
    exact ⟨fuel, s1, h1⟩
  · intro k hk
    refine ⟨?_, chunkPayload_length p_data L k⟩
    simp [chunkWrites, hk]
  · intro k hk
    have h := chunkLen_full L k hk
    exact ⟨h, by unfold chunkPadding; rw [h]; rfl⟩
  · intro hL
    obtain ⟨h1, h2⟩ := chunkLen_last L hL
    exact ⟨h1, by unfold chunkPadding; rw [h2]⟩
  · intro k hk
    rw [List.length_append, chunkPayload_length]
    unfold chunkPadding
    rw [List.length_replicate]
    omega
  · rw [chunkWrites_flatten, List.length_append, List.length_map, List.length_range,
      List.length_replicate]
    omega
  · intro k hk
    have h := (chunkLen_bounds L k hk).2
    exact ⟨h, Nat.mod_eq_of_lt (by omega)⟩
  · split <;> omega

/-- Witness for C37: a transfer of 7681 bytes on a chip whose FIFO reads empty is made of
two chunks of 3840 bytes without padding and a last chunk of 1 byte with 3 bytes of
padding, 7684 bytes in all. -/
theorem block_transfer_padding_last_witness :
    sampleConfig.recoveryAvoidsFifo ∧
    [chunkLen 7681 0, chunkLen 7681 1, chunkLen 7681 2] = [3840, 3840, 1] ∧
    [chunkPadding 7681 0, chunkPadding 7681 1, chunkPadding 7681 2] = [[], [], [0, 0, 0]] ∧
    (chunkWrites (fun i => i) 7681).flatten.length = (7681 + 3) / 4 * 4 ∧
    (7681 + 3) / 4 * 4 = 7684 :=
  ⟨by unfold Config.recoveryAvoidsFifo; decide, by decide, by decide,
    (block_transfer_padding_last sampleConfig (constDevice 0xFFC) (fun i => i) 7681
      initialState (by unfold Config.recoveryAvoidsFifo; decide)).2.2.2.2.2.2.2.1,
    by decide⟩

/-- C38: across every sequence of EVE_memWrite_sram_buffer calls, started from the
function's static initial values, with n the number of calls that have a buffer and a
length above zero: the slot index is n mod 4 and queued is min(n, 4); the submissions
outstanding, oldest first, are the last min(n, 4) of the submissions 1 .. n, submission
m sitting in slot (m - 1) mod 4.  For n >= 4 the next such call first awaits a
completion, that of submission n - 3, the oldest outstanding, whose slot n mod 4 it then
overwrites with its own descriptor.  A call with a null buffer or zero length changes
nothing. -/
theorem sram_slots_reused_in_order (fl : SpiFlags) (calls : List (Nat × Option Ptr × Nat)) :
    (runSram fl calls initialQueue).index = validCalls calls % 4 ∧
    (runSram fl calls initialQueue).queued = min (validCalls calls) 4 ∧
    replayQueue (0, []) (runSram fl calls initialQueue).calls
      = (validCalls calls, lastFour (validCalls calls)) ∧
    lastFour (validCalls calls)
      = ((List.range (validCalls calls)).map (fun i => (i + 1, i % 4))).drop
          (validCalls calls - 4) ∧
    (lastFour (validCalls calls)).length = min (validCalls calls) 4 ∧
    (4 ≤ validCalls calls →
      (lastFour (validCalls calls)).head? = some (validCalls calls - 3, validCalls calls % 4) ∧
      (validCalls calls - 3 - 1) % 4 = validCalls calls % 4 ∧
      ∀ (a : Nat) (p : Ptr) (len : Nat), 0 < len →
        ∃ trans, trans.tx_buffer = some p ∧
          (EVE_memWrite_sram_buffer fl a (some p) len (runSram fl calls initialQueue)).calls
            = (runSram fl calls initialQueue).calls ++
              [QueueOp.get_trans_result, QueueOp.queue_trans (validCalls calls % 4) trans] ∧
          (EVE_memWrite_sram_buffer fl a (some p) len
              (runSram fl calls initialQueue)).EVE_spi_transaction
            = (runSram fl calls initialQueue).EVE_spi_transaction.set
                (validCalls calls % 4) trans) ∧
    (∀ (a : Nat) (p_data : Option Ptr) (len : Nat) (q : SramQueue),
      p_data = none ∨ len = 0 → EVE_memWrite_sram_buffer fl a p_data len q = q) := by
  have hinit : initialQueue.index = 0 % 4 ∧ initialQueue.queued = min 0 4 ∧
      replayQueue (0, []) initialQueue.calls = (0, lastFour 0) := ⟨rfl, rfl, rfl⟩
  obtain ⟨h1, h2, h3⟩ := sram_order_run fl calls initialQueue 0 hinit
  rw [Nat.zero_add] at h1 h2 h3
  refine ⟨h1, h2, h3, rfl, lastFour_length _, ?_, ?_⟩
  · intro hn
    refine ⟨lastFour_head _ hn, by omega, ?_⟩
    intro a p len hl
    have hq : (runSram fl calls initialQueue).queued = 4 := by rw [h2]; omega
    rw [EVE_memWrite_sram_buffer_valid fl a p len _ hl]
    refine ⟨⟨some p, (len * 8) % 2 ^ 32, a ||| (MEM_WRITE <<< 16),
      fl.SPI_TRANS_MODE_QIO ||| fl.SPI_TRANS_MODE_DIOQIO_ADDR⟩, rfl, ?_, ?_⟩
    · simp only [hq, if_true, List.append_assoc, List.singleton_append, h1]
    · simp only [h1]
  · intro a p_data len q h
    exact EVE_memWrite_sram_buffer_skip fl a p_data len q h

/-- Witness for C38: six submissions with a null call and an empty call among them.  Five
submissions and the two skipped calls leave index 1 and four outstanding, submissions 2
to 5 in the slots 1, 2, 3, 0; the sixth awaits submission 2 and overwrites its slot 1. -/
theorem sram_slots_reused_in_order_witness :
    validCalls [(0, some (fun i => i), 512), (0x1000, some (fun i => i), 20480),
      (0x6000, none, 20480), (0x6000, some (fun i => i), 20480),
      (0xB000, some (fun i => i), 0), (0xB000, some (fun i => i), 20480),
      (0x10000, some (fun i => i), 20480)] = 5 ∧
    lastFour 5 = [(2, 1), (3, 2), (4, 3), (5, 0)] ∧
    (4 ≤ validCalls [(0, some (fun i => i), 512), (0x1000, some (fun i => i), 20480),
      (0x6000, none, 20480), (0x6000, some (fun i => i), 20480),
      (0xB000, some (fun i => i), 0), (0xB000, some (fun i => i), 20480),
      (0x10000, some (fun i => i), 20480)]) ∧
    (lastFour (validCalls [(0, some (fun i => i), 512), (0x1000, some (fun i => i), 20480),
      (0x6000, none, 20480), (0x6000, some (fun i => i), 20480),
      (0xB000, some (fun i => i), 0), (0xB000, some (fun i => i), 20480),
      (0x10000, some (fun i => i), 20480)])).head?
      = some (validCalls [(0, some (fun i => i), 512), (0x1000, some (fun i => i), 20480),
          (0x6000, none, 20480), (0x6000, some (fun i => i), 20480),
          (0xB000, some (fun i => i), 0), (0xB000, some (fun i => i), 20480),
          (0x10000, some (fun i => i), 20480)] - 3,
        validCalls [(0, some (fun i => i), 512), (0x1000, some (fun i => i), 20480),
          (0x6000, none, 20480), (0x6000, some (fun i => i), 20480),
          (0xB000, some (fun i => i), 0), (0xB000, some (fun i => i), 20480),
          (0x10000, some (fun i => i), 20480)] % 4) :=
  ⟨by decide, by decide, by decide,
    ((sram_slots_reused_in_order ⟨2, 16⟩
      [(0, some (fun i => i), 512), (0x1000, some (fun i => i), 20480),
        (0x6000, none, 20480), (0x6000, some (fun i => i), 20480),
        (0xB000, some (fun i => i), 0), (0xB000, some (fun i => i), 20480),
        (0x10000, some (fun i => i), 20480)]).2.2.2.2.2.1 (by decide)).1⟩

/-- Counterexample for C39: for the lengths 2^32 - 3, 2^32 - 2 and 2^32 - 1 the sum
len + 3 wraps around in 32 bits and EVE_memWrite_sram_fill sends the write header and no
data word at all, where ceil(len / 4) is 2^30. -/
theorem sram_fill_length_wraps :
    (EVE_memWrite_sram_fill 0x1000 0xAAAAAAAA 0xFFFFFFFD initialState).bus
      = [BusOp.cs_set, BusOp.transmit 0x80, BusOp.transmit 0x10, BusOp.transmit 0x00,
          BusOp.cs_clear] ∧
    (EVE_memWrite_sram_fill 0x1000 0xAAAAAAAA 0xFFFFFFFE initialState).bus
      = [BusOp.cs_set, BusOp.transmit 0x80, BusOp.transmit 0x10, BusOp.transmit 0x00,
          BusOp.cs_clear] ∧
    (EVE_memWrite_sram_fill 0x1000 0xAAAAAAAA 0xFFFFFFFF initialState).bus
      = [BusOp.cs_set, BusOp.transmit 0x80, BusOp.transmit 0x10, BusOp.transmit 0x00,
          BusOp.cs_clear] ∧
    (1 ≤ 0xFFFFFFFD ∧ 0xFFFFFFFF ≤ 2 ^ 32 - 1) ∧
    (0xFFFFFFFD + 3) / 4 = 2 ^ 30 ∧ (0xFFFFFFFF + 3) / 4 = 2 ^ 30 := by
  refine ⟨by decide, by decide, by decide, by decide, by decide, by decide⟩

/-- C39 (amended): for every len in 1 .. 2^32 - 4, EVE_memWrite_sram_fill(addr, data,
len) sends, within one chip select, the 3-byte write header followed by exactly
ceil(len / 4) copies of the 32-bit word data, at least len and at most len + 3 bytes of
data; for len = 0 it performs no bus operation.  For len in 2^32 - 3 .. 2^32 - 1 it
sends the header and no data word. -/
theorem sram_fill_word_count (a data len : Nat) (s : State) (hl : 1 ≤ len)
    (hu : len ≤ 2 ^ 32 - 4) :
    EVE_memWrite_sram_fill a data len s
      = { s with bus := s.bus ++ fillOps a data ((len + 3) / 4) } ∧
    fillOps a data ((len + 3) / 4)
      = BusOp.cs_set :: ((writeHeader a).map BusOp.transmit ++
          List.replicate ((len + 3) / 4) (BusOp.transmit_32 (data % 2 ^ 32)) ++
          [BusOp.cs_clear]) ∧
    (len + 3) / 4 = (if len % 4 = 0 then len / 4 else len / 4 + 1) ∧
    len ≤ 4 * ((len + 3) / 4) ∧ 4 * ((len + 3) / 4) ≤ len + 3 ∧
    (txBytes (fillOps a data ((len + 3) / 4))).length = 3 + 4 * ((len + 3) / 4) ∧
    EVE_memWrite_sram_fill a data 0 s = s ∧
    (∀ big, 2 ^ 32 - 3 ≤ big → big < 2 ^ 32 →
      EVE_memWrite_sram_fill a data big s = { s with bus := s.bus ++ fillOps a data 0 }) := by
  have hm : len % 2 ^ 32 = len := Nat.mod_eq_of_lt (by omega)
  have he := EVE_memWrite_sram_fill_eq a data len s (by omega)
  rw [hm, Nat.mod_eq_of_lt (show len + 3 < 2 ^ 32 by omega)] at he
  refine ⟨he, rfl, by split <;> omega, by omega, by omega, txBytes_fillOps a data _,
    EVE_memWrite_sram_fill_zero a data 0 s rfl, ?_⟩
  intro big h1 h2
  have hb : big % 2 ^ 32 = big := Nat.mod_eq_of_lt h2
  have hw : ((big % 2 ^ 32 + 3) % 2 ^ 32) / 4 = 0 := by omega
  rw [EVE_memWrite_sram_fill_eq a data big s (by omega), hw]

/-- Witness for C39: a fill of 5 bytes sends two words. -/
theorem sram_fill_word_count_witness :
    (1 ≤ 5 ∧ 5 ≤ 2 ^ 32 - 4) ∧
    (EVE_memWrite_sram_fill 0x1000 0xAAAAAAAA 5 initialState).bus
      = [BusOp.cs_set, BusOp.transmit 0x80, BusOp.transmit 0x10, BusOp.transmit 0x00,
          BusOp.transmit_32 0xAAAAAAAA, BusOp.transmit_32 0xAAAAAAAA, BusOp.cs_clear] ∧
    EVE_memWrite_sram_fill 0x1000 0xAAAAAAAA 5 initialState
      = { initialState with bus := initialState.bus ++ fillOps 0x1000 0xAAAAAAAA ((5 + 3) / 4) } :=
  ⟨⟨by decide, by decide⟩, by decide,
    (sram_fill_word_count 0x1000 0xAAAAAAAA 5 initialState (by decide) (by decide)).1⟩

/-! ## Claims: the frame blit -/

/-- C40 (the code departs from it): a frame blit by vga_display with a palette submits
through EVE_memWrite_sram_buffer one block of 512 bytes and 15 blocks of 32 rows x 640
bytes = 20480 bytes.  The maximum transfer size that EVE_init_spi configures for the bus
is 640 * 8 = 5120 bytes: the palette block is within it, and each of the 15 framebuffer
blocks is four times as large. -/
theorem vga_blocks_against_max_transfer (fl : SpiFlags) (framebuffer palette : Ptr)
    (q : SramQueue) :
    (∃ added, (vga_display fl framebuffer (some palette) q).calls = q.calls ++ added ∧
      submittedBytes added = 512 :: List.replicate 15 20480) ∧
    pixel_offset 0 32 = 32 * 640 ∧
    EVE_init_spi.1.max_transfer_sz = 5120 ∧
    512 ≤ EVE_init_spi.1.max_transfer_sz ∧
    (∀ b ∈ List.replicate 15 20480,
      EVE_init_spi.1.max_transfer_sz < b ∧ b = 4 * EVE_init_spi.1.max_transfer_sz) := by
  refine ⟨vga_display_bytes fl framebuffer palette q, by decide, rfl, by decide, ?_⟩
  intro b hb
  rw [List.eq_of_mem_replicate hb]
  exact ⟨by decide, by decide⟩

end EVE
